import Mathlib

/-!
# RestorerFromBackup: a shallow embedding

Embedding of `src/Backups/RestorerFromBackup.cpp` (the metadata-restoration
orchestrator).  The object's members become the fields of `State`; every
member function becomes a function `State → Except Exception α × State`
(an exception leaves the mutations made before the throw in place, as in
C++).  Collaborators that live outside the file (backup reader, statement
codec, live catalog, storages, cross-host coordination) are the fields of
`Environment`; every call to one of them is appended to `State.trace`.
Of the logging only the cyclic-dependency warning is recorded.

The `while (true)` loop of `createTables` takes one unit of fuel per
iteration; `createTables` and `restoreMetadata` give `none` when the fuel
runs out, and `createTables_terminates` bounds the fuel that is needed.

Layout: the data and the member functions; the vocabulary of the
statements; concrete scenarios; lemmas; the claims `C1`, `C2`, … in order.
-/

set_option autoImplicit false

namespace DB

/-! ## Basic data -/

/-- Error codes used by the file (`ErrorCodes::…`); `OTHER` stands for any
code raised by a collaborator, `NULL_DEREFERENCE` and `OUT_OF_RANGE` for a
null `ASTPtr` that is dereferenced and for `std::map::at` on a missing key. -/
inductive ErrorCode where
  | LOGICAL_ERROR
  | BACKUP_ENTRY_NOT_FOUND
  | CANNOT_RESTORE_TABLE
  | CANNOT_RESTORE_DATABASE
  | NULL_DEREFERENCE
  | OUT_OF_RANGE
  | OTHER (code : Nat)
  deriving DecidableEq, Repr

/-- An exception: its code, its format string and the formatted arguments. -/
structure Exception where
  code : ErrorCode
  message : String
  args : List String := []
  deriving DecidableEq, Repr

/-- A path inside the backup (`fs::path`), as its sequence of components
below the root: `[]` is `"/"`, `["shards", "1"]` is `"/shards/1"`. -/
abbrev Path := List String

/-- The append of one component, `fs::path::operator/`. -/
def Path.join (p : Path) (component : String) : Path := p ++ [component]

/-- The type `QualifiedTableName`: `{database, table}`. -/
structure QualifiedTableName where
  database : String
  table : String
  deriving DecidableEq, Repr

/-- The create query behind an `ASTPtr`: the two members the file touches
(`setDatabase`, `if_not_exists`) and the rest of the document. -/
structure ASTCreateQuery where
  database : String := ""
  table : String := ""
  if_not_exists : Bool := false
  definition : String := ""
  deriving DecidableEq, Repr

/-- An `ASTPtr` is a shared pointer: `none` is the null pointer. -/
abbrev ASTPtr := Option ASTCreateQuery

/-- A partition expression of a restore element (kept as text). -/
abbrev PartitionExpr := String

/-- Identity of a live storage (`StoragePtr`, compared by address). -/
abbrev StoragePtr := Nat

/-- Handle of a live database (`DatabasePtr`). -/
abbrev DatabasePtr := Nat

/-- A held shared table lock (`TableLockHolder`). -/
abbrev TableLockHolder := Nat

/-- Identity of a deferred data-restore task (`DataRestoreTask`, an opaque
`std::function<void()>`). -/
abbrev DataRestoreTask := Nat

/-- The enumeration `Stage`. -/
inductive Stage where
  | kPreparing
  | kFindingTablesInBackup
  | kCreatingDatabases
  | kCreatingTables
  | kInsertingDataToTables
  | kError
  deriving DecidableEq, Repr

/-- Modelled from the spec: the numeric value of a stage
(`static_cast<int>(stage)`); the enumerators are declared in the absent
header `RestorerFromBackup.h`, the spec gives the order
`Preparing → FindingTables → CreatingDatabases → CreatingTables →
InsertingData` and a separate error state. -/
def Stage.toInt : Stage → Int
  | .kPreparing => 0
  | .kFindingTablesInBackup => 1
  | .kCreatingDatabases => 2
  | .kCreatingTables => 3
  | .kInsertingDataToTables => 4
  | .kError => -1

inductive RestoreTableCreationMode where
  | kCreate
  | kCreateIfNotExists
  | kMustExist
  deriving DecidableEq, Repr

inductive RestoreDatabaseCreationMode where
  | kCreate
  | kCreateIfNotExists
  | kMustExist
  deriving DecidableEq, Repr

/-- The members of `RestoreSettings` the file reads.  The struct is declared
in an absent header; the initial values given here only serve to write
examples down. -/
structure RestoreSettings where
  host_id : String := ""
  cluster_host_ids : List (List String) := []
  shard_num : Nat := 0
  replica_num : Nat := 0
  shard_num_in_backup : Nat := 0
  replica_num_in_backup : Nat := 0
  create_table : RestoreTableCreationMode := .kCreateIfNotExists
  create_database : RestoreDatabaseCreationMode := .kCreateIfNotExists
  allow_different_table_def : Bool := false
  allow_different_database_def : Bool := false
  structure_only : Bool := false
  deriving DecidableEq, Repr

inductive ElementType where
  | TABLE
  | DATABASE
  | ALL_DATABASES
  deriving DecidableEq, Repr

/-- One element of the restore query (`ASTBackupQuery::Element`). -/
structure Element where
  type : ElementType
  database_name : String := ""
  table_name : String := ""
  is_temporary_database : Bool := false
  partitions : Option (List PartitionExpr) := none
  except_list : List String := []
  deriving DecidableEq, Repr

/-- The renaming rules (`DDLRenamingSettings`), given by the two lookups the
file uses. -/
structure DDLRenamingSettings where
  getNewTableName : QualifiedTableName → QualifiedTableName
  getNewDatabaseName : String → String

instance : Inhabited DDLRenamingSettings := ⟨⟨id, id⟩⟩

/-- The struct `TableInfo`. -/
structure TableInfo where
  create_table_query : ASTPtr := none
  data_path_in_backup : Path := []
  dependencies : List QualifiedTableName := []
  partitions : Option (List PartitionExpr) := none
  created : Bool := false
  deriving DecidableEq, Repr

/-- The struct `DatabaseInfo`. -/
structure DatabaseInfo where
  create_database_query : ASTPtr := none
  deriving DecidableEq, Repr

/-- One call a storage or database hook makes back into the restorer it was
handed (`*this`): `addDataRestoreTask` or `addDataRestoreTasks`. -/
inductive Registration where
  | one (storage : StoragePtr) (new_task : DataRestoreTask)
  | many (storage : StoragePtr) (new_tasks : List DataRestoreTask)
  deriving DecidableEq, Repr

/-- What a hook that receives the restorer does: the registrations it
makes, in order, and then how it returns. -/
structure HookResult where
  registrations : List Registration := []
  result : Except Exception Unit := .ok ()

/-- A call to a collaborator, as recorded in the trace. -/
inductive Event where
  | listFiles (path : Path)
  | fileExists (path : Path)
  | readFile (path : Path)
  | syncStage (host_id : String) (stage : Int) (all_hosts : List String)
  | syncStageError (host_id : String) (error_message : String)
  | executeCreateQuery (create_query : ASTPtr)
  | getDatabase (database_name : String)
  | getCreateDatabaseQuery (database : DatabasePtr)
  | createTableRestoredFromBackup (database : DatabasePtr) (create_table_query : ASTPtr)
  | getTable (database : DatabasePtr) (table : String)
  | lockForShare (storage : StoragePtr)
  | getCreateTableQuery (database : DatabasePtr) (table : String)
  | adjustCreateQueryForBackup (storage : StoragePtr) (create_query : ASTPtr)
  | restoreDataFromBackup (storage : StoragePtr) (data_path_in_backup : Path)
      (partitions : Option (List PartitionExpr))
  | logWarningCyclicDependency (tables : List QualifiedTableName)
  deriving DecidableEq, Repr

/-- The collaborators.  The backup is an immutable archive and the codec
helpers are pure, so they are plain functions; the coordinator, the live
catalog and the storages are stateful, so they also see the calls made so
far. -/
structure Environment where
  -- `IBackup::listFiles`
  listFiles : Path → List String
  -- `IBackup::fileExists`
  fileExists : Path → Bool
  -- `IBackup::readFile(path)->getReadBuffer()` read until EOF
  readFile : Path → Except Exception String
  -- `BackupSettings::Util::findShardNumAndReplicaNum`
  findShardNumAndReplicaNum : List (List String) → String → Nat × Nat
  -- `BackupSettings::Util::filterHostIDs`
  filterHostIDs : List (List String) → Nat → Nat → List String
  escapeForFileName : String → String
  unescapeForFileName : String → String
  backQuoteIfNeed : String → String
  -- `QualifiedTableName::getFullName`
  getFullName : QualifiedTableName → String
  -- `DatabaseCatalog::TEMPORARY_DATABASE`
  TEMPORARY_DATABASE : String
  -- `parseQuery(ParserCreateQuery, text, …)`
  parseQuery : String → Except Exception ASTCreateQuery
  renameInCreateQuery : DDLRenamingSettings → ASTCreateQuery → ASTCreateQuery
  serializeAST : ASTCreateQuery → String
  getDependenciesSetFromCreateQuery : QualifiedTableName → ASTCreateQuery → List QualifiedTableName
  -- `DDLRenamingSettings::setFromBackupQuery`
  setFromBackupQuery : List Element → DDLRenamingSettings
  getCurrentExceptionMessage : Exception → String
  -- `IRestoreCoordination::syncStage` (announce and wait)
  syncStage : List Event → String → Int → List String → Except Exception Unit
  -- `IRestoreCoordination::syncStageError` (announce an error)
  syncStageError : List Event → String → String → Except Exception Unit
  -- `InterpreterCreateQuery::execute`
  executeCreateQuery : List Event → ASTCreateQuery → Except Exception Unit
  -- `DatabaseCatalog::getDatabase`
  getDatabase : List Event → String → Except Exception DatabasePtr
  -- `IDatabase::getCreateDatabaseQuery`
  getCreateDatabaseQuery : List Event → DatabasePtr → Except Exception ASTCreateQuery
  -- `IDatabase::createTableRestoredFromBackup`
  createTableRestoredFromBackup : List Event → DatabasePtr → ASTCreateQuery → HookResult
  -- `IDatabase::getTable`
  getTable : List Event → DatabasePtr → String → Except Exception StoragePtr
  -- `IStorage::lockForShare`
  lockForShare : List Event → StoragePtr → Except Exception TableLockHolder
  -- `IDatabase::getCreateTableQuery`
  getCreateTableQuery : List Event → DatabasePtr → String → Except Exception ASTCreateQuery
  -- `IStorage::adjustCreateQueryForBackup`
  adjustCreateQueryForBackup : List Event → StoragePtr → ASTCreateQuery → Except Exception ASTCreateQuery
  -- `IStorage::restoreDataFromBackup`
  restoreDataFromBackup : List Event → StoragePtr → Path → Option (List PartitionExpr) → HookResult

/-! ## Keyed containers

The containers of the class (`table_infos`, `database_infos`, `table_locks`,
`data_restore_tasks`) are declared in the absent header; they are kept here
as lists of key/value pairs, iterated in list order.  A key occurs at most
once in a C++ map, so the operations below treat "the entry of a key" as
every pair carrying it. -/

/-- The lookup `m.find(k)`. -/
def mapFind {κ α : Type} [DecidableEq κ] (m : List (κ × α)) (k : κ) : Option α :=
  match m with
  | [] => none
  | (k1, v) :: rest => if k1 = k then some v else mapFind rest k

/-- Whether `k` is a key of `m`. -/
def mapContains {κ α : Type} [DecidableEq κ] (m : List (κ × α)) (k : κ) : Bool :=
  (mapFind m k).isSome

/-- In-place change of the entry of an existing key (`m.at(k) = f (m.at(k))`). -/
def mapModify {κ α : Type} [DecidableEq κ] (m : List (κ × α)) (k : κ) (f : α → α) : List (κ × α) :=
  m.map (fun p => if p.1 = k then (p.1, f p.2) else p)

/-- The subscript `m[k]` followed by an in-place change: a missing key is
first inserted with the default value `dflt`. -/
def mapSubscript {κ α : Type} [DecidableEq κ] (m : List (κ × α)) (k : κ) (dflt : α) (f : α → α) :
    List (κ × α) :=
  if mapContains m k then mapModify m k f else m ++ [(k, f dflt)]

/-- Insertion into a `std::unordered_set<String>`: no effect when present. -/
def setInsert (names : List String) (name : String) : List String :=
  if name ∈ names then names else names ++ [name]

/-! ## The object -/

/-- The members of `RestorerFromBackup`, and the trace of collaborator
calls made through it.  A new object is in stage `kPreparing` with empty
containers (the constructor sets neither; `restoreMetadata` takes
`kPreparing` for "not started"). -/
structure State where
  restore_query_elements : List Element := []
  restore_settings : RestoreSettings := {}
  current_stage : Stage := .kPreparing
  renaming_settings : DDLRenamingSettings := default
  root_paths_in_backup : List Path := []
  database_infos : List (String × DatabaseInfo) := []
  table_infos : List (QualifiedTableName × TableInfo) := []
  table_locks : List (StoragePtr × TableLockHolder) := []
  data_restore_tasks : List (StoragePtr × List DataRestoreTask) := []
  trace : List Event := []

/-- Append one collaborator call to the trace. -/
def State.record (s : State) (ev : Event) : State :=
  { s with trace := s.trace ++ [ev] }

/-- The closure `[task, storage, table_lock] { task(); }` returned by
`getDataRestoreTasks`: what it captured. -/
structure DataRestoreAction where
  task : DataRestoreTask
  storage : StoragePtr
  table_lock : Option TableLockHolder
  deriving DecidableEq, Repr

/-- Running the closure calls `task()` and nothing else. -/
def DataRestoreAction.run (a : DataRestoreAction) : List DataRestoreTask := [a.task]

/-! ## Member functions -/

/-- The member function `RestorerFromBackup::setStage`. -/
def setStage (env : Environment) (new_stage : Stage) (error_message : String) (s : State) :
    Except Exception Unit × State :=
  let s := { s with current_stage := new_stage }
  if new_stage = Stage.kError then
    (env.syncStageError s.trace s.restore_settings.host_id error_message,
      s.record (Event.syncStageError s.restore_settings.host_id error_message))
  else
    let all_hosts := env.filterHostIDs s.restore_settings.cluster_host_ids
      s.restore_settings.shard_num s.restore_settings.replica_num
    (env.syncStage s.trace s.restore_settings.host_id new_stage.toInt all_hosts,
      s.record (Event.syncStage s.restore_settings.host_id new_stage.toInt all_hosts))

/-- The member function `RestorerFromBackup::addDataRestoreTask`. -/
def addDataRestoreTask (storage : StoragePtr) (new_task : DataRestoreTask) (s : State) :
    Except Exception Unit × State :=
  if s.current_stage = Stage.kInsertingDataToTables then
    (.error ⟨.LOGICAL_ERROR, "Adding data-restoring tasks is not allowed", []⟩, s)
  else
    let tasks := mapSubscript s.data_restore_tasks storage [] (fun tasks => tasks ++ [new_task])
    (.ok (), { s with data_restore_tasks := tasks })

/-- The member function `RestorerFromBackup::addDataRestoreTasks`. -/
def addDataRestoreTasks (storage : StoragePtr) (new_tasks : List DataRestoreTask) (s : State) :
    Except Exception Unit × State :=
  if s.current_stage = Stage.kInsertingDataToTables then
    (.error ⟨.LOGICAL_ERROR, "Adding data-restoring tasks is not allowed", []⟩, s)
  else
    let tasks := mapSubscript s.data_restore_tasks storage [] (fun tasks => tasks ++ new_tasks)
    (.ok (), { s with data_restore_tasks := tasks })

/-- The body of the outer loop of `getDataRestoreTasks` for one entry of
`data_restore_tasks`: one closure per task, each with the lock found for
the storage (null when `table_locks` has none). -/
def actionsOfStorage (table_locks : List (StoragePtr × TableLockHolder))
    (entry : StoragePtr × List DataRestoreTask) : List DataRestoreAction :=
  let table_lock := mapFind table_locks entry.1
  entry.2.map (fun task => { task := task, storage := entry.1, table_lock := table_lock })

/-- The member function `RestorerFromBackup::getDataRestoreTasks`. -/
def getDataRestoreTasks (s : State) : Except Exception (List DataRestoreAction) × State :=
  if s.current_stage ≠ Stage.kInsertingDataToTables then
    (.error ⟨.LOGICAL_ERROR, "Metadata wasn't restored", []⟩, s)
  else
    (.ok ((s.data_restore_tasks.map (actionsOfStorage s.table_locks)).flatten), s)


/-- The shard-related part of `findRootPathsInBackup`: the root path after
it, or the exception thrown.  `root_paths_in_backup` gets the new root path
pushed when a shard is chosen. -/
def addShardPart (env : Environment) (shard_num : Nat) (root_path : Path) (s : State) :
    Except Exception Path × State :=
  let shards_in_backup := env.listFiles (root_path.join "shards")
  let s := s.record (Event.listFiles (root_path.join "shards"))
  if shards_in_backup.isEmpty then
    if s.restore_settings.shard_num_in_backup > 1 then
      (.error ⟨.BACKUP_ENTRY_NOT_FOUND, "No shard #{} in backup",
        [toString s.restore_settings.shard_num_in_backup]⟩, s)
    else
      (.ok root_path, s)
  else
    let shard_name :=
      if s.restore_settings.shard_num_in_backup ≠ 0 then
        toString s.restore_settings.shard_num_in_backup
      else if shards_in_backup.length = 1 then
        shards_in_backup.headD ""
      else
        toString shard_num
    if shard_name ∉ shards_in_backup then
      (.error ⟨.BACKUP_ENTRY_NOT_FOUND, "No shard #{} in backup", [shard_name]⟩, s)
    else
      let root_path := (root_path.join "shards").join shard_name
      (.ok root_path, { s with root_paths_in_backup := s.root_paths_in_backup ++ [root_path] })

/-- The replica-related part of `findRootPathsInBackup`. -/
def addReplicaPart (env : Environment) (replica_num : Nat) (root_path : Path) (s : State) :
    Except Exception Path × State :=
  let replicas_in_backup := env.listFiles (root_path.join "replicas")
  let s := s.record (Event.listFiles (root_path.join "replicas"))
  if replicas_in_backup.isEmpty then
    if s.restore_settings.replica_num_in_backup > 1 then
      (.error ⟨.BACKUP_ENTRY_NOT_FOUND, "No replica #{} in backup",
        [toString s.restore_settings.replica_num_in_backup]⟩, s)
    else
      (.ok root_path, s)
  else if s.restore_settings.replica_num_in_backup ≠ 0 then
    let replica_name := toString s.restore_settings.replica_num_in_backup
    if replica_name ∉ replicas_in_backup then
      (.error ⟨.BACKUP_ENTRY_NOT_FOUND, "No replica #{} in backup", [replica_name]⟩, s)
    else
      let root_path := (root_path.join "replicas").join replica_name
      (.ok root_path, { s with root_paths_in_backup := s.root_paths_in_backup ++ [root_path] })
  else
    let replica_name :=
      if toString replica_num ∉ replicas_in_backup then replicas_in_backup.headD ""
      else toString replica_num
    let root_path := (root_path.join "replicas").join replica_name
    (.ok root_path, { s with root_paths_in_backup := s.root_paths_in_backup ++ [root_path] })

/-- The head of `findRootPathsInBackup`: `shard_num` and `replica_num`, both
1 unless the host id is set and gives them. -/
def computedShardAndReplica (env : Environment) (s : State) : Nat × Nat :=
  if s.restore_settings.host_id ≠ "" then
    env.findShardNumAndReplicaNum s.restore_settings.cluster_host_ids s.restore_settings.host_id
  else (1, 1)

/-- The member function `RestorerFromBackup::findRootPathsInBackup`. -/
def findRootPathsInBackup (env : Environment) (s : State) : Except Exception Unit × State :=
  let nums : Nat × Nat := computedShardAndReplica env s
  let root_path : Path := []
  let s := { s with root_paths_in_backup := [root_path] }
  match addShardPart env nums.1 root_path s with
  | (.error e, s) => (.error e, s)
  | (.ok root_path, s) =>
    match addReplicaPart env nums.2 root_path s with
    | (.error e, s) => (.error e, s)
    | (.ok _, s) => (.ok (), { s with root_paths_in_backup := s.root_paths_in_backup.reverse })

/-- The test `file_name.ends_with(suffix)`. -/
def endsWith (file_name suffix : String) : Bool :=
  suffix.data.isSuffixOf file_name.data

/-- The cut `file_name.substr(0, file_name.length() - n)`. -/
def dropLast (file_name : String) (n : Nat) : String :=
  ⟨file_name.data.take (file_name.data.length - n)⟩

/-- The probing loop of `collectTableInfo`: the first root path that has the
table's metadata entry, as `(metadata_path, root_path_in_use)`. -/
def findTableMetadata (env : Environment) (table_name_in_backup : QualifiedTableName) :
    List Path → State → Option (Path × Path) × State
  | [], s => (none, s)
  | root_path_in_backup :: rest, s =>
    let try_metadata_path :=
      ((root_path_in_backup.join "metadata").join
        (env.escapeForFileName table_name_in_backup.database)).join
        (env.escapeForFileName table_name_in_backup.table ++ ".sql")
    let s := s.record (Event.fileExists try_metadata_path)
    if env.fileExists try_metadata_path then
      (some (try_metadata_path, root_path_in_backup), s)
    else
      findTableMetadata env table_name_in_backup rest s

/-- The member function `RestorerFromBackup::collectTableInfo`. -/
def collectTableInfo (env : Environment) (table_name_in_backup : QualifiedTableName)
    (partitions : Option (List PartitionExpr)) (s : State) : Except Exception Unit × State :=
  match findTableMetadata env table_name_in_backup s.root_paths_in_backup s with
  | (none, s) =>
    (.error ⟨.BACKUP_ENTRY_NOT_FOUND, "Table {} not found in backup",
      [env.getFullName table_name_in_backup]⟩, s)
  | (some (metadata_path, root_path_in_use), s) =>
    let table_name := s.renaming_settings.getNewTableName table_name_in_backup
    let data_path_in_backup :=
      ((root_path_in_use.join "data").join
        (env.escapeForFileName table_name_in_backup.database)).join
        (env.escapeForFileName table_name_in_backup.table)
    let s := s.record (Event.readFile metadata_path)
    match env.readFile metadata_path with
    | .error e => (.error e, s)
    | .ok create_query_str =>
      match env.parseQuery create_query_str with
      | .error e => (.error e, s)
      | .ok parsed =>
        let create_table_query := env.renameInCreateQuery s.renaming_settings parsed
        let conflict : Option ASTCreateQuery :=
          match mapFind s.table_infos table_name with
          | some table_info =>
            match table_info.create_table_query with
            | some stored =>
              if env.serializeAST stored ≠ env.serializeAST create_table_query then some stored
              else none
            | none => none
          | none => none
        match conflict with
        | some stored =>
          (.error ⟨.CANNOT_RESTORE_TABLE,
            "Extracted two different create queries for the same table {}: {} and {}",
            [env.getFullName table_name, env.serializeAST stored,
              env.serializeAST create_table_query]⟩, s)
        | none =>
          let table_infos := mapSubscript s.table_infos table_name {} (fun res_table_info =>
            { res_table_info with
              create_table_query := some create_table_query
              data_path_in_backup := data_path_in_backup
              dependencies := env.getDependenciesSetFromCreateQuery table_name create_table_query
              partitions :=
                match partitions with
                | some new_partitions => some (res_table_info.partitions.getD [] ++ new_partitions)
                | none => res_table_info.partitions })
          (.ok (), { s with table_infos := table_infos })

/-- The first loop of `collectDatabaseInfo`: over all root paths, the first
database-level metadata file found and the set of table names listed. -/
def scanDatabaseMetadata (env : Environment) (database_name_in_backup : String) :
    List Path → Option Path → List String → State → (Option Path × List String) × State
  | [], metadata_path, table_names_in_backup, s => ((metadata_path, table_names_in_backup), s)
  | root_path_in_backup :: rest, metadata_path, table_names_in_backup, s =>
    let try_metadata_path :=
      (root_path_in_backup.join "metadata").join
        (env.escapeForFileName database_name_in_backup ++ ".sql")
    let probed : Option Path × State :=
      match metadata_path with
      | some found => (some found, s)
      | none =>
        (if env.fileExists try_metadata_path then some try_metadata_path else none,
          s.record (Event.fileExists try_metadata_path))
    let directory :=
      (root_path_in_backup.join "metadata").join (env.escapeForFileName database_name_in_backup)
    let file_names := env.listFiles directory
    let s := probed.2.record (Event.listFiles directory)
    let table_names_in_backup := file_names.foldl (fun names file_name =>
      if endsWith file_name ".sql" then
        setInsert names (env.unescapeForFileName (dropLast file_name 4))
      else names) table_names_in_backup
    scanDatabaseMetadata env database_name_in_backup rest probed.1 table_names_in_backup s

/-- The last loop of `collectDatabaseInfo`: `collectTableInfo` for every
table name found that is not excepted. -/
def collectTablesOfDatabase (env : Environment) (database_name_in_backup : String)
    (except_table_names : List String) : List String → State → Except Exception Unit × State
  | [], s => (.ok (), s)
  | table_name_in_backup :: rest, s =>
    if table_name_in_backup ∈ except_table_names then
      collectTablesOfDatabase env database_name_in_backup except_table_names rest s
    else
      match collectTableInfo env ⟨database_name_in_backup, table_name_in_backup⟩ none s with
      | (.error e, s) => (.error e, s)
      | (.ok _, s) => collectTablesOfDatabase env database_name_in_backup except_table_names rest s

/-- The create query of a database in `collectDatabaseInfo`: read from
`metadata_path`, parsed and renamed, or generated from the new name when
the backup has no database-level entry. -/
def readCreateDatabaseQuery (env : Environment) (metadata_path : Option Path)
    (database_name : String) (s : State) : Except Exception ASTCreateQuery × State :=
  match metadata_path with
  | some path =>
    let s := s.record (Event.readFile path)
    match env.readFile path with
    | .error e => (.error e, s)
    | .ok create_query_str =>
      match env.parseQuery create_query_str with
      | .error e => (.error e, s)
      | .ok parsed => (.ok (env.renameInCreateQuery s.renaming_settings parsed), s)
  | none => (.ok { database := database_name }, s)

/-- The member function `RestorerFromBackup::collectDatabaseInfo`. -/
def collectDatabaseInfo (env : Environment) (database_name_in_backup : String)
    (except_table_names : List String) (s : State) : Except Exception Unit × State :=
  match scanDatabaseMetadata env database_name_in_backup s.root_paths_in_backup none [] s with
  | ((metadata_path, table_names_in_backup), s) =>
    if metadata_path.isNone ∧ table_names_in_backup.isEmpty then
      (.error ⟨.BACKUP_ENTRY_NOT_FOUND, "Database {} not found in backup",
        [env.backQuoteIfNeed database_name_in_backup]⟩, s)
    else
      let database_name := s.renaming_settings.getNewDatabaseName database_name_in_backup
      match readCreateDatabaseQuery env metadata_path database_name s with
      | (.error e, s) => (.error e, s)
      | (.ok create_database_query, s) =>
        let s := { s with database_infos := mapSubscript s.database_infos database_name {} id }
        let conflict : Option ASTCreateQuery :=
          match mapFind s.database_infos database_name with
          | some database_info =>
            match database_info.create_database_query with
            | some stored =>
              if env.serializeAST stored ≠ env.serializeAST create_database_query then some stored
              else none
            | none => none
          | none => none
        match conflict with
        | some stored =>
          (.error ⟨.CANNOT_RESTORE_DATABASE,
            "Extracted two different create queries for the same database {}: {} and {}",
            [env.backQuoteIfNeed database_name, env.serializeAST stored,
              env.serializeAST create_database_query]⟩, s)
        | none =>
          let database_infos := mapModify s.database_infos database_name (fun database_info =>
            { database_info with create_database_query := some create_database_query })
          collectTablesOfDatabase env database_name_in_backup except_table_names
            table_names_in_backup { s with database_infos := database_infos }

/-- The first loop of `collectAllDatabasesInfo`: the set of database names
listed under `metadata/` of any root path. -/
def scanAllDatabases (env : Environment) : List Path → List String → State → List String × State
  | [], database_names_in_backup, s => (database_names_in_backup, s)
  | root_path_in_backup :: rest, database_names_in_backup, s =>
    let file_names := env.listFiles (root_path_in_backup.join "metadata")
    let s := s.record (Event.listFiles (root_path_in_backup.join "metadata"))
    let database_names_in_backup := file_names.foldl (fun names file_name =>
      setInsert names (env.unescapeForFileName
        (if endsWith file_name ".sql" then dropLast file_name 4 else file_name)))
      database_names_in_backup
    scanAllDatabases env rest database_names_in_backup s

/-- The last loop of `collectAllDatabasesInfo`. -/
def collectDatabases (env : Environment) (except_database_names : List String) :
    List String → State → Except Exception Unit × State
  | [], s => (.ok (), s)
  | database_name_in_backup :: rest, s =>
    if database_name_in_backup ∈ except_database_names then
      collectDatabases env except_database_names rest s
    else
      match collectDatabaseInfo env database_name_in_backup [] s with
      | (.error e, s) => (.error e, s)
      | (.ok _, s) => collectDatabases env except_database_names rest s

/-- The member function `RestorerFromBackup::collectAllDatabasesInfo`. -/
def collectAllDatabasesInfo (env : Environment) (except_database_names : List String) (s : State) :
    Except Exception Unit × State :=
  match scanAllDatabases env s.root_paths_in_backup [] s with
  | (database_names_in_backup, s) =>
    collectDatabases env except_database_names database_names_in_backup s

/-- The `switch` of `collectDatabaseAndTableInfos` for one element. -/
def collectElement (env : Environment) (element : Element) (s : State) :
    Except Exception Unit × State :=
  match element.type with
  | .TABLE =>
    let table_name : QualifiedTableName :=
      { database := if element.is_temporary_database then env.TEMPORARY_DATABASE
                    else element.database_name
        table := element.table_name }
    collectTableInfo env table_name element.partitions s
  | .DATABASE => collectDatabaseInfo env element.database_name element.except_list s
  | .ALL_DATABASES => collectAllDatabasesInfo env element.except_list s

/-- The loop of `collectDatabaseAndTableInfos` over the query elements. -/
def collectElements (env : Environment) : List Element → State → Except Exception Unit × State
  | [], s => (.ok (), s)
  | element :: rest, s =>
    match collectElement env element s with
    | (.error e, s) => (.error e, s)
    | (.ok _, s) => collectElements env rest s

/-- The member function `RestorerFromBackup::collectDatabaseAndTableInfos`. -/
def collectDatabaseAndTableInfos (env : Environment) (s : State) : Except Exception Unit × State :=
  collectElements env s.restore_query_elements { s with database_infos := [], table_infos := [] }

/-- The exception of the model for a null `ASTPtr` that is dereferenced. -/
def nullDereference : Exception := ⟨.NULL_DEREFERENCE, "null ASTPtr", []⟩

/-- The creation request of `createDatabases` for one database
(`create_database != kMustExist`). -/
def executeCreateDatabase (env : Environment) (database_info : DatabaseInfo) (s : State) :
    Except Exception Unit × State :=
  if s.restore_settings.create_database ≠ RestoreDatabaseCreationMode.kMustExist then
    match database_info.create_database_query with
    | none => (.error nullDereference, s)
    | some stored =>
      let create_database_query :=
        if s.restore_settings.create_table = RestoreTableCreationMode.kCreateIfNotExists then
          { stored with if_not_exists := true }
        else stored
      (env.executeCreateQuery s.trace create_database_query,
        s.record (Event.executeCreateQuery (some create_database_query)))
  else (.ok (), s)

/-- The definition check of `createDatabases` for one database
(`!restore_settings.allow_different_database_def`). -/
def checkDatabaseDefinition (env : Environment) (database_name : String)
    (database_info : DatabaseInfo) (database : DatabasePtr) (s : State) :
    Except Exception Unit × State :=
  if ¬ s.restore_settings.allow_different_database_def then
    let live := env.getCreateDatabaseQuery s.trace database
    let s := s.record (Event.getCreateDatabaseQuery database)
    match live with
    | .error e => (.error e, s)
    | .ok create_table_query =>
      match database_info.create_database_query with
      | none => (.error nullDereference, s)
      | some expected_create_query =>
        if env.serializeAST create_table_query ≠ env.serializeAST expected_create_query then
          (.error ⟨.CANNOT_RESTORE_DATABASE,
            "The database {} has a different definition: {} comparing to its definition in the backup: {}",
            [env.backQuoteIfNeed database_name, env.serializeAST create_table_query,
              env.serializeAST expected_create_query]⟩, s)
        else (.ok (), s)
  else (.ok (), s)

/-- The body of the loop of `createDatabases` for one entry of
`database_infos`. -/
def createDatabase (env : Environment) (database_name : String) (database_info : DatabaseInfo)
    (s : State) : Except Exception Unit × State :=
  match executeCreateDatabase env database_info s with
  | (.error e, s) => (.error e, s)
  | (.ok _, s) =>
    let found := env.getDatabase s.trace database_name
    let s := s.record (Event.getDatabase database_name)
    match found with
    | .error e => (.error e, s)
    | .ok database => checkDatabaseDefinition env database_name database_info database s

/-- The loop of `createDatabases` over the entries it iterates. -/
def createDatabasesLoop (env : Environment) :
    List (String × DatabaseInfo) → State → Except Exception Unit × State
  | [], s => (.ok (), s)
  | (database_name, database_info) :: rest, s =>
    match createDatabase env database_name database_info s with
    | (.error e, s) => (.error e, s)
    | (.ok _, s) => createDatabasesLoop env rest s

/-- The member function `RestorerFromBackup::createDatabases`. -/
def createDatabases (env : Environment) (s : State) : Except Exception Unit × State :=
  createDatabasesLoop env s.database_infos s

/-- The inner loop of `findTablesWithoutDependencies`: no dependency is a
table of the catalog that is not created yet. -/
def allDependenciesMet (table_infos : List (QualifiedTableName × TableInfo))
    (dependencies : List QualifiedTableName) : Bool :=
  dependencies.all (fun dependency =>
    match mapFind table_infos dependency with
    | some table_info => table_info.created
    | none => true)

/-- The member function `RestorerFromBackup::findTablesWithoutDependencies`: the tables
returned and, when the cyclic-dependency warning is logged, the tables it
names. -/
def findTablesWithoutDependencies (table_infos : List (QualifiedTableName × TableInfo)) :
    List QualifiedTableName × Option (List QualifiedTableName) :=
  let not_created := table_infos.filter (fun entry => !entry.2.created)
  let tables_without_dependencies :=
    (not_created.filter (fun entry => allDependenciesMet table_infos entry.2.dependencies)).map
      Prod.fst
  let all_tables_created := not_created.isEmpty
  if !tables_without_dependencies.isEmpty then
    (tables_without_dependencies, none)
  else if all_tables_created then
    ([], none)
  else
    let tables_with_cyclic_dependencies := not_created.map Prod.fst
    (tables_with_cyclic_dependencies, some tables_with_cyclic_dependencies)

/-- The registrations a hook makes on the restorer, in order; the first one
that throws ends them. -/
def runRegistrations : List Registration → State → Except Exception Unit × State
  | [], s => (.ok (), s)
  | Registration.one storage new_task :: rest, s =>
    match addDataRestoreTask storage new_task s with
    | (.error e, s) => (.error e, s)
    | (.ok _, s) => runRegistrations rest s
  | Registration.many storage new_tasks :: rest, s =>
    match addDataRestoreTasks storage new_tasks s with
    | (.error e, s) => (.error e, s)
    | (.ok _, s) => runRegistrations rest s

/-- A hook called with `*this`: its registrations, then its own result. -/
def runHook (hook : HookResult) (s : State) : Except Exception Unit × State :=
  match runRegistrations hook.registrations s with
  | (.error e, s) => (.error e, s)
  | (.ok _, s) => (hook.result, s)

/-- The creation request of `createTables` for one table
(`create_table != kMustExist`). -/
def executeCreateTable (env : Environment) (table_info : TableInfo) (database : DatabasePtr)
    (s : State) : Except Exception Unit × State :=
  if s.restore_settings.create_table ≠ RestoreTableCreationMode.kMustExist then
    match table_info.create_table_query with
    | none => (.error nullDereference, s)
    | some stored =>
      let create_table_query :=
        if s.restore_settings.create_table = RestoreTableCreationMode.kCreateIfNotExists then
          { stored with if_not_exists := true }
        else stored
      runHook (env.createTableRestoredFromBackup s.trace database create_table_query)
        (s.record (Event.createTableRestoredFromBackup database (some create_table_query)))
  else (.ok (), s)

/-- The definition check of `createTables` for one table
(`!restore_settings.allow_different_table_def`). -/
def checkTableDefinition (env : Environment) (table_name : QualifiedTableName)
    (table_info : TableInfo) (database : DatabasePtr) (storage : StoragePtr) (s : State) :
    Except Exception Unit × State :=
  if ¬ s.restore_settings.allow_different_table_def then
    let live := env.getCreateTableQuery s.trace database table_name.table
    let s := s.record (Event.getCreateTableQuery database table_name.table)
    match live with
    | .error e => (.error e, s)
    | .ok create_table_query =>
      let adjusted := env.adjustCreateQueryForBackup s.trace storage create_table_query
      let s := s.record (Event.adjustCreateQueryForBackup storage (some create_table_query))
      match adjusted with
      | .error e => (.error e, s)
      | .ok create_table_query =>
        match table_info.create_table_query with
        | none => (.error nullDereference, s)
        | some expected_create_query =>
          let adjusted := env.adjustCreateQueryForBackup s.trace storage expected_create_query
          let s := s.record (Event.adjustCreateQueryForBackup storage (some expected_create_query))
          match adjusted with
          | .error e => (.error e, s)
          | .ok expected_create_query =>
            if env.serializeAST create_table_query ≠ env.serializeAST expected_create_query then
              (.error ⟨.CANNOT_RESTORE_TABLE,
                "The table {} has a different definition: {} comparing to its definition in the backup: {}",
                [env.getFullName table_name, env.serializeAST create_table_query,
                  env.serializeAST expected_create_query]⟩, s)
            else (.ok (), s)
  else (.ok (), s)

/-- The data-restore hook of `createTables` for one table
(`!restore_settings.structure_only`). -/
def restoreTableData (env : Environment) (table_info : TableInfo) (storage : StoragePtr)
    (s : State) : Except Exception Unit × State :=
  if ¬ s.restore_settings.structure_only then
    runHook (env.restoreDataFromBackup s.trace storage table_info.data_path_in_backup
        table_info.partitions)
      (s.record (Event.restoreDataFromBackup storage table_info.data_path_in_backup
        table_info.partitions))
  else (.ok (), s)

/-- The entry of a table with `created` set. -/
def TableInfo.markCreated (table_info : TableInfo) : TableInfo :=
  { table_info with created := true }

/-- The statement `table_info.created = true`. -/
def markCreated (table_name : QualifiedTableName) (s : State) : State :=
  { s with table_infos := mapModify s.table_infos table_name TableInfo.markCreated }

/-- The statement `table_locks[storage] = table_lock`. -/
def setTableLock (storage : StoragePtr) (table_lock : TableLockHolder) (s : State) : State :=
  { s with table_locks := mapSubscript s.table_locks storage 0 (fun _ => table_lock) }

/-- The body of the inner loop of `createTables` for one table name. -/
def createTable (env : Environment) (table_name : QualifiedTableName) (s : State) :
    Except Exception Unit × State :=
  match mapFind s.table_infos table_name with
  | none => (.error ⟨.OUT_OF_RANGE, "map::at", []⟩, s)
  | some table_info =>
    let found := env.getDatabase s.trace table_name.database
    let s := s.record (Event.getDatabase table_name.database)
    match found with
    | .error e => (.error e, s)
    | .ok database =>
      match executeCreateTable env table_info database s with
      | (.error e, s) => (.error e, s)
      | (.ok _, s) =>
        let s := markCreated table_name s
        let got := env.getTable s.trace database table_name.table
        let s := s.record (Event.getTable database table_name.table)
        match got with
        | .error e => (.error e, s)
        | .ok storage =>
          let locked := env.lockForShare s.trace storage
          let s := s.record (Event.lockForShare storage)
          match locked with
          | .error e => (.error e, s)
          | .ok table_lock =>
            let s := setTableLock storage table_lock s
            match checkTableDefinition env table_name table_info database storage s with
            | (.error e, s) => (.error e, s)
            | (.ok _, s) => restoreTableData env table_info storage s

/-- The inner loop of `createTables`: one wave. -/
def createTablesInWave (env : Environment) :
    List QualifiedTableName → State → Except Exception Unit × State
  | [], s => (.ok (), s)
  | table_name :: rest, s =>
    match createTable env table_name s with
    | (.error e, s) => (.error e, s)
    | (.ok _, s) => createTablesInWave env rest s

/-- The call of `findTablesWithoutDependencies` at the head of the loop of
`createTables`, with its warning recorded. -/
def nextWave (s : State) : List QualifiedTableName × State :=
  match findTablesWithoutDependencies s.table_infos with
  | (tables_to_create, some cyclic) =>
    (tables_to_create, s.record (Event.logWarningCyclicDependency cyclic))
  | (tables_to_create, none) => (tables_to_create, s)

/-- The member function `RestorerFromBackup::createTables`: the `while (true)` loop, one
iteration per unit of fuel; `none` when the fuel runs out first. -/
def createTables (env : Environment) : Nat → State → Option (Except Exception Unit × State)
  | 0, _ => none
  | fuel + 1, s =>
    match nextWave s with
    | (tables_to_create, s) =>
      if tables_to_create.isEmpty then some (.ok (), s)
      else
        match createTablesInWave env tables_to_create s with
        | (.error e, s) => some (.error e, s)
        | (.ok _, s) => createTables env fuel s

/-- The `try` block of `restoreMetadata`. -/
def restoreMetadataTry (env : Environment) (fuel : Nat) (s : State) :
    Option (Except Exception Unit × State) :=
  if s.current_stage ≠ Stage.kPreparing then
    some (.error ⟨.LOGICAL_ERROR, "Already restoring", []⟩, s)
  else
    match findRootPathsInBackup env s with
    | (.error e, s) => some (.error e, s)
    | (.ok _, s) =>
      let s := { s with renaming_settings := env.setFromBackupQuery s.restore_query_elements }
      match setStage env Stage.kFindingTablesInBackup "" s with
      | (.error e, s) => some (.error e, s)
      | (.ok _, s) =>
        match collectDatabaseAndTableInfos env s with
        | (.error e, s) => some (.error e, s)
        | (.ok _, s) =>
          match setStage env Stage.kCreatingDatabases "" s with
          | (.error e, s) => some (.error e, s)
          | (.ok _, s) =>
            match createDatabases env s with
            | (.error e, s) => some (.error e, s)
            | (.ok _, s) =>
              match setStage env Stage.kCreatingTables "" s with
              | (.error e, s) => some (.error e, s)
              | (.ok _, s) =>
                match createTables env fuel s with
                | none => none
                | some (.error e, s) => some (.error e, s)
                | some (.ok _, s) => some (setStage env Stage.kInsertingDataToTables "" s)

/-- The member function `RestorerFromBackup::restoreMetadata`: the `try` block, and on an
exception the handler, which announces the error (an exception of the
announcement is dropped) and rethrows. -/
def restoreMetadata (env : Environment) (fuel : Nat) (s : State) :
    Option (Except Exception Unit × State) :=
  match restoreMetadataTry env fuel s with
  | none => none
  | some (.ok _, s) => some (.ok (), s)
  | some (.error e, s) =>
    some (.error e, (setStage env Stage.kError (env.getCurrentExceptionMessage e) s).2)

/-! ## Vocabulary of the statements -/

/-- The class of a collaborator call. -/
inductive EventKind where
  | backup
  | barrier
  | announceError
  | catalog
  | databaseCreation
  | tableCreation
  deriving DecidableEq, Repr

/-- The class of each recorded call. -/
def Event.kind : Event → EventKind
  | .listFiles _ => .backup
  | .fileExists _ => .backup
  | .readFile _ => .backup
  | .syncStage _ _ _ => .barrier
  | .syncStageError _ _ => .announceError
  | .getDatabase _ => .catalog
  | .executeCreateQuery _ => .databaseCreation
  | .getCreateDatabaseQuery _ => .databaseCreation
  | .createTableRestoredFromBackup _ _ => .tableCreation
  | .getTable _ _ => .tableCreation
  | .lockForShare _ => .tableCreation
  | .getCreateTableQuery _ _ => .tableCreation
  | .adjustCreateQueryForBackup _ _ => .tableCreation
  | .restoreDataFromBackup _ _ _ => .tableCreation
  | .logWarningCyclicDependency _ => .tableCreation

/-- The state `s1` is `s` after some calls that all satisfy `P`, with the settings and
the query elements untouched. -/
def Frame (P : Event → Prop) (s s1 : State) : Prop :=
  s1.restore_settings = s.restore_settings ∧
  s1.restore_query_elements = s.restore_query_elements ∧
  ∃ evs, s1.trace = s.trace ++ evs ∧ ∀ ev ∈ evs, P ev


/-- A call of the public interface of the class. -/
inductive PublicCall where
  | restoreMetadata (fuel : Nat)
  | addDataRestoreTask (storage : StoragePtr) (new_task : DataRestoreTask)
  | addDataRestoreTasks (storage : StoragePtr) (new_tasks : List DataRestoreTask)
  | getDataRestoreTasks
  deriving DecidableEq, Repr

/-- What a public call gave back: nothing, the actions, or the exception. -/
inductive CallResult where
  | done
  | actions (res_tasks : List DataRestoreAction)
  | raised (e : Exception)
  deriving DecidableEq, Repr

/-- One public call: what it gave back and the state it leaves (`none` when
`restoreMetadata` is given too little fuel). -/
def PublicCall.run (env : Environment) (call : PublicCall) (s : State) :
    Option (CallResult × State) :=
  match call with
  | .restoreMetadata fuel =>
    match DB.restoreMetadata env fuel s with
    | none => none
    | some (.ok _, s1) => some (.done, s1)
    | some (.error e, s1) => some (.raised e, s1)
  | .addDataRestoreTask storage new_task =>
    match DB.addDataRestoreTask storage new_task s with
    | (.ok _, s1) => some (.done, s1)
    | (.error e, s1) => some (.raised e, s1)
  | .addDataRestoreTasks storage new_tasks =>
    match DB.addDataRestoreTasks storage new_tasks s with
    | (.ok _, s1) => some (.done, s1)
    | (.error e, s1) => some (.raised e, s1)
  | .getDataRestoreTasks =>
    match DB.getDataRestoreTasks s with
    | (.ok res_tasks, s1) => some (.actions res_tasks, s1)
    | (.error e, s1) => some (.raised e, s1)

/-- A sequence of public calls on one instance: the results in call order
and the final state. -/
def runCalls (env : Environment) : List PublicCall → State → Option (List CallResult × State)
  | [], s => some ([], s)
  | call :: rest, s =>
    match call.run env s with
    | none => none
    | some (result, s1) =>
      match runCalls env rest s1 with
      | none => none
      | some (results, s2) => some (result :: results, s2)

/-- The exception of a refused registration. -/
def addingNotAllowed : Exception :=
  ⟨.LOGICAL_ERROR, "Adding data-restoring tasks is not allowed", []⟩

/-- The calls that are not `restoreMetadata`. -/
def PublicCall.isTaskCall : PublicCall → Bool
  | .restoreMetadata _ => false
  | _ => true


/-- The storage a registration names. -/
def Registration.storage : Registration → StoragePtr
  | .one storage _ => storage
  | .many storage _ => storage

/-- The tasks a registration hands over, in order. -/
def Registration.tasks : Registration → List DataRestoreTask
  | .one _ new_task => [new_task]
  | .many _ new_tasks => new_tasks

/-- The tasks registered for `storage` by a sequence of registrations, in
the order of registration. -/
def registeredTasks (regs : List Registration) (storage : StoragePtr) : List DataRestoreTask :=
  ((regs.filter (fun reg => reg.storage = storage)).map Registration.tasks).flatten

/-- The keys of a container, in iteration order. -/
def mapKeys {κ α : Type} (m : List (κ × α)) : List κ := m.map Prod.fst


/-- The shard name looked up when shards are listed: the explicit request,
else the sole shard, else the computed shard number. -/
def chosenShard (env : Environment) (s : State) : String :=
  if s.restore_settings.shard_num_in_backup ≠ 0 then
    toString s.restore_settings.shard_num_in_backup
  else if (env.listFiles ["shards"]).length = 1 then (env.listFiles ["shards"]).headD ""
  else toString (computedShardAndReplica env s).1

/-- The shard cases of entry-not-found: no shard is listed and a shard index
above 1 is requested, or shards are listed without the chosen one. -/
def ShardNotFound (env : Environment) (s : State) : Prop :=
  (env.listFiles ["shards"] = [] ∧ s.restore_settings.shard_num_in_backup > 1) ∨
  (env.listFiles ["shards"] ≠ [] ∧ chosenShard env s ∉ env.listFiles ["shards"])

/-- The path chosen by the shard step: the root, or `shards/<chosen>` when
shards are listed. -/
def pathAfterShards (env : Environment) (s : State) : Path :=
  if env.listFiles ["shards"] = [] then [] else ["shards", chosenShard env s]

/-- The replica cases of entry-not-found: no replica is listed under the
chosen path and a replica index above 1 is requested, or replicas are listed
without the explicitly requested one. -/
def ReplicaNotFound (env : Environment) (s : State) : Prop :=
  (env.listFiles (pathAfterShards env s ++ ["replicas"]) = [] ∧
    s.restore_settings.replica_num_in_backup > 1) ∨
  (env.listFiles (pathAfterShards env s ++ ["replicas"]) ≠ [] ∧
    s.restore_settings.replica_num_in_backup ≠ 0 ∧
    toString s.restore_settings.replica_num_in_backup ∉
      env.listFiles (pathAfterShards env s ++ ["replicas"]))


/-- The state `s1` has the catalogs, the stage and the root paths of `s`. -/
def Quiet (s s1 : State) : Prop :=
  s1.table_infos = s.table_infos ∧ s1.database_infos = s.database_infos ∧
  s1.current_stage = s.current_stage ∧ s1.root_paths_in_backup = s.root_paths_in_backup

/-- The number of tables of the catalog that are not created yet. -/
def uncreatedCount (table_infos : List (QualifiedTableName × TableInfo)) : Nat :=
  (table_infos.filter (fun entry => !entry.2.created)).length

/-- The catalog with `created` set for every table named in `tables`. -/
def markCreatedAll (tables : List QualifiedTableName)
    (table_infos : List (QualifiedTableName × TableInfo)) : List (QualifiedTableName × TableInfo) :=
  table_infos.map (fun entry => if entry.1 ∈ tables then (entry.1, entry.2.markCreated) else entry)


/-- The table `k` is in the catalog with `created = true`. -/
def TableCreated (table_infos : List (QualifiedTableName × TableInfo)) (k : QualifiedTableName) :
    Prop :=
  ∃ table_info, mapFind table_infos k = some table_info ∧ table_info.created = true

/-- The table `a` of the catalog has the table `b` of the catalog in its
dependency set. -/
def DependsOn (table_infos : List (QualifiedTableName × TableInfo)) (a b : QualifiedTableName) :
    Prop :=
  ∃ table_info, mapFind table_infos a = some table_info ∧ b ∈ table_info.dependencies ∧
    b ∈ mapKeys table_infos

/-- The dependency graph restricted to the catalog has no cycle: no table
reaches itself along one or more dependencies. -/
def Acyclic (table_infos : List (QualifiedTableName × TableInfo)) : Prop :=
  ∀ a, ¬ Relation.TransGen (DependsOn table_infos) a a

/-- The state after `n` iterations of the loop of `createTables` (waves),
`none` when one of them raises. -/
def afterWaves (env : Environment) : Nat → State → Option State
  | 0, s => some s
  | n + 1, s =>
    match nextWave s with
    | (tables_to_create, s1) =>
      match createTablesInWave env tables_to_create s1 with
      | (.ok _, s2) => afterWaves env n s2
      | (.error _, _) => none

/-- The catalog has one entry per key and none of its tables is created:
what collection leaves behind. -/
def CatalogFresh (s : State) : Prop :=
  (mapKeys s.table_infos).Nodup ∧ ∀ entry ∈ s.table_infos, entry.2.created = false

/-- The shard the precedence of the spec names: the explicit request, else
the sole listed shard, else the number computed for this host. -/
def shardByPrecedence (requested : Nat) (listed : List String) (computed : Nat) : String :=
  if requested ≠ 0 then toString requested
  else
    match listed with
    | [sole] => sole
    | _ => toString computed

/-- The replica the precedence of the spec names: the explicit request, else
the sole listed replica, else the number computed for this host, else (that
number not being listed) the first listed replica. -/
def replicaByPrecedence (requested : Nat) (listed : List String) (computed : Nat) : String :=
  if requested ≠ 0 then toString requested
  else
    match listed with
    | [sole] => sole
    | _ => if toString computed ∈ listed then toString computed else listed.headD ""

/-- The shard the spec's precedence names for an instance. -/
def shardOfSpec (env : Environment) (s : State) : String :=
  shardByPrecedence s.restore_settings.shard_num_in_backup (env.listFiles ["shards"])
    (computedShardAndReplica env s).1

/-- The replica the spec's precedence names for an instance, among those
listed under its shard. -/
def replicaOfSpec (env : Environment) (s : State) : String :=
  replicaByPrecedence s.restore_settings.replica_num_in_backup
    (env.listFiles ["shards", shardOfSpec env s, "replicas"]) (computedShardAndReplica env s).2

/-- The metadata entry of a table under a root path:
`<root>/metadata/<escaped database>/<escaped table>.sql`. -/
def tableMetadataPath (env : Environment) (root : Path) (name : QualifiedTableName) : Path :=
  ((root.join "metadata").join (env.escapeForFileName name.database)).join
    (env.escapeForFileName name.table ++ ".sql")

/-- The data directory of a table under a root path:
`<root>/data/<escaped database>/<escaped table>`. -/
def tableDataPath (env : Environment) (root : Path) (name : QualifiedTableName) : Path :=
  ((root.join "data").join (env.escapeForFileName name.database)).join
    (env.escapeForFileName name.table)

/-- The first root path, in the order given, that has the metadata entry of
the table. -/
def firstRootWithTable (env : Environment) (name : QualifiedTableName) (roots : List Path) :
    Option Path :=
  roots.find? (fun root => env.fileExists (tableMetadataPath env root name))

/-- The database-level metadata file under a root path:
`<root>/metadata/<escaped database>.sql`. -/
def databaseMetadataPath (env : Environment) (root : Path) (database : String) : Path :=
  (root.join "metadata").join (env.escapeForFileName database ++ ".sql")

/-- The first root path, in the order given, that has the database-level
metadata file. -/
def firstRootWithDatabase (env : Environment) (database : String) (roots : List Path) :
    Option Path :=
  roots.find? (fun root => env.fileExists (databaseMetadataPath env root database))

/-- The table names a root path lists for a database: the files ending in
`.sql` of `<root>/metadata/<escaped database>`, extension stripped, name
unescaped. -/
def tableNamesUnder (env : Environment) (database : String) (root : Path) : List String :=
  ((env.listFiles ((root.join "metadata").join (env.escapeForFileName database))).filter
    (fun file_name => endsWith file_name ".sql")).map
    (fun file_name => env.unescapeForFileName (dropLast file_name 4))

/-- The table names found for a database in any of the root paths. -/
def tableNamesOfDatabase (env : Environment) (database : String) (roots : List Path) :
    List String :=
  (roots.map (tableNamesUnder env database)).flatten

/-- The state with further calls recorded and nothing else changed. -/
def State.recordAll (s : State) (evs : List Event) : State :=
  { s with trace := s.trace ++ evs }

/-- The entry `collectTableInfo` leaves for a table, given the entry found
under its key (a new one when the key is new): statement, data path and
dependencies replaced, the partitions of the call added at the end when the
call has any. -/
def collectedTableInfo (env : Environment) (root : Path) (name key : QualifiedTableName)
    (create_table_query : ASTCreateQuery) (partitions : Option (List PartitionExpr))
    (res_table_info : TableInfo) : TableInfo :=
  { res_table_info with
    create_table_query := some create_table_query
    data_path_in_backup := tableDataPath env root name
    dependencies := env.getDependenciesSetFromCreateQuery key create_table_query
    partitions :=
      match partitions with
      | some new_partitions => some (res_table_info.partitions.getD [] ++ new_partitions)
      | none => res_table_info.partitions }

/-- The exception of `collectTableInfo` for a table no root path has. -/
def tableNotFound (env : Environment) (name : QualifiedTableName) : Exception :=
  ⟨.BACKUP_ENTRY_NOT_FOUND, "Table {} not found in backup", [env.getFullName name]⟩

/-- The exception of `collectDatabaseInfo` for a database no root path has. -/
def databaseNotFound (env : Environment) (database : String) : Exception :=
  ⟨.BACKUP_ENTRY_NOT_FOUND, "Database {} not found in backup", [env.backQuoteIfNeed database]⟩

/-- The state `s1` differs from `s` at most in the table catalog and in the
calls recorded. -/
def OnlyTables (s s1 : State) : Prop :=
  ∃ table_infos evs, s1 = { s.recordAll evs with table_infos := table_infos } ∧
    ∀ ev ∈ evs, ev.kind = EventKind.backup

/-- The entry `collectDatabaseInfo` leaves for a database: its statement
replaced. -/
def collectedDatabaseInfo (create_database_query : ASTCreateQuery)
    (database_info : DatabaseInfo) : DatabaseInfo :=
  { database_info with create_database_query := some create_database_query }

/-- The database-level metadata file `collectDatabaseInfo` reads: that of
the first root path that has one. -/
def firstDatabaseMetadata (env : Environment) (database : String) (roots : List Path) :
    Option Path :=
  (firstRootWithDatabase env database roots).map
    (fun root => databaseMetadataPath env root database)

/-- The stage numbers passed to announce-and-wait in a trace, in call
order. -/
def announcedStages : List Event → List Int
  | [] => []
  | Event.syncStage _ stage _ :: rest => stage :: announcedStages rest
  | _ :: rest => announcedStages rest

/-- The stages `restoreMetadata` passes to `setStage` in its `try` block,
in the order of the block. -/
def stageSequence : List Stage :=
  [.kFindingTablesInBackup, .kCreatingDatabases, .kCreatingTables, .kInsertingDataToTables]

/-- Every announce-and-wait call recorded in `evs`, made after the calls
`base` and those before it in `evs`, returned normally. -/
def BarriersPassed (env : Environment) (base evs : List Event) : Prop :=
  ∀ pre host stage all_hosts post, evs = pre ++ Event.syncStage host stage all_hosts :: post →
    env.syncStage (base ++ pre) host stage all_hosts = .ok ()

/-- The state `x` is reached from `s` by calls among which the
announce-and-wait calls are those of the first `n` stages of the sequence,
all returned, and none is an announce-error. -/
def Reached (env : Environment) (s : State) (n : Nat) (x : State) : Prop :=
  x.restore_settings = s.restore_settings ∧
  ∃ evs, x.trace = s.trace ++ evs ∧ BarriersPassed env s.trace evs ∧
    announcedStages evs = (stageSequence.take n).map Stage.toInt ∧
    ∀ ev ∈ evs, ev.kind ≠ EventKind.announceError

/-- The `try` block ended at an announce-and-wait call that raised `e`: the
trace of `s1` is that of `s`, then calls whose announce-and-wait calls all
returned, then the call that raised. -/
def BarrierFailed (env : Environment) (s : State) (e : Exception) (s1 : State) : Prop :=
  s1.restore_settings = s.restore_settings ∧
  ∃ evs host stage all_hosts,
    s1.trace = s.trace ++ evs ++ [Event.syncStage host stage all_hosts] ∧
    BarriersPassed env s.trace evs ∧
    env.syncStage (s.trace ++ evs) host stage all_hosts = .error e ∧
    (∀ ev ∈ evs, ev.kind ≠ EventKind.announceError) ∧
    ∃ n, n < 4 ∧ announcedStages evs = (stageSequence.take n).map Stage.toInt ∧
      (stageSequence.take (n + 1)).map Stage.toInt =
        (stageSequence.take n).map Stage.toInt ++ [stage]

/-- The tables of the catalog that are not created yet, in catalog order. -/
def uncreatedTables (table_infos : List (QualifiedTableName × TableInfo)) :
    List QualifiedTableName :=
  (table_infos.filter (fun entry => !entry.2.created)).map Prod.fst

/-- The partition filter stored for a table of the catalog: `none` when the
table is not in the catalog, `some none` when it is there without a
filter. -/
def storedPartitions (s : State) (table_name : QualifiedTableName) :
    Option (Option (List PartitionExpr)) :=
  (mapFind s.table_infos table_name).map (fun table_info => table_info.partitions)

/-- The `restoreDataFromBackup` calls of a trace, as `(storage, partitions)`. -/
def dataRestoreCalls : List Event → List (StoragePtr × Option (List PartitionExpr))
  | [] => []
  | Event.restoreDataFromBackup storage _ partitions :: rest =>
    (storage, partitions) :: dataRestoreCalls rest
  | _ :: rest => dataRestoreCalls rest

/-- No table of the dependency set is a table of the catalog that is not
created yet. -/
def DependenciesCreated (table_infos : List (QualifiedTableName × TableInfo))
    (dependencies : List QualifiedTableName) : Prop :=
  ∀ dependency ∈ dependencies, ∀ table_info,
    mapFind table_infos dependency = some table_info → table_info.created = true

/-- The waves the loop of `createTables` selects in its first `fuel`
iterations, in order: the non-empty results of `findTablesWithoutDependencies`,
up to the wave in which a creation raises. -/
def selectedWaves (env : Environment) : Nat → State → List (List QualifiedTableName)
  | 0, _ => []
  | fuel + 1, s =>
    match nextWave s with
    | (tables_to_create, s1) =>
      if tables_to_create.isEmpty then []
      else
        tables_to_create ::
          match createTablesInWave env tables_to_create s1 with
          | (.error _, _) => []
          | (.ok _, s2) => selectedWaves env fuel s2

/-- The path `p` is `q` extended by `shards/<name>` or by `replicas/<name>`
for a name the backup lists in that directory of `q`. -/
def ExtendsBy (env : Environment) (p q : Path) : Prop :=
  ∃ name, (p = q ++ ["shards", name] ∧ name ∈ env.listFiles (q ++ ["shards"])) ∨
    (p = q ++ ["replicas", name] ∧ name ∈ env.listFiles (q ++ ["replicas"]))

/-- A candidate list that ends with the root and in which every other
element extends the element after it. -/
def CandidateChain (env : Environment) : List Path → Prop
  | [] => False
  | [last] => last = []
  | p :: q :: rest => ExtendsBy env p q ∧ CandidateChain env (q :: rest)

/-- The statement `createDatabases` hands to `executeCreateQuery` for a
stored statement: a copy with `if_not_exists` set when `create_table` is
`kCreateIfNotExists`, else the stored statement itself. -/
def issuedCreateDatabaseQuery (restore_settings : RestoreSettings) (stored : ASTCreateQuery) :
    ASTCreateQuery :=
  if restore_settings.create_table = RestoreTableCreationMode.kCreateIfNotExists then
    { stored with if_not_exists := true }
  else stored

/-- The statements passed to `executeCreateQuery` in a trace, in call
order. -/
def createQueriesExecuted : List Event → List ASTPtr
  | [] => []
  | Event.executeCreateQuery create_query :: rest => create_query :: createQueriesExecuted rest
  | _ :: rest => createQueriesExecuted rest

/-- A run of passes of `collectTableInfo`, one for each table name and
partition filter of the list, in order, ending at the first pass that
raises. -/
def collectPasses (env : Environment) :
    List (QualifiedTableName × Option (List PartitionExpr)) → State →
      Except Exception Unit × State
  | [], s => (.ok (), s)
  | pass :: rest, s =>
    match collectTableInfo env pass.1 pass.2 s with
    | (.error e, s) => (.error e, s)
    | (.ok _, s) => collectPasses env rest s

/-- The partition filters that the passes of a list gave for a renamed key,
in pass order; a pass without a filter contributes nothing. -/
def givenFilters (renaming_settings : DDLRenamingSettings)
    (passes : List (QualifiedTableName × Option (List PartitionExpr)))
    (key : QualifiedTableName) : List (List PartitionExpr) :=
  (passes.filter (fun pass => renaming_settings.getNewTableName pass.1 = key)).filterMap
    (fun pass => pass.2)

/-- A stored filter after further filters were appended to it: unchanged
when there are none, otherwise the stored partitions (none when the filter
was absent) followed by those of the further filters. -/
def appendFilters (stored : Option (List PartitionExpr)) (given : List (List PartitionExpr)) :
    Option (List PartitionExpr) :=
  if given = [] then stored else some (stored.getD [] ++ given.flatten)

/-- The statement `createTables` hands to `createTableRestoredFromBackup`
for a stored statement: a copy with `if_not_exists` set when `create_table`
is `kCreateIfNotExists`, else the stored statement itself. -/
def issuedCreateTableQuery (restore_settings : RestoreSettings) (stored : ASTCreateQuery) :
    ASTCreateQuery :=
  if restore_settings.create_table = RestoreTableCreationMode.kCreateIfNotExists then
    { stored with if_not_exists := true }
  else stored

/-- The statements of the creation requests of a trace, that is of its
calls of `createTableRestoredFromBackup`, in call order. -/
def createTableRequests : List Event → List ASTPtr
  | [] => []
  | Event.createTableRestoredFromBackup _ create_table_query :: rest =>
    create_table_query :: createTableRequests rest
  | _ :: rest => createTableRequests rest

/-- The creation requests that creating the tables `tables` of a catalog
makes when no step raises: none when `create_table` is `kMustExist`, else
one for each table, in order, with the issued form of its stored
statement. -/
def requestsFor (restore_settings : RestoreSettings)
    (table_infos : List (QualifiedTableName × TableInfo)) (tables : List QualifiedTableName) :
    List ASTPtr :=
  if restore_settings.create_table = RestoreTableCreationMode.kMustExist then []
  else tables.map (fun table_name =>
    ((mapFind table_infos table_name).bind (fun table_info => table_info.create_table_query)).map
      (issuedCreateTableQuery restore_settings))

/-- The database names a root path lists: the entries of `<root>/metadata`,
the extension `.sql` stripped where there is one, unescaped. -/
def databaseNamesUnder (env : Environment) (root : Path) : List String :=
  (env.listFiles (root.join "metadata")).map (fun file_name =>
    env.unescapeForFileName (if endsWith file_name ".sql" then dropLast file_name 4 else file_name))

/-- The database names found in any of the root paths. -/
def databaseNamesIn (env : Environment) (roots : List Path) : List String :=
  (roots.map (databaseNamesUnder env)).flatten

/-- The statement the backup gives for a table: the metadata entry of the
first root path that has one, read, parsed and renamed; `none` when no root
path has the entry or when reading or parsing it fails. -/
def tableStatement (env : Environment) (renaming_settings : DDLRenamingSettings)
    (roots : List Path) (name : QualifiedTableName) : Option ASTCreateQuery :=
  match firstRootWithTable env name roots with
  | none => none
  | some root =>
    match env.readFile (tableMetadataPath env root name) with
    | .error _ => none
    | .ok text =>
      match env.parseQuery text with
      | .error _ => none
      | .ok parsed => some (env.renameInCreateQuery renaming_settings parsed)

/-- The statement the backup gives for a database: the database-level file
of the first root path that has one, read, parsed and renamed; a generated
statement with the new name when no root path has the file but some lists
tables of the database; `none` when nothing of the database is found or when
reading or parsing the file fails. -/
def databaseStatement (env : Environment) (renaming_settings : DDLRenamingSettings)
    (roots : List Path) (database : String) : Option ASTCreateQuery :=
  match firstRootWithDatabase env database roots with
  | some root =>
    match env.readFile (databaseMetadataPath env root database) with
    | .error _ => none
    | .ok text =>
      match env.parseQuery text with
      | .error _ => none
      | .ok parsed => some (env.renameInCreateQuery renaming_settings parsed)
  | none =>
    if tableNamesOfDatabase env database roots = [] then none
    else some { database := renaming_settings.getNewDatabaseName database }

/-- The table `name` of the backup is asked for by the query elements: by a
`TABLE` element that names it, by a `DATABASE` element for its database that
does not except it, the table being listed for the database, or by an
`ALL_DATABASES` element that does not except its database, the database
being listed and the table being listed for it. -/
def RequestedTable (env : Environment) (roots : List Path) (elements : List Element)
    (name : QualifiedTableName) : Prop :=
  ∃ element ∈ elements,
    (element.type = ElementType.TABLE ∧
      name = ⟨if element.is_temporary_database then env.TEMPORARY_DATABASE
        else element.database_name, element.table_name⟩) ∨
    (element.type = ElementType.DATABASE ∧ name.database = element.database_name ∧
      name.table ∈ tableNamesOfDatabase env element.database_name roots ∧
      name.table ∉ element.except_list) ∨
    (element.type = ElementType.ALL_DATABASES ∧ name.database ∈ databaseNamesIn env roots ∧
      name.database ∉ element.except_list ∧
      name.table ∈ tableNamesOfDatabase env name.database roots)

/-- The database `database` of the backup is asked for by the query
elements: by a `DATABASE` element that names it, or by an `ALL_DATABASES`
element that does not except it, the database being listed. -/
def RequestedDatabase (env : Environment) (roots : List Path) (elements : List Element)
    (database : String) : Prop :=
  ∃ element ∈ elements,
    (element.type = ElementType.DATABASE ∧ database = element.database_name) ∨
    (element.type = ElementType.ALL_DATABASES ∧ database ∈ databaseNamesIn env roots ∧
      database ∉ element.except_list)

/-- Every table and database asked for is in the backup under the root
paths, and its statement can be read and parsed. -/
def EntriesExist (env : Environment) (renaming_settings : DDLRenamingSettings)
    (roots : List Path) (elements : List Element) : Prop :=
  (∀ name, RequestedTable env roots elements name →
    tableStatement env renaming_settings roots name ≠ none) ∧
  (∀ database, RequestedDatabase env roots elements database →
    databaseStatement env renaming_settings roots database ≠ none)

/-- No two tables asked for that are renamed to the same key, and no two
databases asked for that are renamed to the same name, have statements with
different serializations. -/
def NoConflict (env : Environment) (renaming_settings : DDLRenamingSettings)
    (roots : List Path) (elements : List Element) : Prop :=
  (∀ name name1 stored produced, RequestedTable env roots elements name →
    RequestedTable env roots elements name1 →
    renaming_settings.getNewTableName name = renaming_settings.getNewTableName name1 →
    tableStatement env renaming_settings roots name = some stored →
    tableStatement env renaming_settings roots name1 = some produced →
    env.serializeAST stored = env.serializeAST produced) ∧
  (∀ database database1 stored produced, RequestedDatabase env roots elements database →
    RequestedDatabase env roots elements database1 →
    renaming_settings.getNewDatabaseName database =
      renaming_settings.getNewDatabaseName database1 →
    databaseStatement env renaming_settings roots database = some stored →
    databaseStatement env renaming_settings roots database1 = some produced →
    env.serializeAST stored = env.serializeAST produced)

/-- The statement `stored` is the statement of the backup for a table asked
for that is renamed to `key`. -/
def TableStatementOf (env : Environment) (renaming_settings : DDLRenamingSettings)
    (roots : List Path) (elements : List Element) (key : QualifiedTableName)
    (stored : ASTCreateQuery) : Prop :=
  ∃ name, RequestedTable env roots elements name ∧
    renaming_settings.getNewTableName name = key ∧
    tableStatement env renaming_settings roots name = some stored

/-- The statement `stored` is the statement of the backup for a database
asked for that is renamed to `key`. -/
def DatabaseStatementOf (env : Environment) (renaming_settings : DDLRenamingSettings)
    (roots : List Path) (elements : List Element) (key : String)
    (stored : ASTCreateQuery) : Prop :=
  ∃ database, RequestedDatabase env roots elements database ∧
    renaming_settings.getNewDatabaseName database = key ∧
    databaseStatement env renaming_settings roots database = some stored

/-- Every entry of the catalogs of `x` holds the statement of the backup for
a table or database asked for that is renamed to the key of the entry. -/
def Collected (env : Environment) (renaming_settings : DDLRenamingSettings)
    (roots : List Path) (elements : List Element) (x : State) : Prop :=
  (∀ entry ∈ x.table_infos, ∃ stored, entry.2.create_table_query = some stored ∧
    TableStatementOf env renaming_settings roots elements entry.1 stored) ∧
  (∀ entry ∈ x.database_infos, ∃ stored, entry.2.create_database_query = some stored ∧
    DatabaseStatementOf env renaming_settings roots elements entry.1 stored)

/-- Every call of the coordinator barrier, of the live catalog and of the
storages that creation makes returns normally, whatever was called
before. -/
def CollaboratorsSucceed (env : Environment) : Prop :=
  (∀ trace host_id stage all_hosts, env.syncStage trace host_id stage all_hosts = .ok ()) ∧
  (∀ trace create_query, env.executeCreateQuery trace create_query = .ok ()) ∧
  (∀ trace database_name, ∃ database, env.getDatabase trace database_name = .ok database) ∧
  (∀ trace database create_table_query,
    (env.createTableRestoredFromBackup trace database create_table_query).result = .ok ()) ∧
  (∀ trace database table, ∃ storage, env.getTable trace database table = .ok storage) ∧
  (∀ trace storage, ∃ table_lock, env.lockForShare trace storage = .ok table_lock) ∧
  (∀ trace storage data_path partitions,
    (env.restoreDataFromBackup trace storage data_path partitions).result = .ok ())

/-- The definition checks pass: the check of databases is switched off, or
for every statement of the backup for a database asked for, the live
database of the renamed name gives a definition with the same serialization;
and the check of tables is switched off, or for every statement of the
backup for a table asked for, the live table of the renamed key gives a
definition that, adjusted by its storage, has the same serialization as the
adjusted statement of the backup. -/
def DefinitionsAgree (env : Environment) (restore_settings : RestoreSettings)
    (renaming_settings : DDLRenamingSettings) (roots : List Path) (elements : List Element) :
    Prop :=
  (restore_settings.allow_different_database_def = true ∨
    ∀ key stored, DatabaseStatementOf env renaming_settings roots elements key stored →
      ∀ trace trace1 database, env.getDatabase trace key = .ok database →
        ∃ live, env.getCreateDatabaseQuery trace1 database = .ok live ∧
          env.serializeAST live = env.serializeAST stored) ∧
  (restore_settings.allow_different_table_def = true ∨
    ∀ key stored, TableStatementOf env renaming_settings roots elements key stored →
      ∀ trace trace1 database storage,
        env.getDatabase trace key.database = .ok database →
        env.getTable trace1 database key.table = .ok storage →
        ∀ trace2, ∃ live, env.getCreateTableQuery trace2 database key.table = .ok live ∧
          ∀ trace3, ∃ adjusted,
            env.adjustCreateQueryForBackup trace3 storage live = .ok adjusted ∧
            ∀ trace4, ∃ expected,
              env.adjustCreateQueryForBackup trace4 storage stored = .ok expected ∧
              env.serializeAST adjusted = env.serializeAST expected)
/-! ## Scenarios

Concrete collaborators for the examples: a backup given by its entries and
directory listings, a codec that keeps the statement text, and a live
catalog in which every call succeeds unless the scenario says otherwise. -/

/-- A concrete backup and cluster for the examples. -/
structure Scenario where
  files : List (Path × String) := []
  listings : List (Path × List String) := []
  dependencies : List (String × List QualifiedTableName) := []
  storages : List (String × StoragePtr) := []
  tasks : List (StoragePtr × List Registration) := []
  failingStages : List Int := []
  announceErrorFails : Bool := false
  computedShardAndReplica : Nat × Nat := (1, 1)

/-- The collaborators of a scenario. -/
def Scenario.env (sc : Scenario) : Environment where
  listFiles := fun path => (mapFind sc.listings path).getD []
  fileExists := fun path => mapContains sc.files path
  readFile := fun path =>
    match mapFind sc.files path with
    | some text => .ok text
    | none => .error ⟨.OTHER 1, "cannot read", []⟩
  findShardNumAndReplicaNum := fun _ _ => sc.computedShardAndReplica
  filterHostIDs := fun hosts _ _ => hosts.flatten
  escapeForFileName := id
  unescapeForFileName := id
  backQuoteIfNeed := id
  getFullName := fun name => name.database ++ "." ++ name.table
  TEMPORARY_DATABASE := "_temporary_and_external_tables"
  parseQuery := fun text => .ok { definition := text }
  renameInCreateQuery := fun _ query => query
  serializeAST := fun query => query.definition
  getDependenciesSetFromCreateQuery := fun _ query =>
    (mapFind sc.dependencies query.definition).getD []
  setFromBackupQuery := fun _ => default
  getCurrentExceptionMessage := fun e => e.message
  syncStage := fun _ _ stage _ =>
    if stage ∈ sc.failingStages then .error ⟨.OTHER 2, "barrier timeout", []⟩ else .ok ()
  syncStageError := fun _ _ _ =>
    if sc.announceErrorFails then .error ⟨.OTHER 3, "coordination lost", []⟩ else .ok ()
  executeCreateQuery := fun _ _ => .ok ()
  getDatabase := fun _ _ => .ok 0
  getCreateDatabaseQuery := fun _ _ => .ok {}
  createTableRestoredFromBackup := fun _ _ _ => {}
  getTable := fun _ _ table => .ok ((mapFind sc.storages table).getD 0)
  lockForShare := fun _ storage => .ok (storage + 100)
  getCreateTableQuery := fun _ _ _ => .ok {}
  adjustCreateQueryForBackup := fun _ _ query => .ok query
  restoreDataFromBackup := fun _ storage _ _ =>
    { registrations := (mapFind sc.tasks storage).getD [] }


/-- A backup with the tables `db.t1` and `db.t2` at the root only; the
create query of `db.t2` references `db.t1`. -/
def twoTables : Scenario where
  files := [(["metadata", "db", "t1.sql"], "CREATE TABLE db.t1"),
    (["metadata", "db", "t2.sql"], "CREATE TABLE db.t2 AS db.t1")]
  listings := [(["metadata"], ["db"]), (["metadata", "db"], ["t1.sql", "t2.sql"])]
  dependencies := [("CREATE TABLE db.t2 AS db.t1", [⟨"db", "t1"⟩])]
  storages := [("t1", 1), ("t2", 2)]
  tasks := [(1, [.one 1 11]), (2, [.many 2 [21, 22]])]

/-- A fresh instance asked to restore the elements `elements`, with the
definition checks switched off. -/
def freshInstance (elements : List Element) : State where
  restore_query_elements := elements
  restore_settings := { allow_different_table_def := true, allow_different_database_def := true }

/-- The request `RESTORE TABLE db.t2`. -/
def requestT2 : State :=
  freshInstance [{ type := .TABLE, database_name := "db", table_name := "t2" }]

/-- The request `RESTORE TABLE db.t2, TABLE db.t1`. -/
def requestT2T1 : State :=
  freshInstance [{ type := .TABLE, database_name := "db", table_name := "t2" },
    { type := .TABLE, database_name := "db", table_name := "t1" }]

/-- An instance in `kInsertingDataToTables` with one registered task. -/
def insertingInstance : State where
  current_stage := .kInsertingDataToTables
  table_locks := [(2, 102)]
  data_restore_tasks := [(2, [21, 22]), (1, [11])]


/-- A run in which the barrier of stage `kCreatingDatabases` times out and
the announce-error call fails too. -/
def barrierFails : Scenario :=
  { twoTables with failingStages := [2], announceErrorFails := true }


/-- A backup that lists the shards 1 and 2, asked for shard 3. -/
def shardThreeOfTwo : Scenario × State :=
  ({ listings := [(["shards"], ["1", "2"])] },
    { restore_settings := { shard_num_in_backup := 3 } })


/-- The instance of `requestT2T1` after collection from the root, in stage
`kCreatingTables`: the catalog holds `db.t2`, which depends on `db.t1`, and
`db.t1`, none of them created. -/
def collectedT2T1 : State :=
  (collectDatabaseAndTableInfos twoTables.env
    { requestT2T1 with root_paths_in_backup := [[]], current_stage := .kCreatingTables }).2

/-- A backup whose only shard is `3` and whose only replica under it is `7`. -/
def soleShardAndReplica : Scenario where
  listings := [(["shards"], ["3"]), (["shards", "3", "replicas"], ["7"])]
  computedShardAndReplica := (2, 5)

/-- An instance whose renaming sends every table to the key `db.t`, after
collecting the table `db.t1` and then the database `db` without `t2` from
the root: the catalog holds `db.t` with the statement of `db.t1`, and the
database `db` with a generated statement. -/
def collectedUnderOneKey : State :=
  (collectElements twoTables.env
    [{ type := .TABLE, database_name := "db", table_name := "t1" },
      { type := .DATABASE, database_name := "db", except_list := ["t2"] }]
    { root_paths_in_backup := [[]]
      renaming_settings := ⟨fun _ => ⟨"db", "t"⟩, id⟩ }).2

/-- A backup that holds the table `db.t` both under shard 1 and at the
root, with different statements, and nothing under the replica. -/
def tableAtShardAndRoot : Scenario where
  files := [(["metadata", "db", "t.sql"], "CREATE TABLE db.t (root)"),
    (["shards", "1", "metadata", "db", "t.sql"], "CREATE TABLE db.t (shard)")]
  listings := [(["shards"], ["1"]), (["shards", "1", "replicas"], ["1"])]

/-- An instance whose candidates are replica 1 of shard 1, shard 1 and the
root. -/
def threeCandidates : State where
  root_paths_in_backup := [["shards", "1", "replicas", "1"], ["shards", "1"], []]

/-- The instance left by the `restoreMetadata` call of `barrierFails`: it
raised at the barrier of `kCreatingDatabases`. -/
def failedInstance : State :=
  ((restoreMetadata barrierFails.env 2 requestT2).map Prod.snd).getD {}

/-- A run in which the barrier of stage `kInsertingDataToTables` times
out. -/
def lastBarrierFails : Scenario :=
  { twoTables with failingStages := [4] }

/-- The request `RESTORE TABLE db.t1 PARTITION p1, DATABASE db`: the table
`db.t1` is asked for twice, first with a partition filter and then, through
its database, without one. -/
def requestPartitionThenDatabase : State :=
  freshInstance [{ type := .TABLE, database_name := "db", table_name := "t1",
                   partitions := some ["p1"] },
    { type := .DATABASE, database_name := "db" }]

/-- The request `RESTORE DATABASE db, TABLE db.t1 PARTITION p1`: the same
two passes in the other order. -/
def requestDatabaseThenPartition : State :=
  freshInstance [{ type := .DATABASE, database_name := "db" },
    { type := .TABLE, database_name := "db", table_name := "t1",
      partitions := some ["p1"] }]

/-- A backup that holds the database-level file of `db` at the root only,
and its table `t` under shard 1 only. -/
def databaseAtRoot : Scenario where
  files := [(["metadata", "db.sql"], "CREATE DATABASE db"),
    (["shards", "1", "metadata", "db", "t.sql"], "CREATE TABLE db.t (shard)")]
  listings := [(["shards"], ["1"]), (["shards", "1", "replicas"], ["1"]),
    (["shards", "1", "metadata", "db"], ["t.sql", "notes.txt"])]

/-- The instance that collected the database `db` of `twoTables` from the
root under the given creation modes, the definition checks switched off, in
stage `kCreatingDatabases`. -/
def collectedDatabase (create_database : RestoreDatabaseCreationMode)
    (create_table : RestoreTableCreationMode) : State :=
  (collectDatabaseAndTableInfos twoTables.env
    { restore_query_elements := [{ type := .DATABASE, database_name := "db" }]
      restore_settings :=
        { create_database := create_database, create_table := create_table,
          allow_different_table_def := true, allow_different_database_def := true }
      root_paths_in_backup := [[]]
      current_stage := .kCreatingDatabases }).2

/-- An instance whose renaming sends every table to the key `db.t`, after a
request for the table `db.t1` alone: the table catalog holds `db.t` with the
statement of `db.t1`, and no database has been collected. -/
def collectedOneTable : State :=
  (collectElements twoTables.env
    [{ type := .TABLE, database_name := "db", table_name := "t1" }]
    { root_paths_in_backup := [[]]
      renaming_settings := ⟨fun _ => ⟨"db", "t"⟩, id⟩ }).2

/-- A backup that holds the database `db` with its database-level file and
one table file named `a-b.sql`, which the directory of the database lists.
File names are escaped as in the source for the one name that matters:
`a-b` is written `a%2Db`. -/
def unescapedFileName : Environment :=
  { ({ files := [(["metadata", "db.sql"], "CREATE DATABASE db"),
          (["metadata", "db", "a-b.sql"], "CREATE TABLE db.a-b")]
       listings := [(["metadata"], ["db.sql", "db"]), (["metadata", "db"], ["a-b.sql"])] }
      : Scenario).env with
    escapeForFileName := fun name => if name = "a-b" then "a%2Db" else name }

/-- The collaborators of `twoTables`, with renaming rules that send every
table of the backup to the key `db.t`. -/
def renamedToOneKey : Environment :=
  { twoTables.env with setFromBackupQuery := fun _ => ⟨fun _ => ⟨"db", "t"⟩, id⟩ }
/-! ## Lemmas on the keyed containers -/

section maps
variable {κ α : Type} [DecidableEq κ]

theorem mapFind_eq_none_iff (m : List (κ × α)) (k : κ) :
    mapFind m k = none ↔ k ∉ mapKeys m := by
  induction m with
  | nil => simp [mapFind, mapKeys]
  | cons p rest ih =>
    obtain ⟨k1, v⟩ := p
    unfold mapFind
    by_cases h : k1 = k
    · simp [h, mapKeys]
    · simp only [h, if_false, ih, mapKeys, List.map_cons, List.mem_cons, not_or]
      constructor
      · intro h1; exact ⟨fun h2 => h h2.symm, h1⟩
      · intro h1; exact h1.2

theorem mapContains_iff (m : List (κ × α)) (k : κ) :
    mapContains m k = true ↔ k ∈ mapKeys m := by
  unfold mapContains
  rw [← not_iff_not, Bool.not_eq_true, Option.not_isSome, Option.isNone_iff_eq_none,
    mapFind_eq_none_iff]

theorem mapKeys_mapModify (m : List (κ × α)) (k : κ) (f : α → α) :
    mapKeys (mapModify m k f) = mapKeys m := by
  unfold mapKeys mapModify
  rw [List.map_map]
  apply List.map_congr_left
  intro p _
  by_cases h : p.1 = k <;> simp [h]

theorem mapFind_mapModify (m : List (κ × α)) (k k1 : κ) (f : α → α) :
    mapFind (mapModify m k f) k1 = if k1 = k then (mapFind m k1).map f else mapFind m k1 := by
  induction m with
  | nil => simp [mapFind, mapModify]
  | cons p rest ih =>
    obtain ⟨k2, v⟩ := p
    unfold mapModify at ih ⊢
    simp only [List.map_cons]
    by_cases h2 : k2 = k
    · subst h2
      simp only [if_true]
      unfold mapFind
      by_cases h3 : k2 = k1
      · subst h3; simp
      · simp only [h3, if_false, ih]
    · simp only [h2, if_false]
      unfold mapFind
      by_cases h3 : k2 = k1
      · subst h3; simp [h2]
      · simp only [h3, if_false, ih]

theorem mapFind_append_of_not_mem (m : List (κ × α)) (k k1 : κ) (v : α) (h : k ∉ mapKeys m) :
    mapFind (m ++ [(k, v)]) k1 = if k1 = k then some v else mapFind m k1 := by
  induction m with
  | nil =>
    simp only [List.nil_append, mapFind]
    by_cases h1 : k = k1
    · subst h1; simp
    · have : ¬ k1 = k := fun h2 => h1 h2.symm
      simp [h1, this]
  | cons p rest ih =>
    obtain ⟨k2, v2⟩ := p
    simp only [mapKeys, List.map_cons, List.mem_cons, not_or] at h
    simp only [List.cons_append, mapFind]
    by_cases h3 : k2 = k1
    · subst h3
      have : ¬ k2 = k := fun h4 => h.1 h4.symm
      simp [this]
    · simp only [h3, if_false]
      exact ih h.2

theorem mapFind_mapSubscript (m : List (κ × α)) (k k1 : κ) (dflt : α) (f : α → α) :
    mapFind (mapSubscript m k dflt f) k1 =
      if k1 = k then some (f ((mapFind m k).getD dflt)) else mapFind m k1 := by
  unfold mapSubscript
  by_cases hc : mapContains m k = true
  · simp only [hc, if_true, mapFind_mapModify]
    by_cases h1 : k1 = k
    · subst h1
      simp only [if_true]
      unfold mapContains at hc
      obtain ⟨v, hv⟩ := Option.isSome_iff_exists.mp hc
      simp [hv]
    · simp [h1]
  · simp only [hc]
    have hk : k ∉ mapKeys m := fun h => hc ((mapContains_iff m k).mpr h)
    rw [if_neg (by simp), mapFind_append_of_not_mem m k k1 _ hk]
    have : mapFind m k = none := (mapFind_eq_none_iff m k).mpr hk
    simp [this]

theorem mapKeys_mapSubscript_nodup (m : List (κ × α)) (k : κ) (dflt : α) (f : α → α)
    (h : (mapKeys m).Nodup) : (mapKeys (mapSubscript m k dflt f)).Nodup := by
  unfold mapSubscript
  by_cases hc : mapContains m k = true
  · simp only [hc, if_true, mapKeys_mapModify]; exact h
  · simp only [hc]
    have hk : k ∉ mapKeys m := fun h => hc ((mapContains_iff m k).mpr h)
    rw [if_neg (by simp)]
    unfold mapKeys at *
    simp only [List.map_append, List.map_cons, List.map_nil]
    exact List.Nodup.append h (List.nodup_singleton k) (by simpa using hk)

theorem filter_key_of_nodup (m : List (κ × α)) (k : κ) (h : (mapKeys m).Nodup) :
    m.filter (fun entry => decide (entry.1 = k)) =
      match mapFind m k with
      | some v => [(k, v)]
      | none => [] := by
  induction m with
  | nil => simp [mapFind]
  | cons p rest ih =>
    obtain ⟨k2, v2⟩ := p
    simp only [mapKeys, List.map_cons, List.nodup_cons] at h
    unfold mapFind
    by_cases h3 : k2 = k
    · subst h3
      have hnone : mapFind rest k2 = none := (mapFind_eq_none_iff rest k2).mpr h.1
      have := ih h.2
      rw [hnone] at this
      simp [List.filter_cons, this]
    · simp only [List.filter_cons, h3, decide_False, if_false]
      exact ih h.2

end maps

/-! ## Frame lemmas: what each function records and leaves alone -/

theorem Frame.refl (P : Event → Prop) (s : State) : Frame P s s :=
  ⟨rfl, rfl, [], by simp, by simp⟩

theorem Frame.trans {P : Event → Prop} {s s1 s2 : State} (h1 : Frame P s s1)
    (h2 : Frame P s1 s2) : Frame P s s2 := by
  obtain ⟨a1, b1, evs1, c1, d1⟩ := h1
  obtain ⟨a2, b2, evs2, c2, d2⟩ := h2
  refine ⟨a2.trans a1, b2.trans b1, evs1 ++ evs2, ?_, ?_⟩
  · rw [c2, c1, List.append_assoc]
  · intro ev hev
    rcases List.mem_append.mp hev with h | h
    · exact d1 ev h
    · exact d2 ev h

theorem Frame.mono {P Q : Event → Prop} {s s1 : State} (h : Frame P s s1)
    (hPQ : ∀ ev, P ev → Q ev) : Frame Q s s1 := by
  obtain ⟨a1, b1, evs1, c1, d1⟩ := h
  exact ⟨a1, b1, evs1, c1, fun ev hev => hPQ ev (d1 ev hev)⟩

theorem Frame.record (P : Event → Prop) (s : State) (ev : Event) (h : P ev) :
    Frame P s (s.record ev) :=
  ⟨rfl, rfl, [ev], rfl, by simpa using h⟩

theorem Frame.record_then {P : Event → Prop} {s s2 : State} {ev : Event}
    (h : Frame P (s.record ev) s2) (hev : P ev) : Frame P s s2 :=
  (Frame.record P s ev hev).trans h

theorem Frame.then_record {P : Event → Prop} {s s1 : State} {ev : Event}
    (h : Frame P s s1) (hev : P ev) : Frame P s (s1.record ev) :=
  h.trans (Frame.record P s1 ev hev)

theorem Frame.then_recording {P : Event → Prop} {s s1 : State} (h : Frame P s s1) (ev : Event)
    (hev : P ev) : Frame P s (s1.record ev) :=
  h.then_record hev

theorem Frame.same {P : Event → Prop} {s s1 : State}
    (h1 : s1.restore_settings = s.restore_settings)
    (h2 : s1.restore_query_elements = s.restore_query_elements)
    (h3 : s1.trace = s.trace) : Frame P s s1 :=
  ⟨h1, h2, [], by simp [h3], by simp⟩

theorem setStage_frame (env : Environment) (st : Stage) (msg : String) (s : State) :
    Frame (fun ev => ev.kind = if st = Stage.kError then EventKind.announceError else EventKind.barrier)
      s (setStage env st msg s).2 := by
  unfold setStage
  by_cases h : st = Stage.kError
  · simp only [h, if_true]
    exact ⟨rfl, rfl, [_], rfl, by simp [Event.kind]⟩
  · simp only [h, if_false]
    exact ⟨rfl, rfl, [_], rfl, by simp [Event.kind]⟩

theorem addDataRestoreTask_frame (P : Event → Prop) (storage : StoragePtr) (t : DataRestoreTask) (s : State) :
    Frame P s (addDataRestoreTask storage t s).2 := by
  unfold addDataRestoreTask
  split <;> exact Frame.same rfl rfl rfl

theorem addDataRestoreTasks_frame (P : Event → Prop) (storage : StoragePtr) (t : List DataRestoreTask) (s : State) :
    Frame P s (addDataRestoreTasks storage t s).2 := by
  unfold addDataRestoreTasks
  split <;> exact Frame.same rfl rfl rfl

theorem runRegistrations_frame (P : Event → Prop) (regs : List Registration) (s : State) :
    Frame P s (runRegistrations regs s).2 := by
  induction regs generalizing s with
  | nil => exact Frame.refl _ _
  | cons reg rest ih =>
    cases reg with
    | one st t =>
      unfold runRegistrations
      have h1 := addDataRestoreTask_frame P st t s
      split
      · rename_i heq; rw [heq] at h1; exact h1
      · rename_i heq; rw [heq] at h1; exact h1.trans (ih _)
    | many st t =>
      unfold runRegistrations
      have h1 := addDataRestoreTasks_frame P st t s
      split
      · rename_i heq; rw [heq] at h1; exact h1
      · rename_i heq; rw [heq] at h1; exact h1.trans (ih _)

theorem runHook_frame (P : Event → Prop) (hook : HookResult) (s : State) :
    Frame P s (runHook hook s).2 := by
  unfold runHook
  have h1 := runRegistrations_frame P hook.registrations s
  split
  · rename_i heq; rw [heq] at h1; exact h1
  · rename_i heq; rw [heq] at h1; exact h1

theorem addShardPart_frame (env : Environment) (n : Nat) (p : Path) (s : State) :
    Frame (fun ev => ev.kind = EventKind.backup) s (addShardPart env n p s).2 := by
  unfold addShardPart
  have h0 : Frame (fun ev => ev.kind = EventKind.backup) s (s.record (Event.listFiles (p.join "shards"))) :=
    Frame.record _ _ _ rfl
  dsimp only
  repeat' split
  all_goals first | exact h0

theorem addReplicaPart_frame (env : Environment) (n : Nat) (p : Path) (s : State) :
    Frame (fun ev => ev.kind = EventKind.backup) s (addReplicaPart env n p s).2 := by
  unfold addReplicaPart
  have h0 : Frame (fun ev => ev.kind = EventKind.backup) s (s.record (Event.listFiles (p.join "replicas"))) :=
    Frame.record _ _ _ rfl
  dsimp only
  repeat' split
  all_goals first | exact h0

theorem findRootPathsInBackup_frame (env : Environment) (s : State) :
    Frame (fun ev => ev.kind = EventKind.backup) s (findRootPathsInBackup env s).2 := by
  unfold findRootPathsInBackup
  dsimp only
  split
  · rename_i heq
    have h1 := addShardPart_frame env (computedShardAndReplica env s).1 []
      { s with root_paths_in_backup := [[]] }
    rw [heq] at h1
    exact (Frame.same rfl rfl rfl).trans h1
  · rename_i r1 s1 heq
    have h1 := addShardPart_frame env (computedShardAndReplica env s).1 []
      { s with root_paths_in_backup := [[]] }
    rw [heq] at h1
    have h2 := addReplicaPart_frame env (computedShardAndReplica env s).2 r1 s1
    split
    · rename_i heq2; rw [heq2] at h2
      exact ((Frame.same rfl rfl rfl).trans h1).trans h2
    · rename_i heq2; rw [heq2] at h2
      exact (((Frame.same rfl rfl rfl).trans h1).trans h2).trans (Frame.same rfl rfl rfl)


theorem findTableMetadata_frame (env : Environment) (name : QualifiedTableName) (paths : List Path)
    (s : State) :
    Frame (fun ev => ev.kind = EventKind.backup) s (findTableMetadata env name paths s).2 := by
  induction paths generalizing s with
  | nil => exact Frame.refl _ _
  | cons p rest ih =>
    unfold findTableMetadata
    dsimp only
    split
    · exact Frame.record _ _ _ rfl
    · exact Frame.record_then (ih _) rfl

theorem collectTableInfo_frame (env : Environment) (name : QualifiedTableName)
    (partitions : Option (List PartitionExpr)) (s : State) :
    Frame (fun ev => ev.kind = EventKind.backup) s (collectTableInfo env name partitions s).2 := by
  unfold collectTableInfo
  have h1 := findTableMetadata_frame env name s.root_paths_in_backup s
  split
  · rename_i heq; rw [heq] at h1; exact h1
  · rename_i mp rp s1 heq; rw [heq] at h1
    have h2 : Frame (fun ev => ev.kind = EventKind.backup) s (s1.record (Event.readFile mp)) :=
      h1.then_record rfl
    dsimp only
    repeat' split
    all_goals exact h2

theorem scanDatabaseMetadata_frame (env : Environment) (db : String) (paths : List Path)
    (found : Option Path) (names : List String) (s : State) :
    Frame (fun ev => ev.kind = EventKind.backup) s
      (scanDatabaseMetadata env db paths found names s).2 := by
  induction paths generalizing s found names with
  | nil => exact Frame.refl _ _
  | cons p rest ih =>
    unfold scanDatabaseMetadata
    dsimp only
    refine Frame.trans ?_ (ih _ _ _)
    cases found with
    | some f => exact Frame.record _ _ _ rfl
    | none =>
      dsimp only
      exact Frame.then_record (Frame.record _ _ _ rfl) rfl

theorem collectTablesOfDatabase_frame (env : Environment) (db : String) (except_names : List String)
    (names : List String) (s : State) :
    Frame (fun ev => ev.kind = EventKind.backup) s
      (collectTablesOfDatabase env db except_names names s).2 := by
  induction names generalizing s with
  | nil => exact Frame.refl _ _
  | cons n rest ih =>
    unfold collectTablesOfDatabase
    split
    · exact ih _
    · have h1 := collectTableInfo_frame env ⟨db, n⟩ none s
      split
      · rename_i heq; rw [heq] at h1; exact h1
      · rename_i heq; rw [heq] at h1; exact h1.trans (ih _)

theorem Frame.of_eq {α : Type} {P : Event → Prop} {s s1 : State} {x : α × State} {r : α}
    (h : Frame P s x.2) (heq : x = (r, s1)) : Frame P s s1 := by
  rw [heq] at h; exact h

theorem readCreateDatabaseQuery_frame (env : Environment) (mp : Option Path) (name : String)
    (s : State) :
    Frame (fun ev => ev.kind = EventKind.backup) s (readCreateDatabaseQuery env mp name s).2 := by
  unfold readCreateDatabaseQuery
  repeat' (first | split | dsimp only)
  all_goals first
    | exact Frame.refl _ _
    | exact Frame.record _ _ _ rfl

theorem collectDatabaseInfo_frame (env : Environment) (db : String) (except_names : List String)
    (s : State) :
    Frame (fun ev => ev.kind = EventKind.backup) s
      (collectDatabaseInfo env db except_names s).2 := by
  unfold collectDatabaseInfo
  split
  rename_i heq
  have h1 := Frame.of_eq (scanDatabaseMetadata_frame _ _ _ _ _ _) heq
  split
  · exact h1
  · dsimp only
    split
    · rename_i heq2
      exact h1.trans (Frame.of_eq (readCreateDatabaseQuery_frame _ _ _ _) heq2)
    · rename_i heq2
      have h2 := h1.trans (Frame.of_eq (readCreateDatabaseQuery_frame _ _ _ _) heq2)
      split
      · exact h2
      · exact h2.trans ((Frame.same rfl rfl rfl).trans (collectTablesOfDatabase_frame _ _ _ _ _))

theorem scanAllDatabases_frame (env : Environment) (paths : List Path) (names : List String)
    (s : State) :
    Frame (fun ev => ev.kind = EventKind.backup) s (scanAllDatabases env paths names s).2 := by
  induction paths generalizing s names with
  | nil => exact Frame.refl _ _
  | cons p rest ih =>
    unfold scanAllDatabases
    exact Frame.record_then (ih _ _) rfl

theorem collectDatabases_frame (env : Environment) (except_names : List String)
    (names : List String) (s : State) :
    Frame (fun ev => ev.kind = EventKind.backup) s
      (collectDatabases env except_names names s).2 := by
  induction names generalizing s with
  | nil => exact Frame.refl _ _
  | cons n rest ih =>
    unfold collectDatabases
    split
    · exact ih _
    · have h1 := collectDatabaseInfo_frame env n [] s
      split
      · rename_i heq; rw [heq] at h1; exact h1
      · rename_i heq; rw [heq] at h1; exact h1.trans (ih _)

theorem collectAllDatabasesInfo_frame (env : Environment) (except_names : List String) (s : State) :
    Frame (fun ev => ev.kind = EventKind.backup) s
      (collectAllDatabasesInfo env except_names s).2 := by
  unfold collectAllDatabasesInfo
  have h1 := scanAllDatabases_frame env s.root_paths_in_backup [] s
  split
  rename_i heq; rw [heq] at h1
  exact h1.trans (collectDatabases_frame _ _ _ _)

theorem collectElement_frame (env : Environment) (element : Element) (s : State) :
    Frame (fun ev => ev.kind = EventKind.backup) s (collectElement env element s).2 := by
  unfold collectElement
  split
  · exact collectTableInfo_frame _ _ _ _
  · exact collectDatabaseInfo_frame _ _ _ _
  · exact collectAllDatabasesInfo_frame _ _ _

theorem collectElements_frame (env : Environment) (elements : List Element) (s : State) :
    Frame (fun ev => ev.kind = EventKind.backup) s (collectElements env elements s).2 := by
  induction elements generalizing s with
  | nil => exact Frame.refl _ _
  | cons n rest ih =>
    unfold collectElements
    have h1 := collectElement_frame env n s
    split
    · rename_i heq; rw [heq] at h1; exact h1
    · rename_i heq; rw [heq] at h1; exact h1.trans (ih _)

theorem collectDatabaseAndTableInfos_frame (env : Environment) (s : State) :
    Frame (fun ev => ev.kind = EventKind.backup) s (collectDatabaseAndTableInfos env s).2 := by
  unfold collectDatabaseAndTableInfos
  exact (Frame.same rfl rfl rfl).trans (collectElements_frame _ _ _)


theorem executeCreateDatabase_frame (env : Environment) (info : DatabaseInfo) (s : State) :
    Frame (fun ev => ev.kind = EventKind.databaseCreation ∨ ev.kind = EventKind.catalog) s
      (executeCreateDatabase env info s).2 := by
  unfold executeCreateDatabase
  repeat' (first | split | dsimp only)
  all_goals first
    | exact Frame.refl _ _
    | exact Frame.record _ _ _ (by simp [Event.kind])

theorem checkDatabaseDefinition_frame (env : Environment) (name : String) (info : DatabaseInfo)
    (database : DatabasePtr) (s : State) :
    Frame (fun ev => ev.kind = EventKind.databaseCreation ∨ ev.kind = EventKind.catalog) s
      (checkDatabaseDefinition env name info database s).2 := by
  unfold checkDatabaseDefinition
  repeat' (first | split | dsimp only)
  all_goals first
    | exact Frame.refl _ _
    | exact Frame.record _ _ _ (by simp [Event.kind])

theorem createDatabase_frame (env : Environment) (name : String) (info : DatabaseInfo) (s : State) :
    Frame (fun ev => ev.kind = EventKind.databaseCreation ∨ ev.kind = EventKind.catalog) s
      (createDatabase env name info s).2 := by
  unfold createDatabase
  split
  · rename_i heq
    exact Frame.of_eq (executeCreateDatabase_frame _ _ _) heq
  · rename_i heq
    have h1 := (Frame.of_eq (executeCreateDatabase_frame _ _ _) heq).then_recording (Event.getDatabase name) (by simp [Event.kind])
    dsimp only
    split
    · exact h1
    · exact h1.trans (checkDatabaseDefinition_frame _ _ _ _ _)

theorem createDatabasesLoop_frame (env : Environment) (entries : List (String × DatabaseInfo))
    (s : State) :
    Frame (fun ev => ev.kind = EventKind.databaseCreation ∨ ev.kind = EventKind.catalog) s
      (createDatabasesLoop env entries s).2 := by
  induction entries generalizing s with
  | nil => exact Frame.refl _ _
  | cons entry rest ih =>
    obtain ⟨name, info⟩ := entry
    unfold createDatabasesLoop
    split
    · rename_i heq; exact Frame.of_eq (createDatabase_frame _ _ _ _) heq
    · rename_i heq; exact (Frame.of_eq (createDatabase_frame _ _ _ _) heq).trans (ih _)

theorem createDatabases_frame (env : Environment) (s : State) :
    Frame (fun ev => ev.kind = EventKind.databaseCreation ∨ ev.kind = EventKind.catalog) s
      (createDatabases env s).2 :=
  createDatabasesLoop_frame env _ s

theorem executeCreateTable_frame (env : Environment) (info : TableInfo) (database : DatabasePtr)
    (s : State) :
    Frame (fun ev => ev.kind = EventKind.tableCreation ∨ ev.kind = EventKind.catalog) s
      (executeCreateTable env info database s).2 := by
  unfold executeCreateTable
  repeat' (first | split | dsimp only)
  all_goals first
    | exact Frame.refl _ _
    | exact Frame.record_then (runHook_frame _ _ _) (by simp [Event.kind])

theorem checkTableDefinition_frame (env : Environment) (name : QualifiedTableName)
    (info : TableInfo) (database : DatabasePtr) (storage : StoragePtr) (s : State) :
    Frame (fun ev => ev.kind = EventKind.tableCreation ∨ ev.kind = EventKind.catalog) s
      (checkTableDefinition env name info database storage s).2 := by
  unfold checkTableDefinition
  have h1 : Frame (fun ev => ev.kind = EventKind.tableCreation ∨ ev.kind = EventKind.catalog) s
      (s.record (Event.getCreateTableQuery database name.table)) := Frame.record _ _ _ (by simp [Event.kind])
  repeat' (first | split | dsimp only)
  all_goals first
    | exact Frame.refl _ _
    | exact h1
    | exact h1.then_record (by simp [Event.kind])
    | exact (h1.then_record (by simp [Event.kind])).then_record (by simp [Event.kind])

theorem restoreTableData_frame (env : Environment) (info : TableInfo) (storage : StoragePtr)
    (s : State) :
    Frame (fun ev => ev.kind = EventKind.tableCreation ∨ ev.kind = EventKind.catalog) s
      (restoreTableData env info storage s).2 := by
  unfold restoreTableData
  split
  · exact Frame.record_then (runHook_frame _ _ _) (by simp [Event.kind])
  · exact Frame.refl _ _

theorem createTable_frame (env : Environment) (name : QualifiedTableName) (s : State) :
    Frame (fun ev => ev.kind = EventKind.tableCreation ∨ ev.kind = EventKind.catalog) s
      (createTable env name s).2 := by
  unfold createTable
  split
  · exact Frame.refl _ _
  · dsimp only
    have h1 : Frame (fun ev => ev.kind = EventKind.tableCreation ∨ ev.kind = EventKind.catalog) s
      (s.record (Event.getDatabase name.database)) := Frame.record _ _ _ (by simp [Event.kind])
    split
    · exact h1
    · split
      · rename_i heq
        exact h1.trans (Frame.of_eq (executeCreateTable_frame _ _ _ _) heq)
      · rename_i database _ _ _ s2 heq
        have h2 := h1.trans (Frame.of_eq (executeCreateTable_frame _ _ _ _) heq)
        have h3 : Frame (fun ev => ev.kind = EventKind.tableCreation ∨ ev.kind = EventKind.catalog)
            s ((markCreated name s2).record (Event.getTable database name.table)) :=
          (h2.trans (Frame.same rfl rfl rfl)).then_record (by simp [Event.kind])
        split
        · exact h3
        · rename_i storage _
          have h4 := h3.then_recording (Event.lockForShare storage) (by simp [Event.kind])
          split
          · exact h4
          · rename_i table_lock _
            have h5 : Frame (fun ev => ev.kind = EventKind.tableCreation ∨ ev.kind = EventKind.catalog)
                s (setTableLock storage table_lock
                  (((markCreated name s2).record (Event.getTable database name.table)).record
                    (Event.lockForShare storage))) := h4.trans (Frame.same rfl rfl rfl)
            split
            · rename_i heq2
              exact h5.trans (Frame.of_eq (checkTableDefinition_frame _ _ _ _ _ _) heq2)
            · rename_i heq2
              exact (h5.trans (Frame.of_eq (checkTableDefinition_frame _ _ _ _ _ _) heq2)).trans
                (restoreTableData_frame _ _ _ _)

theorem createTablesInWave_frame (env : Environment) (tables : List QualifiedTableName)
    (s : State) :
    Frame (fun ev => ev.kind = EventKind.tableCreation ∨ ev.kind = EventKind.catalog) s
      (createTablesInWave env tables s).2 := by
  induction tables generalizing s with
  | nil => exact Frame.refl _ _
  | cons name rest ih =>
    unfold createTablesInWave
    split
    · rename_i heq; exact Frame.of_eq (createTable_frame _ _ _) heq
    · rename_i heq; exact (Frame.of_eq (createTable_frame _ _ _) heq).trans (ih _)

theorem nextWave_frame (s : State) :
    Frame (fun ev => ev.kind = EventKind.tableCreation ∨ ev.kind = EventKind.catalog) s
      (nextWave s).2 := by
  unfold nextWave
  split
  · exact Frame.record _ _ _ (by simp [Event.kind])
  · exact Frame.refl _ _

theorem createTables_frame (env : Environment) (fuel : Nat) (s : State)
    (r : Except Exception Unit) (s1 : State) (h : createTables env fuel s = some (r, s1)) :
    Frame (fun ev => ev.kind = EventKind.tableCreation ∨ ev.kind = EventKind.catalog) s s1 := by
  induction fuel generalizing s with
  | zero => simp [createTables] at h
  | succ n ih =>
    unfold createTables at h
    split at h
    rename_i heq
    have h1 := Frame.of_eq (nextWave_frame s) heq
    split at h
    · simp only [Option.some.injEq, Prod.mk.injEq] at h
      rw [← h.2]; exact h1
    · split at h
      · rename_i heq2
        simp only [Option.some.injEq, Prod.mk.injEq] at h
        rw [← h.2]
        exact h1.trans (Frame.of_eq (createTablesInWave_frame _ _ _) heq2)
      · rename_i heq2
        exact (h1.trans (Frame.of_eq (createTablesInWave_frame _ _ _) heq2)).trans (ih _ h)

theorem setStage_current_stage (env : Environment) (st : Stage) (msg : String) (s : State) :
    (setStage env st msg s).2.current_stage = st := by
  unfold setStage
  split <;> rfl

theorem setStage_error_trace (env : Environment) (msg : String) (s : State) :
    (setStage env Stage.kError msg s).2.trace =
      s.trace ++ [Event.syncStageError s.restore_settings.host_id msg] := by
  simp [setStage, State.record]

theorem restoreMetadataTry_frame (env : Environment) (fuel : Nat) (s : State)
    (r : Except Exception Unit) (s1 : State) (h : restoreMetadataTry env fuel s = some (r, s1)) :
    Frame (fun ev => ev.kind ≠ EventKind.announceError) s s1 := by
  have hb : ∀ ev : Event, ev.kind = EventKind.backup → ev.kind ≠ EventKind.announceError := by
    intro ev h1 h2; rw [h1] at h2; cases h2
  have hd : ∀ ev : Event, ev.kind = EventKind.databaseCreation ∨ ev.kind = EventKind.catalog →
      ev.kind ≠ EventKind.announceError := by
    intro ev h1 h2; rw [h2] at h1; rcases h1 with h1 | h1 <;> cases h1
  have ht : ∀ ev : Event, ev.kind = EventKind.tableCreation ∨ ev.kind = EventKind.catalog →
      ev.kind ≠ EventKind.announceError := by
    intro ev h1 h2; rw [h2] at h1; rcases h1 with h1 | h1 <;> cases h1
  have hs : ∀ (st : Stage) (x : State), st ≠ Stage.kError →
      Frame (fun ev => ev.kind ≠ EventKind.announceError) x (setStage env st "" x).2 := by
    intro st x hst
    refine (setStage_frame env st "" x).mono ?_
    intro ev h1 h2
    rw [if_neg hst, h2] at h1
    cases h1
  unfold restoreMetadataTry at h
  split at h
  · simp only [Option.some.injEq, Prod.mk.injEq] at h
    rw [← h.2]; exact Frame.refl _ _
  split at h
  · rename_i heq
    simp only [Option.some.injEq, Prod.mk.injEq] at h
    rw [← h.2]; exact (Frame.of_eq (findRootPathsInBackup_frame _ _) heq).mono hb
  rename_i sA heqA
  have hA : Frame (fun ev => ev.kind ≠ EventKind.announceError) s sA :=
    (Frame.of_eq (findRootPathsInBackup_frame _ _) heqA).mono hb
  dsimp only at h
  split at h
  · rename_i heq
    simp only [Option.some.injEq, Prod.mk.injEq] at h
    rw [← h.2]
    refine Frame.trans ?_ (Frame.of_eq (hs Stage.kFindingTablesInBackup _ (by decide)) heq)
    exact hA.trans (Frame.same rfl rfl rfl)
  rename_i sB heqB
  have hB : Frame (fun ev => ev.kind ≠ EventKind.announceError) s sB := by
    refine Frame.trans ?_ (Frame.of_eq (hs Stage.kFindingTablesInBackup _ (by decide)) heqB)
    exact hA.trans (Frame.same rfl rfl rfl)
  split at h
  · rename_i heq
    simp only [Option.some.injEq, Prod.mk.injEq] at h
    rw [← h.2]
    exact hB.trans ((Frame.of_eq (collectDatabaseAndTableInfos_frame _ _) heq).mono hb)
  rename_i sC heqC
  have hC := hB.trans ((Frame.of_eq (collectDatabaseAndTableInfos_frame _ _) heqC).mono hb)
  split at h
  · rename_i heq
    simp only [Option.some.injEq, Prod.mk.injEq] at h
    rw [← h.2]
    exact hC.trans (Frame.of_eq (hs Stage.kCreatingDatabases _ (by decide)) heq)
  rename_i sD heqD
  have hD := hC.trans (Frame.of_eq (hs Stage.kCreatingDatabases _ (by decide)) heqD)
  split at h
  · rename_i heq
    simp only [Option.some.injEq, Prod.mk.injEq] at h
    rw [← h.2]
    exact hD.trans ((Frame.of_eq (createDatabases_frame _ _) heq).mono hd)
  rename_i sE heqE
  have hE := hD.trans ((Frame.of_eq (createDatabases_frame _ _) heqE).mono hd)
  split at h
  · rename_i heq
    simp only [Option.some.injEq, Prod.mk.injEq] at h
    rw [← h.2]
    exact hE.trans (Frame.of_eq (hs Stage.kCreatingTables _ (by decide)) heq)
  rename_i sF heqF
  have hF := hE.trans (Frame.of_eq (hs Stage.kCreatingTables _ (by decide)) heqF)
  split at h
  · cases h
  · rename_i heq
    simp only [Option.some.injEq, Prod.mk.injEq] at h
    rw [← h.2]
    exact hF.trans ((createTables_frame _ _ _ _ _ heq).mono ht)
  · rename_i sG heqG
    have hG := hF.trans ((createTables_frame _ _ _ _ _ heqG).mono ht)
    simp only [Option.some.injEq] at h
    exact hG.trans (Frame.of_eq (hs Stage.kInsertingDataToTables _ (by decide)) h)


theorem addShardPart_eq (env : Environment) (s : State) (paths : List Path) :
    addShardPart env (computedShardAndReplica env s).1 [] { s with root_paths_in_backup := paths } =
      if (env.listFiles ["shards"]).isEmpty then
        if s.restore_settings.shard_num_in_backup > 1 then
          (.error ⟨.BACKUP_ENTRY_NOT_FOUND, "No shard #{} in backup",
            [toString s.restore_settings.shard_num_in_backup]⟩,
            { s with root_paths_in_backup := paths
                     trace := s.trace ++ [Event.listFiles ["shards"]] })
        else
          (.ok [], { s with root_paths_in_backup := paths
                            trace := s.trace ++ [Event.listFiles ["shards"]] })
      else if chosenShard env s ∉ env.listFiles ["shards"] then
        (.error ⟨.BACKUP_ENTRY_NOT_FOUND, "No shard #{} in backup", [chosenShard env s]⟩,
          { s with root_paths_in_backup := paths
                   trace := s.trace ++ [Event.listFiles ["shards"]] })
      else
        (.ok ["shards", chosenShard env s],
          { s with root_paths_in_backup := paths ++ [["shards", chosenShard env s]]
                   trace := s.trace ++ [Event.listFiles ["shards"]] }) := rfl

theorem addReplicaPart_eq (env : Environment) (n : Nat) (root_path : Path) (s : State) :
    addReplicaPart env n root_path s =
      if (env.listFiles (root_path ++ ["replicas"])).isEmpty then
        if s.restore_settings.replica_num_in_backup > 1 then
          (.error ⟨.BACKUP_ENTRY_NOT_FOUND, "No replica #{} in backup",
            [toString s.restore_settings.replica_num_in_backup]⟩,
            s.record (Event.listFiles (root_path ++ ["replicas"])))
        else (.ok root_path, s.record (Event.listFiles (root_path ++ ["replicas"])))
      else if s.restore_settings.replica_num_in_backup ≠ 0 then
        if toString s.restore_settings.replica_num_in_backup ∉
            env.listFiles (root_path ++ ["replicas"]) then
          (.error ⟨.BACKUP_ENTRY_NOT_FOUND, "No replica #{} in backup",
            [toString s.restore_settings.replica_num_in_backup]⟩,
            s.record (Event.listFiles (root_path ++ ["replicas"])))
        else
          (.ok (root_path ++ ["replicas", toString s.restore_settings.replica_num_in_backup]),
            { s with
              root_paths_in_backup := s.root_paths_in_backup ++
                [root_path ++ ["replicas", toString s.restore_settings.replica_num_in_backup]]
              trace := s.trace ++ [Event.listFiles (root_path ++ ["replicas"])] })
      else
        (.ok (root_path ++ ["replicas",
            if toString n ∉ env.listFiles (root_path ++ ["replicas"]) then
              (env.listFiles (root_path ++ ["replicas"])).headD ""
            else toString n]),
          { s with
            root_paths_in_backup := s.root_paths_in_backup ++
              [root_path ++ ["replicas",
                if toString n ∉ env.listFiles (root_path ++ ["replicas"]) then
                  (env.listFiles (root_path ++ ["replicas"])).headD ""
                else toString n]]
            trace := s.trace ++ [Event.listFiles (root_path ++ ["replicas"])] }) := by
  simp only [addReplicaPart, Path.join, State.record, List.append_assoc, List.singleton_append]

theorem isEmpty_eq_true_iff {α : Type} (l : List α) : l.isEmpty = true ↔ l = [] := by
  cases l <;> simp

theorem findRootPathsInBackup_result (env : Environment) (s : State) :
    ((findRootPathsInBackup env s).1 = .ok () ↔
        ¬ (ShardNotFound env s ∨ (¬ ShardNotFound env s ∧ ReplicaNotFound env s))) ∧
      (∀ e, (findRootPathsInBackup env s).1 = .error e →
        e.code = ErrorCode.BACKUP_ENTRY_NOT_FOUND) := by
  unfold findRootPathsInBackup
  dsimp only
  rw [addShardPart_eq]
  unfold ShardNotFound ReplicaNotFound pathAfterShards
  generalize chosenShard env s = c
  by_cases h1 : env.listFiles ["shards"] = []
  · by_cases h2 : s.restore_settings.shard_num_in_backup > 1
    · simp [h1, h2]
    · by_cases h3 : env.listFiles ["replicas"] = []
      · by_cases h4 : s.restore_settings.replica_num_in_backup > 1
        · simp [h1, h2, h3, h4, addReplicaPart_eq]
        · simp [h1, h2, h3, h4, addReplicaPart_eq]
      · by_cases h4 : s.restore_settings.replica_num_in_backup = 0
        · simp [h1, h2, h3, h4, addReplicaPart_eq]
        · by_cases h5 : toString s.restore_settings.replica_num_in_backup ∈
              env.listFiles ["replicas"]
          · simp [h1, h2, h3, h4, h5, addReplicaPart_eq]
          · simp [h1, h2, h3, h4, h5, addReplicaPart_eq]
  · by_cases h2 : c ∈ env.listFiles ["shards"]
    · by_cases h3 : env.listFiles ["shards", c, "replicas"] = []
      · by_cases h4 : s.restore_settings.replica_num_in_backup > 1
        · simp [h1, h2, h3, h4, addReplicaPart_eq]
        · simp [h1, h2, h3, h4, addReplicaPart_eq]
      · by_cases h4 : s.restore_settings.replica_num_in_backup = 0
        · simp [h1, h2, h3, h4, addReplicaPart_eq]
        · by_cases h5 : toString s.restore_settings.replica_num_in_backup ∈
              env.listFiles ["shards", c, "replicas"]
          · simp [h1, h2, h3, h4, h5, addReplicaPart_eq]
          · simp [h1, h2, h3, h4, h5, addReplicaPart_eq]
    · simp [h1, h2]



/-! ## Lemmas on table creation -/

theorem Quiet.unchanged (s : State) : Quiet s s := ⟨rfl, rfl, rfl, rfl⟩

theorem Quiet.andThen {s s1 s2 : State} (h1 : Quiet s s1) (h2 : Quiet s1 s2) : Quiet s s2 :=
  ⟨h2.1.trans h1.1, h2.2.1.trans h1.2.1, h2.2.2.1.trans h1.2.2.1, h2.2.2.2.trans h1.2.2.2⟩

theorem Quiet.of_result {α : Type} {s s1 : State} {x : α × State} {r : α}
    (h : Quiet s x.2) (heq : x = (r, s1)) : Quiet s s1 := by
  rw [heq] at h; exact h

theorem Quiet.recorded (s : State) (ev : Event) : Quiet s (s.record ev) := ⟨rfl, rfl, rfl, rfl⟩

theorem addDataRestoreTask_quiet (storage : StoragePtr) (t : DataRestoreTask) (s : State) :
    Quiet s (addDataRestoreTask storage t s).2 := by
  unfold addDataRestoreTask
  split <;> exact ⟨rfl, rfl, rfl, rfl⟩

theorem addDataRestoreTasks_quiet (storage : StoragePtr) (t : List DataRestoreTask) (s : State) :
    Quiet s (addDataRestoreTasks storage t s).2 := by
  unfold addDataRestoreTasks
  split <;> exact ⟨rfl, rfl, rfl, rfl⟩

theorem runRegistrations_quiet (regs : List Registration) (s : State) :
    Quiet s (runRegistrations regs s).2 := by
  induction regs generalizing s with
  | nil => exact Quiet.unchanged _
  | cons reg rest ih =>
    cases reg with
    | one st t =>
      unfold runRegistrations
      split
      · rename_i heq; exact Quiet.of_result (addDataRestoreTask_quiet _ _ _) heq
      · rename_i heq; exact (Quiet.of_result (addDataRestoreTask_quiet _ _ _) heq).andThen (ih _)
    | many st t =>
      unfold runRegistrations
      split
      · rename_i heq; exact Quiet.of_result (addDataRestoreTasks_quiet _ _ _) heq
      · rename_i heq; exact (Quiet.of_result (addDataRestoreTasks_quiet _ _ _) heq).andThen (ih _)

theorem runHook_quiet (hook : HookResult) (s : State) : Quiet s (runHook hook s).2 := by
  unfold runHook
  split
  · rename_i heq; exact Quiet.of_result (runRegistrations_quiet _ _) heq
  · rename_i heq; exact Quiet.of_result (runRegistrations_quiet _ _) heq

theorem executeCreateTable_quiet (env : Environment) (info : TableInfo) (database : DatabasePtr)
    (s : State) : Quiet s (executeCreateTable env info database s).2 := by
  unfold executeCreateTable
  repeat' (first | split | dsimp only)
  all_goals first
    | exact Quiet.unchanged _
    | exact (Quiet.recorded _ _).andThen (runHook_quiet _ _)

theorem checkTableDefinition_quiet (env : Environment) (name : QualifiedTableName)
    (info : TableInfo) (database : DatabasePtr) (storage : StoragePtr) (s : State) :
    Quiet s (checkTableDefinition env name info database storage s).2 := by
  unfold checkTableDefinition
  repeat' (first | split | dsimp only)
  all_goals exact ⟨rfl, rfl, rfl, rfl⟩

theorem restoreTableData_quiet (env : Environment) (info : TableInfo) (storage : StoragePtr)
    (s : State) : Quiet s (restoreTableData env info storage s).2 := by
  unfold restoreTableData
  split
  · exact (Quiet.recorded _ _).andThen (runHook_quiet _ _)
  · exact Quiet.unchanged _

/-- One `createTable` leaves the catalog as it was or with `created` set
for its table, the latter whenever it returns; it changes neither the stage
nor `database_infos`. -/
theorem createTable_effect (env : Environment) (name : QualifiedTableName) (s : State) :
    ((createTable env name s).2.table_infos = s.table_infos ∨
      (createTable env name s).2.table_infos =
        mapModify s.table_infos name TableInfo.markCreated) ∧
    ((createTable env name s).1 = .ok () →
      (createTable env name s).2.table_infos =
        mapModify s.table_infos name TableInfo.markCreated) ∧
    (createTable env name s).2.current_stage = s.current_stage ∧
    (createTable env name s).2.database_infos = s.database_infos := by
  unfold createTable
  split
  · exact ⟨Or.inl rfl, by simp, rfl, rfl⟩
  · dsimp only
    split
    · exact ⟨Or.inl rfl, by simp, rfl, rfl⟩
    · split
      · rename_i heq
        have h1 := Quiet.of_result (executeCreateTable_quiet _ _ _ _) heq
        exact ⟨Or.inl h1.1, by simp, h1.2.2.1, h1.2.1⟩
      · rename_i database _ _ _ s2 heq
        have h1 := Quiet.of_result (executeCreateTable_quiet _ _ _ _) heq
        have hm : (markCreated name s2).table_infos =
            mapModify s.table_infos name TableInfo.markCreated := by
          have := h1.1
          simp only [State.record] at this
          simp only [markCreated, this]
        split
        · exact ⟨Or.inr hm, by simp, h1.2.2.1, h1.2.1⟩
        · split
          · exact ⟨Or.inr hm, by simp, h1.2.2.1, h1.2.1⟩
          · split
            · rename_i heq2
              have h2 := Quiet.of_result (checkTableDefinition_quiet _ _ _ _ _ _) heq2
              exact ⟨Or.inr (h2.1.trans hm), by simp, h2.2.2.1.trans h1.2.2.1,
                h2.2.1.trans h1.2.1⟩
            · rename_i heq2
              have h2 := Quiet.of_result (checkTableDefinition_quiet _ _ _ _ _ _) heq2
              refine ⟨Or.inr ?_, fun _ => ?_, ?_, ?_⟩
              · exact ((h2.andThen (restoreTableData_quiet _ _ _ _)).1).trans hm
              · exact ((h2.andThen (restoreTableData_quiet _ _ _ _)).1).trans hm
              · exact ((h2.andThen (restoreTableData_quiet _ _ _ _)).2.2.1).trans h1.2.2.1
              · exact ((h2.andThen (restoreTableData_quiet _ _ _ _)).2.1).trans h1.2.1


theorem markCreatedAll_nil (m : List (QualifiedTableName × TableInfo)) :
    markCreatedAll [] m = m := by
  simp [markCreatedAll]

theorem mapModify_eq_markCreatedAll (m : List (QualifiedTableName × TableInfo))
    (k : QualifiedTableName) : mapModify m k TableInfo.markCreated = markCreatedAll [k] m := by
  simp [mapModify, markCreatedAll]

theorem markCreated_idem (info : TableInfo) : info.markCreated.markCreated = info.markCreated :=
  rfl

theorem markCreatedAll_markCreatedAll (d1 d2 : List QualifiedTableName)
    (m : List (QualifiedTableName × TableInfo)) :
    markCreatedAll d2 (markCreatedAll d1 m) = markCreatedAll (d1 ++ d2) m := by
  unfold markCreatedAll
  rw [List.map_map]
  apply List.map_congr_left
  intro entry _
  by_cases h1 : entry.1 ∈ d1 <;> by_cases h2 : entry.1 ∈ d2 <;>
    simp [h1, h2, markCreated_idem]

/-- A wave leaves the catalog with `created` set for a prefix of its
tables, all of them when it returns; the stage and `database_infos` stay. -/
theorem createTablesInWave_effect (env : Environment) (tables : List QualifiedTableName)
    (s : State) :
    (∃ done, done <+: tables ∧
      (createTablesInWave env tables s).2.table_infos = markCreatedAll done s.table_infos ∧
      ((createTablesInWave env tables s).1 = .ok () → done = tables)) ∧
    (createTablesInWave env tables s).2.current_stage = s.current_stage ∧
    (createTablesInWave env tables s).2.database_infos = s.database_infos := by
  induction tables generalizing s with
  | nil =>
    exact ⟨⟨[], List.prefix_refl _, (markCreatedAll_nil _).symm, fun _ => rfl⟩, rfl, rfl⟩
  | cons k rest ih =>
    obtain ⟨hor, hok, hst, hdb⟩ := createTable_effect env k s
    unfold createTablesInWave
    split
    · rename_i e s1 heq
      rw [heq] at hor hst hdb
      refine ⟨?_, hst, hdb⟩
      rcases hor with h | h
      · exact ⟨[], List.nil_prefix, h.trans (markCreatedAll_nil _).symm, by simp⟩
      · exact ⟨[k], by simp, h.trans (mapModify_eq_markCreatedAll _ _), by simp⟩
    · rename_i a s1 heq
      rw [heq] at hok hst hdb
      obtain ⟨⟨done, hpre, hinfos, hall⟩, hst2, hdb2⟩ := ih s1
      refine ⟨⟨k :: done, ?_, ?_, ?_⟩, hst2.trans hst, hdb2.trans hdb⟩
      · exact (List.prefix_cons_inj k).mpr hpre
      · rw [hinfos, hok rfl, mapModify_eq_markCreatedAll, markCreatedAll_markCreatedAll]
        rfl
      · intro h; rw [hall h]

theorem uncreatedCount_markCreatedAll (tables : List QualifiedTableName)
    (m : List (QualifiedTableName × TableInfo)) :
    uncreatedCount (markCreatedAll tables m) =
      (m.filter (fun entry => decide (entry.1 ∉ tables) && !entry.2.created)).length := by
  unfold uncreatedCount markCreatedAll
  rw [List.filter_map, List.length_map]
  congr 1
  apply List.filter_congr
  intro entry _
  by_cases h : entry.1 ∈ tables <;> simp [h, TableInfo.markCreated]

theorem uncreatedCount_markCreatedAll_le (tables : List QualifiedTableName)
    (m : List (QualifiedTableName × TableInfo)) :
    uncreatedCount (markCreatedAll tables m) ≤ uncreatedCount m := by
  rw [uncreatedCount_markCreatedAll]
  unfold uncreatedCount
  rw [← List.filter_filter]
  exact List.length_filter_le _ _

theorem uncreatedCount_markCreatedAll_lt (tables : List QualifiedTableName)
    (m : List (QualifiedTableName × TableInfo)) (entry : QualifiedTableName × TableInfo)
    (h1 : entry ∈ m) (h2 : entry.2.created = false) (h3 : entry.1 ∈ tables) :
    uncreatedCount (markCreatedAll tables m) < uncreatedCount m := by
  rw [uncreatedCount_markCreatedAll]
  unfold uncreatedCount
  rw [← List.filter_filter, List.length_filter_lt_length_iff_exists]
  exact ⟨entry, List.mem_filter.mpr ⟨h1, by simp [h2]⟩, by simp [h3]⟩

theorem uncreatedCount_eq_zero_iff (m : List (QualifiedTableName × TableInfo)) :
    uncreatedCount m = 0 ↔ ∀ entry ∈ m, entry.2.created = true := by
  unfold uncreatedCount
  rw [List.length_eq_zero, List.filter_eq_nil_iff]
  simp

/-- What `findTablesWithoutDependencies` returns are keys of entries that
are not created. -/
theorem findTablesWithoutDependencies_mem (m : List (QualifiedTableName × TableInfo))
    (k : QualifiedTableName) (h : k ∈ (findTablesWithoutDependencies m).1) :
    ∃ entry ∈ m, entry.1 = k ∧ entry.2.created = false := by
  unfold findTablesWithoutDependencies at h
  dsimp only at h
  split at h
  · simp only [List.mem_map, List.mem_filter] at h
    obtain ⟨entry, ⟨⟨h1, h2⟩, _⟩, h4⟩ := h
    exact ⟨entry, h1, h4, by simpa using h2⟩
  · split at h
    · simp at h
    · simp only [List.mem_map, List.mem_filter] at h
      obtain ⟨entry, ⟨h1, h2⟩, h4⟩ := h
      exact ⟨entry, h1, h4, by simpa using h2⟩

/-- The function `findTablesWithoutDependencies` returns nothing exactly when every
table of the catalog is created. -/
theorem findTablesWithoutDependencies_eq_nil_iff (m : List (QualifiedTableName × TableInfo)) :
    (findTablesWithoutDependencies m).1 = [] ↔ ∀ entry ∈ m, entry.2.created = true := by
  rw [← uncreatedCount_eq_zero_iff]
  unfold findTablesWithoutDependencies uncreatedCount
  dsimp only
  split
  · rename_i h
    constructor
    · intro h1
      simp only at h1
      rw [h1] at h; simp at h
    · intro h1
      rw [List.length_eq_zero] at h1
      rw [h1] at h; simp at h
  · split
    · rename_i h
      simp only [List.isEmpty_iff] at h
      simp [h]
    · rename_i h
      simp only [List.isEmpty_iff] at h
      simp [h]


theorem nextWave_fst (s : State) :
    (nextWave s).1 = (findTablesWithoutDependencies s.table_infos).1 := by
  unfold nextWave
  split <;> (rename_i heq; rw [heq])

theorem nextWave_quiet (s : State) : Quiet s (nextWave s).2 := by
  unfold nextWave
  split
  · exact Quiet.recorded _ _
  · exact Quiet.unchanged _

theorem isEmpty_eq_false_iff {α : Type} (l : List α) : l.isEmpty = false ↔ l ≠ [] := by
  cases l <;> simp

/-- With more fuel than tables that are not created, `createTables` ends:
it raises, or it returns with every table of the catalog created and the
stage as it was. -/
theorem createTables_terminates (env : Environment) (fuel : Nat) (s : State)
    (h : uncreatedCount s.table_infos < fuel) :
    ∃ r s1, createTables env fuel s = some (r, s1) ∧
      (r = .ok () → (∀ entry ∈ s1.table_infos, entry.2.created = true) ∧
        s1.current_stage = s.current_stage) := by
  induction fuel generalizing s with
  | zero => omega
  | succ n ih =>
    unfold createTables
    have hfst := nextWave_fst s
    have hq := nextWave_quiet s
    rcases hw : nextWave s with ⟨tables, s1⟩
    rw [hw] at hfst hq
    simp only at hfst hq ⊢
    by_cases hempty : tables.isEmpty = true
    · rw [if_pos hempty]
      refine ⟨_, _, rfl, fun _ => ⟨?_, hq.2.2.1⟩⟩
      rw [isEmpty_eq_true_iff, hfst, findTablesWithoutDependencies_eq_nil_iff] at hempty
      rw [hq.1]; exact hempty
    · rw [if_neg hempty]
      obtain ⟨⟨done, _, hinfos, hall⟩, hst, _⟩ := createTablesInWave_effect env tables s1
      rcases hc : createTablesInWave env tables s1 with ⟨r, s2⟩
      rw [hc] at hinfos hall hst
      cases r with
      | error e => exact ⟨_, _, rfl, by simp⟩
      | ok a =>
        simp only at hinfos hall hst ⊢
        have hdone : done = tables := hall trivial
        subst hdone
        rw [Bool.not_eq_true, isEmpty_eq_false_iff] at hempty
        obtain ⟨k, hk⟩ := List.exists_mem_of_ne_nil _ hempty
        have hk2 := hk
        rw [hfst] at hk2
        obtain ⟨entry, hmem, hkey, hcreated⟩ := findTablesWithoutDependencies_mem _ k hk2
        have hlt : uncreatedCount s2.table_infos < uncreatedCount s.table_infos := by
          rw [hinfos, hq.1]
          exact uncreatedCount_markCreatedAll_lt _ _ entry hmem hcreated (hkey ▸ hk)
        obtain ⟨r, s3, h3, h4⟩ := ih s2 (by omega)
        exact ⟨r, s3, h3, fun hr => ⟨(h4 hr).1, (h4 hr).2.trans (hst.trans hq.2.2.1)⟩⟩

/-- More fuel does not change what `createTables` ends with. -/
theorem createTables_fuel_mono (env : Environment) (fuel extra : Nat) (s : State)
    (x : Except Exception Unit × State) (h : createTables env fuel s = some x) :
    createTables env (fuel + extra) s = some x := by
  induction fuel generalizing s with
  | zero => simp [createTables] at h
  | succ n ih =>
    rw [Nat.add_right_comm]
    unfold createTables at h ⊢
    rcases hw : nextWave s with ⟨tables, s1⟩
    rw [hw] at h
    simp only at h ⊢
    by_cases hempty : tables.isEmpty = true
    · rw [if_pos hempty] at h ⊢; exact h
    · rw [if_neg hempty] at h ⊢
      rcases hc : createTablesInWave env tables s1 with ⟨r, s2⟩
      rw [hc] at h
      cases r with
      | error e => exact h
      | ok a => exact ih s2 h


/-- More fuel does not change what the `try` block ends with. -/
theorem restoreMetadataTry_fuel_mono (env : Environment) (fuel extra : Nat) (s : State)
    (x : Except Exception Unit × State) (h : restoreMetadataTry env fuel s = some x) :
    restoreMetadataTry env (fuel + extra) s = some x := by
  by_cases hfresh : s.current_stage = Stage.kPreparing
  swap
  · simp only [restoreMetadataTry, ne_eq, hfresh, not_false_eq_true, if_true] at h ⊢
    exact h
  rcases hA : findRootPathsInBackup env s with ⟨rA, sA⟩
  cases rA with
  | error e => simpa [restoreMetadataTry, hfresh, hA] using h
  | ok _ =>
  rcases hB : setStage env Stage.kFindingTablesInBackup ""
    { sA with renaming_settings := env.setFromBackupQuery sA.restore_query_elements } with ⟨rB, sB⟩
  cases rB with
  | error e => simpa [restoreMetadataTry, hfresh, hA, hB] using h
  | ok _ =>
  rcases hC : collectDatabaseAndTableInfos env sB with ⟨rC, sC⟩
  cases rC with
  | error e => simpa [restoreMetadataTry, hfresh, hA, hB, hC] using h
  | ok _ =>
  rcases hD : setStage env Stage.kCreatingDatabases "" sC with ⟨rD, sD⟩
  cases rD with
  | error e => simpa [restoreMetadataTry, hfresh, hA, hB, hC, hD] using h
  | ok _ =>
  rcases hE : createDatabases env sD with ⟨rE, sE⟩
  cases rE with
  | error e => simpa [restoreMetadataTry, hfresh, hA, hB, hC, hD, hE] using h
  | ok _ =>
  rcases hF : setStage env Stage.kCreatingTables "" sE with ⟨rF, sF⟩
  cases rF with
  | error e => simpa [restoreMetadataTry, hfresh, hA, hB, hC, hD, hE, hF] using h
  | ok _ =>
  simp only [restoreMetadataTry, hfresh, hA, hB, hC, hD, hE, hF] at h ⊢
  rcases hG : createTables env fuel sF with _ | ⟨rG, sG⟩
  · simp [hG] at h
  · rw [createTables_fuel_mono env fuel extra sF _ hG]
    rw [hG] at h
    exact h


section catalog
variable {m : List (QualifiedTableName × TableInfo)}

theorem mapFind_markCreatedAll (d : List QualifiedTableName)
    (m : List (QualifiedTableName × TableInfo)) (k : QualifiedTableName) :
    mapFind (markCreatedAll d m) k =
      (mapFind m k).map (fun info => if k ∈ d then info.markCreated else info) := by
  induction m with
  | nil => simp [markCreatedAll, mapFind]
  | cons entry rest ih =>
    obtain ⟨k1, v⟩ := entry
    unfold markCreatedAll at ih ⊢
    by_cases h2 : k1 ∈ d
    · simp only [List.map_cons, h2, if_true]
      by_cases h1 : k1 = k
      · subst h1; simp [mapFind, h2]
      · simp only [mapFind, h1, if_false, ih]
    · simp only [List.map_cons, h2, if_false]
      by_cases h1 : k1 = k
      · subst h1; simp [mapFind, h2]
      · simp only [mapFind, h1, if_false, ih]

theorem mapKeys_markCreatedAll (d : List QualifiedTableName)
    (m : List (QualifiedTableName × TableInfo)) :
    mapKeys (markCreatedAll d m) = mapKeys m := by
  unfold mapKeys markCreatedAll
  rw [List.map_map]
  apply List.map_congr_left
  intro entry _
  by_cases h : entry.1 ∈ d <;> simp [h]

theorem mem_of_mapFind {κ α : Type} [DecidableEq κ] (l : List (κ × α)) (k : κ) (v : α)
    (h : mapFind l k = some v) : (k, v) ∈ l := by
  induction l with
  | nil => simp [mapFind] at h
  | cons entry rest ih =>
    obtain ⟨k1, v1⟩ := entry
    unfold mapFind at h
    by_cases h1 : k1 = k
    · subst h1
      simp at h
      subst h
      exact List.mem_cons_self _ _
    · simp only [h1, if_false] at h
      exact List.mem_cons_of_mem _ (ih h)

theorem mapFind_of_mem {κ α : Type} [DecidableEq κ] (l : List (κ × α)) (k : κ) (v : α)
    (hn : (mapKeys l).Nodup) (h : (k, v) ∈ l) : mapFind l k = some v := by
  induction l with
  | nil => simp at h
  | cons entry rest ih =>
    obtain ⟨k1, v1⟩ := entry
    simp only [mapKeys, List.map_cons, List.nodup_cons] at hn
    unfold mapFind
    rcases List.mem_cons.mp h with h1 | h1
    · simp only [Prod.mk.injEq] at h1
      simp [h1.1, h1.2]
    · have : k1 ≠ k := fun h2 => hn.1 (h2 ▸ List.mem_map_of_mem Prod.fst h1)
      simp only [this, if_false]
      exact ih hn.2 h1

theorem mem_mapKeys_iff {κ α : Type} [DecidableEq κ] (l : List (κ × α)) (k : κ) :
    k ∈ mapKeys l ↔ ∃ v, mapFind l k = some v := by
  rw [← not_iff_not, ← mapFind_eq_none_iff]
  cases mapFind l k <;> simp

/-- In a catalog built from `m`, in which nothing was created, by setting
`created` for the tables of `d`: the created tables are those of `d`. -/
theorem tableCreated_markCreatedAll (hfresh : ∀ entry ∈ m, entry.2.created = false)
    (d : List QualifiedTableName) (k : QualifiedTableName) :
    TableCreated (markCreatedAll d m) k ↔ k ∈ mapKeys m ∧ k ∈ d := by
  unfold TableCreated
  rw [mapFind_markCreatedAll, mem_mapKeys_iff]
  constructor
  · rintro ⟨info, h1, h2⟩
    cases hf : mapFind m k with
    | none => rw [hf] at h1; simp at h1
    | some v =>
      rw [hf] at h1
      simp only [Option.map_some', Option.some.injEq] at h1
      refine ⟨⟨v, rfl⟩, ?_⟩
      by_contra hk
      rw [if_neg hk] at h1
      subst h1
      have := hfresh (k, v) (mem_of_mapFind m k v hf)
      simp only at this
      rw [this] at h2
      cases h2
  · rintro ⟨⟨v, hv⟩, hk⟩
    exact ⟨v.markCreated, by simp [hv, hk], rfl⟩

/-- All catalog dependencies of `deps` are in `d`. -/
theorem allDependenciesMet_markCreatedAll (hfresh : ∀ entry ∈ m, entry.2.created = false)
    (d : List QualifiedTableName) (deps : List QualifiedTableName) :
    allDependenciesMet (markCreatedAll d m) deps = true ↔
      ∀ b ∈ deps, b ∈ mapKeys m → b ∈ d := by
  unfold allDependenciesMet
  rw [List.all_eq_true]
  constructor
  · intro h b hb hkey
    have h1 := h b hb
    rw [mapFind_markCreatedAll] at h1
    obtain ⟨v, hv⟩ := (mem_mapKeys_iff m b).mp hkey
    rw [hv] at h1
    simp only [Option.map_some'] at h1
    by_contra hk
    rw [if_neg hk] at h1
    have := hfresh (b, v) (mem_of_mapFind m b v hv)
    simp only at this
    rw [this] at h1
    cases h1
  · intro h b hb
    rw [mapFind_markCreatedAll]
    cases hv : mapFind m b with
    | none => simp
    | some v =>
      have hk := h b hb ((mem_mapKeys_iff m b).mpr ⟨v, hv⟩)
      simp [hk, TableInfo.markCreated]

end catalog

/-- Without the warning, `findTablesWithoutDependencies` returns tables
that are not created and have every catalog dependency created. -/
theorem findTablesWithoutDependencies_normal (M : List (QualifiedTableName × TableInfo))
    (h : (findTablesWithoutDependencies M).2 = none) (k : QualifiedTableName)
    (hk : k ∈ (findTablesWithoutDependencies M).1) :
    ∃ entry ∈ M, entry.1 = k ∧ entry.2.created = false ∧
      allDependenciesMet M entry.2.dependencies = true := by
  unfold findTablesWithoutDependencies at h hk
  dsimp only at h hk
  split at hk
  · simp only [List.mem_map, List.mem_filter] at hk
    obtain ⟨entry, ⟨⟨h1, h2⟩, h3⟩, h4⟩ := hk
    exact ⟨entry, h1, h4, by simpa using h2, h3⟩
  · rename_i h1
    rw [if_neg h1] at h
    split at hk
    · simp at hk
    · rename_i h2
      rw [if_neg h2] at h
      simp at h

/-- With the warning, `findTablesWithoutDependencies` returns every table
that is not created, and none of them has every catalog dependency
created. -/
theorem findTablesWithoutDependencies_forced (M : List (QualifiedTableName × TableInfo))
    (cyclic : List QualifiedTableName) (h : (findTablesWithoutDependencies M).2 = some cyclic) :
    (findTablesWithoutDependencies M).1 =
        (M.filter (fun entry => !entry.2.created)).map Prod.fst ∧
      cyclic = (findTablesWithoutDependencies M).1 ∧
      (∃ entry ∈ M, entry.2.created = false) ∧
      ∀ entry ∈ M, entry.2.created = false →
        allDependenciesMet M entry.2.dependencies = false := by
  unfold findTablesWithoutDependencies at h ⊢
  dsimp only at h ⊢
  split at h
  · simp at h
  · rename_i h1
    rw [if_neg h1]
    split at h
    · simp at h
    · rename_i h2
      rw [if_neg h2]
      simp only [Option.some.injEq] at h
      refine ⟨rfl, h.symm, ?_, ?_⟩
      · simp only [List.isEmpty_iff] at h2
        obtain ⟨entry, he⟩ := List.exists_mem_of_ne_nil _ h2
        rw [List.mem_filter] at he
        exact ⟨entry, he.1, by simpa using he.2⟩
      · intro entry he hc
        simp only [Bool.not_eq_true, Bool.not_eq_false', List.isEmpty_iff, List.map_eq_nil_iff,
          List.filter_eq_nil_iff] at h1
        have := h1 entry (List.mem_filter.mpr ⟨he, by simp [hc]⟩)
        simpa using this

theorem mem_markCreatedAll (d : List QualifiedTableName)
    (m : List (QualifiedTableName × TableInfo)) (entry : QualifiedTableName × TableInfo) :
    entry ∈ markCreatedAll d m ↔
      ∃ e ∈ m, entry = (if e.1 ∈ d then (e.1, e.2.markCreated) else e) := by
  unfold markCreatedAll
  rw [List.mem_map]
  constructor
  · rintro ⟨e, he, rfl⟩; exact ⟨e, he, rfl⟩
  · rintro ⟨e, he, rfl⟩; exact ⟨e, he, rfl⟩

/-- One iteration of the loop of `createTables` on a catalog that is `m`
with the tables of `d` created, `d` closed under dependencies: the catalog
becomes `m` with the tables of `d ++ tables` created, again closed; every
table added is a table of the catalog outside `d`; and without the warning
every table added has all its catalog dependencies in `d`. -/
theorem afterWaves_one (env : Environment) (m : List (QualifiedTableName × TableInfo))
    (hn : (mapKeys m).Nodup) (hfresh : ∀ entry ∈ m, entry.2.created = false)
    (d : List QualifiedTableName) (hclosed : ∀ a b, DependsOn m a b → a ∈ d → b ∈ d)
    (s s1 : State) (hs : s.table_infos = markCreatedAll d m)
    (h : afterWaves env 1 s = some s1) :
    ∃ tables, s1.table_infos = markCreatedAll (d ++ tables) m ∧
      (∀ a b, DependsOn m a b → a ∈ d ++ tables → b ∈ d ++ tables) ∧
      (∀ k ∈ tables, k ∈ mapKeys m ∧ k ∉ d) ∧
      tables = (findTablesWithoutDependencies s.table_infos).1 ∧
      ((findTablesWithoutDependencies s.table_infos).2 = none →
        ∀ k ∈ tables, ∀ b, DependsOn m k b → b ∈ d) := by
  unfold afterWaves at h
  have hfst := nextWave_fst s
  have hq := nextWave_quiet s
  rcases hw : nextWave s with ⟨tables, s0⟩
  rw [hw] at hfst hq h
  simp only at hfst hq h
  obtain ⟨⟨done, _, hinfos, hall⟩, _, _⟩ := createTablesInWave_effect env tables s0
  rcases hc : createTablesInWave env tables s0 with ⟨r, s2⟩
  rw [hc] at hinfos hall h
  cases r with
  | error e => simp at h
  | ok a =>
    simp only [afterWaves, Option.some.injEq] at h
    subst h
    simp only at hinfos hall
    have hdone : done = tables := hall trivial
    subst hdone
    have hmem : ∀ k ∈ done, ∃ info, (k, info) ∈ m ∧ k ∉ d := by
      intro k hk
      rw [hfst, hs] at hk
      obtain ⟨entry, he, hkey, hcr⟩ := findTablesWithoutDependencies_mem _ k hk
      obtain ⟨e, hem, rfl⟩ := (mem_markCreatedAll d m entry).mp he
      by_cases hd : e.1 ∈ d
      · simp [hd, TableInfo.markCreated] at hcr
      · simp only [hd, if_false] at hkey
        exact ⟨e.2, by rw [← hkey]; exact hem, by rw [← hkey]; exact hd⟩
    have hready : (findTablesWithoutDependencies s.table_infos).2 = none →
        ∀ k ∈ done, ∀ b, DependsOn m k b → b ∈ d := by
      intro hnone k hk b hdep
      rw [hfst] at hk
      obtain ⟨entry, he, hkey, hcr, hmet⟩ := findTablesWithoutDependencies_normal _ hnone k hk
      rw [hs] at he hmet
      obtain ⟨e, hem, rfl⟩ := (mem_markCreatedAll d m entry).mp he
      obtain ⟨info, hinfo, hb, hbkey⟩ := hdep
      have hfind : mapFind m e.1 = some e.2 := mapFind_of_mem m e.1 e.2 hn hem
      by_cases hd : e.1 ∈ d
      · simp [hd, TableInfo.markCreated] at hcr
      · simp only [hd, if_false] at hkey hmet
        subst hkey
        rw [hfind] at hinfo
        simp only [Option.some.injEq] at hinfo
        subst hinfo
        exact (allDependenciesMet_markCreatedAll hfresh d _).mp hmet b hb hbkey
    refine ⟨done, ?_, ?_, ?_, hfst, hready⟩
    · rw [hinfos, hq.1, hs, markCreatedAll_markCreatedAll]
    · intro a b hdep ha
      rcases List.mem_append.mp ha with ha | ha
      · exact List.mem_append_left _ (hclosed a b hdep ha)
      · cases hwarn : (findTablesWithoutDependencies s.table_infos).2 with
        | none => exact List.mem_append_left _ (hready hwarn a ha b hdep)
        | some cyclic =>
          obtain ⟨hall2, _, _, _⟩ := findTablesWithoutDependencies_forced _ cyclic hwarn
          by_cases hb : b ∈ d
          · exact List.mem_append_left _ hb
          · apply List.mem_append_right
            rw [hfst, hall2, hs]
            obtain ⟨_, _, _, hbkey⟩ := hdep
            obtain ⟨v, hv⟩ := (mem_mapKeys_iff m b).mp hbkey
            have hbm := mem_of_mapFind m b v hv
            rw [List.mem_map]
            refine ⟨(b, v), List.mem_filter.mpr ⟨?_, ?_⟩, rfl⟩
            · rw [mem_markCreatedAll]
              exact ⟨(b, v), hbm, by simp [hb]⟩
            · have := hfresh (b, v) hbm
              simpa using this
    · intro k hk
      obtain ⟨info, hinfo, hkd⟩ := hmem k hk
      exact ⟨List.mem_map_of_mem Prod.fst hinfo, hkd⟩


/-- In a catalog without a dependency cycle the warning is never logged:
some table that is not created has all its catalog dependencies created. -/
theorem findTablesWithoutDependencies_acyclic (m : List (QualifiedTableName × TableInfo))
    (hfresh : ∀ entry ∈ m, entry.2.created = false)
    (hacyclic : Acyclic m) (d : List QualifiedTableName) :
    (findTablesWithoutDependencies (markCreatedAll d m)).2 = none := by
  cases hwarn : (findTablesWithoutDependencies (markCreatedAll d m)).2 with
  | none => rfl
  | some cyclic =>
    exfalso
    obtain ⟨_, _, ⟨entry, he, hcr⟩, hnone⟩ := findTablesWithoutDependencies_forced _ cyclic hwarn
    have wf : WellFounded (fun x y : {k // k ∈ mapKeys m} =>
        Relation.TransGen (DependsOn m) y.1 x.1) := by
      haveI : IsTrans {k // k ∈ mapKeys m}
          (fun x y => Relation.TransGen (DependsOn m) y.1 x.1) :=
        ⟨fun a b c hab hbc => hbc.trans hab⟩
      haveI : IsIrrefl {k // k ∈ mapKeys m}
          (fun x y => Relation.TransGen (DependsOn m) y.1 x.1) :=
        ⟨fun a h => hacyclic a.1 h⟩
      exact Finite.wellFounded_of_trans_of_irrefl _
    obtain ⟨e0, he0, rfl⟩ := (mem_markCreatedAll d m entry).mp he
    have h0 : e0.1 ∉ d := by
      intro hd
      simp [hd, TableInfo.markCreated] at hcr
    have hne : ({x : {k // k ∈ mapKeys m} | x.1 ∉ d}).Nonempty :=
      ⟨⟨e0.1, List.mem_map_of_mem Prod.fst he0⟩, h0⟩
    obtain ⟨a, ha, hmin⟩ := wf.has_min _ hne
    obtain ⟨v, hv⟩ := (mem_mapKeys_iff m a.1).mp a.2
    have hav : (a.1, v) ∈ m := mem_of_mapFind m a.1 v hv
    have hmet : allDependenciesMet (markCreatedAll d m) v.dependencies = true := by
      rw [allDependenciesMet_markCreatedAll hfresh]
      intro b hb hbkey
      by_contra hbd
      exact hmin ⟨b, hbkey⟩ hbd (Relation.TransGen.single ⟨v, hv, hb, hbkey⟩)
    have hin : (a.1, v) ∈ markCreatedAll d m := by
      rw [mem_markCreatedAll]
      exact ⟨(a.1, v), hav, by simp [show a.1 ∉ d from ha]⟩
    have := hnone (a.1, v) hin (hfresh (a.1, v) hav)
    simp only at this
    rw [hmet] at this
    cases this

theorem afterWaves_succ (env : Environment) (n : Nat) (s : State) :
    afterWaves env (n + 1) s = (afterWaves env n s).bind (afterWaves env 1) := by
  induction n generalizing s with
  | zero => simp [afterWaves]
  | succ k ih =>
    rw [afterWaves]
    rcases hw : nextWave s with ⟨tables, s0⟩
    simp only
    rcases hc : createTablesInWave env tables s0 with ⟨r, s2⟩
    cases r with
    | error e => simp [afterWaves, hw, hc]
    | ok a =>
      simp only
      rw [ih s2]
      conv => rhs; rw [afterWaves]
      simp only [hw, hc]

/-- After any number of waves on a catalog in which nothing was created,
the catalog is the first one with a set of tables created that is closed
under dependencies. -/
theorem afterWaves_catalog (env : Environment) (m : List (QualifiedTableName × TableInfo))
    (hn : (mapKeys m).Nodup) (hfresh : ∀ entry ∈ m, entry.2.created = false)
    (n : Nat) (s sn : State) (hs : s.table_infos = m) (h : afterWaves env n s = some sn) :
    ∃ d, sn.table_infos = markCreatedAll d m ∧ ∀ a b, DependsOn m a b → a ∈ d → b ∈ d := by
  induction n generalizing sn with
  | zero =>
    simp only [afterWaves, Option.some.injEq] at h
    subst h
    exact ⟨[], by rw [hs, markCreatedAll_nil], by simp⟩
  | succ k ih =>
    rw [afterWaves_succ] at h
    rcases hk : afterWaves env k s with _ | sk
    · rw [hk] at h; simp at h
    · rw [hk] at h
      simp only [Option.some_bind] at h
      obtain ⟨d, hd, hclosed⟩ := ih sk hk
      obtain ⟨tables, h1, h2, _⟩ := afterWaves_one env m hn hfresh d hclosed sk sn hd h
      exact ⟨d ++ tables, h1, h2⟩

/-- When `createTables` returns, its final state is the state after some
number of waves. -/
theorem createTables_afterWaves (env : Environment) (fuel : Nat) (s s1 : State)
    (h : createTables env fuel s = some (.ok (), s1)) :
    ∃ n, n < fuel ∧ afterWaves env n s = some s1 := by
  induction fuel generalizing s with
  | zero => simp [createTables] at h
  | succ k ih =>
    unfold createTables at h
    have hfst := nextWave_fst s
    rcases hw : nextWave s with ⟨tables, s0⟩
    rw [hw] at h hfst
    simp only at h hfst
    by_cases hempty : tables.isEmpty = true
    · rw [if_pos hempty] at h
      simp only [Option.some.injEq, Prod.mk.injEq, true_and] at h
      subst h
      refine ⟨0, by omega, ?_⟩
      have hnil : tables = [] := (isEmpty_eq_true_iff _).mp hempty
      have : nextWave s = ([], s) := by
        unfold nextWave
        rw [hnil] at hfst
        split
        · rename_i cyclic heq
          have hforced := findTablesWithoutDependencies_forced s.table_infos cyclic
            (by rw [heq])
          obtain ⟨entry, he, hcr⟩ := hforced.2.2.1
          have := (findTablesWithoutDependencies_eq_nil_iff s.table_infos).mp hfst.symm entry he
          rw [hcr] at this
          cases this
        · rename_i heq
          rw [heq] at hfst
          simp only at hfst
          rw [← hfst]
      rw [hw] at this
      simp only [Prod.mk.injEq] at this
      rw [this.2]
      rfl
    · rw [if_neg hempty] at h
      rcases hc : createTablesInWave env tables s0 with ⟨r, s2⟩
      rw [hc] at h
      cases r with
      | error e => simp at h
      | ok a =>
        simp only at h
        obtain ⟨n, hn, hwaves⟩ := ih s2 h
        refine ⟨n + 1, by omega, ?_⟩
        rw [afterWaves]
        simp only [hw, hc]
        exact hwaves


/-- A rank that decreases along every dependency excludes cycles. -/
theorem acyclic_of_rank (m : List (QualifiedTableName × TableInfo))
    (rank : QualifiedTableName → Nat) (h : ∀ a b, DependsOn m a b → rank b < rank a) :
    Acyclic m := by
  have key : ∀ a b, Relation.TransGen (DependsOn m) a b → rank b < rank a := by
    intro a b hab
    induction hab with
    | single h1 => exact h _ _ h1
    | tail _ h2 ih => exact lt_trans (h _ _ h2) ih
  intro a ha
  exact lt_irrefl _ (key a a ha)


theorem mapKeys_mapSubscript {κ α : Type} [DecidableEq κ] (m : List (κ × α)) (k : κ) (dflt : α)
    (f : α → α) :
    mapKeys (mapSubscript m k dflt f) = if k ∈ mapKeys m then mapKeys m else mapKeys m ++ [k] := by
  unfold mapSubscript
  by_cases hc : mapContains m k = true
  · have hk := (mapContains_iff m k).mp hc
    simp only [hc, if_true, hk, mapKeys_mapModify]
  · have hk : k ∉ mapKeys m := fun h => hc ((mapContains_iff m k).mpr h)
    simp only [hc, hk, if_false]
    rw [if_neg (by simp)]
    simp [mapKeys]

theorem findTableMetadata_quiet (env : Environment) (name : QualifiedTableName)
    (paths : List Path) (s : State) : Quiet s (findTableMetadata env name paths s).2 := by
  induction paths generalizing s with
  | nil => exact Quiet.unchanged _
  | cons p rest ih =>
    unfold findTableMetadata
    dsimp only
    split
    · exact Quiet.recorded _ _
    · exact (Quiet.recorded _ _).andThen (ih _)

/-- One `collectTableInfo` leaves the keys of the catalog as they are or
adds the new name of the table it was called for, and nothing else. -/
theorem collectTableInfo_keys (env : Environment) (name : QualifiedTableName)
    (partitions : Option (List PartitionExpr)) (s : State) :
    mapKeys (collectTableInfo env name partitions s).2.table_infos = mapKeys s.table_infos ∨
      mapKeys (collectTableInfo env name partitions s).2.table_infos =
        mapKeys s.table_infos ++ [s.renaming_settings.getNewTableName name] := by
  unfold collectTableInfo
  split
  · rename_i heq
    exact Or.inl (congrArg mapKeys (Quiet.of_result (findTableMetadata_quiet _ _ _ _) heq).1)
  · rename_i mp rp s1 heq
    have hq := Quiet.of_result (findTableMetadata_quiet _ _ _ _) heq
    have hr : s1.renaming_settings = s.renaming_settings := by
      have : ∀ paths (x : State),
          (findTableMetadata env name paths x).2.renaming_settings = x.renaming_settings := by
        intro paths
        induction paths with
        | nil => intro x; rfl
        | cons p rest ih =>
          intro x
          unfold findTableMetadata
          dsimp only
          split
          · rfl
          · exact ih _
      have h2 := this s.root_paths_in_backup s
      rw [heq] at h2
      exact h2
    dsimp only
    repeat' split
    all_goals first
      | exact Or.inl (congrArg mapKeys hq.1)
      | (simp only [State.record, mapKeys_mapSubscript, hq.1, hr]
         by_cases hk : s.renaming_settings.getNewTableName name ∈ mapKeys s.table_infos
         · rw [if_pos hk]; exact Or.inl rfl
         · rw [if_neg hk]; exact Or.inr rfl)


theorem CatalogFresh.of_quiet {s s1 : State} (h : CatalogFresh s) (hq : Quiet s s1) :
    CatalogFresh s1 := by
  unfold CatalogFresh at *
  rw [hq.1]; exact h

theorem mem_mapSubscript {κ α : Type} [DecidableEq κ] (m : List (κ × α)) (k : κ) (dflt : α)
    (f : α → α) (entry : κ × α) (h : entry ∈ mapSubscript m k dflt f) :
    entry ∈ m ∨ (∃ v, (k, v) ∈ m ∧ entry = (k, f v)) ∨ entry = (k, f dflt) := by
  unfold mapSubscript at h
  split at h
  · unfold mapModify at h
    rw [List.mem_map] at h
    obtain ⟨p, hp, rfl⟩ := h
    by_cases h1 : p.1 = k
    · simp only [h1, if_true]
      exact Or.inr (Or.inl ⟨p.2, by rw [← h1]; exact hp, rfl⟩)
    · simp only [h1, if_false]
      exact Or.inl hp
  · rcases List.mem_append.mp h with h | h
    · exact Or.inl h
    · simp only [List.mem_singleton] at h
      exact Or.inr (Or.inr h)

theorem collectTableInfo_catalogFresh (env : Environment) (name : QualifiedTableName)
    (partitions : Option (List PartitionExpr)) (s : State) (h : CatalogFresh s) :
    CatalogFresh (collectTableInfo env name partitions s).2 := by
  unfold collectTableInfo
  split
  · rename_i heq
    exact h.of_quiet (Quiet.of_result (findTableMetadata_quiet _ _ _ _) heq)
  · rename_i mp rp s1 heq
    have h1 := h.of_quiet (Quiet.of_result (findTableMetadata_quiet _ _ _ _) heq)
    dsimp only
    repeat' split
    all_goals first
      | exact h1
      | (simp only [CatalogFresh, State.record]
         refine ⟨mapKeys_mapSubscript_nodup _ _ _ _ h1.1, ?_⟩
         intro entry he
         rcases mem_mapSubscript _ _ _ _ entry he with he | ⟨v, hv, rfl⟩ | rfl
         · exact h1.2 entry he
         · exact h1.2 (_, v) hv
         · rfl)

theorem scanDatabaseMetadata_quiet (env : Environment) (db : String) (paths : List Path)
    (found : Option Path) (names : List String) (s : State) :
    Quiet s (scanDatabaseMetadata env db paths found names s).2 := by
  induction paths generalizing s found names with
  | nil => exact Quiet.unchanged _
  | cons p rest ih =>
    unfold scanDatabaseMetadata
    dsimp only
    refine Quiet.andThen ?_ (ih _ _ _)
    cases found with
    | some f => exact Quiet.recorded _ _
    | none => exact ⟨rfl, rfl, rfl, rfl⟩

theorem readCreateDatabaseQuery_quiet (env : Environment) (mp : Option Path) (name : String)
    (s : State) : Quiet s (readCreateDatabaseQuery env mp name s).2 := by
  unfold readCreateDatabaseQuery
  repeat' (first | split | dsimp only)
  all_goals exact ⟨rfl, rfl, rfl, rfl⟩

theorem scanAllDatabases_quiet (env : Environment) (paths : List Path) (names : List String)
    (s : State) : Quiet s (scanAllDatabases env paths names s).2 := by
  induction paths generalizing s names with
  | nil => exact Quiet.unchanged _
  | cons p rest ih =>
    unfold scanAllDatabases
    exact (Quiet.recorded _ _).andThen (ih _ _)

theorem collectTablesOfDatabase_catalogFresh (env : Environment) (db : String)
    (except_names : List String) (names : List String) (s : State) (h : CatalogFresh s) :
    CatalogFresh (collectTablesOfDatabase env db except_names names s).2 := by
  induction names generalizing s with
  | nil => exact h
  | cons n rest ih =>
    unfold collectTablesOfDatabase
    split
    · exact ih _ h
    · have h1 := collectTableInfo_catalogFresh env ⟨db, n⟩ none s h
      split
      · rename_i heq; rw [heq] at h1; exact h1
      · rename_i heq; rw [heq] at h1; exact ih _ h1

theorem collectDatabaseInfo_catalogFresh (env : Environment) (db : String)
    (except_names : List String) (s : State) (h : CatalogFresh s) :
    CatalogFresh (collectDatabaseInfo env db except_names s).2 := by
  unfold collectDatabaseInfo
  split
  rename_i heq
  have h1 := h.of_quiet (Quiet.of_result (scanDatabaseMetadata_quiet _ _ _ _ _ _) heq)
  split
  · exact h1
  · dsimp only
    split
    · rename_i heq2
      exact h1.of_quiet (Quiet.of_result (readCreateDatabaseQuery_quiet _ _ _ _) heq2)
    · rename_i heq2
      have h2 := h1.of_quiet (Quiet.of_result (readCreateDatabaseQuery_quiet _ _ _ _) heq2)
      split
      · exact h2
      · exact collectTablesOfDatabase_catalogFresh _ _ _ _ _ h2

theorem collectDatabases_catalogFresh (env : Environment) (except_names : List String)
    (names : List String) (s : State) (h : CatalogFresh s) :
    CatalogFresh (collectDatabases env except_names names s).2 := by
  induction names generalizing s with
  | nil => exact h
  | cons n rest ih =>
    unfold collectDatabases
    split
    · exact ih _ h
    · have h1 := collectDatabaseInfo_catalogFresh env n [] s h
      split
      · rename_i heq; rw [heq] at h1; exact h1
      · rename_i heq; rw [heq] at h1; exact ih _ h1

theorem collectElements_catalogFresh (env : Environment) (elements : List Element) (s : State)
    (h : CatalogFresh s) : CatalogFresh (collectElements env elements s).2 := by
  induction elements generalizing s with
  | nil => exact h
  | cons element rest ih =>
    have h1 : CatalogFresh (collectElement env element s).2 := by
      unfold collectElement
      split
      · exact collectTableInfo_catalogFresh _ _ _ _ h
      · exact collectDatabaseInfo_catalogFresh _ _ _ _ h
      · unfold collectAllDatabasesInfo
        split
        rename_i heq
        exact collectDatabases_catalogFresh _ _ _ _
          (h.of_quiet (Quiet.of_result (scanAllDatabases_quiet _ _ _ _) heq))
    unfold collectElements
    split
    · rename_i heq; rw [heq] at h1; exact h1
    · rename_i heq; rw [heq] at h1; exact ih _ h1

/-- Whatever it returns, `collectDatabaseAndTableInfos` leaves a catalog
with one entry per key and no table created. -/
theorem collectDatabaseAndTableInfos_catalogFresh (env : Environment) (s : State) :
    CatalogFresh (collectDatabaseAndTableInfos env s).2 := by
  unfold collectDatabaseAndTableInfos
  exact collectElements_catalogFresh _ _ _ ⟨by simp [mapKeys], by simp⟩



/-! ## Lemmas on the public calls -/

theorem restoreMetadataTry_ok_stage (env : Environment) (fuel : Nat) (s : State) (r : Unit)
    (s1 : State) (h : restoreMetadataTry env fuel s = some (.ok r, s1)) :
    s1.current_stage = Stage.kInsertingDataToTables := by
  unfold restoreMetadataTry at h
  repeat' (first | split at h | dsimp only at h)
  all_goals first
    | cases h
    | (simp only [Option.some.injEq] at h
       rename_i s6 _
       have := setStage_current_stage env Stage.kInsertingDataToTables "" s6
       rw [h] at this
       exact this)

theorem restoreMetadata_stage (env : Environment) (fuel : Nat) (s : State)
    (r : Except Exception Unit) (s1 : State) (h : restoreMetadata env fuel s = some (r, s1)) :
    s1.current_stage = Stage.kInsertingDataToTables ∨ s1.current_stage = Stage.kError := by
  unfold restoreMetadata at h
  split at h
  · cases h
  · rename_i heq
    simp only [Option.some.injEq, Prod.mk.injEq] at h
    rw [← h.2]
    exact Or.inl (restoreMetadataTry_ok_stage _ _ _ _ _ heq)
  · simp only [Option.some.injEq, Prod.mk.injEq] at h
    rw [← h.2]
    exact Or.inr (setStage_current_stage _ _ _ _)

/-- The exception of a second `restoreMetadata`. -/
theorem restoreMetadata_not_preparing (env : Environment) (fuel : Nat) (s : State)
    (h : s.current_stage ≠ Stage.kPreparing) :
    restoreMetadata env fuel s =
      some (.error ⟨.LOGICAL_ERROR, "Already restoring", []⟩,
        (setStage env Stage.kError
          (env.getCurrentExceptionMessage ⟨.LOGICAL_ERROR, "Already restoring", []⟩) s).2) := by
  simp [restoreMetadata, restoreMetadataTry, h]

theorem addDataRestoreTask_inserting (storage : StoragePtr) (new_task : DataRestoreTask)
    (s : State) (h : s.current_stage = Stage.kInsertingDataToTables) :
    addDataRestoreTask storage new_task s = (.error addingNotAllowed, s) := by
  simp [addDataRestoreTask, h, addingNotAllowed]

theorem addDataRestoreTasks_inserting (storage : StoragePtr) (new_tasks : List DataRestoreTask)
    (s : State) (h : s.current_stage = Stage.kInsertingDataToTables) :
    addDataRestoreTasks storage new_tasks s = (.error addingNotAllowed, s) := by
  simp [addDataRestoreTasks, h, addingNotAllowed]

theorem getDataRestoreTasks_snd (s : State) : (getDataRestoreTasks s).2 = s := by
  unfold getDataRestoreTasks; split <;> rfl

theorem runCalls_inserting (env : Environment) (calls : List PublicCall) (s : State)
    (h : s.current_stage = Stage.kInsertingDataToTables)
    (hcalls : ∀ call ∈ calls, call.isTaskCall = true) :
    ∃ results, runCalls env calls s = some (results, s) := by
  induction calls with
  | nil => exact ⟨[], rfl⟩
  | cons call rest ih =>
    obtain ⟨results, hr⟩ := ih (fun c hc => hcalls c (List.mem_cons_of_mem _ hc))
    have hc := hcalls call (List.mem_cons_self _ _)
    cases call with
    | restoreMetadata fuel => simp [PublicCall.isTaskCall] at hc
    | addDataRestoreTask storage new_task =>
      refine ⟨.raised addingNotAllowed :: results, ?_⟩
      simp [runCalls, PublicCall.run, addDataRestoreTask_inserting _ _ _ h, hr]
    | addDataRestoreTasks storage new_tasks =>
      refine ⟨.raised addingNotAllowed :: results, ?_⟩
      simp [runCalls, PublicCall.run, addDataRestoreTasks_inserting _ _ _ h, hr]
    | getDataRestoreTasks =>
      have h1 := getDataRestoreTasks_snd s
      rcases hg : getDataRestoreTasks s with ⟨r, s1⟩
      rw [hg] at h1
      simp only at h1
      subst h1
      cases r with
      | ok a => exact ⟨.actions a :: results, by simp [runCalls, PublicCall.run, hg, hr]⟩
      | error e => exact ⟨.raised e :: results, by simp [runCalls, PublicCall.run, hg, hr]⟩

theorem addDataRestoreTasks_not_inserting (storage : StoragePtr) (new_tasks : List DataRestoreTask)
    (s : State) (h : s.current_stage ≠ Stage.kInsertingDataToTables) :
    addDataRestoreTasks storage new_tasks s =
      (.ok (), { s with data_restore_tasks := (mapSubscript s.data_restore_tasks storage []
        (fun tasks => tasks ++ new_tasks)) }) := by
  simp [addDataRestoreTasks, h]

theorem addDataRestoreTask_not_inserting (storage : StoragePtr) (new_task : DataRestoreTask)
    (s : State) (h : s.current_stage ≠ Stage.kInsertingDataToTables) :
    addDataRestoreTask storage new_task s =
      (.ok (), { s with data_restore_tasks := (mapSubscript s.data_restore_tasks storage []
        (fun tasks => tasks ++ [new_task])) }) := by
  simp [addDataRestoreTask, h]

theorem sum_lengths_mapModify (m : List (StoragePtr × List DataRestoreTask)) (k : StoragePtr)
    (new_tasks : List DataRestoreTask) (hn : (mapKeys m).Nodup) (hk : k ∈ mapKeys m) :
    ((mapModify m k (fun tasks => tasks ++ new_tasks)).map (fun entry => entry.2.length)).sum =
      (m.map (fun entry => entry.2.length)).sum + new_tasks.length := by
  induction m with
  | nil => simp [mapKeys] at hk
  | cons p rest ih =>
    obtain ⟨k2, v2⟩ := p
    simp only [mapKeys, List.map_cons, List.nodup_cons, List.mem_cons] at hn hk
    by_cases h : k2 = k
    · subst h
      have hrest : mapModify rest k2 (fun tasks => tasks ++ new_tasks) = rest := by
        unfold mapModify
        conv => rhs; rw [← List.map_id rest]
        apply List.map_congr_left
        intro p hp
        have : p.1 ≠ k2 := fun h => hn.1 (h ▸ List.mem_map_of_mem Prod.fst hp)
        simp [this]
      have hcons : mapModify ((k2, v2) :: rest) k2 (fun tasks => tasks ++ new_tasks) =
          (k2, v2 ++ new_tasks) :: mapModify rest k2 (fun tasks => tasks ++ new_tasks) := by
        simp [mapModify]
      rw [hcons, hrest]
      simp only [List.map_cons, List.sum_cons, List.length_append]
      omega
    · have hk2 : k ∈ List.map Prod.fst rest := by
        rcases hk with hk | hk
        · exact absurd hk.symm h
        · exact hk
      have hcons : mapModify ((k2, v2) :: rest) k (fun tasks => tasks ++ new_tasks) =
          (k2, v2) :: mapModify rest k (fun tasks => tasks ++ new_tasks) := by
        simp [mapModify, h]
      rw [hcons]
      simp only [List.map_cons, List.sum_cons]
      rw [ih hn.2 hk2]
      omega

theorem sum_lengths_mapSubscript (m : List (StoragePtr × List DataRestoreTask)) (k : StoragePtr)
    (new_tasks : List DataRestoreTask) (hn : (mapKeys m).Nodup) :
    ((mapSubscript m k [] (fun tasks => tasks ++ new_tasks)).map
        (fun entry => entry.2.length)).sum =
      (m.map (fun entry => entry.2.length)).sum + new_tasks.length := by
  unfold mapSubscript
  by_cases hc : mapContains m k = true
  · simp only [hc, if_true]
    exact sum_lengths_mapModify m k new_tasks hn ((mapContains_iff m k).mp hc)
  · simp [hc]

/-- Registrations made before `kInsertingDataToTables` all succeed; they
append to the task list of their storage and touch nothing else. -/
theorem runRegistrations_not_inserting (regs : List Registration) (s : State)
    (h : s.current_stage ≠ Stage.kInsertingDataToTables)
    (hn : (mapKeys s.data_restore_tasks).Nodup) :
    (runRegistrations regs s).1 = .ok () ∧
      (runRegistrations regs s).2.current_stage = s.current_stage ∧
      (runRegistrations regs s).2.table_locks = s.table_locks ∧
      (runRegistrations regs s).2.table_infos = s.table_infos ∧
      (mapKeys (runRegistrations regs s).2.data_restore_tasks).Nodup ∧
      ((runRegistrations regs s).2.data_restore_tasks.map (fun entry => entry.2.length)).sum =
        (s.data_restore_tasks.map (fun entry => entry.2.length)).sum +
          (regs.map (fun reg => reg.tasks.length)).sum ∧
      ∀ storage, (mapFind (runRegistrations regs s).2.data_restore_tasks storage).getD [] =
        (mapFind s.data_restore_tasks storage).getD [] ++ registeredTasks regs storage := by
  induction regs generalizing s with
  | nil => simp [runRegistrations, registeredTasks, hn]
  | cons reg rest ih =>
    cases reg with
    | one st t =>
      unfold runRegistrations
      rw [addDataRestoreTask_not_inserting st t s h]
      dsimp only
      obtain ⟨a, b, c, d, e, g, f⟩ := ih { s with data_restore_tasks := (mapSubscript
        s.data_restore_tasks st [] (fun tasks => tasks ++ [t])) } h
        (mapKeys_mapSubscript_nodup s.data_restore_tasks st [] (fun tasks => tasks ++ [t]) hn)
      refine ⟨a, b, c, d, e, ?_, ?_⟩
      · rw [g]
        simp only [sum_lengths_mapSubscript _ _ _ hn, List.map_cons, List.sum_cons,
          Registration.tasks, List.length_singleton]
        omega
      intro storage
      rw [f storage]
      simp only [mapFind_mapSubscript]
      by_cases h1 : storage = st
      · subst h1
        simp [registeredTasks, Registration.storage, Registration.tasks, List.filter_cons]
      · have h2 : ¬ st = storage := fun h3 => h1 h3.symm
        simp [registeredTasks, Registration.storage, h1, h2, List.filter_cons]
    | many st t =>
      unfold runRegistrations
      rw [addDataRestoreTasks_not_inserting st t s h]
      dsimp only
      obtain ⟨a, b, c, d, e, g, f⟩ := ih { s with data_restore_tasks := (mapSubscript
        s.data_restore_tasks st [] (fun tasks => tasks ++ t)) } h
        (mapKeys_mapSubscript_nodup s.data_restore_tasks st [] (fun tasks => tasks ++ t) hn)
      refine ⟨a, b, c, d, e, ?_, ?_⟩
      · rw [g]
        simp only [sum_lengths_mapSubscript _ _ _ hn, List.map_cons, List.sum_cons,
          Registration.tasks]
        omega
      intro storage
      rw [f storage]
      simp only [mapFind_mapSubscript]
      by_cases h1 : storage = st
      · subst h1
        simp [registeredTasks, Registration.storage, Registration.tasks, List.filter_cons]
      · have h2 : ¬ st = storage := fun h3 => h1 h3.symm
        simp [registeredTasks, Registration.storage, h1, h2, List.filter_cons]

theorem actions_filter_storage (locks : List (StoragePtr × TableLockHolder))
    (m : List (StoragePtr × List DataRestoreTask)) (storage : StoragePtr) :
    (((m.map (actionsOfStorage locks)).flatten.filter
        (fun a => decide (a.storage = storage))).map DataRestoreAction.task) =
      ((m.filter (fun entry => decide (entry.1 = storage))).map Prod.snd).flatten := by
  induction m with
  | nil => simp
  | cons entry rest ih =>
    obtain ⟨st, tasks⟩ := entry
    simp only [List.map_cons, List.flatten_cons, List.filter_append, List.map_append, ih,
      List.filter_cons]
    by_cases h : st = storage
    · subst h
      simp [actionsOfStorage, List.filter_map, Function.comp_def]
    · simp [actionsOfStorage, List.filter_map, Function.comp_def, h]

theorem actions_length (locks : List (StoragePtr × TableLockHolder))
    (m : List (StoragePtr × List DataRestoreTask)) :
    ((m.map (actionsOfStorage locks)).flatten).length =
      (m.map (fun entry => entry.2.length)).sum := by
  induction m with
  | nil => simp
  | cons entry rest ih => simp [actionsOfStorage, ih]

theorem actions_run (locks : List (StoragePtr × TableLockHolder))
    (m : List (StoragePtr × List DataRestoreTask)) :
    (((m.map (actionsOfStorage locks)).flatten.map DataRestoreAction.run).flatten) =
      (m.map Prod.snd).flatten := by
  induction m with
  | nil => simp
  | cons entry rest ih =>
    simp only [List.map_cons, List.flatten_cons, List.map_append, List.flatten_append, ih]
    congr 1
    simp only [actionsOfStorage, List.map_map]
    induction entry.2 with
    | nil => simp
    | cons t ts ih2 => simp [DataRestoreAction.run, ih2]

theorem actions_lock (locks : List (StoragePtr × TableLockHolder))
    (m : List (StoragePtr × List DataRestoreTask)) (a : DataRestoreAction)
    (h : a ∈ (m.map (actionsOfStorage locks)).flatten) :
    a.table_lock = mapFind locks a.storage ∧
      ∃ entry ∈ m, entry.1 = a.storage ∧ a.task ∈ entry.2 := by
  simp only [List.mem_flatten, List.mem_map, exists_exists_and_eq_and] at h
  obtain ⟨entry, hentry, ha⟩ := h
  simp only [actionsOfStorage, List.mem_map] at ha
  obtain ⟨t, ht, rfl⟩ := ha
  exact ⟨rfl, entry, hentry, rfl, ht⟩

theorem collectedT2T1_dependsOn (a b : QualifiedTableName)
    (h : DependsOn collectedT2T1.table_infos a b) : a = ⟨"db", "t2"⟩ ∧ b = ⟨"db", "t1"⟩ := by
  obtain ⟨info, h1, h2, _⟩ := h
  have hm : collectedT2T1.table_infos =
      [(⟨"db", "t2"⟩, { create_table_query := some { definition := "CREATE TABLE db.t2 AS db.t1" }
                        data_path_in_backup := ["data", "db", "t2"]
                        dependencies := [⟨"db", "t1"⟩] }),
       (⟨"db", "t1"⟩, { create_table_query := some { definition := "CREATE TABLE db.t1" }
                        data_path_in_backup := ["data", "db", "t1"] })] := by decide
  rw [hm] at h1
  simp only [mapFind] at h1
  split at h1
  · rename_i ha
    simp only [Option.some.injEq] at h1
    subst h1
    simp only [List.mem_singleton] at h2
    exact ⟨ha.symm, h2⟩
  · split at h1
    · simp only [Option.some.injEq] at h1
      subst h1
      simp at h2
    · cases h1

theorem chosenShard_eq (env : Environment) (s : State) :
    chosenShard env s = shardByPrecedence s.restore_settings.shard_num_in_backup
      (env.listFiles ["shards"]) (computedShardAndReplica env s).1 := by
  unfold chosenShard shardByPrecedence
  by_cases h : s.restore_settings.shard_num_in_backup = 0
  · rcases hl : env.listFiles ["shards"] with _ | ⟨a, _ | ⟨b, rest⟩⟩ <;> simp [h]
  · simp [h]

theorem replicaByPrecedence_eq (listed : List String) (computed : Nat) :
    replicaByPrecedence 0 listed computed =
      if toString computed ∉ listed then listed.headD "" else toString computed := by
  unfold replicaByPrecedence
  rcases listed with _ | ⟨a, _ | ⟨b, rest⟩⟩
  · simp
  · by_cases h : toString computed = a <;> simp [h]
  · by_cases h : toString computed ∈ a :: b :: rest
    · simp only [h, not_true_eq_false, if_false, if_true]; simp
    · simp only [h, not_false_eq_true, if_false, if_true]; simp

theorem findRootPathsInBackup_listed (env : Environment) (s : State)
    (hshards : env.listFiles ["shards"] ≠ [])
    (hreplicas : env.listFiles ["shards", chosenShard env s, "replicas"] ≠ [])
    (hok : (findRootPathsInBackup env s).1 = .ok ()) :
    chosenShard env s ∈ env.listFiles ["shards"] ∧
    replicaByPrecedence s.restore_settings.replica_num_in_backup
        (env.listFiles ["shards", chosenShard env s, "replicas"])
        (computedShardAndReplica env s).2 ∈
      env.listFiles ["shards", chosenShard env s, "replicas"] ∧
    (findRootPathsInBackup env s).2.root_paths_in_backup =
      [["shards", chosenShard env s, "replicas",
          replicaByPrecedence s.restore_settings.replica_num_in_backup
            (env.listFiles ["shards", chosenShard env s, "replicas"])
            (computedShardAndReplica env s).2],
        ["shards", chosenShard env s], []] := by
  revert hok
  unfold findRootPathsInBackup
  dsimp only
  rw [addShardPart_eq]
  generalize hc : chosenShard env s = c at *
  by_cases h2 : c ∈ env.listFiles ["shards"]
  · by_cases h4 : s.restore_settings.replica_num_in_backup = 0
    · rw [h4, replicaByPrecedence_eq]
      by_cases h5 : toString (computedShardAndReplica env s).2 ∈
          env.listFiles ["shards", c, "replicas"]
      · simp [hshards, h2, hreplicas, h4, h5, addReplicaPart_eq]
      · have : (env.listFiles ["shards", c, "replicas"]).headD "" ∈
            env.listFiles ["shards", c, "replicas"] := by
          rcases hl : env.listFiles ["shards", c, "replicas"] with _ | ⟨a, rest⟩
          · exact absurd hl hreplicas
          · simp
        have this2 : (env.listFiles ["shards", c, "replicas"]).head?.getD "" ∈
            env.listFiles ["shards", c, "replicas"] := by simpa using this
        simp [hshards, h2, hreplicas, h4, h5, addReplicaPart_eq, this2]
    · have hp : replicaByPrecedence s.restore_settings.replica_num_in_backup
          (env.listFiles ["shards", c, "replicas"]) (computedShardAndReplica env s).2 =
          toString s.restore_settings.replica_num_in_backup := by
        simp [replicaByPrecedence, h4]
      rw [hp]
      by_cases h5 : toString s.restore_settings.replica_num_in_backup ∈
          env.listFiles ["shards", c, "replicas"]
      · simp [hshards, h2, hreplicas, h4, h5, addReplicaPart_eq]
      · simp [hshards, h2, hreplicas, h4, h5, addReplicaPart_eq]
  · simp [hshards, h2]

theorem State.recordAll_nil (s : State) : s.recordAll [] = s := by
  cases s; simp [State.recordAll]

theorem State.record_eq_recordAll (s : State) (ev : Event) : s.record ev = s.recordAll [ev] :=
  rfl

theorem State.recordAll_recordAll (s : State) (evs evs1 : List Event) :
    (s.recordAll evs).recordAll evs1 = s.recordAll (evs ++ evs1) := by
  simp [State.recordAll]

theorem findTableMetadata_cons (env : Environment) (name : QualifiedTableName) (root : Path)
    (rest : List Path) (s : State) :
    findTableMetadata env name (root :: rest) s =
      if env.fileExists (tableMetadataPath env root name) then
        (some (tableMetadataPath env root name, root),
          s.record (Event.fileExists (tableMetadataPath env root name)))
      else
        findTableMetadata env name rest
          (s.record (Event.fileExists (tableMetadataPath env root name))) := by
  conv_lhs => unfold findTableMetadata
  rfl

theorem findTableMetadata_spec (env : Environment) (name : QualifiedTableName)
    (roots : List Path) (s : State) :
    ∃ probes, findTableMetadata env name roots s =
        ((firstRootWithTable env name roots).map
          (fun root => (tableMetadataPath env root name, root)), s.recordAll probes) ∧
      ∀ ev ∈ probes, ∃ path, ev = Event.fileExists path := by
  induction roots generalizing s with
  | nil => exact ⟨[], by simp [findTableMetadata, firstRootWithTable, State.recordAll_nil], by simp⟩
  | cons root rest ih =>
    rw [findTableMetadata_cons]
    by_cases h : env.fileExists (tableMetadataPath env root name) = true
    · refine ⟨[Event.fileExists (tableMetadataPath env root name)], ?_, by simp⟩
      simp [firstRootWithTable, h, State.record_eq_recordAll]
    · obtain ⟨probes, hp, hall⟩ :=
        ih (s.record (Event.fileExists (tableMetadataPath env root name)))
      refine ⟨Event.fileExists (tableMetadataPath env root name) :: probes, ?_, ?_⟩
      · rw [if_neg h, hp, State.record_eq_recordAll, State.recordAll_recordAll]
        simp [firstRootWithTable, h]
      · intro ev hev
        rcases List.mem_cons.mp hev with h2 | h2
        · exact ⟨_, h2⟩
        · exact hall ev h2

theorem mem_setInsert (names : List String) (name x : String) :
    x ∈ setInsert names name ↔ x ∈ names ∨ x = name := by
  unfold setInsert
  by_cases h : name ∈ names
  · simp only [h, if_true]
    constructor
    · exact Or.inl
    · rintro (h1 | h1)
      · exact h1
      · rw [h1]; exact h
  · simp [h]

theorem nodup_setInsert (names : List String) (name : String) (h : names.Nodup) :
    (setInsert names name).Nodup := by
  unfold setInsert
  by_cases h1 : name ∈ names
  · simp [h1, h]
  · simp only [h1, if_false]
    rw [List.nodup_append]
    refine ⟨h, by simp, ?_⟩
    intro a ha hb
    simp at hb
    subst hb
    exact h1 ha

theorem insertTableNames_spec (env : Environment) (files : List String) (names : List String) :
    (∀ x, x ∈ files.foldl (fun names file_name =>
          if endsWith file_name ".sql" then
            setInsert names (env.unescapeForFileName (dropLast file_name 4))
          else names) names ↔
        x ∈ names ∨ x ∈ (files.filter (fun file_name => endsWith file_name ".sql")).map
          (fun file_name => env.unescapeForFileName (dropLast file_name 4))) ∧
      (names.Nodup → (files.foldl (fun names file_name =>
          if endsWith file_name ".sql" then
            setInsert names (env.unescapeForFileName (dropLast file_name 4))
          else names) names).Nodup) := by
  induction files generalizing names with
  | nil => simp
  | cons f rest ih =>
    simp only [List.foldl_cons]
    by_cases h : endsWith f ".sql" = true
    · simp only [h, if_true]
      obtain ⟨h1, h2⟩ := ih (setInsert names (env.unescapeForFileName (dropLast f 4)))
      refine ⟨?_, fun hn => h2 (nodup_setInsert _ _ hn)⟩
      intro x
      rw [h1, mem_setInsert]
      simp only [List.filter_cons, h, if_true, List.map_cons, List.mem_cons]
      tauto
    · obtain ⟨h1, h2⟩ := ih names
      have h3 : endsWith f ".sql" = false := by simpa using h
      simp only [h3, Bool.false_eq_true, if_false]
      refine ⟨?_, h2⟩
      intro x
      rw [h1]
      simp [List.filter_cons, h3]

theorem scanDatabaseMetadata_spec (env : Environment) (database : String) (roots : List Path)
    (metadata_path : Option Path) (names : List String) (s : State) :
    ∃ names1 probes, scanDatabaseMetadata env database roots metadata_path names s =
        ((metadata_path.orElse (fun _ => (firstRootWithDatabase env database roots).map
            (fun root => databaseMetadataPath env root database)), names1),
          s.recordAll probes) ∧
      (∀ x, x ∈ names1 ↔ x ∈ names ∨ x ∈ tableNamesOfDatabase env database roots) ∧
      (names.Nodup → names1.Nodup) ∧
      ∀ ev ∈ probes, ev.kind = EventKind.backup := by
  induction roots generalizing metadata_path names s with
  | nil =>
    refine ⟨names, [], ?_, by simp [tableNamesOfDatabase], id, by simp⟩
    cases metadata_path <;>
      simp [scanDatabaseMetadata, firstRootWithDatabase, State.recordAll_nil]
  | cons root rest ih =>
    conv => enter [1, names1, 1, probes, 1, 1]; unfold scanDatabaseMetadata
    dsimp only
    obtain ⟨hmem, hnodup⟩ := insertTableNames_spec env
      (env.listFiles ((root.join "metadata").join (env.escapeForFileName database))) names
    cases metadata_path with
    | some found =>
      obtain ⟨names1, probes, heq, h1, h2, h3⟩ := ih (some found) _
        (s.record (Event.listFiles
          ((root.join "metadata").join (env.escapeForFileName database))))
      refine ⟨names1, Event.listFiles
          ((root.join "metadata").join (env.escapeForFileName database)) :: probes, ?_, ?_, ?_, ?_⟩
      · rw [heq, State.record_eq_recordAll, State.recordAll_recordAll]
        simp
      · intro x
        rw [h1, hmem]
        simp only [tableNamesOfDatabase, List.map_cons, List.flatten_cons, List.mem_append,
          tableNamesUnder]
        tauto
      · exact fun hn => h2 (hnodup hn)
      · intro ev hev
        rcases List.mem_cons.mp hev with h4 | h4
        · rw [h4]; rfl
        · exact h3 ev h4
    | none =>
      obtain ⟨names1, probes, heq, h1, h2, h3⟩ := ih
        (if env.fileExists ((root.join "metadata").join
            (env.escapeForFileName database ++ ".sql")) then
          some ((root.join "metadata").join (env.escapeForFileName database ++ ".sql"))
          else none) _
        ((s.record (Event.fileExists ((root.join "metadata").join
            (env.escapeForFileName database ++ ".sql")))).record (Event.listFiles
          ((root.join "metadata").join (env.escapeForFileName database))))
      refine ⟨names1, Event.fileExists ((root.join "metadata").join
            (env.escapeForFileName database ++ ".sql")) :: Event.listFiles
          ((root.join "metadata").join (env.escapeForFileName database)) :: probes, ?_, ?_, ?_, ?_⟩
      · rw [heq, State.record_eq_recordAll, State.record_eq_recordAll,
          State.recordAll_recordAll, State.recordAll_recordAll]
        by_cases h : env.fileExists ((root.join "metadata").join
            (env.escapeForFileName database ++ ".sql")) = true
        · simp [h, firstRootWithDatabase, databaseMetadataPath]
        · simp [h, firstRootWithDatabase, databaseMetadataPath]
      · intro x
        rw [h1, hmem]
        simp only [tableNamesOfDatabase, List.map_cons, List.flatten_cons, List.mem_append,
          tableNamesUnder]
        tauto
      · exact fun hn => h2 (hnodup hn)
      · intro ev hev
        rcases List.mem_cons.mp hev with h4 | h4
        · rw [h4]; rfl
        · rcases List.mem_cons.mp h4 with h5 | h5
          · rw [h5]; rfl
          · exact h3 ev h5

theorem OnlyTables.none_changed (s : State) : OnlyTables s s :=
  ⟨s.table_infos, [], by cases s; simp [State.recordAll], by simp⟩

theorem OnlyTables.and_also {s s1 s2 : State} (h1 : OnlyTables s s1) (h2 : OnlyTables s1 s2) :
    OnlyTables s s2 := by
  obtain ⟨m1, evs1, rfl, hk1⟩ := h1
  obtain ⟨m2, evs2, rfl, hk2⟩ := h2
  refine ⟨m2, evs1 ++ evs2, by simp [State.recordAll], ?_⟩
  intro ev hev
  rcases List.mem_append.mp hev with h | h
  · exact hk1 ev h
  · exact hk2 ev h

theorem OnlyTables.of_pair {α : Type} {s s1 : State} {x : α × State} {r : α}
    (h : OnlyTables s x.2) (heq : x = (r, s1)) : OnlyTables s s1 := by
  rw [heq] at h; exact h

theorem collectTableInfo_not_found (env : Environment) (name : QualifiedTableName)
    (partitions : Option (List PartitionExpr)) (s : State)
    (hroot : firstRootWithTable env name s.root_paths_in_backup = none) :
    ∃ probes, collectTableInfo env name partitions s =
        (.error (tableNotFound env name), s.recordAll probes) ∧
      ∀ ev ∈ probes, ∃ path, ev = Event.fileExists path := by
  obtain ⟨probes, hp, hall⟩ := findTableMetadata_spec env name s.root_paths_in_backup s
  refine ⟨probes, ?_, hall⟩
  unfold collectTableInfo
  rw [hp, hroot]
  rfl

theorem collectTableInfo_read_error (env : Environment) (name : QualifiedTableName)
    (partitions : Option (List PartitionExpr)) (s : State) (root : Path) (e : Exception)
    (hroot : firstRootWithTable env name s.root_paths_in_backup = some root)
    (hread : env.readFile (tableMetadataPath env root name) = .error e) :
    ∃ probes, collectTableInfo env name partitions s =
        (.error e, s.recordAll (probes ++ [Event.readFile (tableMetadataPath env root name)])) ∧
      ∀ ev ∈ probes, ∃ path, ev = Event.fileExists path := by
  obtain ⟨probes, hp, hall⟩ := findTableMetadata_spec env name s.root_paths_in_backup s
  refine ⟨probes, ?_, hall⟩
  unfold collectTableInfo
  rw [hp, hroot]
  simp only [Option.map_some', hread, State.record_eq_recordAll, State.recordAll_recordAll]

theorem collectTableInfo_parse_error (env : Environment) (name : QualifiedTableName)
    (partitions : Option (List PartitionExpr)) (s : State) (root : Path) (text : String)
    (e : Exception)
    (hroot : firstRootWithTable env name s.root_paths_in_backup = some root)
    (hread : env.readFile (tableMetadataPath env root name) = .ok text)
    (hparse : env.parseQuery text = .error e) :
    ∃ probes, collectTableInfo env name partitions s =
        (.error e, s.recordAll (probes ++ [Event.readFile (tableMetadataPath env root name)])) ∧
      ∀ ev ∈ probes, ∃ path, ev = Event.fileExists path := by
  obtain ⟨probes, hp, hall⟩ := findTableMetadata_spec env name s.root_paths_in_backup s
  refine ⟨probes, ?_, hall⟩
  unfold collectTableInfo
  rw [hp, hroot]
  simp only [Option.map_some', hread, hparse, State.record_eq_recordAll,
    State.recordAll_recordAll]

theorem collectTableInfo_found (env : Environment) (name : QualifiedTableName)
    (partitions : Option (List PartitionExpr)) (s : State) (root : Path) (text : String)
    (parsed : ASTCreateQuery)
    (hroot : firstRootWithTable env name s.root_paths_in_backup = some root)
    (hread : env.readFile (tableMetadataPath env root name) = .ok text)
    (hparse : env.parseQuery text = .ok parsed) :
    ∃ probes, (∀ ev ∈ probes, ∃ path, ev = Event.fileExists path) ∧
      (∀ info stored,
        mapFind s.table_infos (s.renaming_settings.getNewTableName name) = some info →
        info.create_table_query = some stored →
        env.serializeAST stored ≠
          env.serializeAST (env.renameInCreateQuery s.renaming_settings parsed) →
        collectTableInfo env name partitions s =
          (.error ⟨.CANNOT_RESTORE_TABLE,
            "Extracted two different create queries for the same table {}: {} and {}",
            [env.getFullName (s.renaming_settings.getNewTableName name),
              env.serializeAST stored,
              env.serializeAST (env.renameInCreateQuery s.renaming_settings parsed)]⟩,
            s.recordAll (probes ++ [Event.readFile (tableMetadataPath env root name)]))) ∧
      ((∀ info stored,
          mapFind s.table_infos (s.renaming_settings.getNewTableName name) = some info →
          info.create_table_query = some stored →
          env.serializeAST stored =
            env.serializeAST (env.renameInCreateQuery s.renaming_settings parsed)) →
        collectTableInfo env name partitions s =
          (.ok (),
            { s.recordAll (probes ++ [Event.readFile (tableMetadataPath env root name)]) with
              table_infos := mapSubscript s.table_infos
                (s.renaming_settings.getNewTableName name) {}
                (collectedTableInfo env root name (s.renaming_settings.getNewTableName name)
                  (env.renameInCreateQuery s.renaming_settings parsed) partitions) })) := by
  obtain ⟨probes, hp, hall⟩ := findTableMetadata_spec env name s.root_paths_in_backup s
  refine ⟨probes, hall, ?_, ?_⟩
  · intro info stored hkey hstored hne
    unfold collectTableInfo
    rw [hp, hroot]
    simp only [Option.map_some', hread, hparse, State.record_eq_recordAll,
      State.recordAll_recordAll]
    simp [State.recordAll, hkey, hstored, hne]
  · intro hsame
    unfold collectTableInfo
    rw [hp, hroot]
    simp only [Option.map_some', hread, hparse, State.record_eq_recordAll,
      State.recordAll_recordAll]
    rcases hkey : mapFind s.table_infos (s.renaming_settings.getNewTableName name) with _ | info
    · simp [State.recordAll, hkey]
      rfl
    · rcases hstored : info.create_table_query with _ | stored
      · simp [State.recordAll, hkey, hstored]
        rfl
      · have := hsame info stored hkey hstored
        simp [State.recordAll, hkey, hstored, this]
        rfl

theorem collectTableInfo_cases (env : Environment) (name : QualifiedTableName)
    (partitions : Option (List PartitionExpr)) (s : State) :
    ∃ probes, (∀ ev ∈ probes, ∃ path, ev = Event.fileExists path) ∧
      ((firstRootWithTable env name s.root_paths_in_backup = none ∧
          collectTableInfo env name partitions s =
            (.error (tableNotFound env name), s.recordAll probes)) ∨
        ∃ root, firstRootWithTable env name s.root_paths_in_backup = some root ∧
          ((∃ e, (env.readFile (tableMetadataPath env root name) = .error e ∨
                ∃ text, env.readFile (tableMetadataPath env root name) = .ok text ∧
                  (env.parseQuery text = .error e ∨ e.code = ErrorCode.CANNOT_RESTORE_TABLE)) ∧
              collectTableInfo env name partitions s =
                (.error e,
                  s.recordAll (probes ++ [Event.readFile (tableMetadataPath env root name)]))) ∨
            ∃ text parsed, env.readFile (tableMetadataPath env root name) = .ok text ∧
              env.parseQuery text = .ok parsed ∧
              collectTableInfo env name partitions s =
                (.ok (),
                  { s.recordAll (probes ++ [Event.readFile (tableMetadataPath env root name)]) with
                    table_infos := mapSubscript s.table_infos
                      (s.renaming_settings.getNewTableName name) {}
                      (collectedTableInfo env root name
                        (s.renaming_settings.getNewTableName name)
                        (env.renameInCreateQuery s.renaming_settings parsed) partitions) }))) := by
  rcases hroot : firstRootWithTable env name s.root_paths_in_backup with _ | root
  · obtain ⟨probes, h, hall⟩ := collectTableInfo_not_found env name partitions s hroot
    exact ⟨probes, hall, Or.inl ⟨rfl, h⟩⟩
  · rcases hread : env.readFile (tableMetadataPath env root name) with e | text
    · obtain ⟨probes, h, hall⟩ := collectTableInfo_read_error env name partitions s root e hroot hread
      exact ⟨probes, hall, Or.inr ⟨root, rfl, Or.inl ⟨e, Or.inl hread, h⟩⟩⟩
    · rcases hparse : env.parseQuery text with e | parsed
      · obtain ⟨probes, h, hall⟩ :=
          collectTableInfo_parse_error env name partitions s root text e hroot hread hparse
        exact ⟨probes, hall, Or.inr ⟨root, rfl, Or.inl ⟨e, Or.inr ⟨text, hread, Or.inl hparse⟩, h⟩⟩⟩
      · obtain ⟨probes, hall, hdiff, hsame⟩ :=
          collectTableInfo_found env name partitions s root text parsed hroot hread hparse
        refine ⟨probes, hall, Or.inr ⟨root, rfl, ?_⟩⟩
        by_cases hc : ∀ info stored,
            mapFind s.table_infos (s.renaming_settings.getNewTableName name) = some info →
            info.create_table_query = some stored →
            env.serializeAST stored =
              env.serializeAST (env.renameInCreateQuery s.renaming_settings parsed)
        · exact Or.inr ⟨text, parsed, hread, hparse, hsame hc⟩
        · push_neg at hc
          obtain ⟨info, stored, h1, h2, h3⟩ := hc
          exact Or.inl ⟨_, Or.inr ⟨text, hread, Or.inr rfl⟩, hdiff info stored h1 h2 h3⟩

theorem fileExists_kind (ev : Event) (h : ∃ path, ev = Event.fileExists path) :
    ev.kind = EventKind.backup := by
  obtain ⟨path, rfl⟩ := h
  rfl

theorem backup_kind_append (probes : List Event) (path : Path)
    (h : ∀ ev ∈ probes, ∃ p, ev = Event.fileExists p) :
    ∀ ev ∈ probes ++ [Event.readFile path], ev.kind = EventKind.backup := by
  intro ev hev
  rcases List.mem_append.mp hev with h1 | h1
  · exact fileExists_kind ev (h ev h1)
  · simp only [List.mem_singleton] at h1
    rw [h1]; rfl

theorem collectTableInfo_onlyTables (env : Environment) (name : QualifiedTableName)
    (partitions : Option (List PartitionExpr)) (s : State) :
    OnlyTables s (collectTableInfo env name partitions s).2 := by
  obtain ⟨probes, hall, h | ⟨root, _, ⟨e, _, h⟩ | ⟨text, parsed, _, _, h⟩⟩⟩ :=
    collectTableInfo_cases env name partitions s
  · rw [h.2]
    exact ⟨s.table_infos, probes, rfl, fun ev hev => fileExists_kind ev (hall ev hev)⟩
  · rw [h]
    exact ⟨s.table_infos, _, rfl, backup_kind_append probes _ hall⟩
  · rw [h]
    exact ⟨_, _, rfl, backup_kind_append probes _ hall⟩

theorem collectTablesOfDatabase_onlyTables (env : Environment) (database : String)
    (except_names : List String) (names : List String) (s : State) :
    OnlyTables s (collectTablesOfDatabase env database except_names names s).2 := by
  induction names generalizing s with
  | nil => exact OnlyTables.none_changed s
  | cons name rest ih =>
    unfold collectTablesOfDatabase
    split
    · exact ih s
    · split
      · rename_i heq
        exact OnlyTables.of_pair (collectTableInfo_onlyTables _ _ _ _) heq
      · rename_i heq
        exact (OnlyTables.of_pair (collectTableInfo_onlyTables _ _ _ _) heq).and_also (ih _)

theorem mapModify_id {κ α : Type} [DecidableEq κ] (m : List (κ × α)) (k : κ) :
    mapModify m k id = m := by
  unfold mapModify
  conv_rhs => rw [← List.map_id m]
  apply List.map_congr_left
  intro p _
  split <;> rfl

theorem mapModify_of_not_mem {κ α : Type} [DecidableEq κ] (m : List (κ × α)) (k : κ)
    (f : α → α) (h : k ∉ mapKeys m) : mapModify m k f = m := by
  unfold mapModify
  conv_rhs => rw [← List.map_id m]
  apply List.map_congr_left
  intro p hp
  have : p.1 ≠ k := by
    intro h1
    apply h
    rw [← h1]
    exact List.mem_map_of_mem Prod.fst hp
  simp [this]

theorem mapModify_mapSubscript_id {κ α : Type} [DecidableEq κ] (m : List (κ × α)) (k : κ)
    (dflt : α) (f : α → α) :
    mapModify (mapSubscript m k dflt id) k f = mapSubscript m k dflt f := by
  unfold mapSubscript
  by_cases hc : mapContains m k = true
  · simp only [hc, if_true, mapModify_id]
  · have hk : k ∉ mapKeys m := fun h => hc ((mapContains_iff m k).mpr h)
    simp only [hc, Bool.false_eq_true, if_false]
    unfold mapModify
    rw [List.map_append]
    have := mapModify_of_not_mem m k f hk
    unfold mapModify at this
    rw [this]
    simp

theorem mapSubscript_id_of_mem {κ α : Type} [DecidableEq κ] (m : List (κ × α)) (k : κ)
    (dflt : α) (h : k ∈ mapKeys m) : mapSubscript m k dflt id = m := by
  unfold mapSubscript
  rw [(mapContains_iff m k).mpr h]
  simp [mapModify_id]

theorem mapFind_mapSubscript_id {κ α : Type} [DecidableEq κ] (m : List (κ × α)) (k : κ)
    (dflt : α) : mapFind (mapSubscript m k dflt id) k = some ((mapFind m k).getD dflt) := by
  rw [mapFind_mapSubscript]
  simp

theorem readCreateDatabaseQuery_recordAll (env : Environment) (metadata_path : Option Path)
    (name : String) (s : State) (evs : List Event) :
    (readCreateDatabaseQuery env metadata_path name (s.recordAll evs)).1 =
      (readCreateDatabaseQuery env metadata_path name s).1 := by
  unfold readCreateDatabaseQuery
  cases metadata_path with
  | none => rfl
  | some path =>
    dsimp only
    cases env.readFile path with
    | error e => rfl
    | ok text =>
      dsimp only
      cases env.parseQuery text <;> rfl

theorem readCreateDatabaseQuery_snd (env : Environment) (metadata_path : Option Path)
    (name : String) (s : State) :
    (readCreateDatabaseQuery env metadata_path name s).2 =
      s.recordAll (metadata_path.toList.map Event.readFile) := by
  unfold readCreateDatabaseQuery
  cases metadata_path with
  | none => simp [State.recordAll_nil]
  | some path =>
    dsimp only
    cases env.readFile path with
    | error e => rfl
    | ok text =>
      dsimp only
      cases env.parseQuery text <;> rfl

theorem readCreateDatabaseQuery_ok (env : Environment) (metadata_path : Option Path)
    (name : String) (s : State) (q : ASTCreateQuery)
    (h : (readCreateDatabaseQuery env metadata_path name s).1 = .ok q) :
    (∀ path, metadata_path = some path → ∃ text parsed, env.readFile path = .ok text ∧
        env.parseQuery text = .ok parsed ∧
        q = env.renameInCreateQuery s.renaming_settings parsed) ∧
      (metadata_path = none → q = { database := name }) := by
  unfold readCreateDatabaseQuery at h
  cases metadata_path with
  | none =>
    simp only [Except.ok.injEq] at h
    exact ⟨by simp, fun _ => h.symm⟩
  | some path =>
    dsimp only at h
    refine ⟨?_, by simp⟩
    intro p hp
    simp only [Option.some.injEq] at hp
    subst hp
    cases hr : env.readFile path with
    | error e => rw [hr] at h; cases h
    | ok text =>
      rw [hr] at h
      dsimp only at h
      cases hq : env.parseQuery text with
      | error e => rw [hq] at h; cases h
      | ok parsed =>
        rw [hq] at h
        simp only [Except.ok.injEq] at h
        exact ⟨text, parsed, rfl, hq, h.symm⟩

theorem readCreateDatabaseQuery_error (env : Environment) (metadata_path : Option Path)
    (name : String) (s : State) (e : Exception)
    (h : (readCreateDatabaseQuery env metadata_path name s).1 = .error e) :
    ∃ path, metadata_path = some path ∧ (env.readFile path = .error e ∨
      ∃ text, env.readFile path = .ok text ∧ env.parseQuery text = .error e) := by
  unfold readCreateDatabaseQuery at h
  cases metadata_path with
  | none => cases h
  | some path =>
    dsimp only at h
    refine ⟨path, rfl, ?_⟩
    cases hr : env.readFile path with
    | error e1 =>
      rw [hr] at h
      simp only [Except.error.injEq] at h
      exact Or.inl (by rw [h])
    | ok text =>
      rw [hr] at h
      dsimp only at h
      cases hq : env.parseQuery text with
      | error e1 =>
        rw [hq] at h
        simp only [Except.error.injEq] at h
        exact Or.inr ⟨text, rfl, by rw [← h]; exact hq⟩
      | ok parsed => rw [hq] at h; cases h

theorem collectDatabaseInfo_spec (env : Environment) (database : String)
    (except_names : List String) (s : State) :
    ∃ names probes, (∀ x, x ∈ names ↔ x ∈ tableNamesOfDatabase env database s.root_paths_in_backup) ∧
      names.Nodup ∧ (∀ ev ∈ probes, ev.kind = EventKind.backup) ∧
      (firstRootWithDatabase env database s.root_paths_in_backup = none →
        tableNamesOfDatabase env database s.root_paths_in_backup = [] →
        collectDatabaseInfo env database except_names s =
          (.error (databaseNotFound env database), s.recordAll probes)) ∧
      ((firstRootWithDatabase env database s.root_paths_in_backup ≠ none ∨
          tableNamesOfDatabase env database s.root_paths_in_backup ≠ []) →
        (∀ e, (readCreateDatabaseQuery env
              (firstDatabaseMetadata env database s.root_paths_in_backup)
              (s.renaming_settings.getNewDatabaseName database) s).1 = .error e →
          collectDatabaseInfo env database except_names s = (.error e, s.recordAll probes)) ∧
        (∀ q, (readCreateDatabaseQuery env
              (firstDatabaseMetadata env database s.root_paths_in_backup)
              (s.renaming_settings.getNewDatabaseName database) s).1 = .ok q →
          (∀ info stored,
            mapFind s.database_infos (s.renaming_settings.getNewDatabaseName database) =
              some info →
            info.create_database_query = some stored →
            env.serializeAST stored ≠ env.serializeAST q →
            collectDatabaseInfo env database except_names s =
              (.error ⟨.CANNOT_RESTORE_DATABASE,
                "Extracted two different create queries for the same database {}: {} and {}",
                [env.backQuoteIfNeed (s.renaming_settings.getNewDatabaseName database),
                  env.serializeAST stored, env.serializeAST q]⟩, s.recordAll probes)) ∧
          ((∀ info stored,
              mapFind s.database_infos (s.renaming_settings.getNewDatabaseName database) =
                some info →
              info.create_database_query = some stored →
              env.serializeAST stored = env.serializeAST q) →
            collectDatabaseInfo env database except_names s =
              collectTablesOfDatabase env database except_names names
                { s.recordAll probes with
                  database_infos := mapSubscript s.database_infos
                    (s.renaming_settings.getNewDatabaseName database) {}
                    (collectedDatabaseInfo q) }))) := by
  obtain ⟨names, probes, hscan, hmem, hnodup, hkind⟩ :=
    scanDatabaseMetadata_spec env database s.root_paths_in_backup none [] s
  simp only [List.not_mem_nil, false_or] at hmem
  have hscan1 : scanDatabaseMetadata env database s.root_paths_in_backup none [] s =
      (((firstRootWithDatabase env database s.root_paths_in_backup).map
        (fun root => databaseMetadataPath env root database), names), s.recordAll probes) := hscan
  have hnames : names = [] ↔ tableNamesOfDatabase env database s.root_paths_in_backup = [] := by
    constructor
    · intro h
      apply List.eq_nil_iff_forall_not_mem.mpr
      intro x hx
      have := (hmem x).mpr hx
      rw [h] at this
      cases this
    · intro h
      apply List.eq_nil_iff_forall_not_mem.mpr
      intro x hx
      have := (hmem x).mp hx
      rw [h] at this
      cases this
  have hreads : ∀ ev ∈ probes ++
      (firstDatabaseMetadata env database s.root_paths_in_backup).toList.map Event.readFile,
      ev.kind = EventKind.backup := by
    intro ev hev
    rcases List.mem_append.mp hev with h | h
    · exact hkind ev h
    · obtain ⟨path, _, rfl⟩ := List.mem_map.mp h
      rfl
  refine ⟨names, probes ++
    (firstDatabaseMetadata env database s.root_paths_in_backup).toList.map Event.readFile,
    hmem, hnodup (by simp), hreads, ?_, ?_⟩
  · intro h1 h2
    have h3 := hnames.mpr h2
    unfold collectDatabaseInfo
    rw [hscan1, h1, h3]
    simp [databaseNotFound, firstDatabaseMetadata, h1]
  · intro hfound
    have hcond : ¬ (((firstRootWithDatabase env database s.root_paths_in_backup).map
        (fun root => databaseMetadataPath env root database)).isNone = true ∧
        names.isEmpty = true) := by
      rintro ⟨h1, h2⟩
      rcases hfound with h | h
      · apply h
        cases hr : firstRootWithDatabase env database s.root_paths_in_backup with
        | none => rfl
        | some root => rw [hr] at h1; simp at h1
      · apply h
        rw [← hnames]
        simpa using h2
    have hpair : readCreateDatabaseQuery env
        ((firstRootWithDatabase env database s.root_paths_in_backup).map
          (fun root => databaseMetadataPath env root database))
        ((s.recordAll probes).renaming_settings.getNewDatabaseName database)
        (s.recordAll probes) =
        ((readCreateDatabaseQuery env
          (firstDatabaseMetadata env database s.root_paths_in_backup)
          (s.renaming_settings.getNewDatabaseName database) s).1,
          s.recordAll (probes ++
            (firstDatabaseMetadata env database s.root_paths_in_backup).toList.map
              Event.readFile)) := by
      apply Prod.ext
      · exact readCreateDatabaseQuery_recordAll env _ _ s probes
      · have := readCreateDatabaseQuery_snd env
          (firstDatabaseMetadata env database s.root_paths_in_backup)
          (s.renaming_settings.getNewDatabaseName database) (s.recordAll probes)
        rw [State.recordAll_recordAll] at this
        exact this
    refine ⟨?_, ?_⟩
    · intro e he
      unfold collectDatabaseInfo
      rw [hscan1]
      simp only [hcond, if_false]
      rw [hpair, he]
    · intro q hq
      refine ⟨?_, ?_⟩
      · intro info stored hkey hstored hne
        have hk : s.renaming_settings.getNewDatabaseName database ∈ mapKeys s.database_infos :=
          (mem_mapKeys_iff _ _).mpr ⟨info, hkey⟩
        unfold collectDatabaseInfo
        rw [hscan1]
        simp only [hcond, if_false]
        rw [hpair, hq]
        simp [State.recordAll, mapSubscript_id_of_mem _ _ _ hk, hkey, hstored, hne]
      · intro hsame
        unfold collectDatabaseInfo
        rw [hscan1]
        simp only [hcond, if_false]
        rw [hpair, hq]
        have hfind := mapFind_mapSubscript_id s.database_infos
          (s.renaming_settings.getNewDatabaseName database) ({} : DatabaseInfo)
        rcases hkey : mapFind s.database_infos
          (s.renaming_settings.getNewDatabaseName database) with _ | info
        · rw [hkey] at hfind
          simp [State.recordAll, hfind, mapModify_mapSubscript_id]
          rfl
        · rw [hkey] at hfind
          rcases hstored : info.create_database_query with _ | stored
          · simp [State.recordAll, hfind, hstored, mapModify_mapSubscript_id]
            rfl
          · have := hsame info stored hkey hstored
            simp [State.recordAll, hfind, hstored, this, mapModify_mapSubscript_id]
            rfl

theorem Scenario.readFile_code (sc : Scenario) (path : Path) (e : Exception)
    (h : sc.env.readFile path = .error e) : e.code ≠ ErrorCode.BACKUP_ENTRY_NOT_FOUND := by
  simp only [Scenario.env] at h
  split at h
  · cases h
  · simp only [Except.error.injEq] at h
    rw [← h]
    decide

theorem Scenario.parseQuery_code (sc : Scenario) (text : String) (e : Exception)
    (h : sc.env.parseQuery text = .error e) : e.code ≠ ErrorCode.BACKUP_ENTRY_NOT_FOUND := by
  simp only [Scenario.env] at h
  cases h

theorem PublicCall.run_error_stage (env : Environment) (call : PublicCall) (s : State)
    (h : s.current_stage = Stage.kError) :
    ∃ result s1, call.run env s = some (result, s1) ∧ s1.current_stage = Stage.kError := by
  have h1 : s.current_stage ≠ Stage.kPreparing := by rw [h]; decide
  have h2 : s.current_stage ≠ Stage.kInsertingDataToTables := by rw [h]; decide
  cases call with
  | restoreMetadata fuel =>
    refine ⟨.raised ⟨.LOGICAL_ERROR, "Already restoring", []⟩, _, ?_,
      setStage_current_stage env Stage.kError
        (env.getCurrentExceptionMessage ⟨.LOGICAL_ERROR, "Already restoring", []⟩) s⟩
    simp only [PublicCall.run, restoreMetadata_not_preparing env fuel s h1]
  | addDataRestoreTask storage new_task =>
    refine ⟨.done, (DB.addDataRestoreTask storage new_task s).2, ?_, ?_⟩
    · simp only [PublicCall.run, addDataRestoreTask_not_inserting storage new_task s h2]
    · rw [addDataRestoreTask_not_inserting storage new_task s h2]; exact h
  | addDataRestoreTasks storage new_tasks =>
    refine ⟨.done, (DB.addDataRestoreTasks storage new_tasks s).2, ?_, ?_⟩
    · simp only [PublicCall.run, addDataRestoreTasks_not_inserting storage new_tasks s h2]
    · rw [addDataRestoreTasks_not_inserting storage new_tasks s h2]; exact h
  | getDataRestoreTasks =>
    refine ⟨.raised ⟨.LOGICAL_ERROR, "Metadata wasn't restored", []⟩, s, ?_, h⟩
    have : DB.getDataRestoreTasks s =
        (.error ⟨.LOGICAL_ERROR, "Metadata wasn't restored", []⟩, s) := by
      simp [DB.getDataRestoreTasks, h2]
    simp only [PublicCall.run, this]

theorem announcedStages_append (evs more : List Event) :
    announcedStages (evs ++ more) = announcedStages evs ++ announcedStages more := by
  induction evs with
  | nil => rfl
  | cons ev rest ih => cases ev <;> simp [announcedStages, ih]

theorem announcedStages_of_no_barrier (evs : List Event)
    (h : ∀ ev ∈ evs, ev.kind ≠ EventKind.barrier) : announcedStages evs = [] := by
  induction evs with
  | nil => rfl
  | cons ev rest ih =>
    have h1 := h ev (List.mem_cons_self _ _)
    have h2 := ih (fun e he => h e (List.mem_cons_of_mem _ he))
    cases ev <;> simp_all [announcedStages, Event.kind]

theorem BarriersPassed.empty (env : Environment) (base : List Event) :
    BarriersPassed env base [] := by
  intro pre host stage all_hosts post h
  have := congrArg List.length h
  simp at this
  omega

theorem BarriersPassed.append_quiet {env : Environment} {base evs more : List Event}
    (h : BarriersPassed env base evs) (hmore : ∀ ev ∈ more, ev.kind ≠ EventKind.barrier) :
    BarriersPassed env base (evs ++ more) := by
  intro pre host stage all_hosts post heq
  rcases List.append_eq_append_iff.mp heq with ⟨a, h1, h2⟩ | ⟨c, h1, h2⟩
  · exfalso
    have : Event.syncStage host stage all_hosts ∈ more := by rw [h2]; simp
    exact hmore _ this rfl
  · cases c with
    | nil =>
      exfalso
      simp only [List.nil_append] at h2
      have : Event.syncStage host stage all_hosts ∈ more := by rw [← h2]; simp
      exact hmore _ this rfl
    | cons ev c1 =>
      simp only [List.cons_append, List.cons.injEq] at h2
      obtain ⟨h3, _⟩ := h2
      subst h3
      exact h pre host stage all_hosts c1 h1

theorem BarriersPassed.append_barrier {env : Environment} {base evs : List Event}
    (h : BarriersPassed env base evs) (host : String) (stage : Int) (all_hosts : List String)
    (hok : env.syncStage (base ++ evs) host stage all_hosts = .ok ()) :
    BarriersPassed env base (evs ++ [Event.syncStage host stage all_hosts]) := by
  intro pre host1 stage1 hosts1 post heq
  rcases List.append_eq_append_iff.mp heq with ⟨a, h1, h2⟩ | ⟨c, h1, h2⟩
  · cases a with
    | nil =>
      simp only [List.nil_append, List.cons.injEq, Event.syncStage.injEq] at h2
      obtain ⟨⟨h3, h4, h5⟩, _⟩ := h2
      subst h3; subst h4; subst h5
      simp only [List.append_nil] at h1
      rw [h1]; exact hok
    | cons ev a1 =>
      simp only [List.cons_append, List.cons.injEq] at h2
      have := congrArg List.length h2.2
      simp at this
      omega
  · cases c with
    | nil =>
      simp only [List.nil_append, List.cons.injEq, Event.syncStage.injEq] at h2
      obtain ⟨⟨h3, h4, h5⟩, _⟩ := h2
      subst h3; subst h4; subst h5
      simp only [List.append_nil] at h1
      rw [← h1]; exact hok
    | cons ev c1 =>
      simp only [List.cons_append, List.cons.injEq] at h2
      obtain ⟨h3, _⟩ := h2
      subst h3
      exact h pre host1 stage1 hosts1 c1 h1

theorem Reached.start (env : Environment) (s : State) : Reached env s 0 s :=
  ⟨rfl, [], by simp, BarriersPassed.empty env _, rfl, by simp⟩

theorem Reached.phase {env : Environment} {s x x1 : State} {n : Nat} {P : Event → Prop}
    (h : Reached env s n x) (hf : Frame P x x1)
    (hP : ∀ ev, P ev → ev.kind ≠ EventKind.barrier ∧ ev.kind ≠ EventKind.announceError) :
    Reached env s n x1 := by
  obtain ⟨hset, evs, htrace, hpassed, hann, hno⟩ := h
  obtain ⟨hset1, _, more, htrace1, hmore⟩ := hf
  refine ⟨hset1.trans hset, evs ++ more, ?_, ?_, ?_, ?_⟩
  · rw [htrace1, htrace, List.append_assoc]
  · exact hpassed.append_quiet (fun ev hev => (hP ev (hmore ev hev)).1)
  · rw [announcedStages_append, hann,
      announcedStages_of_no_barrier more (fun ev hev => (hP ev (hmore ev hev)).1),
      List.append_nil]
  · intro ev hev
    rcases List.mem_append.mp hev with h1 | h1
    · exact hno ev h1
    · exact (hP ev (hmore ev h1)).2

theorem setStage_eq (env : Environment) (st : Stage) (s : State) (h : st ≠ Stage.kError) :
    setStage env st "" s =
      (env.syncStage s.trace s.restore_settings.host_id st.toInt
          (env.filterHostIDs s.restore_settings.cluster_host_ids s.restore_settings.shard_num
            s.restore_settings.replica_num),
        { s with
          current_stage := st
          trace := s.trace ++ [Event.syncStage s.restore_settings.host_id st.toInt
            (env.filterHostIDs s.restore_settings.cluster_host_ids s.restore_settings.shard_num
              s.restore_settings.replica_num)] }) := by
  simp [setStage, h, State.record]

theorem Reached.barrier {env : Environment} {s x x1 : State} {n : Nat} {st : Stage}
    (h : Reached env s n x) (hst : st ≠ Stage.kError)
    (hn : (stageSequence.take (n + 1)).map Stage.toInt =
      (stageSequence.take n).map Stage.toInt ++ [st.toInt])
    (hx : setStage env st "" x = (.ok (), x1)) : Reached env s (n + 1) x1 := by
  obtain ⟨hset, evs, htrace, hpassed, hann, hno⟩ := h
  rw [setStage_eq env st x hst] at hx
  simp only [Prod.mk.injEq] at hx
  obtain ⟨hok, hx1⟩ := hx
  subst hx1
  refine ⟨hset, evs ++ [Event.syncStage x.restore_settings.host_id st.toInt
    (env.filterHostIDs x.restore_settings.cluster_host_ids x.restore_settings.shard_num
      x.restore_settings.replica_num)], ?_, ?_, ?_, ?_⟩
  · simp only [htrace, List.append_assoc]
  · apply hpassed.append_barrier
    rw [← htrace]; exact hok
  · rw [announcedStages_append, hann, hn]
    rfl
  · intro ev hev
    rcases List.mem_append.mp hev with h1 | h1
    · exact hno ev h1
    · simp only [List.mem_singleton] at h1
      rw [h1]
      simp [Event.kind]

theorem Reached.barrier_failed {env : Environment} {s x x1 : State} {n : Nat} {st : Stage}
    {e : Exception} (h : Reached env s n x) (hst : st ≠ Stage.kError) (hlt : n < 4)
    (hn : (stageSequence.take (n + 1)).map Stage.toInt =
      (stageSequence.take n).map Stage.toInt ++ [st.toInt])
    (hx : setStage env st "" x = (.error e, x1)) : BarrierFailed env s e x1 := by
  obtain ⟨hset, evs, htrace, hpassed, hann, hno⟩ := h
  rw [setStage_eq env st x hst] at hx
  simp only [Prod.mk.injEq] at hx
  obtain ⟨herr, hx1⟩ := hx
  subst hx1
  refine ⟨hset, evs, x.restore_settings.host_id, st.toInt,
    env.filterHostIDs x.restore_settings.cluster_host_ids x.restore_settings.shard_num
      x.restore_settings.replica_num, ?_, hpassed, ?_, hno, n, hlt, hann, hn⟩
  · simp only [htrace]
  · rw [← htrace]; exact herr

theorem restoreMetadataTry_barriers (env : Environment) (fuel : Nat) (s : State)
    (r : Except Exception Unit) (s1 : State) (h : restoreMetadataTry env fuel s = some (r, s1)) :
    (∃ n, Reached env s n s1 ∧ n ≤ 4 ∧ (r = .ok () ↔ n = 4)) ∨
      ∃ e, r = .error e ∧ BarrierFailed env s e s1 := by
  have hb : ∀ ev : Event, ev.kind = EventKind.backup →
      ev.kind ≠ EventKind.barrier ∧ ev.kind ≠ EventKind.announceError := by
    intro ev h1; rw [h1]; exact ⟨by decide, by decide⟩
  have hd : ∀ ev : Event, ev.kind = EventKind.databaseCreation ∨ ev.kind = EventKind.catalog →
      ev.kind ≠ EventKind.barrier ∧ ev.kind ≠ EventKind.announceError := by
    intro ev h1; rcases h1 with h1 | h1 <;> rw [h1] <;> exact ⟨by decide, by decide⟩
  have ht : ∀ ev : Event, ev.kind = EventKind.tableCreation ∨ ev.kind = EventKind.catalog →
      ev.kind ≠ EventKind.barrier ∧ ev.kind ≠ EventKind.announceError := by
    intro ev h1; rcases h1 with h1 | h1 <;> rw [h1] <;> exact ⟨by decide, by decide⟩
  have hphase : ∀ {n : Nat} {e : Exception} {x : State}, Reached env s n x → n < 4 →
      (∃ n, Reached env s n x ∧ n ≤ 4 ∧ ((Except.error e : Except Exception Unit) = .ok () ↔ n = 4)) ∨
        ∃ e1, (Except.error e : Except Exception Unit) = .error e1 ∧ BarrierFailed env s e1 x := by
    intro n e x hr hlt
    refine Or.inl ⟨n, hr, by omega, ?_⟩
    constructor
    · intro h1; cases h1
    · intro h1; omega
  unfold restoreMetadataTry at h
  split at h
  · simp only [Option.some.injEq, Prod.mk.injEq] at h
    rw [← h.1, ← h.2]
    exact hphase (Reached.start env s) (by omega)
  split at h
  · rename_i heq
    simp only [Option.some.injEq, Prod.mk.injEq] at h
    rw [← h.1, ← h.2]
    exact hphase ((Reached.start env s).phase
      (Frame.of_eq (findRootPathsInBackup_frame _ _) heq) hb) (by omega)
  rename_i sA heqA
  have hA : Reached env s 0
      { sA with renaming_settings := env.setFromBackupQuery sA.restore_query_elements } :=
    ((Reached.start env s).phase (Frame.of_eq (findRootPathsInBackup_frame _ _) heqA) hb).phase
      (Frame.same (P := fun ev => ev.kind = EventKind.backup) rfl rfl rfl) hb
  dsimp only at h
  split at h
  · rename_i heq
    simp only [Option.some.injEq, Prod.mk.injEq] at h
    rw [← h.1, ← h.2]
    exact Or.inr ⟨_, rfl, hA.barrier_failed (by decide) (by omega) rfl heq⟩
  rename_i sB heqB
  have hB : Reached env s 1 sB := hA.barrier (by decide) rfl heqB
  split at h
  · rename_i heq
    simp only [Option.some.injEq, Prod.mk.injEq] at h
    rw [← h.1, ← h.2]
    exact hphase (hB.phase (Frame.of_eq (collectDatabaseAndTableInfos_frame _ _) heq) hb)
      (by omega)
  rename_i sC heqC
  have hC := hB.phase (Frame.of_eq (collectDatabaseAndTableInfos_frame _ _) heqC) hb
  split at h
  · rename_i heq
    simp only [Option.some.injEq, Prod.mk.injEq] at h
    rw [← h.1, ← h.2]
    exact Or.inr ⟨_, rfl, hC.barrier_failed (by decide) (by omega) rfl heq⟩
  rename_i sD heqD
  have hD : Reached env s 2 sD := hC.barrier (by decide) rfl heqD
  split at h
  · rename_i heq
    simp only [Option.some.injEq, Prod.mk.injEq] at h
    rw [← h.1, ← h.2]
    exact hphase (hD.phase (Frame.of_eq (createDatabases_frame _ _) heq) hd) (by omega)
  rename_i sE heqE
  have hE := hD.phase (Frame.of_eq (createDatabases_frame _ _) heqE) hd
  split at h
  · rename_i heq
    simp only [Option.some.injEq, Prod.mk.injEq] at h
    rw [← h.1, ← h.2]
    exact Or.inr ⟨_, rfl, hE.barrier_failed (by decide) (by omega) rfl heq⟩
  rename_i sF heqF
  have hF : Reached env s 3 sF := hE.barrier (by decide) rfl heqF
  split at h
  · cases h
  · rename_i heq
    simp only [Option.some.injEq, Prod.mk.injEq] at h
    rw [← h.1, ← h.2]
    exact hphase (hF.phase (createTables_frame _ _ _ _ _ heq) ht) (by omega)
  · rename_i sG heqG
    have hG := hF.phase (createTables_frame _ _ _ _ _ heqG) ht
    simp only [Option.some.injEq] at h
    cases r with
    | error e => exact Or.inr ⟨e, rfl, hG.barrier_failed (by decide) (by omega) rfl h⟩
    | ok u =>
      exact Or.inl ⟨4, hG.barrier (by decide) rfl h, by omega, by simp⟩

theorem stageSequence_take_le (n : Nat) :
    ∃ m, m ≤ 4 ∧ (stageSequence.take n).map Stage.toInt =
      (stageSequence.take m).map Stage.toInt := by
  by_cases h : n ≤ 4
  · exact ⟨n, h, rfl⟩
  · refine ⟨4, le_refl _, ?_⟩
    rw [List.take_of_length_le (by simp [stageSequence]; omega)]
    rfl

theorem stageSequence_increasing (n : Nat) :
    ((stageSequence.take n).map Stage.toInt).Pairwise (· < ·) ∧
      Stage.kPreparing.toInt ∉ (stageSequence.take n).map Stage.toInt := by
  have h1 : (stageSequence.map Stage.toInt).Pairwise (· < ·) := by decide
  have h2 : Stage.kPreparing.toInt ∉ stageSequence.map Stage.toInt := by decide
  have hsub : ((stageSequence.take n).map Stage.toInt).Sublist (stageSequence.map Stage.toInt) :=
    (List.take_sublist n stageSequence).map Stage.toInt
  exact ⟨h1.sublist hsub, fun h => h2 (hsub.subset h)⟩

theorem stageSequence_whole (n : Nat) (hn : n ≤ 4)
    (h : (stageSequence.take n).map Stage.toInt = stageSequence.map Stage.toInt) : n = 4 := by
  have := congrArg List.length h
  simp [stageSequence] at this
  omega

theorem restoreMetadata_announced (env : Environment) (fuel : Nat) (s : State)
    (r : Except Exception Unit) (s1 : State) (h : restoreMetadata env fuel s = some (r, s1)) :
    ∃ n, n ≤ 4 ∧
      announcedStages s1.trace =
        announcedStages s.trace ++ (stageSequence.take n).map Stage.toInt ∧
      (r = .ok () → n = 4 ∧
        ∀ ev ∈ s1.trace.drop s.trace.length, ev.kind ≠ EventKind.announceError) ∧
      (n = 4 → r = .ok () ∨ ∃ e pre host all_hosts, r = .error e ∧
        env.syncStage pre host Stage.kInsertingDataToTables.toInt all_hosts = .error e) := by
  unfold restoreMetadata at h
  split at h
  · cases h
  · rename_i s2 heq
    simp only [Option.some.injEq, Prod.mk.injEq] at h
    obtain ⟨hr, hs⟩ := h
    subst hr; subst hs
    rcases restoreMetadataTry_barriers env fuel s _ _ heq with
      ⟨n, ⟨_, evs, htrace, _, hann, hno⟩, hn, hiff⟩ | ⟨e, he, _⟩
    · have h4 : n = 4 := hiff.mp rfl
      refine ⟨n, hn, ?_, fun _ => ⟨h4, ?_⟩, fun _ => Or.inl rfl⟩
      · rw [htrace, announcedStages_append, hann]
      · rw [htrace, List.drop_left]
        exact hno
    · cases he
  · rename_i e s2 heq
    simp only [Option.some.injEq, Prod.mk.injEq] at h
    obtain ⟨hr, hs⟩ := h
    subst hr; subst hs
    rw [setStage_error_trace]
    rcases restoreMetadataTry_barriers env fuel s _ _ heq with
      ⟨n, ⟨_, evs, htrace, _, hann, _⟩, hn, hiff⟩ | ⟨e1, he, _, evs, host, stage, hosts, htrace,
        _, hfail, _, n, hlt, hann, hstage⟩
    · have h4 : n ≠ 4 := fun h4 => by cases hiff.mpr h4
      refine ⟨n, hn, ?_, fun h1 => (by cases h1), fun h1 => absurd h1 h4⟩
      rw [htrace, announcedStages_append, announcedStages_append, hann]
      simp [announcedStages]
    · simp only [Except.error.injEq] at he
      subst he
      refine ⟨n + 1, by omega, ?_, fun h1 => (by cases h1), fun h1 => Or.inr ⟨e, s.trace ++ evs, host, hosts, rfl, ?_⟩⟩
      · rw [htrace, announcedStages_append, announcedStages_append, announcedStages_append, hann,
          hstage]
        simp [announcedStages]
      · have h3 : n = 3 := by omega
        subst h3
        have : stage = Stage.kInsertingDataToTables.toInt := by
          simp [stageSequence] at hstage
          exact hstage.symm
        rw [← this]
        exact hfail

theorem PublicCall.run_announced (env : Environment) (call : PublicCall) (s : State)
    (result : CallResult) (s1 : State) (hrun : call.run env s = some (result, s1))
    (hinv : (s.current_stage = Stage.kPreparing ∧ announcedStages s.trace = []) ∨
      (s.current_stage ≠ Stage.kPreparing ∧
        ∃ n, announcedStages s.trace = (stageSequence.take n).map Stage.toInt)) :
    (s1.current_stage = Stage.kPreparing ∧ announcedStages s1.trace = []) ∨
      (s1.current_stage ≠ Stage.kPreparing ∧
        ∃ n, announcedStages s1.trace = (stageSequence.take n).map Stage.toInt) := by
  have hsame : s1.current_stage = s.current_stage → s1.trace = s.trace →
      (s1.current_stage = Stage.kPreparing ∧ announcedStages s1.trace = []) ∨
      (s1.current_stage ≠ Stage.kPreparing ∧
        ∃ n, announcedStages s1.trace = (stageSequence.take n).map Stage.toInt) := by
    intro h1 h2
    rw [h1, h2]
    exact hinv
  cases call with
  | restoreMetadata fuel =>
    have hrm : ∃ r, DB.restoreMetadata env fuel s = some (r, s1) := by
      simp only [PublicCall.run] at hrun
      split at hrun
      · cases hrun
      · rename_i s2 heq
        simp only [Option.some.injEq, Prod.mk.injEq] at hrun
        rw [← hrun.2]; exact ⟨_, heq⟩
      · rename_i e s2 heq
        simp only [Option.some.injEq, Prod.mk.injEq] at hrun
        rw [← hrun.2]; exact ⟨_, heq⟩
    obtain ⟨r, hr⟩ := hrm
    have hstage : s1.current_stage ≠ Stage.kPreparing := by
      rcases restoreMetadata_stage env fuel s r s1 hr with h | h <;> rw [h] <;> decide
    obtain ⟨n, _, hann, _⟩ := restoreMetadata_announced env fuel s r s1 hr
    refine Or.inr ⟨hstage, ?_⟩
    rcases hinv with ⟨_, h0⟩ | ⟨hne, m, hm⟩
    · exact ⟨n, by rw [hann, h0, List.nil_append]⟩
    · rw [restoreMetadata_not_preparing env fuel s hne] at hr
      simp only [Option.some.injEq, Prod.mk.injEq] at hr
      refine ⟨m, ?_⟩
      rw [← hr.2, setStage_error_trace, announcedStages_append, hm]
      simp [announcedStages]
  | addDataRestoreTask storage new_task =>
    have h : s1 = (DB.addDataRestoreTask storage new_task s).2 := by
      simp only [PublicCall.run] at hrun
      split at hrun <;> rename_i heq <;>
        simp only [Option.some.injEq, Prod.mk.injEq] at hrun <;> rw [heq, hrun.2]
    have h1 : s1.current_stage = s.current_stage ∧ s1.trace = s.trace := by
      rw [h]
      unfold DB.addDataRestoreTask
      split <;> exact ⟨rfl, rfl⟩
    exact hsame h1.1 h1.2
  | addDataRestoreTasks storage new_tasks =>
    have h : s1 = (DB.addDataRestoreTasks storage new_tasks s).2 := by
      simp only [PublicCall.run] at hrun
      split at hrun <;> rename_i heq <;>
        simp only [Option.some.injEq, Prod.mk.injEq] at hrun <;> rw [heq, hrun.2]
    have h1 : s1.current_stage = s.current_stage ∧ s1.trace = s.trace := by
      rw [h]
      unfold DB.addDataRestoreTasks
      split <;> exact ⟨rfl, rfl⟩
    exact hsame h1.1 h1.2
  | getDataRestoreTasks =>
    have h : s1 = (DB.getDataRestoreTasks s).2 := by
      simp only [PublicCall.run] at hrun
      split at hrun <;> rename_i heq <;>
        simp only [Option.some.injEq, Prod.mk.injEq] at hrun <;> rw [heq, hrun.2]
    rw [getDataRestoreTasks_snd] at h
    rw [h]
    exact hinv

theorem runCalls_announced (env : Environment) (calls : List PublicCall) (s : State)
    (results : List CallResult) (s1 : State) (hrun : runCalls env calls s = some (results, s1))
    (hinv : (s.current_stage = Stage.kPreparing ∧ announcedStages s.trace = []) ∨
      (s.current_stage ≠ Stage.kPreparing ∧
        ∃ n, announcedStages s.trace = (stageSequence.take n).map Stage.toInt)) :
    ∃ n, announcedStages s1.trace = (stageSequence.take n).map Stage.toInt := by
  induction calls generalizing s results with
  | nil =>
    simp only [runCalls, Option.some.injEq, Prod.mk.injEq] at hrun
    rw [← hrun.2]
    rcases hinv with ⟨_, h0⟩ | ⟨_, h⟩
    · exact ⟨0, by rw [h0]; rfl⟩
    · exact h
  | cons call rest ih =>
    unfold runCalls at hrun
    split at hrun
    · cases hrun
    · rename_i result s2 heq
      split at hrun
      · cases hrun
      · rename_i results2 s3 heq2
        simp only [Option.some.injEq, Prod.mk.injEq] at hrun
        have h3 := hrun.2
        subst h3
        exact ih s2 results2 heq2 (PublicCall.run_announced env call s result s2 heq hinv)

theorem collectTableInfo_error (env : Environment) (name : QualifiedTableName)
    (partitions : Option (List PartitionExpr)) (s : State) (e : Exception)
    (hread : ∀ path e, env.readFile path = .error e →
      e.code ≠ ErrorCode.BACKUP_ENTRY_NOT_FOUND)
    (hparse : ∀ text e, env.parseQuery text = .error e →
      e.code ≠ ErrorCode.BACKUP_ENTRY_NOT_FOUND)
    (h : (collectTableInfo env name partitions s).1 = .error e)
    (hcode : e.code = ErrorCode.BACKUP_ENTRY_NOT_FOUND) : e = tableNotFound env name := by
  obtain ⟨probes, _, hcases⟩ := collectTableInfo_cases env name partitions s
  rcases hcases with h1 | ⟨root, _, ⟨e1, hsrc, h1⟩ | ⟨text, parsed, _, _, h1⟩⟩
  · rw [h1.2] at h
    simp only [Except.error.injEq] at h
    exact h.symm
  · rw [h1] at h
    simp only [Except.error.injEq] at h
    subst h
    rcases hsrc with h2 | ⟨text, _, h2 | h2⟩
    · exact absurd hcode (hread _ _ h2)
    · exact absurd hcode (hparse _ _ h2)
    · rw [h2] at hcode; cases hcode
  · rw [h1] at h
    cases h

theorem collectTablesOfDatabase_error (env : Environment) (database other : String)
    (except_names names : List String) (s : State)
    (hread : ∀ path e, env.readFile path = .error e →
      e.code ≠ ErrorCode.BACKUP_ENTRY_NOT_FOUND)
    (hparse : ∀ text e, env.parseQuery text = .error e →
      e.code ≠ ErrorCode.BACKUP_ENTRY_NOT_FOUND) :
    (collectTablesOfDatabase env database except_names names s).1 ≠
      .error (databaseNotFound env other) := by
  induction names generalizing s with
  | nil =>
    unfold collectTablesOfDatabase
    intro h; cases h
  | cons name rest ih =>
    unfold collectTablesOfDatabase
    split
    · exact ih s
    · split
      · rename_i e s1 heq
        intro h
        simp only [Except.error.injEq] at h
        subst h
        have h1 : (collectTableInfo env ⟨database, name⟩ none s).1 =
            .error (databaseNotFound env other) := by rw [heq]
        have h2 := collectTableInfo_error env _ _ _ _ hread hparse h1 rfl
        have h3 := congrArg Exception.message h2
        simp [databaseNotFound, tableNotFound] at h3
      · exact ih _

theorem collectTablesOfDatabase_filter (env : Environment) (database : String)
    (except_names names : List String) (s : State) :
    collectTablesOfDatabase env database except_names names s =
      collectTablesOfDatabase env database []
        (names.filter (fun name => name ∉ except_names)) s := by
  induction names generalizing s with
  | nil => rfl
  | cons name rest ih =>
    by_cases h : name ∈ except_names
    · rw [List.filter_cons_of_neg (by simpa using h)]
      conv_lhs => unfold collectTablesOfDatabase
      rw [if_pos h]
      exact ih s
    · rw [List.filter_cons_of_pos (by simpa using h)]
      conv_lhs => unfold collectTablesOfDatabase
      conv_rhs => unfold collectTablesOfDatabase
      rw [if_neg h, if_neg (List.not_mem_nil _)]
      split
      · rfl
      · exact ih _

theorem collectTableInfo_ok_keys (env : Environment) (name : QualifiedTableName)
    (partitions : Option (List PartitionExpr)) (s s1 : State)
    (h : collectTableInfo env name partitions s = (.ok (), s1)) :
    s1.renaming_settings = s.renaming_settings ∧
      ∀ key, key ∈ mapKeys s1.table_infos ↔
        key ∈ mapKeys s.table_infos ∨ key = s.renaming_settings.getNewTableName name := by
  obtain ⟨probes, _, hcases⟩ := collectTableInfo_cases env name partitions s
  rcases hcases with h1 | ⟨root, _, ⟨e1, _, h1⟩ | ⟨text, parsed, _, _, h1⟩⟩
  · rw [h1.2] at h; cases h
  · rw [h1] at h; cases h
  · rw [h1] at h
    simp only [Prod.mk.injEq, true_and] at h
    subst h
    refine ⟨rfl, ?_⟩
    intro key
    show key ∈ mapKeys (mapSubscript s.table_infos _ _ _) ↔ _
    rw [mapKeys_mapSubscript]
    split
    · rename_i hk
      constructor
      · exact Or.inl
      · rintro (h2 | h2)
        · exact h2
        · rw [h2]; exact hk
    · simp

theorem collectTablesOfDatabase_ok_keys (env : Environment) (database : String)
    (names : List String) (s s1 : State)
    (h : collectTablesOfDatabase env database [] names s = (.ok (), s1)) :
    ∀ key, key ∈ mapKeys s1.table_infos ↔
      key ∈ mapKeys s.table_infos ∨
        ∃ name ∈ names, key = s.renaming_settings.getNewTableName ⟨database, name⟩ := by
  induction names generalizing s with
  | nil =>
    simp only [collectTablesOfDatabase, Prod.mk.injEq, true_and] at h
    subst h
    simp
  | cons name rest ih =>
    unfold collectTablesOfDatabase at h
    rw [if_neg (List.not_mem_nil _)] at h
    split at h
    · cases h
    · rename_i u s2 heq
      obtain ⟨hren, hkeys⟩ := collectTableInfo_ok_keys env _ _ s s2 heq
      intro key
      rw [ih s2 h key, hkeys key, hren]
      simp only [List.mem_cons, exists_eq_or_imp]
      tauto

theorem collectDatabaseInfo_ok (env : Environment) (database : String)
    (except_names : List String) (s : State)
    (hok : (collectDatabaseInfo env database except_names s).1 = .ok ()) :
    ∃ names probes q, names.Nodup ∧
      (∀ x, x ∈ names ↔ x ∈ tableNamesOfDatabase env database s.root_paths_in_backup) ∧
      collectDatabaseInfo env database except_names s =
        collectTablesOfDatabase env database except_names names
          { s.recordAll probes with
            database_infos := mapSubscript s.database_infos
              (s.renaming_settings.getNewDatabaseName database) {}
              (collectedDatabaseInfo q) } := by
  obtain ⟨names, probes, hmem, hnodup, _, hnot, hfound⟩ :=
    collectDatabaseInfo_spec env database except_names s
  have hf : firstRootWithDatabase env database s.root_paths_in_backup ≠ none ∨
      tableNamesOfDatabase env database s.root_paths_in_backup ≠ [] := by
    by_contra h1
    push_neg at h1
    rw [hnot h1.1 h1.2] at hok
    cases hok
  obtain ⟨herr, hq⟩ := hfound hf
  rcases hr : (readCreateDatabaseQuery env
      (firstDatabaseMetadata env database s.root_paths_in_backup)
      (s.renaming_settings.getNewDatabaseName database) s).1 with e | q
  · rw [herr e hr] at hok
    cases hok
  · obtain ⟨hdiff, hsame⟩ := hq q hr
    by_cases hc : ∀ info stored,
        mapFind s.database_infos (s.renaming_settings.getNewDatabaseName database) =
          some info →
        info.create_database_query = some stored →
        env.serializeAST stored = env.serializeAST q
    · exact ⟨names, probes, q, hnodup, hmem, hsame hc⟩
    · push_neg at hc
      obtain ⟨info, stored, h1, h2, h3⟩ := hc
      rw [hdiff info stored h1 h2 h3] at hok
      cases hok

theorem split_before_last {α : Type} (evs pre post : List α) (last x : α) (hne : last ≠ x)
    (h : evs ++ [last] = pre ++ x :: post) : ∃ rest, evs = pre ++ x :: rest := by
  induction evs generalizing pre with
  | nil =>
    cases pre with
    | nil =>
      simp only [List.nil_append, List.cons.injEq] at h
      exact absurd h.1 hne
    | cons a p =>
      simp only [List.nil_append, List.cons_append, List.cons.injEq] at h
      have := congrArg List.length h.2
      simp at this
      omega
  | cons a rest ih =>
    cases pre with
    | nil =>
      simp only [List.cons_append, List.nil_append, List.cons.injEq] at h
      exact ⟨rest, by rw [h.1]; rfl⟩
    | cons b p =>
      simp only [List.cons_append, List.cons.injEq] at h
      obtain ⟨c, hc⟩ := ih p h.2
      exact ⟨c, by rw [h.1, hc]; rfl⟩

theorem split_at_failed {α : Type} (evs pre post : List α) (failed last x : α) (hne : last ≠ x)
    (h : evs ++ [failed, last] = pre ++ x :: post) :
    (pre = evs ∧ x = failed ∧ post = [last]) ∨ ∃ rest, evs = pre ++ x :: rest := by
  have h1 : (evs ++ [failed]) ++ [last] = pre ++ x :: post := by simpa using h
  obtain ⟨rest, hrest⟩ := split_before_last (evs ++ [failed]) pre post last x hne h1
  rcases List.eq_nil_or_concat rest with hnil | ⟨init, b, hb⟩
  · subst hnil
    left
    have h2 : evs ++ [failed] = pre ++ [x] := hrest
    have h3 := List.append_inj' h2 rfl
    simp only [List.cons.injEq, and_true] at h3
    refine ⟨h3.1.symm, h3.2.symm, ?_⟩
    rw [hrest] at h1
    simpa using h1.symm
  · right
    subst hb
    have h2 : evs ++ [failed] = (pre ++ x :: init) ++ [b] := by simpa using hrest
    have h3 := List.append_inj' h2 rfl
    exact ⟨init, h3.1⟩

theorem BarriersPassed.not_failed {env : Environment} {base evs : List Event}
    (h : BarriersPassed env base evs) (pre rest : List Event) (host : String) (stage : Int)
    (all_hosts : List String) (e : Exception)
    (heq : evs = pre ++ Event.syncStage host stage all_hosts :: rest)
    (hfail : env.syncStage (base ++ pre) host stage all_hosts = .error e) : False := by
  have := h pre host stage all_hosts rest heq
  rw [this] at hfail
  cases hfail

theorem allDependenciesMet_iff (m : List (QualifiedTableName × TableInfo))
    (dependencies : List QualifiedTableName) :
    allDependenciesMet m dependencies = true ↔ DependenciesCreated m dependencies := by
  unfold allDependenciesMet DependenciesCreated
  rw [List.all_eq_true]
  constructor
  · intro h d hd info hinfo
    have := h d hd
    rw [hinfo] at this
    exact this
  · intro h d hd
    cases hinfo : mapFind m d with
    | none => rfl
    | some info => exact h d hd info hinfo

theorem nodup_map_fst_filter {κ α : Type} (m : List (κ × α)) (p : κ × α → Bool)
    (h : (mapKeys m).Nodup) : ((m.filter p).map Prod.fst).Nodup :=
  h.sublist ((List.filter_sublist m).map Prod.fst)

theorem uncreatedCount_le_length (m : List (QualifiedTableName × TableInfo)) :
    uncreatedCount m ≤ m.length := by
  unfold uncreatedCount
  exact List.length_filter_le _ _

theorem nextWave_ne_nil (s : State) (h : ∃ entry ∈ s.table_infos, entry.2.created = false) :
    (nextWave s).1 ≠ [] := by
  rw [nextWave_fst]
  intro hnil
  obtain ⟨entry, hentry, hc⟩ := h
  have := (findTablesWithoutDependencies_eq_nil_iff s.table_infos).mp hnil entry hentry
  rw [hc] at this
  cases this

theorem createTablesInWave_decreases (env : Environment) (s s2 : State)
    (hwave : createTablesInWave env (nextWave s).1 (nextWave s).2 = (.ok (), s2))
    (hne : (nextWave s).1 ≠ []) :
    uncreatedCount s2.table_infos < uncreatedCount s.table_infos := by
  obtain ⟨⟨done, _, hinfos, hall⟩, _, _⟩ :=
    createTablesInWave_effect env (nextWave s).1 (nextWave s).2
  rw [hwave] at hinfos hall
  have hdone : done = (nextWave s).1 := hall rfl
  subst hdone
  obtain ⟨k, hk⟩ := List.exists_mem_of_ne_nil _ hne
  have hk2 := hk
  rw [nextWave_fst] at hk2
  obtain ⟨entry, hmem, hkey, hcreated⟩ := findTablesWithoutDependencies_mem _ k hk2
  simp only at hinfos
  rw [hinfos, (nextWave_quiet s).1]
  exact uncreatedCount_markCreatedAll_lt _ _ entry hmem hcreated (hkey ▸ hk)

theorem createTables_waves_bounded (env : Environment) (fuel : Nat) (s s1 : State)
    (h : createTables env fuel s = some (.ok (), s1)) :
    ∃ n, n ≤ uncreatedCount s.table_infos ∧ afterWaves env n s = some s1 := by
  obtain ⟨r, s2, h2, _⟩ := createTables_terminates env (uncreatedCount s.table_infos + 1) s
    (by omega)
  have ha := createTables_fuel_mono env fuel (uncreatedCount s.table_infos + 1) s _ h
  have hb := createTables_fuel_mono env (uncreatedCount s.table_infos + 1) fuel s _ h2
  rw [Nat.add_comm] at hb
  rw [ha] at hb
  simp only [Option.some.injEq, Prod.mk.injEq] at hb
  rw [← hb.1, ← hb.2] at h2
  obtain ⟨n, hn, hwaves⟩ := createTables_afterWaves env _ s s1 h2
  exact ⟨n, by omega, hwaves⟩

theorem mem_uncreatedTables (m : List (QualifiedTableName × TableInfo)) (k : QualifiedTableName) :
    k ∈ uncreatedTables m ↔ ∃ entry ∈ m, entry.1 = k ∧ entry.2.created = false := by
  unfold uncreatedTables
  simp only [List.mem_map, List.mem_filter, Bool.not_eq_true']
  constructor
  · rintro ⟨entry, ⟨h1, h2⟩, h3⟩
    exact ⟨entry, h1, h3, h2⟩
  · rintro ⟨entry, h1, h3, h2⟩
    exact ⟨entry, ⟨h1, h2⟩, h3⟩

theorem mem_uncreatedTables_markCreatedAll (d : List QualifiedTableName)
    (m : List (QualifiedTableName × TableInfo)) (k : QualifiedTableName) :
    k ∈ uncreatedTables (markCreatedAll d m) ↔ k ∈ uncreatedTables m ∧ k ∉ d := by
  rw [mem_uncreatedTables, mem_uncreatedTables]
  constructor
  · rintro ⟨entry, hentry, hkey, hc⟩
    obtain ⟨e, he, heq⟩ := (mem_markCreatedAll _ _ _).mp hentry
    by_cases hk : e.1 ∈ d
    · rw [if_pos hk] at heq
      rw [heq] at hc
      cases hc
    · rw [if_neg hk] at heq
      subst heq
      exact ⟨⟨entry, he, hkey, hc⟩, hkey ▸ hk⟩
  · rintro ⟨⟨entry, hentry, hkey, hc⟩, hk⟩
    refine ⟨entry, (mem_markCreatedAll _ _ _).mpr ⟨entry, hentry, ?_⟩, hkey, hc⟩
    rw [if_neg (hkey ▸ hk)]

theorem nextWave_subset (s : State) : ∀ k ∈ (nextWave s).1, k ∈ uncreatedTables s.table_infos := by
  intro k hk
  rw [nextWave_fst] at hk
  obtain ⟨entry, hentry, hkey, hc⟩ := findTablesWithoutDependencies_mem _ k hk
  exact List.mem_map.mpr ⟨entry, List.mem_filter.mpr ⟨hentry, by simp [hc]⟩, hkey⟩

theorem nextWave_nodup (s : State) (hkeys : (mapKeys s.table_infos).Nodup) :
    (nextWave s).1.Nodup := by
  rw [nextWave_fst]
  unfold findTablesWithoutDependencies
  dsimp only
  split
  · rw [List.filter_filter]
    exact nodup_map_fst_filter _ _ hkeys
  · split
    · exact List.nodup_nil
    · exact nodup_map_fst_filter _ _ hkeys

theorem selectedWaves_nodup (env : Environment) (fuel : Nat) (s : State)
    (hkeys : (mapKeys s.table_infos).Nodup) :
    (selectedWaves env fuel s).flatten.Nodup ∧
      ∀ k ∈ (selectedWaves env fuel s).flatten, k ∈ uncreatedTables s.table_infos := by
  induction fuel generalizing s with
  | zero => simp [selectedWaves]
  | succ n ih =>
    have hsub := nextWave_subset s
    have hnd := nextWave_nodup s hkeys
    have hq := nextWave_quiet s
    unfold selectedWaves
    rcases hw : nextWave s with ⟨tables, s1⟩
    rw [hw] at hsub hnd hq
    simp only at hsub hnd hq ⊢
    by_cases hempty : tables.isEmpty = true
    · simp [hempty]
    · rw [if_neg hempty]
      obtain ⟨⟨done, _, hinfos, hall⟩, _, _⟩ := createTablesInWave_effect env tables s1
      rcases hc : createTablesInWave env tables s1 with ⟨r, s2⟩
      rw [hc] at hinfos hall
      cases r with
      | error e =>
        simp only [List.flatten_cons, List.flatten_nil, List.append_nil]
        exact ⟨hnd, hsub⟩
      | ok u =>
        simp only at hinfos hall ⊢
        have hdone : done = tables := hall trivial
        subst hdone
        rw [hq.1] at hinfos
        have hkeys2 : (mapKeys s2.table_infos).Nodup := by
          rw [hinfos, mapKeys_markCreatedAll]; exact hkeys
        obtain ⟨ih1, ih2⟩ := ih s2 hkeys2
        have hrest : ∀ k ∈ (selectedWaves env n s2).flatten,
            k ∈ uncreatedTables s.table_infos ∧ k ∉ done := by
          intro k hk
          have := ih2 k hk
          rw [hinfos] at this
          exact (mem_uncreatedTables_markCreatedAll _ _ _).mp this
        simp only [List.flatten_cons]
        refine ⟨?_, ?_⟩
        · rw [List.nodup_append]
          refine ⟨hnd, ih1, ?_⟩
          intro k hk1 hk2
          exact (hrest k hk2).2 hk1
        · intro k hk
          rcases List.mem_append.mp hk with h1 | h1
          · exact hsub k h1
          · exact (hrest k h1).1

theorem selectedWaves_complete (env : Environment) (fuel : Nat) (s s1 : State)
    (h : createTables env fuel s = some (.ok (), s1)) :
    ∀ k ∈ uncreatedTables s.table_infos, k ∈ (selectedWaves env fuel s).flatten := by
  induction fuel generalizing s with
  | zero => simp [createTables] at h
  | succ n ih =>
    have hfst := nextWave_fst s
    have hq := nextWave_quiet s
    unfold createTables at h
    unfold selectedWaves
    rcases hw : nextWave s with ⟨tables, s2⟩
    rw [hw] at hfst hq h
    simp only at hfst hq h ⊢
    by_cases hempty : tables.isEmpty = true
    · intro k hk
      exfalso
      rw [isEmpty_eq_true_iff, hfst, findTablesWithoutDependencies_eq_nil_iff] at hempty
      obtain ⟨entry, hentry, _, hc⟩ := (mem_uncreatedTables _ _).mp hk
      rw [hempty entry hentry] at hc
      cases hc
    · rw [if_neg hempty] at h ⊢
      obtain ⟨⟨done, _, hinfos, hall⟩, _, _⟩ := createTablesInWave_effect env tables s2
      rcases hc : createTablesInWave env tables s2 with ⟨r, s3⟩
      rw [hc] at hinfos hall h
      cases r with
      | error e => simp at h
      | ok u =>
        simp only at hinfos hall h ⊢
        have hdone : done = tables := hall trivial
        subst hdone
        rw [hq.1] at hinfos
        intro k hk
        simp only [List.flatten_cons, List.mem_append]
        by_cases hkd : k ∈ done
        · exact Or.inl hkd
        · right
          apply ih s3 h
          rw [hinfos]
          exact (mem_uncreatedTables_markCreatedAll _ _ _).mpr ⟨hk, hkd⟩

theorem createTables_marks (env : Environment) (fuel : Nat) (s : State)
    (r : Except Exception Unit) (s1 : State) (h : createTables env fuel s = some (r, s1)) :
    ∃ done, s1.table_infos = markCreatedAll done s.table_infos := by
  induction fuel generalizing s with
  | zero => simp [createTables] at h
  | succ n ih =>
    have hq := nextWave_quiet s
    unfold createTables at h
    rcases hw : nextWave s with ⟨tables, s2⟩
    rw [hw] at hq h
    simp only at hq h
    by_cases hempty : tables.isEmpty = true
    · rw [if_pos hempty] at h
      simp only [Option.some.injEq, Prod.mk.injEq] at h
      rw [← h.2, hq.1]
      exact ⟨[], (markCreatedAll_nil _).symm⟩
    · rw [if_neg hempty] at h
      obtain ⟨⟨done, _, hinfos, _⟩, _, _⟩ := createTablesInWave_effect env tables s2
      rcases hc : createTablesInWave env tables s2 with ⟨r2, s3⟩
      rw [hc] at hinfos h
      simp only at hinfos
      rw [hq.1] at hinfos
      cases r2 with
      | error e =>
        simp only [Option.some.injEq, Prod.mk.injEq] at h
        rw [← h.2]
        exact ⟨done, hinfos⟩
      | ok u =>
        simp only at h
        obtain ⟨done2, h2⟩ := ih s3 h
        exact ⟨done ++ done2, by rw [h2, hinfos, markCreatedAll_markCreatedAll]⟩

theorem tableCreated_not_selected (m : List (QualifiedTableName × TableInfo))
    (hkeys : (mapKeys m).Nodup) (k : QualifiedTableName) (h : TableCreated m k) :
    k ∉ (findTablesWithoutDependencies m).1 := by
  intro hk
  obtain ⟨entry, hentry, hkey, hc⟩ := findTablesWithoutDependencies_mem m k hk
  obtain ⟨info, hfind, hcreated⟩ := h
  have h1 : mapFind m k = some entry.2 := by
    apply mapFind_of_mem m k entry.2 hkeys
    rw [← hkey]
    exact hentry
  rw [hfind] at h1
  simp only [Option.some.injEq] at h1
  rw [h1, hc] at hcreated
  cases hcreated

theorem tableCreated_markCreatedAll_of (done : List QualifiedTableName)
    (m : List (QualifiedTableName × TableInfo)) (k : QualifiedTableName)
    (h : TableCreated m k) : TableCreated (markCreatedAll done m) k := by
  obtain ⟨info, hfind, hcreated⟩ := h
  refine ⟨if k ∈ done then info.markCreated else info, ?_, ?_⟩
  · rw [mapFind_markCreatedAll, hfind]
    rfl
  · split
    · rfl
    · exact hcreated

theorem addReplicaPart_ok (env : Environment) (n : Nat) (root_path : Path) (s : State)
    (p : Path) (s1 : State) (h : addReplicaPart env n root_path s = (.ok p, s1)) :
    (p = root_path ∧ s1.root_paths_in_backup = s.root_paths_in_backup) ∨
      ∃ name, name ∈ env.listFiles (root_path ++ ["replicas"]) ∧
        p = root_path ++ ["replicas", name] ∧
        s1.root_paths_in_backup = s.root_paths_in_backup ++ [p] := by
  rw [addReplicaPart_eq] at h
  split at h
  · split at h
    · cases h
    · simp only [Prod.mk.injEq, Except.ok.injEq] at h
      left
      rw [← h.1, ← h.2]
      exact ⟨rfl, rfl⟩
  · rename_i hne
    split at h
    · split at h
      · cases h
      · rename_i hmem
        simp only [Prod.mk.injEq, Except.ok.injEq] at h
        right
        refine ⟨toString s.restore_settings.replica_num_in_backup, by simpa using hmem, ?_⟩
        rw [← h.1, ← h.2]
        exact ⟨rfl, rfl⟩
    · simp only [Prod.mk.injEq, Except.ok.injEq] at h
      right
      refine ⟨if toString n ∉ env.listFiles (root_path ++ ["replicas"]) then
          (env.listFiles (root_path ++ ["replicas"])).headD "" else toString n, ?_, ?_⟩
      · split
        · rcases hl : env.listFiles (root_path ++ ["replicas"]) with _ | ⟨a, rest⟩
          · rw [hl] at hne; simp at hne
          · simp
        · rename_i hmem
          simpa using hmem
      · rw [← h.1, ← h.2]
        exact ⟨rfl, rfl⟩

theorem addShardPart_ok (env : Environment) (s : State) (paths : List Path) (p : Path)
    (s1 : State)
    (h : addShardPart env (computedShardAndReplica env s).1 []
      { s with root_paths_in_backup := paths } = (.ok p, s1)) :
    (p = [] ∧ s1.root_paths_in_backup = paths) ∨
      ∃ name, name ∈ env.listFiles ["shards"] ∧ p = ["shards", name] ∧
        s1.root_paths_in_backup = paths ++ [p] := by
  rw [addShardPart_eq] at h
  split at h
  · split at h
    · cases h
    · simp only [Prod.mk.injEq, Except.ok.injEq] at h
      left
      rw [← h.1, ← h.2]
      exact ⟨rfl, rfl⟩
  · split at h
    · cases h
    · rename_i hmem
      simp only [Prod.mk.injEq, Except.ok.injEq] at h
      right
      refine ⟨chosenShard env s, by simpa using hmem, ?_⟩
      rw [← h.1, ← h.2]
      exact ⟨rfl, rfl⟩

theorem findRootPathsInBackup_chain (env : Environment) (s : State)
    (hok : (findRootPathsInBackup env s).1 = .ok ()) :
    (findRootPathsInBackup env s).2.root_paths_in_backup = [[]] ∨
    (∃ name, name ∈ env.listFiles ["shards"] ∧
      (findRootPathsInBackup env s).2.root_paths_in_backup = [["shards", name], []]) ∨
    (∃ name, name ∈ env.listFiles ["replicas"] ∧
      (findRootPathsInBackup env s).2.root_paths_in_backup = [["replicas", name], []]) ∨
    ∃ shard replica, shard ∈ env.listFiles ["shards"] ∧
      replica ∈ env.listFiles ["shards", shard, "replicas"] ∧
      (findRootPathsInBackup env s).2.root_paths_in_backup =
        [["shards", shard, "replicas", replica], ["shards", shard], []] := by
  revert hok
  unfold findRootPathsInBackup
  dsimp only
  rcases hA : addShardPart env (computedShardAndReplica env s).1 []
    { s with root_paths_in_backup := [[]] } with ⟨rA, sA⟩
  cases rA with
  | error e => intro hok; cases hok
  | ok p1 =>
    dsimp only
    rcases hB : addReplicaPart env (computedShardAndReplica env s).2 p1 sA with ⟨rB, sB⟩
    cases rB with
    | error e => intro hok; cases hok
    | ok p2 =>
      intro _
      dsimp only
      rcases addShardPart_ok env s [[]] p1 sA hA with ⟨h1, h2⟩ | ⟨shard, hshard, h1, h2⟩
      · subst h1
        rcases addReplicaPart_ok env _ [] sA p2 sB hB with ⟨_, h4⟩ | ⟨replica, hrep, h3, h4⟩
        · left
          rw [h4, h2]; rfl
        · right; right; left
          refine ⟨replica, by simpa using hrep, ?_⟩
          rw [h4, h2, h3]; rfl
      · subst h1
        rcases addReplicaPart_ok env _ _ sA p2 sB hB with ⟨_, h4⟩ | ⟨replica, hrep, h3, h4⟩
        · right; left
          exact ⟨shard, hshard, by rw [h4, h2]; rfl⟩
        · right; right; right
          refine ⟨shard, replica, hshard, by simpa using hrep, ?_⟩
          rw [h4, h2, h3]; rfl

theorem restoreMetadata_ok_stage (env : Environment) (fuel : Nat) (s s1 : State)
    (h : restoreMetadata env fuel s = some (.ok (), s1)) :
    s1.current_stage = Stage.kInsertingDataToTables := by
  unfold restoreMetadata at h
  split at h
  · cases h
  · rename_i s2 heq
    simp only [Option.some.injEq, Prod.mk.injEq, true_and] at h
    rw [← h]
    exact restoreMetadataTry_ok_stage _ _ _ _ _ heq
  · simp at h

theorem createQueriesExecuted_append (evs more : List Event) :
    createQueriesExecuted (evs ++ more) =
      createQueriesExecuted evs ++ createQueriesExecuted more := by
  induction evs with
  | nil => rfl
  | cons ev rest ih => cases ev <;> simp [createQueriesExecuted, ih]

theorem executeCreateDatabase_spec (env : Environment) (info : DatabaseInfo) (s : State) :
    ∃ evs, (executeCreateDatabase env info s).2 = s.recordAll evs ∧
      (s.restore_settings.create_database = RestoreDatabaseCreationMode.kMustExist →
        evs = [] ∧ (executeCreateDatabase env info s).1 = .ok ()) ∧
      (∀ q ∈ createQueriesExecuted evs, ∃ stored, info.create_database_query = some stored ∧
        q = some (issuedCreateDatabaseQuery s.restore_settings stored)) ∧
      (s.restore_settings.create_database ≠ RestoreDatabaseCreationMode.kMustExist →
        (executeCreateDatabase env info s).1 = .ok () →
        ∃ stored, info.create_database_query = some stored ∧
          evs = [Event.executeCreateQuery
            (some (issuedCreateDatabaseQuery s.restore_settings stored))]) := by
  unfold executeCreateDatabase
  by_cases hm : s.restore_settings.create_database = RestoreDatabaseCreationMode.kMustExist
  · refine ⟨[], ?_, ?_, ?_, ?_⟩
    · simp [hm, State.recordAll_nil]
    · intro _; simp [hm]
    · intro q hq; cases hq
    · intro h; exact absurd hm h
  · cases hq : info.create_database_query with
    | none =>
      refine ⟨[], ?_, ?_, ?_, ?_⟩
      · simp [hm, State.recordAll_nil]
      · intro h; exact absurd h hm
      · intro q hq1; cases hq1
      · intro _ h; simp [hm] at h
    | some stored =>
      refine ⟨[Event.executeCreateQuery
        (some (issuedCreateDatabaseQuery s.restore_settings stored))], ?_, ?_, ?_, ?_⟩
      · simp [hm, State.record_eq_recordAll, issuedCreateDatabaseQuery]
      · intro h; exact absurd h hm
      · intro q hq1
        simp only [createQueriesExecuted, List.mem_singleton] at hq1
        exact ⟨stored, rfl, hq1⟩
      · intro _ _
        exact ⟨stored, rfl, rfl⟩

theorem checkDatabaseDefinition_spec (env : Environment) (name : String) (info : DatabaseInfo)
    (database : DatabasePtr) (s : State) :
    ∃ evs, (checkDatabaseDefinition env name info database s).2 = s.recordAll evs ∧
      createQueriesExecuted evs = [] := by
  unfold checkDatabaseDefinition
  by_cases ha : s.restore_settings.allow_different_database_def = true
  · exact ⟨[], by simp [ha, State.recordAll_nil], rfl⟩
  · refine ⟨[Event.getCreateDatabaseQuery database], ?_, rfl⟩
    rw [if_pos ha]
    repeat' (first | split | dsimp only)
    all_goals rfl

theorem createDatabase_spec (env : Environment) (name : String) (info : DatabaseInfo)
    (s : State) :
    ∃ evs, (createDatabase env name info s).2 = s.recordAll evs ∧
      (s.restore_settings.create_database = RestoreDatabaseCreationMode.kMustExist →
        createQueriesExecuted evs = []) ∧
      (∀ q ∈ createQueriesExecuted evs, ∃ stored, info.create_database_query = some stored ∧
        q = some (issuedCreateDatabaseQuery s.restore_settings stored)) ∧
      (s.restore_settings.create_database ≠ RestoreDatabaseCreationMode.kMustExist →
        (createDatabase env name info s).1 = .ok () →
        ∃ stored, info.create_database_query = some stored ∧
          createQueriesExecuted evs =
            [some (issuedCreateDatabaseQuery s.restore_settings stored)]) := by
  obtain ⟨evs1, hs1, hmust, hmem, hissued⟩ := executeCreateDatabase_spec env info s
  unfold createDatabase
  rcases hx : executeCreateDatabase env info s with ⟨r1, s1⟩
  rw [hx] at hs1 hmust hissued
  simp only at hs1 hmust hissued
  subst hs1
  cases r1 with
  | error e =>
    refine ⟨evs1, rfl, ?_, hmem, ?_⟩
    · intro h; rw [(hmust h).1]; rfl
    · intro _ h; cases h
  | ok u =>
    dsimp only
    cases hdb : env.getDatabase (s.recordAll evs1).trace name with
    | error e =>
      refine ⟨evs1 ++ [Event.getDatabase name], ?_, ?_, ?_, ?_⟩
      · simp [State.record_eq_recordAll, State.recordAll_recordAll]
      · intro h
        rw [createQueriesExecuted_append, (hmust h).1]; rfl
      · intro q hq
        rw [createQueriesExecuted_append] at hq
        simp only [createQueriesExecuted, List.append_nil] at hq
        exact hmem q hq
      · intro _ h; cases h
    | ok database =>
      dsimp only
      obtain ⟨evs2, hs2, hnone⟩ := checkDatabaseDefinition_spec env name info database
        ((s.recordAll evs1).record (Event.getDatabase name))
      refine ⟨evs1 ++ [Event.getDatabase name] ++ evs2, ?_, ?_, ?_, ?_⟩
      · rw [hs2, State.record_eq_recordAll, State.recordAll_recordAll,
          State.recordAll_recordAll, List.append_assoc]
      · intro h
        rw [createQueriesExecuted_append, createQueriesExecuted_append, (hmust h).1, hnone]
        rfl
      · intro q hq
        rw [createQueriesExecuted_append, createQueriesExecuted_append, hnone] at hq
        simp only [createQueriesExecuted, List.append_nil] at hq
        exact hmem q hq
      · intro hm _
        obtain ⟨stored, hst, hev⟩ := hissued hm rfl
        refine ⟨stored, hst, ?_⟩
        rw [createQueriesExecuted_append, createQueriesExecuted_append, hnone, hev]
        rfl

theorem createDatabasesLoop_spec (env : Environment) (entries : List (String × DatabaseInfo))
    (s : State) :
    ∃ evs, (createDatabasesLoop env entries s).2 = s.recordAll evs ∧
      (s.restore_settings.create_database = RestoreDatabaseCreationMode.kMustExist →
        createQueriesExecuted evs = []) ∧
      (∀ q ∈ createQueriesExecuted evs, ∃ entry ∈ entries, ∃ stored,
        entry.2.create_database_query = some stored ∧
        q = some (issuedCreateDatabaseQuery s.restore_settings stored)) ∧
      (s.restore_settings.create_database ≠ RestoreDatabaseCreationMode.kMustExist →
        (createDatabasesLoop env entries s).1 = .ok () →
        createQueriesExecuted evs = entries.map (fun entry =>
          entry.2.create_database_query.map (issuedCreateDatabaseQuery s.restore_settings))) := by
  induction entries generalizing s with
  | nil => exact ⟨[], by simp [createDatabasesLoop, State.recordAll_nil], fun _ => rfl,
      fun q hq => (by cases hq), fun _ _ => rfl⟩
  | cons entry rest ih =>
    obtain ⟨name, info⟩ := entry
    obtain ⟨evs1, hs1, hmust, hmem, hissued⟩ := createDatabase_spec env name info s
    unfold createDatabasesLoop
    rcases hx : createDatabase env name info s with ⟨r1, s1⟩
    rw [hx] at hs1 hissued
    simp only at hs1 hissued
    subst hs1
    cases r1 with
    | error e =>
      refine ⟨evs1, rfl, hmust, ?_, ?_⟩
      · intro q hq
        obtain ⟨stored, h1, h2⟩ := hmem q hq
        exact ⟨(name, info), List.mem_cons_self _ _, stored, h1, h2⟩
      · intro _ h; cases h
    | ok u =>
      dsimp only
      obtain ⟨evs2, hs2, hmust2, hmem2, hissued2⟩ := ih (s.recordAll evs1)
      refine ⟨evs1 ++ evs2, ?_, ?_, ?_, ?_⟩
      · rw [hs2, State.recordAll_recordAll]
      · intro h
        rw [createQueriesExecuted_append, hmust h, hmust2 h]; rfl
      · intro q hq
        rw [createQueriesExecuted_append] at hq
        rcases List.mem_append.mp hq with h | h
        · obtain ⟨stored, h1, h2⟩ := hmem q h
          exact ⟨(name, info), List.mem_cons_self _ _, stored, h1, h2⟩
        · obtain ⟨entry, hentry, stored, h1, h2⟩ := hmem2 q h
          exact ⟨entry, List.mem_cons_of_mem _ hentry, stored, h1, h2⟩
      · intro hm hok
        obtain ⟨stored, hst, hev⟩ := hissued hm rfl
        rw [createQueriesExecuted_append, hev, hissued2 hm hok]
        simp only [List.map_cons, hst, Option.map_some']
        rfl

theorem appendFilters_append (stored : Option (List PartitionExpr))
    (first given : List (List PartitionExpr)) :
    appendFilters (appendFilters stored first) given = appendFilters stored (first ++ given) := by
  unfold appendFilters
  by_cases h : given = []
  · subst h
    simp
  · by_cases h1 : first = []
    · subst h1
      simp [h]
    · simp [h, h1, List.append_assoc]

theorem collectTableInfo_ok_partitions (env : Environment) (name : QualifiedTableName)
    (partitions : Option (List PartitionExpr)) (s s1 : State)
    (h : collectTableInfo env name partitions s = (.ok (), s1)) (key : QualifiedTableName) :
    storedPartitions s1 key =
      if key = s.renaming_settings.getNewTableName name then
        some (appendFilters ((storedPartitions s key).getD none) partitions.toList)
      else storedPartitions s key := by
  obtain ⟨probes, _, hcases⟩ := collectTableInfo_cases env name partitions s
  rcases hcases with h1 | ⟨root, _, ⟨e1, _, h1⟩ | ⟨text, parsed, _, _, h1⟩⟩
  · rw [h1.2] at h; cases h
  · rw [h1] at h; cases h
  · rw [h1] at h
    simp only [Prod.mk.injEq, true_and] at h
    subst h
    unfold storedPartitions
    show Option.map _ (mapFind (mapSubscript s.table_infos _ _ _) key) = _
    rw [mapFind_mapSubscript]
    by_cases hk : key = s.renaming_settings.getNewTableName name
    · subst hk
      simp only [if_true, Option.map_some']
      rcases hf : mapFind s.table_infos (s.renaming_settings.getNewTableName name) with _ | info
      · cases partitions <;> simp [appendFilters, collectedTableInfo]
      · cases partitions <;> simp [appendFilters, collectedTableInfo]
    · simp only [hk, if_false]

theorem collectPasses_partitions (env : Environment)
    (passes : List (QualifiedTableName × Option (List PartitionExpr))) :
    ∀ (s s1 : State), collectPasses env passes s = (.ok (), s1) →
      s1.renaming_settings = s.renaming_settings ∧
      ∀ key, storedPartitions s1 key =
        if passes.filter (fun pass => s.renaming_settings.getNewTableName pass.1 = key) = [] then
          storedPartitions s key
        else some (appendFilters ((storedPartitions s key).getD none)
          (givenFilters s.renaming_settings passes key)) := by
  induction passes with
  | nil =>
    intro s s1 h
    simp only [collectPasses, Prod.mk.injEq, true_and] at h
    subst h
    exact ⟨rfl, fun key => by simp⟩
  | cons pass rest ih =>
    intro s s1 h
    rw [collectPasses] at h
    rcases hp : collectTableInfo env pass.1 pass.2 s with ⟨r, s2⟩
    rw [hp] at h
    rcases r with e | u
    · cases h
    · simp only at h
      obtain ⟨hren, hrest⟩ := ih s2 s1 h
      have hren2 := (collectTableInfo_ok_keys env pass.1 pass.2 s s2 hp).1
      refine ⟨hren.trans hren2, ?_⟩
      intro key
      rw [hrest key, hren2]
      have hone := collectTableInfo_ok_partitions env pass.1 pass.2 s s2 hp key
      by_cases hk : s.renaming_settings.getNewTableName pass.1 = key
      · have hk2 : key = s.renaming_settings.getNewTableName pass.1 := hk.symm
        rw [if_pos hk2] at hone
        have hne : List.filter
            (fun pass => decide (s.renaming_settings.getNewTableName pass.1 = key))
            (pass :: rest) ≠ [] := by
          simp [List.filter_cons, hk]
        rw [if_neg hne, hone]
        have hgiven : givenFilters s.renaming_settings (pass :: rest) key =
            pass.2.toList ++ givenFilters s.renaming_settings rest key := by
          unfold givenFilters
          simp only [List.filter_cons, hk, decide_True, if_true, List.filterMap_cons]
          cases pass.2 <;> rfl
        rw [hgiven, ← appendFilters_append]
        by_cases hr : List.filter
            (fun pass => decide (s.renaming_settings.getNewTableName pass.1 = key)) rest = []
        · rw [if_pos hr]
          have hg : givenFilters s.renaming_settings rest key = [] := by
            unfold givenFilters
            rw [hr]
            rfl
          rw [hg]
          simp [appendFilters]
        · rw [if_neg hr]
          simp only [Option.getD_some]
      · have hk2 : ¬ key = s.renaming_settings.getNewTableName pass.1 := fun h => hk h.symm
        rw [if_neg hk2] at hone
        have hf : List.filter
            (fun pass => decide (s.renaming_settings.getNewTableName pass.1 = key))
            (pass :: rest) = List.filter
            (fun pass => decide (s.renaming_settings.getNewTableName pass.1 = key)) rest := by
          simp [List.filter_cons, hk]
        have hg : givenFilters s.renaming_settings (pass :: rest) key =
            givenFilters s.renaming_settings rest key := by
          unfold givenFilters
          rw [hf]
        rw [hf, hg, hone]

theorem collectTablesOfDatabase_eq_collectPasses (env : Environment) (database : String)
    (except_table_names : List String) (names : List String) :
    ∀ s : State, collectTablesOfDatabase env database except_table_names names s =
      collectPasses env
        ((names.filter (fun name => name ∉ except_table_names)).map
          (fun name => (⟨database, name⟩, none))) s := by
  induction names with
  | nil => intro s; rfl
  | cons name rest ih =>
    intro s
    rw [collectTablesOfDatabase]
    by_cases hx : name ∈ except_table_names
    · rw [if_pos hx, ih]
      simp [List.filter_cons, hx]
    · rw [if_neg hx]
      simp only [List.filter_cons, hx, not_false_eq_true, decide_True, if_true, List.map_cons,
        collectPasses]
      rcases collectTableInfo env ⟨database, name⟩ none s with ⟨r, s2⟩
      rcases r with e | u
      · rfl
      · exact ih s2

theorem collectTablesOfDatabase_entry_not_found (env : Environment) (database : String)
    (except_names names : List String) (s : State) (e : Exception)
    (hread : ∀ path e, env.readFile path = .error e →
      e.code ≠ ErrorCode.BACKUP_ENTRY_NOT_FOUND)
    (hparse : ∀ text e, env.parseQuery text = .error e →
      e.code ≠ ErrorCode.BACKUP_ENTRY_NOT_FOUND)
    (h : (collectTablesOfDatabase env database except_names names s).1 = .error e)
    (hcode : e.code = ErrorCode.BACKUP_ENTRY_NOT_FOUND) :
    ∃ name, name ∈ names ∧ name ∉ except_names ∧
      firstRootWithTable env ⟨database, name⟩ s.root_paths_in_backup = none ∧
      e = tableNotFound env ⟨database, name⟩ := by
  induction names generalizing s with
  | nil =>
    unfold collectTablesOfDatabase at h
    cases h
  | cons name rest ih =>
    unfold collectTablesOfDatabase at h
    by_cases hx : name ∈ except_names
    · rw [if_pos hx] at h
      obtain ⟨n, h1, h2⟩ := ih s h
      exact ⟨n, List.mem_cons_of_mem _ h1, h2⟩
    · rw [if_neg hx] at h
      rcases hp : collectTableInfo env ⟨database, name⟩ none s with ⟨r, s1⟩
      rw [hp] at h
      rcases r with e1 | u
      · simp only [Except.error.injEq] at h
        subst h
        have h1 : (collectTableInfo env ⟨database, name⟩ none s).1 = .error e1 := by rw [hp]
        refine ⟨name, List.mem_cons_self _ _, hx, ?_,
          collectTableInfo_error env _ _ _ _ hread hparse h1 hcode⟩
        obtain ⟨probes, _, hcases⟩ := collectTableInfo_cases env ⟨database, name⟩ none s
        rcases hcases with h2 | ⟨root, _, ⟨e2, hsrc, h2⟩ | ⟨text, parsed, _, _, h2⟩⟩
        · exact h2.1
        · rw [h2] at h1
          simp only [Except.error.injEq] at h1
          subst h1
          rcases hsrc with h3 | ⟨text, _, h3 | h3⟩
          · exact absurd hcode (hread _ _ h3)
          · exact absurd hcode (hparse _ _ h3)
          · rw [h3] at hcode; cases hcode
        · rw [h2] at h1
          cases h1
      · simp only at h
        have hroots : s1.root_paths_in_backup = s.root_paths_in_backup := by
          have := collectTableInfo_onlyTables env ⟨database, name⟩ none s
          rw [hp] at this
          obtain ⟨m, evs, h1, _⟩ := this
          simp only at h1
          rw [h1]
          rfl
        obtain ⟨n, h1, h2, h3, h4⟩ := ih s1 h
        exact ⟨n, List.mem_cons_of_mem _ h1, h2, by rw [← hroots]; exact h3, h4⟩

theorem createTableRequests_append (evs evs1 : List Event) :
    createTableRequests (evs ++ evs1) = createTableRequests evs ++ createTableRequests evs1 := by
  induction evs with
  | nil => rfl
  | cons ev rest ih =>
    cases ev <;> simp [createTableRequests, ih]

theorem createTableRequests_of_kind (evs : List Event)
    (h : ∀ ev ∈ evs, ev.kind ≠ EventKind.tableCreation) : createTableRequests evs = [] := by
  induction evs with
  | nil => rfl
  | cons ev rest ih =>
    have h1 := h ev (List.mem_cons_self _ _)
    have h2 := ih (fun ev1 hev => h ev1 (List.mem_cons_of_mem _ hev))
    cases ev <;> simp_all [createTableRequests, Event.kind]

theorem runHook_trace (hook : HookResult) (s : State) : (runHook hook s).2.trace = s.trace := by
  obtain ⟨_, _, evs, h, hall⟩ := runHook_frame (fun _ => False) hook s
  cases evs with
  | nil => simpa using h
  | cons ev rest => exact (hall ev (List.mem_cons_self _ _)).elim

theorem requestsFor_cons (restore_settings : RestoreSettings)
    (m : List (QualifiedTableName × TableInfo)) (table_name : QualifiedTableName)
    (rest : List QualifiedTableName) :
    requestsFor restore_settings m (table_name :: rest) =
      requestsFor restore_settings m [table_name] ++ requestsFor restore_settings m rest := by
  unfold requestsFor
  split <;> simp

theorem requestsFor_append (restore_settings : RestoreSettings)
    (m : List (QualifiedTableName × TableInfo)) (tables rest : List QualifiedTableName) :
    requestsFor restore_settings m (tables ++ rest) =
      requestsFor restore_settings m tables ++ requestsFor restore_settings m rest := by
  unfold requestsFor
  split <;> simp

theorem requestsFor_markCreatedAll (restore_settings : RestoreSettings)
    (done : List QualifiedTableName) (m : List (QualifiedTableName × TableInfo))
    (tables : List QualifiedTableName) :
    requestsFor restore_settings (markCreatedAll done m) tables =
      requestsFor restore_settings m tables := by
  have h : ∀ k, (mapFind (markCreatedAll done m) k).bind (fun info => info.create_table_query) =
      (mapFind m k).bind (fun info => info.create_table_query) := by
    intro k
    rw [mapFind_markCreatedAll]
    cases mapFind m k with
    | none => rfl
    | some info =>
      by_cases hd : k ∈ done
      · simp [hd, TableInfo.markCreated]
      · simp [hd]
  unfold requestsFor
  simp only [h]

theorem checkTableDefinition_requests (env : Environment) (name : QualifiedTableName)
    (info : TableInfo) (database : DatabasePtr) (storage : StoragePtr) (s : State) :
    createTableRequests (checkTableDefinition env name info database storage s).2.trace =
      createTableRequests s.trace := by
  unfold checkTableDefinition
  repeat' (first | split | dsimp only)
  all_goals simp [State.record, createTableRequests_append, createTableRequests]

theorem restoreTableData_requests (env : Environment) (info : TableInfo) (storage : StoragePtr)
    (s : State) :
    createTableRequests (restoreTableData env info storage s).2.trace =
      createTableRequests s.trace := by
  unfold restoreTableData
  split
  · rw [runHook_trace]
    simp [State.record, createTableRequests_append, createTableRequests]
  · rfl

theorem executeCreateTable_requests (env : Environment) (info : TableInfo)
    (database : DatabasePtr) (name : QualifiedTableName) (s : State)
    (hfind : mapFind s.table_infos name = some info) :
    ∃ requests, createTableRequests (executeCreateTable env info database s).2.trace =
        createTableRequests s.trace ++ requests ∧
      requests <+: requestsFor s.restore_settings s.table_infos [name] ∧
      ((executeCreateTable env info database s).1 = .ok () →
        requests = requestsFor s.restore_settings s.table_infos [name]) := by
  unfold executeCreateTable requestsFor
  by_cases hmode : s.restore_settings.create_table = RestoreTableCreationMode.kMustExist
  · simp only [hmode, ne_eq, not_true_eq_false, if_false, if_true]
    exact ⟨[], by simp, List.prefix_refl _, fun _ => rfl⟩
  · simp only [hmode, ne_eq, not_false_eq_true, if_true, if_false, List.map_cons, List.map_nil,
      hfind, Option.some_bind]
    cases hq : info.create_table_query with
    | none =>
      exact ⟨[], by simp, List.nil_prefix, fun h => by cases h⟩
    | some stored =>
      simp only [Option.map_some']
      refine ⟨[some (issuedCreateTableQuery s.restore_settings stored)], ?_, List.prefix_refl _,
        fun _ => rfl⟩
      rw [runHook_trace]
      simp [State.record, createTableRequests_append, createTableRequests, issuedCreateTableQuery]

theorem createTable_requests (env : Environment) (name : QualifiedTableName) (s : State) :
    ∃ requests, createTableRequests (createTable env name s).2.trace =
        createTableRequests s.trace ++ requests ∧
      requests <+: requestsFor s.restore_settings s.table_infos [name] ∧
      ((createTable env name s).1 = .ok () →
        requests = requestsFor s.restore_settings s.table_infos [name]) := by
  unfold createTable
  rcases hfind : mapFind s.table_infos name with _ | info
  · exact ⟨[], by simp, List.nil_prefix, fun h => by cases h⟩
  · dsimp only
    rcases hdb : env.getDatabase s.trace name.database with e | database
    · exact ⟨[], by simp [State.record, createTableRequests_append, createTableRequests],
        List.nil_prefix, fun h => by cases h⟩
    · dsimp only
      obtain ⟨requests, h1, h2, h3⟩ := executeCreateTable_requests env info database name
        (s.record (Event.getDatabase name.database)) hfind
      have h0 : createTableRequests (s.record (Event.getDatabase name.database)).trace =
          createTableRequests s.trace := by
        simp [State.record, createTableRequests_append, createTableRequests]
      rw [h0] at h1
      rcases hx : executeCreateTable env info database
        (s.record (Event.getDatabase name.database)) with ⟨r, s1⟩
      rw [hx] at h1 h3
      simp only at h1 h3
      rcases r with e | u
      · exact ⟨requests, h1, h2, fun h => by cases h⟩
      · have h4 := h3 rfl
        dsimp only
        refine ⟨requests, ?_, h2, fun _ => h4⟩
        rcases hg : env.getTable (markCreated name s1).trace database name.table with e | storage
        · simp only [State.record, markCreated, createTableRequests_append, createTableRequests,
            List.append_nil]
          exact h1
        · dsimp only
          rcases hl : env.lockForShare
            ((markCreated name s1).record (Event.getTable database name.table)).trace storage
            with e | table_lock
          · simp only [State.record, markCreated, createTableRequests_append,
              createTableRequests, List.append_nil]
            exact h1
          · dsimp only
            have hbase : createTableRequests (setTableLock storage table_lock
                (((markCreated name s1).record (Event.getTable database name.table)).record
                  (Event.lockForShare storage))).trace = createTableRequests s.trace ++ requests := by
              simp only [State.record, markCreated, setTableLock, createTableRequests_append,
                createTableRequests, List.append_nil]
              exact h1
            have hc := checkTableDefinition_requests env name info database storage
              (setTableLock storage table_lock
                (((markCreated name s1).record (Event.getTable database name.table)).record
                  (Event.lockForShare storage)))
            rcases hcheck : checkTableDefinition env name info database storage
              (setTableLock storage table_lock
                (((markCreated name s1).record (Event.getTable database name.table)).record
                  (Event.lockForShare storage))) with ⟨r2, s2⟩
            rw [hcheck] at hc
            simp only at hc
            rcases r2 with e | u2
            · simp only
              rw [hc, hbase]
            · simp only
              rw [restoreTableData_requests, hc, hbase]

theorem nextWave_requests (s : State) :
    createTableRequests (nextWave s).2.trace = createTableRequests s.trace ∧
      (nextWave s).2.table_infos = s.table_infos ∧
      (nextWave s).2.restore_settings = s.restore_settings := by
  unfold nextWave
  split
  · simp [State.record, createTableRequests_append, createTableRequests]
  · exact ⟨rfl, rfl, rfl⟩

theorem createTablesInWave_requests (env : Environment) (tables : List QualifiedTableName) :
    ∀ s : State, ∃ requests,
      createTableRequests (createTablesInWave env tables s).2.trace =
        createTableRequests s.trace ++ requests ∧
      requests <+: requestsFor s.restore_settings s.table_infos tables ∧
      ((createTablesInWave env tables s).1 = .ok () →
        requests = requestsFor s.restore_settings s.table_infos tables) := by
  induction tables with
  | nil =>
    intro s
    refine ⟨[], by simp [createTablesInWave], List.nil_prefix, fun _ => ?_⟩
    unfold requestsFor
    split <;> rfl
  | cons name rest ih =>
    intro s
    obtain ⟨first, h1, h2, h3⟩ := createTable_requests env name s
    have heff := (createTable_effect env name s).2.1
    have hset := (createTable_frame env name s).1
    unfold createTablesInWave
    rcases hx : createTable env name s with ⟨r, s1⟩
    rw [hx] at h1 h3 heff hset
    simp only at h1 h3 heff hset
    rw [requestsFor_cons]
    rcases r with e | u
    · exact ⟨first, h1, h2.trans (List.prefix_append _ _), fun h => by cases h⟩
    · simp only
      have hfirst := h3 rfl
      obtain ⟨more, h4, h5, h6⟩ := ih s1
      rw [hset, heff rfl, mapModify_eq_markCreatedAll, requestsFor_markCreatedAll] at h5 h6
      refine ⟨first ++ more, ?_, ?_, ?_⟩
      · rw [h4, h1, List.append_assoc]
      · rw [hfirst]
        exact (List.prefix_append_right_inj _).2 h5
      · intro hok
        rw [h6 hok, hfirst]

theorem createTables_requests (env : Environment) (fuel : Nat) :
    ∀ (s : State) (r : Except Exception Unit) (s1 : State),
      createTables env fuel s = some (r, s1) →
      ∃ requests, createTableRequests s1.trace = createTableRequests s.trace ++ requests ∧
        requests <+: requestsFor s.restore_settings s.table_infos
          (selectedWaves env fuel s).flatten ∧
        (r = .ok () → requests = requestsFor s.restore_settings s.table_infos
          (selectedWaves env fuel s).flatten) := by
  induction fuel with
  | zero =>
    intro s r s1 h
    simp [createTables] at h
  | succ fuel ih =>
    intro s r s1 h
    obtain ⟨hn1, hn2, hn3⟩ := nextWave_requests s
    unfold createTables at h
    unfold selectedWaves
    rcases hnext : nextWave s with ⟨tables, sx⟩
    rw [hnext] at h hn1 hn2 hn3
    simp only at h hn1 hn2 hn3 ⊢
    by_cases hempty : tables.isEmpty = true
    · rw [if_pos hempty] at h ⊢
      simp only [Option.some.injEq, Prod.mk.injEq] at h
      obtain ⟨_, h2⟩ := h
      subst h2
      refine ⟨[], by simp [hn1], List.nil_prefix, fun _ => ?_⟩
      unfold requestsFor
      split <;> rfl
    · rw [if_neg hempty] at h ⊢
      obtain ⟨first, h1, h2, h3⟩ := createTablesInWave_requests env tables sx
      obtain ⟨⟨done, _, hdone, _⟩, _, _⟩ := createTablesInWave_effect env tables sx
      have hset := (createTablesInWave_frame env tables sx).1
      rcases hwave : createTablesInWave env tables sx with ⟨rw, s2⟩
      rw [hwave] at h h1 h3 hdone hset
      simp only at h h1 h3 hdone hset ⊢
      rw [hn1] at h1
      rw [hn2, hn3] at h2 h3
      rw [hn2] at hdone
      rw [hn3] at hset
      rcases rw with e | u
      · simp only [Option.some.injEq, Prod.mk.injEq] at h
        obtain ⟨h4, h5⟩ := h
        subst h5
        refine ⟨first, h1, ?_, fun hok => ?_⟩
        · simpa using h2
        · rw [hok] at h4
          cases h4
      · simp only at h
        have hfirst := h3 rfl
        obtain ⟨more, h4, h5, h6⟩ := ih s2 r s1 h
        rw [hset, hdone, requestsFor_markCreatedAll] at h5 h6
        rw [List.flatten_cons, requestsFor_append]
        refine ⟨first ++ more, ?_, ?_, ?_⟩
        · rw [h4, h1, List.append_assoc]
        · rw [hfirst]
          exact (List.prefix_append_right_inj _).2 h5
        · intro hok
          rw [h6 hok, hfirst]

theorem wave_normal_ready (m : List (QualifiedTableName × TableInfo))
    (hn : (mapKeys m).Nodup) (hfresh : ∀ entry ∈ m, entry.2.created = false)
    (d : List QualifiedTableName)
    (hnone : (findTablesWithoutDependencies (markCreatedAll d m)).2 = none)
    (k : QualifiedTableName) (hk : k ∈ (findTablesWithoutDependencies (markCreatedAll d m)).1)
    (b : QualifiedTableName) (hdep : DependsOn m k b) : b ∈ d := by
  obtain ⟨entry, he, hkey, hcr, hmet⟩ := findTablesWithoutDependencies_normal _ hnone k hk
  obtain ⟨e, hem, rfl⟩ := (mem_markCreatedAll d m entry).mp he
  obtain ⟨info, hinfo, hb, hbkey⟩ := hdep
  have hfind : mapFind m e.1 = some e.2 := mapFind_of_mem m e.1 e.2 hn hem
  by_cases hd : e.1 ∈ d
  · simp [hd, TableInfo.markCreated] at hcr
  · simp only [hd, if_false] at hkey hmet
    subst hkey
    rw [hfind] at hinfo
    simp only [Option.some.injEq] at hinfo
    subst hinfo
    exact (allDependenciesMet_markCreatedAll hfresh d _).mp hmet b hb hbkey

theorem wave_forced_all (m : List (QualifiedTableName × TableInfo))
    (hfresh : ∀ entry ∈ m, entry.2.created = false)
    (d : List QualifiedTableName) (cyclic : List QualifiedTableName)
    (hwarn : (findTablesWithoutDependencies (markCreatedAll d m)).2 = some cyclic)
    (b : QualifiedTableName) (hbkey : b ∈ mapKeys m) (hb : b ∉ d) :
    b ∈ (findTablesWithoutDependencies (markCreatedAll d m)).1 := by
  obtain ⟨hall2, _, _, _⟩ := findTablesWithoutDependencies_forced _ cyclic hwarn
  rw [hall2]
  obtain ⟨v, hv⟩ := (mem_mapKeys_iff m b).mp hbkey
  have hbm := mem_of_mapFind m b v hv
  rw [List.mem_map]
  refine ⟨(b, v), List.mem_filter.mpr ⟨?_, ?_⟩, rfl⟩
  · rw [mem_markCreatedAll]
    exact ⟨(b, v), hbm, by simp [hb]⟩
  · have := hfresh (b, v) hbm
    simpa using this

theorem selectedWaves_order (env : Environment) (m : List (QualifiedTableName × TableInfo))
    (hn : (mapKeys m).Nodup) (hfresh : ∀ entry ∈ m, entry.2.created = false)
    (A B : QualifiedTableName) (hdep : DependsOn m A B) (fuel : Nat) :
    ∀ (s : State) (d : List QualifiedTableName), s.table_infos = markCreatedAll d m →
      ∀ i, A ∈ (selectedWaves env fuel s).getD i [] →
        B ∈ d ∨ ∃ j, j ≤ i ∧ B ∈ (selectedWaves env fuel s).getD j [] ∧ (Acyclic m → j < i) := by
  induction fuel with
  | zero =>
    intro s d _ i hA
    simp [selectedWaves] at hA
  | succ fuel ih =>
    intro s d hs i hA
    have hfst := nextWave_fst s
    have hq := nextWave_quiet s
    unfold selectedWaves at hA ⊢
    rcases hnext : nextWave s with ⟨tables, sx⟩
    rw [hnext] at hfst hq hA
    simp only at hfst hq hA ⊢
    rw [hs] at hfst
    by_cases hempty : tables.isEmpty = true
    · rw [if_pos hempty] at hA
      simp at hA
    · rw [if_neg hempty] at hA ⊢
      cases i with
      | zero =>
        simp only [List.getD_cons_zero] at hA
        rw [hfst] at hA
        cases hwarn : (findTablesWithoutDependencies (markCreatedAll d m)).2 with
        | none => exact Or.inl (wave_normal_ready m hn hfresh d hwarn A hA B hdep)
        | some cyclic =>
          by_cases hb : B ∈ d
          · exact Or.inl hb
          · refine Or.inr ⟨0, le_refl _, ?_, fun hac => ?_⟩
            · simp only [List.getD_cons_zero]
              rw [hfst]
              exact wave_forced_all m hfresh d cyclic hwarn B hdep.choose_spec.2.2 hb
            · have := findTablesWithoutDependencies_acyclic m hfresh hac d
              rw [this] at hwarn
              cases hwarn
      | succ i =>
        simp only [List.getD_cons_succ] at hA
        obtain ⟨⟨done, _, hinfos, hall⟩, _, _⟩ := createTablesInWave_effect env tables sx
        rcases hwave : createTablesInWave env tables sx with ⟨r, s2⟩
        rw [hwave] at hA hinfos hall
        simp only at hA hinfos hall ⊢
        rcases r with e | u
        · simp at hA
        · simp only at hA
          have hdone : done = tables := hall rfl
          subst hdone
          have hs2 : s2.table_infos = markCreatedAll (d ++ done) m := by
            rw [hinfos, hq.1, hs, markCreatedAll_markCreatedAll]
          rcases ih s2 (d ++ done) hs2 i hA with hB | ⟨j, hj, hB, hlt⟩
          · rcases List.mem_append.mp hB with hB | hB
            · exact Or.inl hB
            · exact Or.inr ⟨0, Nat.zero_le _, by simpa using hB, fun _ => Nat.succ_pos _⟩
          · exact Or.inr ⟨j + 1, Nat.succ_le_succ hj, by simpa using hB,
              fun hac => Nat.succ_lt_succ (hlt hac)⟩

theorem selectedWaves_flatten_order (env : Environment)
    (m : List (QualifiedTableName × TableInfo))
    (hn : (mapKeys m).Nodup) (hfresh : ∀ entry ∈ m, entry.2.created = false)
    (hacyclic : Acyclic m)
    (A B : QualifiedTableName) (hdep : DependsOn m A B) (fuel : Nat) :
    ∀ (s : State) (d : List QualifiedTableName), s.table_infos = markCreatedAll d m →
      ∀ before after, (selectedWaves env fuel s).flatten = before ++ A :: after →
        B ∈ d ∨ B ∈ before := by
  induction fuel with
  | zero =>
    intro s d _ before after h
    simp [selectedWaves] at h
  | succ fuel ih =>
    intro s d hs before after h
    have hfst := nextWave_fst s
    have hq := nextWave_quiet s
    unfold selectedWaves at h
    rcases hnext : nextWave s with ⟨tables, sx⟩
    rw [hnext] at hfst hq h
    simp only at hfst hq h
    rw [hs] at hfst
    by_cases hempty : tables.isEmpty = true
    · rw [if_pos hempty] at h
      simp at h
    · rw [if_neg hempty] at h
      rw [List.flatten_cons] at h
      have hnormal := findTablesWithoutDependencies_acyclic m hfresh hacyclic d
      have hready : A ∈ tables → B ∈ d := by
        intro hA
        rw [hfst] at hA
        exact wave_normal_ready m hn hfresh d hnormal A hA B hdep
      rcases List.append_eq_append_iff.mp h with ⟨a, h1, h2⟩ | ⟨c, h1, h2⟩
      · obtain ⟨⟨done, _, hinfos, hall⟩, _, _⟩ := createTablesInWave_effect env tables sx
        rcases hwave : createTablesInWave env tables sx with ⟨r, s2⟩
        rw [hwave] at h2 hinfos hall
        simp only at h2 hinfos hall
        rcases r with e | u
        · simp at h2
        · simp only at h2
          have hdone : done = tables := hall rfl
          subst hdone
          have hs2 : s2.table_infos = markCreatedAll (d ++ done) m := by
            rw [hinfos, hq.1, hs, markCreatedAll_markCreatedAll]
          rcases ih s2 (d ++ done) hs2 a after h2 with hB | hB
          · rcases List.mem_append.mp hB with hB | hB
            · exact Or.inl hB
            · exact Or.inr (by rw [h1]; exact List.mem_append_left _ hB)
          · exact Or.inr (by rw [h1]; exact List.mem_append_right _ hB)
      · cases c with
        | nil =>
          simp only [List.nil_append, List.append_nil] at h1 h2
          obtain ⟨⟨done, _, hinfos, hall⟩, _, _⟩ := createTablesInWave_effect env tables sx
          rcases hwave : createTablesInWave env tables sx with ⟨r, s2⟩
          rw [hwave] at h2 hinfos hall
          simp only at h2 hinfos hall
          rcases r with e | u
          · simp at h2
          · simp only at h2
            have hdone : done = tables := hall rfl
            subst hdone
            have hs2 : s2.table_infos = markCreatedAll (d ++ done) m := by
              rw [hinfos, hq.1, hs, markCreatedAll_markCreatedAll]
            rcases ih s2 (d ++ done) hs2 [] after (by simpa using h2.symm) with hB | hB
            · rcases List.mem_append.mp hB with hB | hB
              · exact Or.inl hB
              · exact Or.inr (by rw [← h1]; exact hB)
            · cases hB
        | cons c0 rest =>
          simp only [List.cons_append, List.cons.injEq] at h2
          obtain ⟨h3, _⟩ := h2
          subst h3
          exact Or.inl (hready (by rw [h1]; simp))

theorem createTables_closed (env : Environment) (m : List (QualifiedTableName × TableInfo))
    (hn : (mapKeys m).Nodup) (hfresh : ∀ entry ∈ m, entry.2.created = false)
    (hacyclic : Acyclic m) (fuel : Nat) :
    ∀ (s : State) (d : List QualifiedTableName) (r : Except Exception Unit) (s1 : State),
      s.table_infos = markCreatedAll d m →
      (∀ a b, DependsOn m a b → a ∈ d → b ∈ d) →
      createTables env fuel s = some (r, s1) →
      ∃ d1, s1.table_infos = markCreatedAll d1 m ∧ ∀ a b, DependsOn m a b → a ∈ d1 → b ∈ d1 := by
  induction fuel with
  | zero =>
    intro s d r s1 _ _ h
    simp [createTables] at h
  | succ fuel ih =>
    intro s d r s1 hs hclosed h
    have hfst := nextWave_fst s
    have hq := nextWave_quiet s
    unfold createTables at h
    rcases hnext : nextWave s with ⟨tables, sx⟩
    rw [hnext] at hfst hq h
    simp only at hfst hq h
    rw [hs] at hfst
    by_cases hempty : tables.isEmpty = true
    · rw [if_pos hempty] at h
      simp only [Option.some.injEq, Prod.mk.injEq] at h
      obtain ⟨_, h2⟩ := h
      subst h2
      exact ⟨d, by rw [hq.1, hs], hclosed⟩
    · rw [if_neg hempty] at h
      have hnormal := findTablesWithoutDependencies_acyclic m hfresh hacyclic d
      obtain ⟨⟨done, hpre, hinfos, _⟩, _, _⟩ := createTablesInWave_effect env tables sx
      rcases hwave : createTablesInWave env tables sx with ⟨rw, s2⟩
      rw [hwave] at h hinfos
      simp only at h hinfos
      have hs2 : s2.table_infos = markCreatedAll (d ++ done) m := by
        rw [hinfos, hq.1, hs, markCreatedAll_markCreatedAll]
      have hclosed2 : ∀ a b, DependsOn m a b → a ∈ d ++ done → b ∈ d ++ done := by
        intro a b hdep ha
        rcases List.mem_append.mp ha with ha | ha
        · exact List.mem_append_left _ (hclosed a b hdep ha)
        · have : a ∈ tables := hpre.subset ha
          rw [hfst] at this
          exact List.mem_append_left _ (wave_normal_ready m hn hfresh d hnormal a this b hdep)
      rcases rw with e | u
      · simp only [Option.some.injEq, Prod.mk.injEq] at h
        obtain ⟨_, h2⟩ := h
        subst h2
        exact ⟨d ++ done, hs2, hclosed2⟩
      · simp only at h
        exact ih s2 (d ++ done) r s1 hs2 hclosed2 h

theorem tableStatement_some (env : Environment) (renaming_settings : DDLRenamingSettings)
    (roots : List Path) (name : QualifiedTableName)
    (h : tableStatement env renaming_settings roots name ≠ none) :
    ∃ root text parsed, firstRootWithTable env name roots = some root ∧
      env.readFile (tableMetadataPath env root name) = .ok text ∧
      env.parseQuery text = .ok parsed ∧
      tableStatement env renaming_settings roots name =
        some (env.renameInCreateQuery renaming_settings parsed) := by
  unfold tableStatement at h ⊢
  rcases hroot : firstRootWithTable env name roots with _ | root
  · simp [hroot] at h
  · rcases hread : env.readFile (tableMetadataPath env root name) with e | text
    · simp [hroot, hread] at h
    · rcases hparse : env.parseQuery text with e | parsed
      · simp [hroot, hread, hparse] at h
      · exact ⟨root, text, parsed, rfl, hread, hparse, by simp [hread, hparse]⟩

theorem collectTableInfo_requested (env : Environment) (renaming_settings : DDLRenamingSettings)
    (roots : List Path) (elements : List Element)
    (hexist : EntriesExist env renaming_settings roots elements)
    (hconflict : NoConflict env renaming_settings roots elements)
    (name : QualifiedTableName) (partitions : Option (List PartitionExpr)) (x : State)
    (hroots : x.root_paths_in_backup = roots) (hren : x.renaming_settings = renaming_settings)
    (hcollected : Collected env renaming_settings roots elements x)
    (hreq : RequestedTable env roots elements name) :
    ∃ x1, collectTableInfo env name partitions x = (.ok (), x1) ∧
      x1.root_paths_in_backup = roots ∧ x1.renaming_settings = renaming_settings ∧
      x1.current_stage = x.current_stage ∧
      Collected env renaming_settings roots elements x1 := by
  obtain ⟨root, text, parsed, hroot, hread, hparse, hstmt⟩ :=
    tableStatement_some env renaming_settings roots name (hexist.1 name hreq)
  subst hroots
  subst hren
  obtain ⟨probes, _, _, hsame⟩ :=
    collectTableInfo_found env name partitions x root text parsed hroot hread hparse
  have hno : ∀ info stored,
      mapFind x.table_infos (x.renaming_settings.getNewTableName name) = some info →
      info.create_table_query = some stored →
      env.serializeAST stored =
        env.serializeAST (env.renameInCreateQuery x.renaming_settings parsed) := by
    intro info stored h1 h2
    obtain ⟨stored1, h3, name1, h4, h5, h6⟩ := hcollected.1 _ (mem_of_mapFind _ _ info h1)
    rw [h2] at h3
    simp only [Option.some.injEq] at h3
    subst h3
    exact hconflict.1 name1 name _ _ h4 hreq h5 h6 hstmt
  refine ⟨_, hsame hno, rfl, rfl, rfl, ?_, hcollected.2⟩
  intro entry hentry
  have hentry1 : entry ∈ mapSubscript x.table_infos
      (x.renaming_settings.getNewTableName name) {}
      (collectedTableInfo env root name (x.renaming_settings.getNewTableName name)
        (env.renameInCreateQuery x.renaming_settings parsed) partitions) := hentry
  rcases mem_mapSubscript _ _ _ _ entry hentry1 with h | ⟨v, _, rfl⟩ | rfl
  · exact hcollected.1 entry h
  · exact ⟨_, rfl, name, hreq, rfl, hstmt⟩
  · exact ⟨_, rfl, name, hreq, rfl, hstmt⟩

theorem collectTablesOfDatabase_requested (env : Environment)
    (renaming_settings : DDLRenamingSettings)
    (roots : List Path) (elements : List Element)
    (hexist : EntriesExist env renaming_settings roots elements)
    (hconflict : NoConflict env renaming_settings roots elements)
    (database : String) (except_names : List String) (names : List String) :
    ∀ x : State, x.root_paths_in_backup = roots → x.renaming_settings = renaming_settings →
      Collected env renaming_settings roots elements x →
      (∀ name ∈ names, name ∉ except_names →
        RequestedTable env roots elements ⟨database, name⟩) →
      ∃ x1, collectTablesOfDatabase env database except_names names x = (.ok (), x1) ∧
        x1.root_paths_in_backup = roots ∧ x1.renaming_settings = renaming_settings ∧
        x1.current_stage = x.current_stage ∧
        Collected env renaming_settings roots elements x1 := by
  induction names with
  | nil =>
    intro x hroots hren hcollected _
    exact ⟨x, rfl, hroots, hren, rfl, hcollected⟩
  | cons name rest ih =>
    intro x hroots hren hcollected hreq
    unfold collectTablesOfDatabase
    by_cases hx : name ∈ except_names
    · rw [if_pos hx]
      exact ih x hroots hren hcollected
        (fun n hn hne => hreq n (List.mem_cons_of_mem _ hn) hne)
    · rw [if_neg hx]
      obtain ⟨x1, h1, h2, h3, h4, h5⟩ := collectTableInfo_requested env renaming_settings roots
        elements hexist hconflict ⟨database, name⟩ none x hroots hren hcollected
        (hreq name (List.mem_cons_self _ _) hx)
      rw [h1]
      simp only
      obtain ⟨x2, h6, h7, h8, h9, h10⟩ := ih x1 h2 h3 h5
        (fun n hn hne => hreq n (List.mem_cons_of_mem _ hn) hne)
      exact ⟨x2, h6, h7, h8, h9.trans h4, h10⟩

theorem databaseStatement_some (env : Environment) (renaming_settings : DDLRenamingSettings)
    (roots : List Path) (database : String)
    (h : databaseStatement env renaming_settings roots database ≠ none) :
    (firstRootWithDatabase env database roots ≠ none ∨
      tableNamesOfDatabase env database roots ≠ []) ∧
    ∃ q, databaseStatement env renaming_settings roots database = some q ∧
      ∀ x : State, x.renaming_settings = renaming_settings →
        (readCreateDatabaseQuery env (firstDatabaseMetadata env database roots)
          (renaming_settings.getNewDatabaseName database) x).1 = .ok q := by
  unfold databaseStatement at h ⊢
  unfold firstDatabaseMetadata readCreateDatabaseQuery
  rcases hroot : firstRootWithDatabase env database roots with _ | root
  · by_cases hnames : tableNamesOfDatabase env database roots = []
    · simp [hroot, hnames] at h
    · exact ⟨Or.inr hnames, { database := renaming_settings.getNewDatabaseName database },
        by simp [hnames], fun x _ => rfl⟩
  · rcases hread : env.readFile (databaseMetadataPath env root database) with e | text
    · simp [hroot, hread] at h
    · rcases hparse : env.parseQuery text with e | parsed
      · simp [hroot, hread, hparse] at h
      · refine ⟨Or.inl (by simp), env.renameInCreateQuery renaming_settings parsed,
          by simp [hread, hparse], fun x hx => ?_⟩
        simp [hread, hparse, hx, State.record]

theorem collectDatabaseInfo_requested (env : Environment)
    (renaming_settings : DDLRenamingSettings)
    (roots : List Path) (elements : List Element)
    (hexist : EntriesExist env renaming_settings roots elements)
    (hconflict : NoConflict env renaming_settings roots elements)
    (database : String) (except_names : List String) (x : State)
    (hroots : x.root_paths_in_backup = roots) (hren : x.renaming_settings = renaming_settings)
    (hcollected : Collected env renaming_settings roots elements x)
    (hreq : RequestedDatabase env roots elements database)
    (htables : ∀ name ∈ tableNamesOfDatabase env database roots, name ∉ except_names →
      RequestedTable env roots elements ⟨database, name⟩) :
    ∃ x1, collectDatabaseInfo env database except_names x = (.ok (), x1) ∧
      x1.root_paths_in_backup = roots ∧ x1.renaming_settings = renaming_settings ∧
      x1.current_stage = x.current_stage ∧
      Collected env renaming_settings roots elements x1 := by
  obtain ⟨hf, q, hstmt, hq⟩ :=
    databaseStatement_some env renaming_settings roots database (hexist.2 database hreq)
  subst hroots
  subst hren
  obtain ⟨names, probes, hnames, _, _, _, hfound⟩ :=
    collectDatabaseInfo_spec env database except_names x
  obtain ⟨_, hsame⟩ := (hfound hf).2 q (hq x rfl)
  have hno : ∀ info stored,
      mapFind x.database_infos (x.renaming_settings.getNewDatabaseName database) = some info →
      info.create_database_query = some stored →
      env.serializeAST stored = env.serializeAST q := by
    intro info stored h1 h2
    obtain ⟨stored1, h3, database1, h4, h5, h6⟩ :=
      hcollected.2 _ (mem_of_mapFind _ _ info h1)
    rw [h2] at h3
    simp only [Option.some.injEq] at h3
    subst h3
    exact hconflict.2 database1 database _ _ h4 hreq h5 h6 hstmt
  rw [hsame hno]
  have hcollected1 : Collected env x.renaming_settings x.root_paths_in_backup elements
      { x.recordAll probes with
        database_infos := mapSubscript x.database_infos
          (x.renaming_settings.getNewDatabaseName database) {} (collectedDatabaseInfo q) } := by
    refine ⟨hcollected.1, ?_⟩
    intro entry hentry
    have hentry1 : entry ∈ mapSubscript x.database_infos
        (x.renaming_settings.getNewDatabaseName database) {} (collectedDatabaseInfo q) := hentry
    rcases mem_mapSubscript _ _ _ _ entry hentry1 with h | ⟨v, _, rfl⟩ | rfl
    · exact hcollected.2 entry h
    · exact ⟨_, rfl, database, hreq, rfl, hstmt⟩
    · exact ⟨_, rfl, database, hreq, rfl, hstmt⟩
  obtain ⟨x1, h1, h2, h3, h4, h5⟩ := collectTablesOfDatabase_requested env x.renaming_settings
    x.root_paths_in_backup elements hexist hconflict database except_names names
    { x.recordAll probes with
      database_infos := mapSubscript x.database_infos
        (x.renaming_settings.getNewDatabaseName database) {} (collectedDatabaseInfo q) }
    rfl rfl hcollected1 (fun name hn hne => htables name ((hnames name).1 hn) hne)
  exact ⟨x1, h1, h2, h3, h4, h5⟩

theorem insertDatabaseNames_spec (env : Environment) (files : List String)
    (names : List String) (x : String) :
    x ∈ files.foldl (fun names file_name =>
        setInsert names (env.unescapeForFileName
          (if endsWith file_name ".sql" then dropLast file_name 4 else file_name))) names ↔
      x ∈ names ∨ x ∈ files.map (fun file_name =>
        env.unescapeForFileName
          (if endsWith file_name ".sql" then dropLast file_name 4 else file_name)) := by
  induction files generalizing names with
  | nil => simp
  | cons f rest ih =>
    simp only [List.foldl_cons, List.map_cons, List.mem_cons]
    rw [ih, mem_setInsert]
    tauto

theorem scanAllDatabases_spec (env : Environment) (roots : List Path) :
    ∀ (names : List String) (s : State), ∃ names1 probes,
      scanAllDatabases env roots names s = (names1, s.recordAll probes) ∧
      ∀ x, x ∈ names1 ↔ x ∈ names ∨ x ∈ databaseNamesIn env roots := by
  induction roots with
  | nil =>
    intro names s
    exact ⟨names, [], by simp [scanAllDatabases, State.recordAll_nil],
      by simp [databaseNamesIn]⟩
  | cons root rest ih =>
    intro names s
    unfold scanAllDatabases
    dsimp only
    obtain ⟨names1, probes, h1, h2⟩ := ih
      ((env.listFiles (root.join "metadata")).foldl (fun names file_name =>
        setInsert names (env.unescapeForFileName
          (if endsWith file_name ".sql" then dropLast file_name 4 else file_name))) names)
      (s.record (Event.listFiles (root.join "metadata")))
    refine ⟨names1, Event.listFiles (root.join "metadata") :: probes, ?_, ?_⟩
    · rw [h1, State.record_eq_recordAll, State.recordAll_recordAll]
      rfl
    · intro x
      rw [h2, insertDatabaseNames_spec]
      simp only [databaseNamesIn, List.map_cons, List.flatten_cons, List.mem_append,
        databaseNamesUnder]
      tauto

theorem collectDatabases_requested (env : Environment)
    (renaming_settings : DDLRenamingSettings)
    (roots : List Path) (elements : List Element)
    (hexist : EntriesExist env renaming_settings roots elements)
    (hconflict : NoConflict env renaming_settings roots elements)
    (except_names : List String) (names : List String) :
    ∀ x : State, x.root_paths_in_backup = roots → x.renaming_settings = renaming_settings →
      Collected env renaming_settings roots elements x →
      (∀ database ∈ names, database ∉ except_names →
        RequestedDatabase env roots elements database ∧
        ∀ name ∈ tableNamesOfDatabase env database roots,
          RequestedTable env roots elements ⟨database, name⟩) →
      ∃ x1, collectDatabases env except_names names x = (.ok (), x1) ∧
        x1.root_paths_in_backup = roots ∧ x1.renaming_settings = renaming_settings ∧
        x1.current_stage = x.current_stage ∧
        Collected env renaming_settings roots elements x1 := by
  induction names with
  | nil =>
    intro x hroots hren hcollected _
    exact ⟨x, rfl, hroots, hren, rfl, hcollected⟩
  | cons database rest ih =>
    intro x hroots hren hcollected hreq
    unfold collectDatabases
    by_cases hx : database ∈ except_names
    · rw [if_pos hx]
      exact ih x hroots hren hcollected
        (fun n hn hne => hreq n (List.mem_cons_of_mem _ hn) hne)
    · rw [if_neg hx]
      obtain ⟨hdb, htables⟩ := hreq database (List.mem_cons_self _ _) hx
      obtain ⟨x1, h1, h2, h3, h4, h5⟩ := collectDatabaseInfo_requested env renaming_settings
        roots elements hexist hconflict database [] x hroots hren hcollected hdb
        (fun name hn _ => htables name hn)
      rw [h1]
      simp only
      obtain ⟨x2, h6, h7, h8, h9, h10⟩ := ih x1 h2 h3 h5
        (fun n hn hne => hreq n (List.mem_cons_of_mem _ hn) hne)
      exact ⟨x2, h6, h7, h8, h9.trans h4, h10⟩

theorem collectElement_requested (env : Environment)
    (renaming_settings : DDLRenamingSettings)
    (roots : List Path) (elements : List Element)
    (hexist : EntriesExist env renaming_settings roots elements)
    (hconflict : NoConflict env renaming_settings roots elements)
    (element : Element) (helement : element ∈ elements) (x : State)
    (hroots : x.root_paths_in_backup = roots) (hren : x.renaming_settings = renaming_settings)
    (hcollected : Collected env renaming_settings roots elements x) :
    ∃ x1, collectElement env element x = (.ok (), x1) ∧
      x1.root_paths_in_backup = roots ∧ x1.renaming_settings = renaming_settings ∧
      x1.current_stage = x.current_stage ∧
      Collected env renaming_settings roots elements x1 := by
  unfold collectElement
  rcases htype : element.type with _ | _ | _
  · exact collectTableInfo_requested env renaming_settings roots elements hexist hconflict _
      element.partitions x hroots hren hcollected ⟨element, helement, Or.inl ⟨htype, rfl⟩⟩
  · exact collectDatabaseInfo_requested env renaming_settings roots elements hexist hconflict
      element.database_name element.except_list x hroots hren hcollected
      ⟨element, helement, Or.inl ⟨htype, rfl⟩⟩
      (fun name hn hne => ⟨element, helement, Or.inr (Or.inl ⟨htype, rfl, hn, hne⟩)⟩)
  · simp only
    unfold collectAllDatabasesInfo
    obtain ⟨names, probes, hscan, hnames⟩ := scanAllDatabases_spec env x.root_paths_in_backup [] x
    rw [hscan]
    simp only
    obtain ⟨x1, h1, h2, h3, h4, h5⟩ := collectDatabases_requested env renaming_settings roots
      elements hexist hconflict element.except_list names (x.recordAll probes) hroots hren
      hcollected (by
        intro database hdb hne
        have hlisted : database ∈ databaseNamesIn env roots := by
          rcases (hnames database).1 hdb with h | h
          · cases h
          · rw [← hroots]; exact h
        exact ⟨⟨element, helement, Or.inr ⟨htype, hlisted, hne⟩⟩,
          fun name hn => ⟨element, helement, Or.inr (Or.inr ⟨htype, hlisted, hne, hn⟩)⟩⟩)
    exact ⟨x1, h1, h2, h3, h4, h5⟩

theorem collectElements_requested (env : Environment)
    (renaming_settings : DDLRenamingSettings)
    (roots : List Path) (elements : List Element)
    (hexist : EntriesExist env renaming_settings roots elements)
    (hconflict : NoConflict env renaming_settings roots elements)
    (some_elements : List Element) :
    ∀ x : State, (∀ element ∈ some_elements, element ∈ elements) →
      x.root_paths_in_backup = roots → x.renaming_settings = renaming_settings →
      Collected env renaming_settings roots elements x →
      ∃ x1, collectElements env some_elements x = (.ok (), x1) ∧
        x1.root_paths_in_backup = roots ∧ x1.renaming_settings = renaming_settings ∧
        x1.current_stage = x.current_stage ∧
        Collected env renaming_settings roots elements x1 := by
  induction some_elements with
  | nil =>
    intro x _ hroots hren hcollected
    exact ⟨x, rfl, hroots, hren, rfl, hcollected⟩
  | cons element rest ih =>
    intro x hsub hroots hren hcollected
    unfold collectElements
    obtain ⟨x1, h1, h2, h3, h4, h5⟩ := collectElement_requested env renaming_settings roots
      elements hexist hconflict element (hsub element (List.mem_cons_self _ _)) x hroots hren
      hcollected
    rw [h1]
    simp only
    obtain ⟨x2, h6, h7, h8, h9, h10⟩ := ih x1
      (fun e he => hsub e (List.mem_cons_of_mem _ he)) h2 h3 h5
    exact ⟨x2, h6, h7, h8, h9.trans h4, h10⟩

theorem collectDatabaseAndTableInfos_requested (env : Environment) (x : State)
    (hexist : EntriesExist env x.renaming_settings x.root_paths_in_backup
      x.restore_query_elements)
    (hconflict : NoConflict env x.renaming_settings x.root_paths_in_backup
      x.restore_query_elements) :
    ∃ x1, collectDatabaseAndTableInfos env x = (.ok (), x1) ∧
      x1.current_stage = x.current_stage ∧
      Collected env x.renaming_settings x.root_paths_in_backup x.restore_query_elements x1 := by
  unfold collectDatabaseAndTableInfos
  obtain ⟨x1, h1, _, _, h4, h5⟩ := collectElements_requested env x.renaming_settings
    x.root_paths_in_backup x.restore_query_elements hexist hconflict x.restore_query_elements
    { x with database_infos := [], table_infos := [] } (fun _ h => h) rfl rfl
    ⟨fun entry h => (by cases h), fun entry h => (by cases h)⟩
  exact ⟨x1, h1, h4, h5⟩

theorem runRegistrations_ok (regs : List Registration) :
    ∀ s : State, s.current_stage ≠ Stage.kInsertingDataToTables →
      (runRegistrations regs s).1 = .ok () := by
  induction regs with
  | nil => intro s _; rfl
  | cons reg rest ih =>
    intro s h
    cases reg with
    | one storage new_task =>
      unfold runRegistrations
      rw [addDataRestoreTask_not_inserting storage new_task s h]
      exact ih _ h
    | many storage new_tasks =>
      unfold runRegistrations
      rw [addDataRestoreTasks_not_inserting storage new_tasks s h]
      exact ih _ h

theorem runHook_ok (hook : HookResult) (s : State)
    (h : s.current_stage ≠ Stage.kInsertingDataToTables) (hresult : hook.result = .ok ()) :
    (runHook hook s).1 = .ok () := by
  unfold runHook
  have h1 := runRegistrations_ok hook.registrations s h
  rcases hr : runRegistrations hook.registrations s with ⟨r, s1⟩
  rw [hr] at h1
  simp only at h1
  subst h1
  exact hresult

theorem executeCreateTable_ok (env : Environment) (info : TableInfo) (database : DatabasePtr)
    (s : State) (stored : ASTCreateQuery)
    (hcreate : ∀ trace database create_table_query,
      (env.createTableRestoredFromBackup trace database create_table_query).result = .ok ())
    (h : s.current_stage ≠ Stage.kInsertingDataToTables)
    (hstored : info.create_table_query = some stored) :
    (executeCreateTable env info database s).1 = .ok () := by
  unfold executeCreateTable
  split
  · rw [hstored]
    exact runHook_ok _ _ h (hcreate _ _ _)
  · rfl

theorem restoreTableData_ok (env : Environment) (info : TableInfo) (storage : StoragePtr)
    (s : State)
    (hrestore : ∀ trace storage data_path partitions,
      (env.restoreDataFromBackup trace storage data_path partitions).result = .ok ())
    (h : s.current_stage ≠ Stage.kInsertingDataToTables) :
    (restoreTableData env info storage s).1 = .ok () := by
  unfold restoreTableData
  split
  · exact runHook_ok _ _ h (hrestore _ _ _ _)
  · rfl

theorem checkTableDefinition_ok (env : Environment) (name : QualifiedTableName)
    (info : TableInfo) (database : DatabasePtr) (storage : StoragePtr) (s : State)
    (stored : ASTCreateQuery) (hstored : info.create_table_query = some stored)
    (h : s.restore_settings.allow_different_table_def = true ∨
      ∀ trace2, ∃ live, env.getCreateTableQuery trace2 database name.table = .ok live ∧
        ∀ trace3, ∃ adjusted,
          env.adjustCreateQueryForBackup trace3 storage live = .ok adjusted ∧
          ∀ trace4, ∃ expected,
            env.adjustCreateQueryForBackup trace4 storage stored = .ok expected ∧
            env.serializeAST adjusted = env.serializeAST expected) :
    (checkTableDefinition env name info database storage s).1 = .ok () := by
  unfold checkTableDefinition
  by_cases hallow : s.restore_settings.allow_different_table_def = true
  · simp [hallow]
  · rcases h with h | h
    · exact absurd h hallow
    · rw [if_pos hallow]
      dsimp only
      obtain ⟨live, h1, h⟩ := h s.trace
      obtain ⟨adjusted, h2, h⟩ := h
        (s.record (Event.getCreateTableQuery database name.table)).trace
      obtain ⟨expected, h3, h4⟩ := h
        ((s.record (Event.getCreateTableQuery database name.table)).record
          (Event.adjustCreateQueryForBackup storage (some live))).trace
      rw [h1]
      dsimp only
      rw [h2]
      dsimp only
      rw [hstored]
      dsimp only
      rw [h3]
      dsimp only
      rw [if_neg (by simpa using h4)]

theorem checkDatabaseDefinition_ok (env : Environment) (name : String)
    (info : DatabaseInfo) (database : DatabasePtr) (s : State)
    (stored : ASTCreateQuery) (hstored : info.create_database_query = some stored)
    (h : s.restore_settings.allow_different_database_def = true ∨
      ∀ trace1, ∃ live, env.getCreateDatabaseQuery trace1 database = .ok live ∧
        env.serializeAST live = env.serializeAST stored) :
    (checkDatabaseDefinition env name info database s).1 = .ok () := by
  unfold checkDatabaseDefinition
  by_cases hallow : s.restore_settings.allow_different_database_def = true
  · simp [hallow]
  · rcases h with h | h
    · exact absurd h hallow
    · rw [if_pos hallow]
      dsimp only
      obtain ⟨live, h1, h2⟩ := h s.trace
      rw [h1]
      dsimp only
      rw [hstored]
      dsimp only
      rw [if_neg (by simpa using h2)]

theorem createTable_ok (env : Environment) (renaming_settings : DDLRenamingSettings)
    (roots : List Path) (elements : List Element) (hcollab : CollaboratorsSucceed env)
    (name : QualifiedTableName) (x : State)
    (hagree : DefinitionsAgree env x.restore_settings renaming_settings roots elements)
    (hstage : x.current_stage ≠ Stage.kInsertingDataToTables)
    (info : TableInfo) (hfind : mapFind x.table_infos name = some info)
    (stored : ASTCreateQuery) (hstored : info.create_table_query = some stored)
    (hof : TableStatementOf env renaming_settings roots elements name stored) :
    (createTable env name x).1 = .ok () := by
  obtain ⟨_, _, hgetDatabase, hcreate, hgetTable, hlock, hrestore⟩ := hcollab
  unfold createTable
  rw [hfind]
  dsimp only
  obtain ⟨database, hdb⟩ := hgetDatabase x.trace name.database
  rw [hdb]
  dsimp only
  have hexec := executeCreateTable_ok env info database
    (x.record (Event.getDatabase name.database)) stored hcreate hstage hstored
  have hq := executeCreateTable_quiet env info database
    (x.record (Event.getDatabase name.database))
  have hf := (executeCreateTable_frame env info database
    (x.record (Event.getDatabase name.database))).1
  rcases hx : executeCreateTable env info database
    (x.record (Event.getDatabase name.database)) with ⟨r, x1⟩
  rw [hx] at hexec hq hf
  simp only at hexec hf
  subst hexec
  dsimp only
  have hstage1 : x1.current_stage ≠ Stage.kInsertingDataToTables := by
    rw [hq.2.2.1]; exact hstage
  have hset1 : x1.restore_settings = x.restore_settings := hf
  obtain ⟨storage, hst⟩ := hgetTable (markCreated name x1).trace database name.table
  rw [hst]
  dsimp only
  obtain ⟨table_lock, hl⟩ := hlock
    ((markCreated name x1).record (Event.getTable database name.table)).trace storage
  rw [hl]
  dsimp only
  have hcheck := checkTableDefinition_ok env name info database storage
    (setTableLock storage table_lock
      (((markCreated name x1).record (Event.getTable database name.table)).record
        (Event.lockForShare storage))) stored hstored (by
      rcases hagree.2 with h | h
      · left
        show x1.restore_settings.allow_different_table_def = true
        rw [hset1]; exact h
      · right
        exact h name stored hof x.trace (markCreated name x1).trace database storage hdb hst)
  have hq2 := checkTableDefinition_quiet env name info database storage
    (setTableLock storage table_lock
      (((markCreated name x1).record (Event.getTable database name.table)).record
        (Event.lockForShare storage)))
  rcases hc : checkTableDefinition env name info database storage
    (setTableLock storage table_lock
      (((markCreated name x1).record (Event.getTable database name.table)).record
        (Event.lockForShare storage))) with ⟨r2, x2⟩
  rw [hc] at hcheck hq2
  simp only at hcheck
  subst hcheck
  dsimp only
  exact restoreTableData_ok env info storage x2 hrestore (by
    rw [hq2.2.2.1]
    exact hstage1)

/-- Every entry of the table catalog holds the statement of the backup for
a table asked for that is renamed to its key. -/
theorem tablesCollected_markCreatedAll (env : Environment)
    (renaming_settings : DDLRenamingSettings) (roots : List Path) (elements : List Element)
    (done : List QualifiedTableName) (m : List (QualifiedTableName × TableInfo))
    (h : ∀ entry ∈ m, ∃ stored, entry.2.create_table_query = some stored ∧
      TableStatementOf env renaming_settings roots elements entry.1 stored) :
    ∀ entry ∈ markCreatedAll done m, ∃ stored, entry.2.create_table_query = some stored ∧
      TableStatementOf env renaming_settings roots elements entry.1 stored := by
  intro entry hentry
  obtain ⟨e, he, rfl⟩ := (mem_markCreatedAll done m entry).mp hentry
  by_cases hd : e.1 ∈ done
  · simp only [hd, if_true]
    exact h e he
  · simp only [hd, if_false]
    exact h e he

theorem createTablesInWave_ok (env : Environment) (renaming_settings : DDLRenamingSettings)
    (roots : List Path) (elements : List Element) (hcollab : CollaboratorsSucceed env)
    (tables : List QualifiedTableName) :
    ∀ x : State, DefinitionsAgree env x.restore_settings renaming_settings roots elements →
      x.current_stage ≠ Stage.kInsertingDataToTables →
      (∀ entry ∈ x.table_infos, ∃ stored, entry.2.create_table_query = some stored ∧
        TableStatementOf env renaming_settings roots elements entry.1 stored) →
      (∀ name ∈ tables, name ∈ mapKeys x.table_infos) →
      (createTablesInWave env tables x).1 = .ok () := by
  induction tables with
  | nil => intro x _ _ _ _; rfl
  | cons name rest ih =>
    intro x hagree hstage hcollected hkeys
    obtain ⟨info, hfind⟩ := (mem_mapKeys_iff _ name).mp (hkeys name (List.mem_cons_self _ _))
    obtain ⟨stored, hstored, hof⟩ := hcollected _ (mem_of_mapFind _ _ info hfind)
    have hok := createTable_ok env renaming_settings roots elements hcollab name x hagree hstage
      info hfind stored hstored hof
    have heff := createTable_effect env name x
    have hf := (createTable_frame env name x).1
    unfold createTablesInWave
    rcases hx : createTable env name x with ⟨r, x1⟩
    rw [hx] at hok heff hf
    simp only at hok heff hf
    subst hok
    dsimp only
    have hinfos : x1.table_infos = markCreatedAll [name] x.table_infos := by
      rw [heff.2.1 rfl, mapModify_eq_markCreatedAll]
    apply ih x1
    · rw [hf]; exact hagree
    · rw [heff.2.2.1]; exact hstage
    · rw [hinfos]
      exact tablesCollected_markCreatedAll env renaming_settings roots elements _ _ hcollected
    · intro n hn
      rw [hinfos, mapKeys_markCreatedAll]
      exact hkeys n (List.mem_cons_of_mem _ hn)

theorem createTables_ok (env : Environment) (renaming_settings : DDLRenamingSettings)
    (roots : List Path) (elements : List Element) (hcollab : CollaboratorsSucceed env)
    (fuel : Nat) :
    ∀ (x : State) (r : Except Exception Unit) (x1 : State),
      DefinitionsAgree env x.restore_settings renaming_settings roots elements →
      x.current_stage ≠ Stage.kInsertingDataToTables →
      (∀ entry ∈ x.table_infos, ∃ stored, entry.2.create_table_query = some stored ∧
        TableStatementOf env renaming_settings roots elements entry.1 stored) →
      createTables env fuel x = some (r, x1) → r = .ok () := by
  induction fuel with
  | zero =>
    intro x r x1 _ _ _ h
    simp [createTables] at h
  | succ fuel ih =>
    intro x r x1 hagree hstage hcollected h
    have hsub := nextWave_subset x
    have hq := nextWave_quiet x
    have hf := (nextWave_frame x).1
    unfold createTables at h
    rcases hnext : nextWave x with ⟨tables, sx⟩
    rw [hnext] at h hsub hq hf
    simp only at h hsub hq hf
    by_cases hempty : tables.isEmpty = true
    · rw [if_pos hempty] at h
      simp only [Option.some.injEq, Prod.mk.injEq] at h
      exact h.1.symm
    · rw [if_neg hempty] at h
      have hcollected1 : ∀ entry ∈ sx.table_infos, ∃ stored,
          entry.2.create_table_query = some stored ∧
          TableStatementOf env renaming_settings roots elements entry.1 stored := by
        rw [hq.1]; exact hcollected
      have hwaveok := createTablesInWave_ok env renaming_settings roots elements hcollab tables
        sx (by rw [hf]; exact hagree) (by rw [hq.2.2.1]; exact hstage) hcollected1 (by
          intro name hn
          rw [hq.1]
          obtain ⟨entry, he, hk, _⟩ := (mem_uncreatedTables _ name).1 (hsub name hn)
          rw [← hk]
          exact List.mem_map_of_mem Prod.fst he)
      obtain ⟨⟨done, _, hinfos, _⟩, hstage2, _⟩ := createTablesInWave_effect env tables sx
      have hf2 := (createTablesInWave_frame env tables sx).1
      rcases hwave : createTablesInWave env tables sx with ⟨rw, x2⟩
      rw [hwave] at h hwaveok hinfos hstage2 hf2
      simp only at h hwaveok hinfos hstage2 hf2
      subst hwaveok
      simp only at h
      apply ih x2 r x1 _ _ _ h
      · rw [hf2, hf]; exact hagree
      · rw [hstage2, hq.2.2.1]; exact hstage
      · rw [hinfos]
        exact tablesCollected_markCreatedAll env renaming_settings roots elements _ _
          hcollected1

theorem createDatabase_ok (env : Environment) (renaming_settings : DDLRenamingSettings)
    (roots : List Path) (elements : List Element) (hcollab : CollaboratorsSucceed env)
    (name : String) (info : DatabaseInfo) (x : State)
    (hagree : DefinitionsAgree env x.restore_settings renaming_settings roots elements)
    (stored : ASTCreateQuery) (hstored : info.create_database_query = some stored)
    (hof : DatabaseStatementOf env renaming_settings roots elements name stored) :
    (createDatabase env name info x).1 = .ok () := by
  obtain ⟨_, hexecute, hgetDatabase, _⟩ := hcollab
  unfold createDatabase
  have hexec : (executeCreateDatabase env info x).1 = .ok () := by
    unfold executeCreateDatabase
    split
    · rw [hstored]
      exact hexecute _ _
    · rfl
  have hf := (executeCreateDatabase_frame env info x).1
  rcases hx : executeCreateDatabase env info x with ⟨r, x1⟩
  rw [hx] at hexec hf
  simp only at hexec hf
  subst hexec
  dsimp only
  obtain ⟨database, hdb⟩ := hgetDatabase x1.trace name
  rw [hdb]
  dsimp only
  apply checkDatabaseDefinition_ok env name info database _ stored hstored
  rcases hagree.1 with h | h
  · left
    show x1.restore_settings.allow_different_database_def = true
    rw [hf]; exact h
  · right
    intro trace1
    exact h name stored hof x1.trace trace1 database hdb

theorem createDatabasesLoop_ok (env : Environment) (renaming_settings : DDLRenamingSettings)
    (roots : List Path) (elements : List Element) (hcollab : CollaboratorsSucceed env)
    (entries : List (String × DatabaseInfo)) :
    ∀ x : State, DefinitionsAgree env x.restore_settings renaming_settings roots elements →
      (∀ entry ∈ entries, ∃ stored, entry.2.create_database_query = some stored ∧
        DatabaseStatementOf env renaming_settings roots elements entry.1 stored) →
      (createDatabasesLoop env entries x).1 = .ok () := by
  induction entries with
  | nil => intro x _ _; rfl
  | cons entry rest ih =>
    intro x hagree hcollected
    obtain ⟨name, info⟩ := entry
    obtain ⟨stored, hstored, hof⟩ := hcollected (name, info) (List.mem_cons_self _ _)
    have hok := createDatabase_ok env renaming_settings roots elements hcollab name info x
      hagree stored hstored hof
    have hf := (createDatabase_frame env name info x).1
    unfold createDatabasesLoop
    rcases hx : createDatabase env name info x with ⟨r, x1⟩
    rw [hx] at hok hf
    simp only at hok hf
    subst hok
    dsimp only
    exact ih x1 (by rw [hf]; exact hagree)
      (fun e he => hcollected e (List.mem_cons_of_mem _ he))

theorem setStage_ok (env : Environment) (st : Stage) (s : State) (hst : st ≠ Stage.kError)
    (hbarrier : ∀ trace host_id stage all_hosts,
      env.syncStage trace host_id stage all_hosts = .ok ()) :
    ∃ evs, setStage env st "" s = (.ok (), { s.recordAll evs with current_stage := st }) := by
  rw [setStage_eq env st s hst, hbarrier]
  exact ⟨_, rfl⟩

theorem restoreMetadataTry_succeeds (env : Environment) (s : State)
    (hfresh : s.current_stage = Stage.kPreparing)
    (hshard : ¬ ShardNotFound env s) (hreplica : ¬ ReplicaNotFound env s)
    (hcollab : CollaboratorsSucceed env)
    (hexist : EntriesExist env (env.setFromBackupQuery s.restore_query_elements)
      (findRootPathsInBackup env s).2.root_paths_in_backup s.restore_query_elements)
    (hconflict : NoConflict env (env.setFromBackupQuery s.restore_query_elements)
      (findRootPathsInBackup env s).2.root_paths_in_backup s.restore_query_elements)
    (hagree : DefinitionsAgree env s.restore_settings
      (env.setFromBackupQuery s.restore_query_elements)
      (findRootPathsInBackup env s).2.root_paths_in_backup s.restore_query_elements) :
    ∃ s1 bound, (∀ fuel, bound ≤ fuel → restoreMetadataTry env fuel s = some (.ok (), s1)) ∧
      s1.current_stage = Stage.kInsertingDataToTables ∧
      ∀ entry ∈ s1.table_infos, entry.2.created = true := by
  have hbarrier := hcollab.1
  -- the root paths
  have hrootsok : (findRootPathsInBackup env s).1 = .ok () :=
    (findRootPathsInBackup_result env s).1.2 (by
      rintro (h | ⟨_, h⟩)
      · exact hshard h
      · exact hreplica h)
  have hfA := findRootPathsInBackup_frame env s
  rcases hA : findRootPathsInBackup env s with ⟨rA, sA⟩
  rw [hA] at hrootsok hfA hexist hconflict hagree
  simp only at hrootsok hfA hexist hconflict hagree
  subst hrootsok
  -- the first barrier
  obtain ⟨evsB, hB⟩ := setStage_ok env Stage.kFindingTablesInBackup
    { sA with renaming_settings := env.setFromBackupQuery sA.restore_query_elements }
    (by decide) hbarrier
  -- collection
  have helements : sA.restore_query_elements = s.restore_query_elements := hfA.2.1
  obtain ⟨sC, hC, hstageC, hcollected⟩ := collectDatabaseAndTableInfos_requested env
    { ({ sA with renaming_settings := env.setFromBackupQuery sA.restore_query_elements }
        : State).recordAll evsB with current_stage := Stage.kFindingTablesInBackup }
    (by
      show EntriesExist env (env.setFromBackupQuery sA.restore_query_elements)
        sA.root_paths_in_backup sA.restore_query_elements
      rw [helements]; exact hexist)
    (by
      show NoConflict env (env.setFromBackupQuery sA.restore_query_elements)
        sA.root_paths_in_backup sA.restore_query_elements
      rw [helements]; exact hconflict)
  have hfC := collectDatabaseAndTableInfos_frame env
    { ({ sA with renaming_settings := env.setFromBackupQuery sA.restore_query_elements }
        : State).recordAll evsB with current_stage := Stage.kFindingTablesInBackup }
  rw [hC] at hfC
  have hsetC : sC.restore_settings = s.restore_settings := hfC.1.trans hfA.1
  have hcollected1 : Collected env (env.setFromBackupQuery s.restore_query_elements)
      sA.root_paths_in_backup s.restore_query_elements sC := by
    have : Collected env (env.setFromBackupQuery sA.restore_query_elements)
      sA.root_paths_in_backup sA.restore_query_elements sC := hcollected
    rw [helements] at this
    exact this
  -- the second barrier
  obtain ⟨evsD, hD⟩ := setStage_ok env Stage.kCreatingDatabases sC (by decide) hbarrier
  -- the databases
  have hE1 := createDatabasesLoop_ok env _ _ _ hcollab sC.database_infos
    { sC.recordAll evsD with current_stage := Stage.kCreatingDatabases }
    (by
      show DefinitionsAgree env sC.restore_settings _ _ _
      rw [hsetC]; exact hagree)
    hcollected1.2
  obtain ⟨evsE, hE2, _⟩ := createDatabasesLoop_spec env sC.database_infos
    { sC.recordAll evsD with current_stage := Stage.kCreatingDatabases }
  have hE : createDatabases env { sC.recordAll evsD with current_stage := Stage.kCreatingDatabases } =
      (.ok (), ({ sC.recordAll evsD with current_stage := Stage.kCreatingDatabases }
        : State).recordAll evsE) := by
    unfold createDatabases
    show createDatabasesLoop env sC.database_infos _ = _
    rcases hx : createDatabasesLoop env sC.database_infos
      { sC.recordAll evsD with current_stage := Stage.kCreatingDatabases } with ⟨r, x⟩
    rw [hx] at hE1 hE2
    simp only at hE1 hE2
    rw [hE1, hE2]
  -- the third barrier
  obtain ⟨evsF, hF⟩ := setStage_ok env Stage.kCreatingTables
    (({ sC.recordAll evsD with current_stage := Stage.kCreatingDatabases } : State).recordAll
      evsE) (by decide) hbarrier
  -- the tables
  obtain ⟨rG, sG, hG, hcreated⟩ := createTables_terminates env
    (uncreatedCount sC.table_infos + 1)
    { (({ sC.recordAll evsD with current_stage := Stage.kCreatingDatabases }
        : State).recordAll evsE).recordAll evsF with current_stage := Stage.kCreatingTables }
    (by
      show uncreatedCount sC.table_infos < _
      omega)
  have hrG := createTables_ok env _ _ _ hcollab _
    { (({ sC.recordAll evsD with current_stage := Stage.kCreatingDatabases }
        : State).recordAll evsE).recordAll evsF with current_stage := Stage.kCreatingTables }
    rG sG
    (by
      show DefinitionsAgree env sC.restore_settings _ _ _
      rw [hsetC]; exact hagree)
    (by
      show Stage.kCreatingTables ≠ Stage.kInsertingDataToTables
      decide)
    hcollected1.1 hG
  subst hrG
  -- the last barrier
  obtain ⟨evsH, hH⟩ := setStage_ok env Stage.kInsertingDataToTables sG (by decide) hbarrier
  refine ⟨{ sG.recordAll evsH with current_stage := Stage.kInsertingDataToTables },
    uncreatedCount sC.table_infos + 1, ?_, rfl, (hcreated rfl).1⟩
  intro fuel hfuel
  obtain ⟨extra, rfl⟩ := Nat.exists_eq_add_of_le hfuel
  have hG2 := createTables_fuel_mono env _ extra _ _ hG
  simp only [restoreMetadataTry, hfresh, hA, hB, hC, hD, hE, hF, hG2, hH, ne_eq,
    not_true_eq_false, if_false]

theorem noConflict_of_injective (env : Environment) (renaming_settings : DDLRenamingSettings)
    (roots : List Path) (elements : List Element)
    (htables : Function.Injective renaming_settings.getNewTableName)
    (hdatabases : Function.Injective renaming_settings.getNewDatabaseName) :
    NoConflict env renaming_settings roots elements := by
  refine ⟨?_, ?_⟩
  · intro name name1 stored produced _ _ hkey h1 h2
    rw [htables hkey, h2] at h1
    simp only [Option.some.injEq] at h1
    rw [h1]
  · intro database database1 stored produced _ _ hkey h1 h2
    rw [hdatabases hkey, h2] at h1
    simp only [Option.some.injEq] at h1
    rw [h1]

theorem Scenario.env_collaboratorsSucceed (sc : Scenario) (h : sc.failingStages = []) :
    CollaboratorsSucceed sc.env := by
  refine ⟨?_, fun _ _ => rfl, fun _ _ => ⟨_, rfl⟩, fun _ _ _ => rfl, fun _ _ _ => ⟨_, rfl⟩,
    fun _ _ => ⟨_, rfl⟩, fun _ _ _ _ => rfl⟩
  intro trace host_id stage all_hosts
  simp [Scenario.env, h]
/-! ## The claims -/

/-- C1: on an instance on which `restoreMetadata` has returned or raised
once, a second call raises the logic error "Already restoring"; it leaves
the root paths, both catalogs, the locks and the task registry as they
were, and the only collaborator call it makes is one announce-error: no
backup probe, no creation, no announce-and-wait. -/
theorem restoreMetadata_second_call (env : Environment) (fuel fuel2 : Nat) (s s1 : State)
    (r : Except Exception Unit) (h : restoreMetadata env fuel s = some (r, s1)) :
    ∃ s2, restoreMetadata env fuel2 s1 =
        some (.error ⟨.LOGICAL_ERROR, "Already restoring", []⟩, s2) ∧
      s2.root_paths_in_backup = s1.root_paths_in_backup ∧
      s2.database_infos = s1.database_infos ∧
      s2.table_infos = s1.table_infos ∧
      s2.table_locks = s1.table_locks ∧
      s2.data_restore_tasks = s1.data_restore_tasks ∧
      s2.trace = s1.trace ++ [Event.syncStageError s1.restore_settings.host_id
        (env.getCurrentExceptionMessage ⟨.LOGICAL_ERROR, "Already restoring", []⟩)] := by
  have hst : s1.current_stage ≠ Stage.kPreparing := by
    rcases restoreMetadata_stage env fuel s r s1 h with h1 | h1 <;> rw [h1] <;> decide
  refine ⟨_, restoreMetadata_not_preparing env fuel2 s1 hst, ?_, ?_, ?_, ?_, ?_, ?_⟩ <;>
    simp [setStage, State.record]

theorem restoreMetadata_second_call_witness :
    ∃ r s1, restoreMetadata twoTables.env 2 requestT2 = some (r, s1) ∧
      ∃ s2, restoreMetadata twoTables.env 0 s1 =
        some (.error ⟨.LOGICAL_ERROR, "Already restoring", []⟩, s2) ∧
      s2.root_paths_in_backup = s1.root_paths_in_backup ∧
      s2.database_infos = s1.database_infos ∧
      s2.table_infos = s1.table_infos ∧
      s2.table_locks = s1.table_locks ∧
      s2.data_restore_tasks = s1.data_restore_tasks ∧
      s2.trace = s1.trace ++ [Event.syncStageError s1.restore_settings.host_id
        (twoTables.env.getCurrentExceptionMessage ⟨.LOGICAL_ERROR, "Already restoring", []⟩)] :=
  ⟨_, _, rfl, restoreMetadata_second_call twoTables.env 2 0 requestT2 _ _ rfl⟩

/-- C2: `getDataRestoreTasks` raises a logic error exactly when the current
stage is not `kInsertingDataToTables`, and returns a list otherwise. -/
theorem getDataRestoreTasks_raises_iff (s : State) :
    ((getDataRestoreTasks s).1 = .error ⟨.LOGICAL_ERROR, "Metadata wasn't restored", []⟩ ↔
        s.current_stage ≠ Stage.kInsertingDataToTables) ∧
      ((∃ res_tasks, (getDataRestoreTasks s).1 = .ok res_tasks) ↔
        s.current_stage = Stage.kInsertingDataToTables) ∧
      (s.current_stage ∈ [Stage.kPreparing, Stage.kFindingTablesInBackup,
          Stage.kCreatingDatabases, Stage.kCreatingTables, Stage.kError] →
        ∃ e, (getDataRestoreTasks s).1 = .error e ∧ e.code = ErrorCode.LOGICAL_ERROR) := by
  refine ⟨?_, ?_, ?_⟩
  · by_cases h : s.current_stage = Stage.kInsertingDataToTables <;> simp [getDataRestoreTasks, h]
  · by_cases h : s.current_stage = Stage.kInsertingDataToTables <;> simp [getDataRestoreTasks, h]
  · intro h
    have h1 : s.current_stage ≠ Stage.kInsertingDataToTables := by
      intro h2; rw [h2] at h; simp at h
    exact ⟨⟨.LOGICAL_ERROR, "Metadata wasn't restored", []⟩, by simp [getDataRestoreTasks, h1], rfl⟩

theorem getDataRestoreTasks_raises_iff_witness :
    ∃ e, (getDataRestoreTasks requestT2).1 = .error e ∧ e.code = ErrorCode.LOGICAL_ERROR :=
  (getDataRestoreTasks_raises_iff requestT2).2.2 (by decide)

/-- C3 (as stated, refuted): on the instance that restored `db.t2` and so
entered `kInsertingDataToTables`, a second `restoreMetadata` raises and
leaves the stage `kError`; the `addDataRestoreTask` that follows returns
normally and appends its task to the registry. -/
theorem addDataRestoreTask_accepted_after_second_restoreMetadata :
    (runCalls twoTables.env [.restoreMetadata 2] requestT2).map
        (fun r => (r.1, r.2.current_stage, r.2.data_restore_tasks)) =
      some ([.done], Stage.kInsertingDataToTables, [(2, [21, 22])]) ∧
    (runCalls twoTables.env
        [.restoreMetadata 2, .restoreMetadata 2, .addDataRestoreTask 2 99] requestT2).map
        (fun r => (r.1, r.2.current_stage, r.2.data_restore_tasks)) =
      some ([.done, .raised ⟨.LOGICAL_ERROR, "Already restoring", []⟩, .done],
        Stage.kError, [(2, [21, 22, 99])]) := by
  constructor <;> rfl

/-- C3 (amended): while the current stage is `kInsertingDataToTables`,
`addDataRestoreTask` and `addDataRestoreTasks` raise the logic error and
return the state unchanged, and so do they after any sequence of
`addDataRestoreTask`, `addDataRestoreTasks` and `getDataRestoreTasks`
calls, none of which changes the state. -/
theorem addDataRestoreTask_refused_while_inserting (env : Environment) (calls : List PublicCall)
    (s : State) (h : s.current_stage = Stage.kInsertingDataToTables)
    (hcalls : ∀ call ∈ calls, call.isTaskCall = true) :
    (∃ results, runCalls env calls s = some (results, s)) ∧
      (∀ storage new_task,
        addDataRestoreTask storage new_task s = (.error addingNotAllowed, s)) ∧
      (∀ storage new_tasks,
        addDataRestoreTasks storage new_tasks s = (.error addingNotAllowed, s)) ∧
      addingNotAllowed.code = ErrorCode.LOGICAL_ERROR :=
  ⟨runCalls_inserting env calls s h hcalls,
    fun storage new_task => addDataRestoreTask_inserting storage new_task s h,
    fun storage new_tasks => addDataRestoreTasks_inserting storage new_tasks s h, rfl⟩

theorem addDataRestoreTask_refused_while_inserting_witness :
    (∃ results, runCalls twoTables.env
        [.addDataRestoreTask 1 5, .getDataRestoreTasks, .addDataRestoreTasks 2 [6, 7]]
        insertingInstance = some (results, insertingInstance)) ∧
      (∀ storage new_task,
        addDataRestoreTask storage new_task insertingInstance =
          (.error addingNotAllowed, insertingInstance)) ∧
      (∀ storage new_tasks,
        addDataRestoreTasks storage new_tasks insertingInstance =
          (.error addingNotAllowed, insertingInstance)) ∧
      addingNotAllowed.code = ErrorCode.LOGICAL_ERROR :=
  addDataRestoreTask_refused_while_inserting twoTables.env _ insertingInstance rfl (by decide)

/-- C4: when the `try` block of `restoreMetadata` ends with an exception
`e`, `restoreMetadata` raises the same `e`, ends in stage `kError`, and its
trace is that of the `try` block, which holds no announce-error, followed by
one announce-error with this host's id — whatever the announce-error call
itself returns. -/
theorem restoreMetadata_announces_error_once (env : Environment) (fuel : Nat) (s s1 : State)
    (e : Exception) (h : restoreMetadataTry env fuel s = some (.error e, s1)) :
    ∃ s2 evs, restoreMetadata env fuel s = some (.error e, s2) ∧
      s2.current_stage = Stage.kError ∧
      s2.trace = s.trace ++ evs ++
        [Event.syncStageError s.restore_settings.host_id (env.getCurrentExceptionMessage e)] ∧
      (∀ ev ∈ evs, ev.kind ≠ EventKind.announceError) ∧
      (s2.trace.drop s.trace.length).countP (fun ev => ev.kind = EventKind.announceError) = 1 := by
  obtain ⟨hset, _, evs, htrace, hevs⟩ := restoreMetadataTry_frame env fuel s _ s1 h
  have hc : evs.countP (fun ev => decide (ev.kind = EventKind.announceError)) = 0 := by
    rw [List.countP_eq_zero]
    intro ev hev
    simpa using hevs ev hev
  refine ⟨(setStage env Stage.kError (env.getCurrentExceptionMessage e) s1).2, evs, ?_,
    setStage_current_stage _ _ _ _, ?_, hevs, ?_⟩
  · simp [restoreMetadata, h]
  · rw [setStage_error_trace, htrace, hset]
  · rw [setStage_error_trace, htrace, hset, List.append_assoc, List.drop_left,
      List.countP_append, hc]
    simp [Event.kind]

theorem restoreMetadata_announces_error_once_witness :
    ∃ s2 evs, restoreMetadata barrierFails.env 2 requestT2 =
        some (.error ⟨.OTHER 2, "barrier timeout", []⟩, s2) ∧
      s2.current_stage = Stage.kError ∧
      s2.trace = requestT2.trace ++ evs ++
        [Event.syncStageError requestT2.restore_settings.host_id
          (barrierFails.env.getCurrentExceptionMessage ⟨.OTHER 2, "barrier timeout", []⟩)] ∧
      (∀ ev ∈ evs, ev.kind ≠ EventKind.announceError) ∧
      (s2.trace.drop requestT2.trace.length).countP
        (fun ev => ev.kind = EventKind.announceError) = 1 :=
  restoreMetadata_announces_error_once barrierFails.env 2 requestT2 _ _ rfl

/-- C5 (as stated, refuted): the backup holds `db.t1` and `db.t2`, the
renaming rules send both to the key `db.t`, and the request is for the two
tables.  Every collaborator call returns normally, the shard and replica and
both tables are in the backup, their statements are read and parsed, and the
definition checks are switched off; yet `restoreMetadata` raises
cannot-restore-table, because the two statements collected for `db.t`
differ. -/
theorem restoreMetadata_raises_on_conflict :
    CollaboratorsSucceed renamedToOneKey ∧
    requestT2T1.current_stage = Stage.kPreparing ∧
    ¬ ShardNotFound renamedToOneKey requestT2T1 ∧
    ¬ ReplicaNotFound renamedToOneKey requestT2T1 ∧
    EntriesExist renamedToOneKey
      (renamedToOneKey.setFromBackupQuery requestT2T1.restore_query_elements)
      (findRootPathsInBackup renamedToOneKey requestT2T1).2.root_paths_in_backup
      requestT2T1.restore_query_elements ∧
    DefinitionsAgree renamedToOneKey requestT2T1.restore_settings
      (renamedToOneKey.setFromBackupQuery requestT2T1.restore_query_elements)
      (findRootPathsInBackup renamedToOneKey requestT2T1).2.root_paths_in_backup
      requestT2T1.restore_query_elements ∧
    (restoreMetadata renamedToOneKey 3 requestT2T1).map (fun x => x.1) =
      some (.error ⟨.CANNOT_RESTORE_TABLE,
        "Extracted two different create queries for the same table {}: {} and {}",
        ["db.t", "CREATE TABLE db.t2 AS db.t1", "CREATE TABLE db.t1"]⟩) := by
  refine ⟨Scenario.env_collaboratorsSucceed twoTables rfl, rfl, ?_, ?_, ⟨?_, ?_⟩,
    ⟨Or.inl rfl, Or.inl rfl⟩, rfl⟩
  · unfold ShardNotFound
    decide
  · unfold ReplicaNotFound
    decide
  · rintro name ⟨element, hmem, h⟩
    simp only [requestT2T1, freshInstance, List.mem_cons, List.mem_singleton,
      List.not_mem_nil, or_false] at hmem
    rcases hmem with rfl | rfl
    · rcases h with ⟨_, rfl⟩ | ⟨h, _⟩ | ⟨h, _⟩
      · decide
      · cases h
      · cases h
    · rcases h with ⟨_, rfl⟩ | ⟨h, _⟩ | ⟨h, _⟩
      · decide
      · cases h
      · cases h
  · rintro database ⟨element, hmem, h⟩
    simp only [requestT2T1, freshInstance, List.mem_cons, List.mem_singleton,
      List.not_mem_nil, or_false] at hmem
    rcases hmem with rfl | rfl
    · rcases h with ⟨h, _⟩ | ⟨h, _⟩ <;> cases h
    · rcases h with ⟨h, _⟩ | ⟨h, _⟩ <;> cases h

/-- C5 (amended): on a fresh instance (stage `kPreparing`) let the shard
and the replica asked for be in the backup, let every call of the barrier,
of the live catalog and of the storages return normally, let every table and
database asked for be in the backup under the root paths found, with a
statement that can be read and parsed, let no two of them that are renamed
to the same key have statements with different serializations, and let the
definition checks be switched off or the live definitions agree with the
statements of the backup.  Then `restoreMetadata` returns normally for every
fuel from some bound on, always with the same final state; that state is in
stage `kInsertingDataToTables` and every table of its catalog has
`created = true`. -/
theorem restoreMetadata_succeeds (env : Environment) (s : State)
    (hfresh : s.current_stage = Stage.kPreparing)
    (hshard : ¬ ShardNotFound env s) (hreplica : ¬ ReplicaNotFound env s)
    (hcollab : CollaboratorsSucceed env)
    (hexist : EntriesExist env (env.setFromBackupQuery s.restore_query_elements)
      (findRootPathsInBackup env s).2.root_paths_in_backup s.restore_query_elements)
    (hconflict : NoConflict env (env.setFromBackupQuery s.restore_query_elements)
      (findRootPathsInBackup env s).2.root_paths_in_backup s.restore_query_elements)
    (hagree : DefinitionsAgree env s.restore_settings
      (env.setFromBackupQuery s.restore_query_elements)
      (findRootPathsInBackup env s).2.root_paths_in_backup s.restore_query_elements) :
    ∃ s1 bound, (∀ fuel, bound ≤ fuel → restoreMetadata env fuel s = some (.ok (), s1)) ∧
      s1.current_stage = Stage.kInsertingDataToTables ∧
      ∀ entry ∈ s1.table_infos, entry.2.created = true := by
  obtain ⟨s1, bound, hrun, hstage, hcreated⟩ := restoreMetadataTry_succeeds env s hfresh hshard
    hreplica hcollab hexist hconflict hagree
  refine ⟨s1, bound, ?_, hstage, hcreated⟩
  intro fuel hfuel
  unfold restoreMetadata
  rw [hrun fuel hfuel]

theorem restoreMetadata_succeeds_witness :
    ∃ s1 bound, (∀ fuel, bound ≤ fuel →
        restoreMetadata twoTables.env fuel requestT2T1 = some (.ok (), s1)) ∧
      s1.current_stage = Stage.kInsertingDataToTables ∧
      ∀ entry ∈ s1.table_infos, entry.2.created = true := by
  have hexist : EntriesExist twoTables.env
      (twoTables.env.setFromBackupQuery requestT2T1.restore_query_elements)
      (findRootPathsInBackup twoTables.env requestT2T1).2.root_paths_in_backup
      requestT2T1.restore_query_elements := by
    refine ⟨?_, ?_⟩
    · rintro name ⟨element, hmem, h⟩
      simp only [requestT2T1, freshInstance, List.mem_cons, List.mem_singleton,
        List.not_mem_nil, or_false] at hmem
      rcases hmem with rfl | rfl
      · rcases h with ⟨_, rfl⟩ | ⟨h, _⟩ | ⟨h, _⟩
        · decide
        · cases h
        · cases h
      · rcases h with ⟨_, rfl⟩ | ⟨h, _⟩ | ⟨h, _⟩
        · decide
        · cases h
        · cases h
    · rintro database ⟨element, hmem, h⟩
      simp only [requestT2T1, freshInstance, List.mem_cons, List.mem_singleton,
        List.not_mem_nil, or_false] at hmem
      rcases hmem with rfl | rfl
      · rcases h with ⟨h, _⟩ | ⟨h, _⟩ <;> cases h
      · rcases h with ⟨h, _⟩ | ⟨h, _⟩ <;> cases h
  exact restoreMetadata_succeeds twoTables.env requestT2T1 rfl
    (by unfold ShardNotFound; decide) (by unfold ReplicaNotFound; decide)
    (Scenario.env_collaboratorsSucceed twoTables rfl) hexist
    (noConflict_of_injective _ _ _ _ (fun _ _ h => h) (fun _ _ h => h))
    ⟨Or.inl rfl, Or.inl rfl⟩

/-- C6: in stage `kInsertingDataToTables`, `getDataRestoreTasks` returns one
action per registered task: as many actions as the task lists hold tasks
(an empty list adds none), running them in order runs the registered tasks
of each storage in turn, each action carries the lock `table_locks` holds
for its storage (null when it holds none) and runs its own task only; and
when the registry was filled by registrations, the actions of one storage
are its tasks in the order of registration. -/
theorem getDataRestoreTasks_actions (s : State)
    (h : s.current_stage = Stage.kInsertingDataToTables) :
    ∃ res_tasks, getDataRestoreTasks s = (.ok res_tasks, s) ∧
      res_tasks.length = (s.data_restore_tasks.map (fun entry => entry.2.length)).sum ∧
      (res_tasks.map DataRestoreAction.run).flatten = (s.data_restore_tasks.map Prod.snd).flatten ∧
      (∀ a ∈ res_tasks, a.table_lock = mapFind s.table_locks a.storage ∧ a.run = [a.task] ∧
        ∃ entry ∈ s.data_restore_tasks, entry.1 = a.storage ∧ a.task ∈ entry.2) ∧
      (∀ (s0 : State) (regs : List Registration),
        s0.current_stage ≠ Stage.kInsertingDataToTables →
        s0.data_restore_tasks = [] →
        s.data_restore_tasks = (runRegistrations regs s0).2.data_restore_tasks →
        (runRegistrations regs s0).1 = .ok () ∧
        res_tasks.length = (regs.map (fun reg => reg.tasks.length)).sum ∧
        ∀ storage, (res_tasks.filter (fun a => a.storage = storage)).map DataRestoreAction.task =
          registeredTasks regs storage) := by
  refine ⟨(s.data_restore_tasks.map (actionsOfStorage s.table_locks)).flatten,
    by simp [getDataRestoreTasks, h], actions_length _ _, actions_run _ _, ?_, ?_⟩
  · intro a ha
    obtain ⟨h1, h2⟩ := actions_lock _ _ a ha
    exact ⟨h1, rfl, h2⟩
  · intro s0 regs hs0 hempty hreg
    obtain ⟨a, _, _, _, e, g, f⟩ :=
      runRegistrations_not_inserting regs s0 hs0 (by simp [hempty, mapKeys])
    rw [← hreg] at e f g
    have hfilter : ∀ storage,
        ((s.data_restore_tasks.filter (fun entry => decide (entry.1 = storage))).map
          Prod.snd).flatten = registeredTasks regs storage := by
      intro storage
      have := f storage
      rw [hempty] at this
      simp only [mapFind, Option.getD_none, List.nil_append] at this
      rw [filter_key_of_nodup _ _ e, ← this]
      cases mapFind s.data_restore_tasks storage <;> simp
    refine ⟨a, ?_, fun storage => (actions_filter_storage _ _ storage).trans (hfilter storage)⟩
    rw [actions_length, g, hempty]
    simp

theorem getDataRestoreTasks_actions_witness :
    ∃ res_tasks, getDataRestoreTasks insertingInstance = (.ok res_tasks, insertingInstance) ∧
      res_tasks.length = 3 ∧
      (res_tasks.filter (fun a => a.storage = 2)).map DataRestoreAction.task = [21, 22] := by
  obtain ⟨res_tasks, h1, h2, _, _, h3⟩ := getDataRestoreTasks_actions insertingInstance rfl
  have h4 := h3 requestT2 [.one 2 21, .one 1 11, .many 2 [22]] (by decide) rfl rfl
  exact ⟨res_tasks, h1, h2.trans (by decide), (h4.2.2 2).trans (by decide)⟩

/-- C7: `getDataRestoreTasks` returns the state it was given, so the stage,
the task lists and the locks are unchanged, and a second call right after
returns the same result. -/
theorem getDataRestoreTasks_state_unchanged (s : State) :
    (getDataRestoreTasks s).2 = s ∧
      (getDataRestoreTasks s).2.current_stage = s.current_stage ∧
      (getDataRestoreTasks s).2.data_restore_tasks = s.data_restore_tasks ∧
      (getDataRestoreTasks s).2.table_locks = s.table_locks ∧
      (getDataRestoreTasks (getDataRestoreTasks s).2).1 = (getDataRestoreTasks s).1 := by
  have h : (getDataRestoreTasks s).2 = s := by
    unfold getDataRestoreTasks; split <;> rfl
  refine ⟨h, ?_, ?_, ?_, ?_⟩ <;> rw [h]

/-- C8 (as stated, refuted): the backup holds `db.t1` and `db.t2`, whose
create query references `db.t1`, and the request names `db.t2` only;
`restoreMetadata` returns with a catalog that holds `db.t2` alone, with
`db.t1` in its dependency set, and the only table it creates is `t2`. -/
theorem dependency_not_collected :
    twoTables.env.fileExists ["metadata", "db", "t1.sql"] = true ∧
    (runCalls twoTables.env [.restoreMetadata 2] requestT2).map
        (fun r => (r.1, r.2.table_infos.map (fun entry => (entry.1, entry.2.dependencies)),
          r.2.trace.filter (fun ev => ev.kind = EventKind.tableCreation))) =
      some ([.done], [(⟨"db", "t2"⟩, [⟨"db", "t1"⟩])],
        [Event.createTableRestoredFromBackup 0
            (some { if_not_exists := true, definition := "CREATE TABLE db.t2 AS db.t1" }),
          Event.getTable 0 "t2", Event.lockForShare 2,
          Event.restoreDataFromBackup 2 ["data", "db", "t2"] none]) := by
  constructor <;> decide

/-- C8 (amended): `collectTableInfo` adds to the catalog at most the new
name of the table it is called for, so the tables of a dependency set are
not collected with it.  In the two-table backup the request for `db.t2`
alone gives the catalog `db.t2`; the request for `db.t2` and `db.t1` gives
both, and `t1` is then created before `t2`. -/
theorem dependency_collected_only_when_requested :
    (∀ (env : Environment) (name : QualifiedTableName)
        (partitions : Option (List PartitionExpr)) (s : State),
      mapKeys (collectTableInfo env name partitions s).2.table_infos = mapKeys s.table_infos ∨
      mapKeys (collectTableInfo env name partitions s).2.table_infos =
        mapKeys s.table_infos ++ [s.renaming_settings.getNewTableName name]) ∧
    (runCalls twoTables.env [.restoreMetadata 2] requestT2).map
        (fun r => (r.1, mapKeys r.2.table_infos)) = some ([.done], [⟨"db", "t2"⟩]) ∧
    (runCalls twoTables.env [.restoreMetadata 3] requestT2T1).map
        (fun r => (r.1, mapKeys r.2.table_infos,
          r.2.trace.filter (fun ev => ev matches Event.createTableRestoredFromBackup _ _))) =
      some ([.done], [⟨"db", "t2"⟩, ⟨"db", "t1"⟩],
        [Event.createTableRestoredFromBackup 0
            (some { if_not_exists := true, definition := "CREATE TABLE db.t1" }),
          Event.createTableRestoredFromBackup 0
            (some { if_not_exists := true, definition := "CREATE TABLE db.t2 AS db.t1" })]) :=
  ⟨collectTableInfo_keys, by decide, by decide⟩

/-- C9: collection always leaves a catalog with one entry per key in which
nothing is created yet.  In such a catalog let the table `A` have the
catalog table `B` in its dependency set, and number the waves of
`createTables` (the non-empty selections of its loop, the last of them
possibly cut short by a creation that raises) from 0.  If `A` is selected in
wave `i`, then `B` is selected in a wave `j` with `j ≤ i`, and with `j < i`
when the catalog has no dependency cycle.  These are the waves of
`createTables`: with enough fuel it returns or raises, and the creation
requests it makes (`createTableRestoredFromBackup`) are those of the
selected tables, wave after wave and within a wave in order, up to the
creation that raises; when it returns, `A` and `B` are among them.  Without
a cycle `B` stands before `A` in this order, so the creation request for `B`
precedes the one for `A`, and whenever `createTables` leaves `A` created,
even if it raised later, it leaves `B` created. -/
theorem createTables_dependency_order (env : Environment) (fuel : Nat) (s : State)
    (hcatalog : CatalogFresh s)
    (A B : QualifiedTableName) (hdep : DependsOn s.table_infos A B) :
    (∀ s0, CatalogFresh (collectDatabaseAndTableInfos env s0).2) ∧
    (∀ i, A ∈ (selectedWaves env fuel s).getD i [] →
      ∃ j, j ≤ i ∧ B ∈ (selectedWaves env fuel s).getD j [] ∧
        (Acyclic s.table_infos → j < i)) ∧
    (uncreatedCount s.table_infos < fuel → ∃ r s1, createTables env fuel s = some (r, s1)) ∧
    (∀ r s1, createTables env fuel s = some (r, s1) →
      ∃ requests, createTableRequests s1.trace = createTableRequests s.trace ++ requests ∧
        requests <+: requestsFor s.restore_settings s.table_infos
          (selectedWaves env fuel s).flatten ∧
        (r = .ok () →
          requests = requestsFor s.restore_settings s.table_infos
            (selectedWaves env fuel s).flatten ∧
          A ∈ (selectedWaves env fuel s).flatten ∧ B ∈ (selectedWaves env fuel s).flatten)) ∧
    (Acyclic s.table_infos → ∀ before after,
      (selectedWaves env fuel s).flatten = before ++ A :: after → B ∈ before) ∧
    (Acyclic s.table_infos → ∀ r s1, createTables env fuel s = some (r, s1) →
      TableCreated s1.table_infos A → TableCreated s1.table_infos B) := by
  obtain ⟨hn, hfresh⟩ := hcatalog
  have hstart : s.table_infos = markCreatedAll [] s.table_infos := (markCreatedAll_nil _).symm
  have hB : B ∈ mapKeys s.table_infos := hdep.choose_spec.2.2
  have huncreated : ∀ k, k ∈ mapKeys s.table_infos → k ∈ uncreatedTables s.table_infos := by
    intro k hk
    obtain ⟨v, hv⟩ := (mem_mapKeys_iff _ k).mp hk
    have hmem := mem_of_mapFind _ k v hv
    exact (mem_uncreatedTables _ k).2 ⟨(k, v), hmem, rfl, hfresh _ hmem⟩
  have hA : A ∈ mapKeys s.table_infos := by
    obtain ⟨info, hinfo, _⟩ := hdep
    exact (mem_mapKeys_iff _ A).2 ⟨info, hinfo⟩
  refine ⟨collectDatabaseAndTableInfos_catalogFresh env, ?_, ?_, ?_, ?_, ?_⟩
  · intro i hi
    rcases selectedWaves_order env s.table_infos hn hfresh A B hdep fuel s [] hstart i hi with
      h | h
    · cases h
    · exact h
  · intro hfuel
    obtain ⟨r, s1, h, _⟩ := createTables_terminates env fuel s hfuel
    exact ⟨r, s1, h⟩
  · intro r s1 h
    obtain ⟨requests, h1, h2, h3⟩ := createTables_requests env fuel s r s1 h
    refine ⟨requests, h1, h2, fun hok => ⟨h3 hok, ?_, ?_⟩⟩
    · subst hok
      exact selectedWaves_complete env fuel s s1 h A (huncreated A hA)
    · subst hok
      exact selectedWaves_complete env fuel s s1 h B (huncreated B hB)
  · intro hacyclic before after h
    rcases selectedWaves_flatten_order env s.table_infos hn hfresh hacyclic A B hdep fuel s []
      hstart before after h with h1 | h1
    · cases h1
    · exact h1
  · intro hacyclic r s1 h hcreated
    obtain ⟨d1, hd1, hclosed⟩ := createTables_closed env s.table_infos hn hfresh hacyclic fuel
      s [] r s1 hstart (fun _ _ _ ha => by cases ha) h
    rw [hd1] at hcreated ⊢
    rw [tableCreated_markCreatedAll hfresh] at hcreated ⊢
    exact ⟨hB, hclosed A B hdep hcreated.2⟩

theorem createTables_dependency_order_witness :
    ∃ s1, createTables twoTables.env 3 collectedT2T1 = some (.ok (), s1) ∧
      selectedWaves twoTables.env 3 collectedT2T1 = [[⟨"db", "t1"⟩], [⟨"db", "t2"⟩]] ∧
      createTableRequests s1.trace =
        [some { if_not_exists := true, definition := "CREATE TABLE db.t1" },
          some { if_not_exists := true, definition := "CREATE TABLE db.t2 AS db.t1" }] ∧
      TableCreated s1.table_infos ⟨"db", "t1"⟩ := by
  have hacyclic : Acyclic collectedT2T1.table_infos := by
    apply acyclic_of_rank _ (fun k => if k = ⟨"db", "t2"⟩ then 1 else 0)
    intro a b h
    obtain ⟨ha, hb⟩ := collectedT2T1_dependsOn a b h
    subst ha; subst hb
    decide
  have h := createTables_dependency_order twoTables.env 3 collectedT2T1
    (collectDatabaseAndTableInfos_catalogFresh _ _)
    ⟨"db", "t2"⟩ ⟨"db", "t1"⟩ ⟨_, rfl, by decide, by decide⟩
  have hrun : createTables twoTables.env 3 collectedT2T1 =
      some (.ok (), ((createTables twoTables.env 3 collectedT2T1).getD (.ok (), collectedT2T1)).2) := rfl
  obtain ⟨requests, h1, _, h3⟩ := h.2.2.2.1 _ _ hrun
  refine ⟨_, hrun, rfl, ?_, h.2.2.2.2.2 hacyclic _ _ hrun ⟨_, rfl, rfl⟩⟩
  rw [h1, (h3 rfl).1]
  rfl

/-- C10: `findRootPathsInBackup` raises, and then always entry-not-found,
exactly when no shard is listed and a shard index above 1 is requested, or
shards are listed without the chosen one (explicit request, else sole shard,
else computed shard number), or, the shard step passed, no replica is listed
under the chosen path and a replica index above 1 is requested, or replicas
are listed without the explicitly requested one; otherwise it returns.  With
shards 1 and 2 listed a request for shard 3 fails; with no shard listed a
request for shard 2 fails, and a request for shard 1 passes the shard step
with the root alone and, no replica being listed or requested above 1, ends
with the root as the only candidate. -/
theorem findRootPathsInBackup_entry_not_found (env : Environment) (s : State) :
    ((∃ e, (findRootPathsInBackup env s).1 = .error e) ↔
        (ShardNotFound env s ∨ (¬ ShardNotFound env s ∧ ReplicaNotFound env s))) ∧
      (∀ e, (findRootPathsInBackup env s).1 = .error e →
        e.code = ErrorCode.BACKUP_ENTRY_NOT_FOUND) ∧
      ((findRootPathsInBackup env s).1 = .ok () ↔
        ¬ (ShardNotFound env s ∨ (¬ ShardNotFound env s ∧ ReplicaNotFound env s))) ∧
      (env.listFiles ["shards"] = ["1", "2"] → s.restore_settings.shard_num_in_backup = 3 →
        ∃ e, (findRootPathsInBackup env s).1 = .error e ∧
          e.code = ErrorCode.BACKUP_ENTRY_NOT_FOUND) ∧
      (env.listFiles ["shards"] = [] → s.restore_settings.shard_num_in_backup = 2 →
        ∃ e, (findRootPathsInBackup env s).1 = .error e ∧
          e.code = ErrorCode.BACKUP_ENTRY_NOT_FOUND) ∧
      (env.listFiles ["shards"] = [] → s.restore_settings.shard_num_in_backup = 1 →
        ¬ ShardNotFound env s ∧ pathAfterShards env s = [] ∧
        (env.listFiles ["replicas"] = [] → s.restore_settings.replica_num_in_backup ≤ 1 →
          (findRootPathsInBackup env s).1 = .ok () ∧
          (findRootPathsInBackup env s).2.root_paths_in_backup = [[]])) := by
  obtain ⟨hok, hcode⟩ := findRootPathsInBackup_result env s
  have hraise : (∃ e, (findRootPathsInBackup env s).1 = .error e) ↔
      (ShardNotFound env s ∨ (¬ ShardNotFound env s ∧ ReplicaNotFound env s)) := by
    rw [← not_iff_not, ← hok]
    cases h : (findRootPathsInBackup env s).1 with
    | error e => simp
    | ok a => simp
  refine ⟨hraise, hcode, hok, ?_, ?_, ?_⟩
  · intro h1 h2
    have hnot : ShardNotFound env s := by
      right
      have hc : chosenShard env s = "3" := by simp [chosenShard, h2]; decide
      rw [h1, hc]
      exact ⟨by simp, by decide⟩
    obtain ⟨e, he⟩ := hraise.mpr (Or.inl hnot)
    exact ⟨e, he, hcode e he⟩
  · intro h1 h2
    have hnot : ShardNotFound env s := Or.inl ⟨h1, by omega⟩
    obtain ⟨e, he⟩ := hraise.mpr (Or.inl hnot)
    exact ⟨e, he, hcode e he⟩
  · intro h1 h2
    have hnot : ¬ ShardNotFound env s := by
      unfold ShardNotFound
      simp [h1, h2]
    have hpath : pathAfterShards env s = [] := by simp [pathAfterShards, h1]
    refine ⟨hnot, hpath, ?_⟩
    intro h3 h4
    have hrep : ¬ ReplicaNotFound env s := by
      unfold ReplicaNotFound
      rw [hpath]
      simp only [List.nil_append, h3]
      simp
      omega
    refine ⟨hok.mpr (by tauto), ?_⟩
    have h1e : (env.listFiles ["shards"]).isEmpty = true := by rw [h1]; rfl
    have h3e : (env.listFiles ([] ++ ["replicas"])).isEmpty = true := by
      rw [List.nil_append, h3]; rfl
    have h5 : ¬ s.restore_settings.shard_num_in_backup > 1 := by omega
    have h6 : ¬ s.restore_settings.replica_num_in_backup > 1 := by omega
    unfold findRootPathsInBackup
    dsimp only
    rw [addShardPart_eq]
    simp only [h1e, if_true, h5, if_false, addReplicaPart_eq, h3e, h6]
    rfl

theorem findRootPathsInBackup_entry_not_found_witness :
    ∃ e, (findRootPathsInBackup shardThreeOfTwo.1.env shardThreeOfTwo.2).1 = .error e ∧
      e.code = ErrorCode.BACKUP_ENTRY_NOT_FOUND :=
  (findRootPathsInBackup_entry_not_found shardThreeOfTwo.1.env shardThreeOfTwo.2).2.2.2.1
    rfl rfl

/-- C11: when shards are listed, replicas are listed under the shard the
precedence names (explicit request, else sole listed shard, else computed
number) and `findRootPathsInBackup` returns, that shard and the replica the
precedence names (explicit request, else sole listed replica, else computed
number, else first listed replica) are both listed and the candidates are
`/shards/<shard>/replicas/<replica>`, `/shards/<shard>`, `/`.  With no
explicit request, one listed shard `S` and one listed replica `R` under it,
`findRootPathsInBackup` returns with `/shards/S/replicas/R`, `/shards/S`,
`/`, whatever numbers are computed for the host. -/
theorem findRootPathsInBackup_precedence (env : Environment) (s : State)
    (hshards : env.listFiles ["shards"] ≠ [])
    (hreplicas : env.listFiles ["shards", shardOfSpec env s, "replicas"] ≠ []) :
    ((findRootPathsInBackup env s).1 = .ok () →
      shardOfSpec env s ∈ env.listFiles ["shards"] ∧
      replicaOfSpec env s ∈ env.listFiles ["shards", shardOfSpec env s, "replicas"] ∧
      (findRootPathsInBackup env s).2.root_paths_in_backup =
        [["shards", shardOfSpec env s, "replicas", replicaOfSpec env s],
          ["shards", shardOfSpec env s], []]) ∧
    (∀ S R, env.listFiles ["shards"] = [S] → env.listFiles ["shards", S, "replicas"] = [R] →
      s.restore_settings.shard_num_in_backup = 0 →
      s.restore_settings.replica_num_in_backup = 0 →
      (findRootPathsInBackup env s).1 = .ok () ∧
      (findRootPathsInBackup env s).2.root_paths_in_backup =
        [["shards", S, "replicas", R], ["shards", S], []]) := by
  have hsh : chosenShard env s = shardOfSpec env s := chosenShard_eq env s
  have hgen : (findRootPathsInBackup env s).1 = .ok () →
      shardOfSpec env s ∈ env.listFiles ["shards"] ∧
      replicaOfSpec env s ∈ env.listFiles ["shards", shardOfSpec env s, "replicas"] ∧
      (findRootPathsInBackup env s).2.root_paths_in_backup =
        [["shards", shardOfSpec env s, "replicas", replicaOfSpec env s],
          ["shards", shardOfSpec env s], []] := by
    intro hok
    have h := findRootPathsInBackup_listed env s hshards (by rw [hsh]; exact hreplicas) hok
    rw [hsh] at h
    exact h
  refine ⟨hgen, ?_⟩
  intro S R hS hR h0 h1
  have hS1 : shardOfSpec env s = S := by simp [shardOfSpec, shardByPrecedence, h0, hS]
  have hR1 : replicaOfSpec env s = R := by
    simp [replicaOfSpec, replicaByPrecedence, h1, hS1, hR]
  have hok : (findRootPathsInBackup env s).1 = .ok () := by
    rw [(findRootPathsInBackup_result env s).1]
    unfold ShardNotFound ReplicaNotFound pathAfterShards
    rw [hsh, hS1]
    simp [hS, hR, h1]
  have h := hgen hok
  rw [hS1, hR1] at h
  exact ⟨hok, h.2.2⟩

theorem findRootPathsInBackup_precedence_witness :
    (findRootPathsInBackup soleShardAndReplica.env {}).1 = .ok () ∧
      (findRootPathsInBackup soleShardAndReplica.env {}).2.root_paths_in_backup =
        [["shards", "3", "replicas", "7"], ["shards", "3"], []] :=
  (findRootPathsInBackup_precedence soleShardAndReplica.env {} (by decide) (by decide)).2
    "3" "7" rfl rfl rfl rfl

/-- C12: the two halves hold separately, each for every state.  Tables: let
a pass of `collectTableInfo` find the table, read and parse its statement,
and let the renamed key already be in the table catalog with a stored
statement (nothing is asked of the database catalog, which may be empty).
If the two serializations differ, the pass raises cannot-restore-table and
leaves the table catalog as it was; if they are equal, it returns normally
and the key then holds the new statement, which serializes as the stored one
did.  Databases: let a pass of `collectDatabaseInfo` find the database and
produce a statement (read or generated) while the renamed database is
already in the database catalog with a stored statement (nothing is asked of
the table catalog).  A different serialization raises
cannot-restore-database and leaves the database catalog as it was; an equal
one raises nothing, the pass goes on to the tables of the database, and
whatever these do the database then holds the new statement. -/
theorem same_key_collected_again (env : Environment) (s : State) :
    (∀ (name : QualifiedTableName) (partitions : Option (List PartitionExpr)) (root : Path)
        (text : String) (parsed : ASTCreateQuery) (info : TableInfo) (stored : ASTCreateQuery),
      firstRootWithTable env name s.root_paths_in_backup = some root →
      env.readFile (tableMetadataPath env root name) = .ok text →
      env.parseQuery text = .ok parsed →
      mapFind s.table_infos (s.renaming_settings.getNewTableName name) = some info →
      info.create_table_query = some stored →
      (env.serializeAST stored ≠
          env.serializeAST (env.renameInCreateQuery s.renaming_settings parsed) →
        ∃ e, (collectTableInfo env name partitions s).1 = .error e ∧
          e.code = ErrorCode.CANNOT_RESTORE_TABLE ∧
          (collectTableInfo env name partitions s).2.table_infos = s.table_infos) ∧
      (env.serializeAST stored =
          env.serializeAST (env.renameInCreateQuery s.renaming_settings parsed) →
        (collectTableInfo env name partitions s).1 = .ok () ∧
        ∃ info1, mapFind (collectTableInfo env name partitions s).2.table_infos
            (s.renaming_settings.getNewTableName name) = some info1 ∧
          info1.create_table_query =
            some (env.renameInCreateQuery s.renaming_settings parsed))) ∧
    (∀ (database : String) (except_table_names : List String) (produced : ASTCreateQuery)
        (database_info : DatabaseInfo) (stored_database : ASTCreateQuery),
      (firstRootWithDatabase env database s.root_paths_in_backup ≠ none ∨
        tableNamesOfDatabase env database s.root_paths_in_backup ≠ []) →
      (readCreateDatabaseQuery env
        (firstDatabaseMetadata env database s.root_paths_in_backup)
        (s.renaming_settings.getNewDatabaseName database) s).1 = .ok produced →
      mapFind s.database_infos (s.renaming_settings.getNewDatabaseName database) =
        some database_info →
      database_info.create_database_query = some stored_database →
      (env.serializeAST stored_database ≠ env.serializeAST produced →
        ∃ e, (collectDatabaseInfo env database except_table_names s).1 = .error e ∧
          e.code = ErrorCode.CANNOT_RESTORE_DATABASE ∧
          (collectDatabaseInfo env database except_table_names s).2.database_infos =
            s.database_infos) ∧
      (env.serializeAST stored_database = env.serializeAST produced →
        (∃ names sB, collectDatabaseInfo env database except_table_names s =
          collectTablesOfDatabase env database except_table_names names sB) ∧
        ∃ info1, mapFind (collectDatabaseInfo env database except_table_names s).2.database_infos
            (s.renaming_settings.getNewDatabaseName database) = some info1 ∧
          info1.create_database_query = some produced)) := by
  refine ⟨?_, ?_⟩
  · intro name partitions root text parsed info stored hroot hread hparse hkey hstored
    obtain ⟨probes, _, hdiff, hsame⟩ :=
      collectTableInfo_found env name partitions s root text parsed hroot hread hparse
    refine ⟨?_, ?_⟩
    · intro hne
      rw [hdiff info stored hkey hstored hne]
      exact ⟨_, rfl, rfl, rfl⟩
    · intro heq
      have h : ∀ info2 stored2,
          mapFind s.table_infos (s.renaming_settings.getNewTableName name) = some info2 →
          info2.create_table_query = some stored2 →
          env.serializeAST stored2 =
            env.serializeAST (env.renameInCreateQuery s.renaming_settings parsed) := by
        intro info2 stored2 h1 h2
        rw [hkey] at h1
        simp only [Option.some.injEq] at h1
        subst h1
        rw [hstored] at h2
        simp only [Option.some.injEq] at h2
        subst h2
        exact heq
      rw [hsame h]
      refine ⟨rfl, collectedTableInfo env root name (s.renaming_settings.getNewTableName name)
        (env.renameInCreateQuery s.renaming_settings parsed) partitions info, ?_, rfl⟩
      show mapFind (mapSubscript s.table_infos _ _ _) _ = _
      rw [mapFind_mapSubscript, if_pos rfl, hkey]
      rfl
  · intro database except_table_names produced database_info stored_database hfound hproduced
      hdatabase hstored_database
    obtain ⟨names, dprobes, _, _, _, _, hd⟩ :=
      collectDatabaseInfo_spec env database except_table_names s
    obtain ⟨hddiff, hdsame⟩ := (hd hfound).2 produced hproduced
    refine ⟨?_, ?_⟩
    · intro hne
      rw [hddiff database_info stored_database hdatabase hstored_database hne]
      exact ⟨_, rfl, rfl, rfl⟩
    · intro heq
      have h : ∀ info2 stored2,
          mapFind s.database_infos (s.renaming_settings.getNewDatabaseName database) =
            some info2 →
          info2.create_database_query = some stored2 →
          env.serializeAST stored2 = env.serializeAST produced := by
        intro info2 stored2 h1 h2
        rw [hdatabase] at h1
        simp only [Option.some.injEq] at h1
        subst h1
        rw [hstored_database] at h2
        simp only [Option.some.injEq] at h2
        subst h2
        exact heq
      rw [hdsame h]
      refine ⟨⟨_, _, rfl⟩, ?_⟩
      obtain ⟨infos, evs, h1, _⟩ := collectTablesOfDatabase_onlyTables env database
        except_table_names names
        { s.recordAll dprobes with
          database_infos := mapSubscript s.database_infos
            (s.renaming_settings.getNewDatabaseName database) {}
            (collectedDatabaseInfo produced) }
      rw [h1]
      refine ⟨collectedDatabaseInfo produced database_info, ?_, rfl⟩
      show mapFind (mapSubscript s.database_infos _ _ _) _ = _
      rw [mapFind_mapSubscript, if_pos rfl, hdatabase]
      rfl

theorem same_key_collected_again_witness :
    (collectedOneTable.database_infos = [] ∧
      ∃ e, (collectTableInfo twoTables.env ⟨"db", "t2"⟩ none collectedOneTable).1 = .error e ∧
        e.code = ErrorCode.CANNOT_RESTORE_TABLE ∧
        (collectTableInfo twoTables.env ⟨"db", "t2"⟩ none collectedOneTable).2.table_infos =
          collectedOneTable.table_infos) ∧
    ((collectTableInfo twoTables.env ⟨"db", "t1"⟩ none collectedOneTable).1 = .ok () ∧
      ∃ info1, mapFind
          (collectTableInfo twoTables.env ⟨"db", "t1"⟩ none collectedOneTable).2.table_infos
          ⟨"db", "t"⟩ = some info1 ∧
        info1.create_table_query = some { definition := "CREATE TABLE db.t1" }) ∧
    ∃ info1, mapFind
        (collectDatabaseInfo twoTables.env "db" ["t2"] collectedUnderOneKey).2.database_infos
        "db" = some info1 ∧
      info1.create_database_query = some { database := "db" } :=
  ⟨⟨rfl, ((same_key_collected_again twoTables.env collectedOneTable).1 ⟨"db", "t2"⟩ none []
      "CREATE TABLE db.t2 AS db.t1" { definition := "CREATE TABLE db.t2 AS db.t1" }
      _ { definition := "CREATE TABLE db.t1" } rfl rfl rfl rfl rfl).1 (by decide)⟩,
    ((same_key_collected_again twoTables.env collectedOneTable).1 ⟨"db", "t1"⟩ none []
      "CREATE TABLE db.t1" { definition := "CREATE TABLE db.t1" }
      _ { definition := "CREATE TABLE db.t1" } rfl rfl rfl rfl rfl).2 rfl,
    (((same_key_collected_again twoTables.env collectedUnderOneKey).2
      "db" ["t2"] { database := "db" } _ { database := "db" } (Or.inr (by decide)) rfl rfl
      rfl).2 rfl).2⟩

/-- C13: `collectTableInfo` raises entry-not-found exactly when no
candidate has the entry `<root>/metadata/<escaped database>/<escaped
table>.sql` (the backup reader and the parser raising other codes), and
then leaves both catalogs as they were.  Otherwise the one file it reads is
that entry under the first candidate, in candidate order, that has it; when
it returns, the renamed key holds the statement read there, renamed, and
the data path `<that root>/data/<escaped database>/<escaped table>` of the
unrenamed name, and no other key has changed.  A table element is collected
by this function, under the temporary database when the element says so. -/
theorem collectTableInfo_first_candidate (env : Environment) (name : QualifiedTableName)
    (partitions : Option (List PartitionExpr)) (s : State)
    (hread : ∀ path e, env.readFile path = .error e →
      e.code ≠ ErrorCode.BACKUP_ENTRY_NOT_FOUND)
    (hparse : ∀ text e, env.parseQuery text = .error e →
      e.code ≠ ErrorCode.BACKUP_ENTRY_NOT_FOUND) :
    ((∃ e, (collectTableInfo env name partitions s).1 = .error e ∧
        e.code = ErrorCode.BACKUP_ENTRY_NOT_FOUND) ↔
      firstRootWithTable env name s.root_paths_in_backup = none) ∧
    (firstRootWithTable env name s.root_paths_in_backup = none →
      (collectTableInfo env name partitions s).1 = .error (tableNotFound env name) ∧
      (collectTableInfo env name partitions s).2.table_infos = s.table_infos ∧
      (collectTableInfo env name partitions s).2.database_infos = s.database_infos) ∧
    (∀ root, firstRootWithTable env name s.root_paths_in_backup = some root →
      (∃ probes, (∀ ev ∈ probes, ∃ path, ev = Event.fileExists path) ∧
        (collectTableInfo env name partitions s).2.trace =
          s.trace ++ probes ++ [Event.readFile (tableMetadataPath env root name)]) ∧
      ((collectTableInfo env name partitions s).1 = .ok () →
        ∃ text parsed info, env.readFile (tableMetadataPath env root name) = .ok text ∧
          env.parseQuery text = .ok parsed ∧
          mapFind (collectTableInfo env name partitions s).2.table_infos
            (s.renaming_settings.getNewTableName name) = some info ∧
          info.create_table_query =
            some (env.renameInCreateQuery s.renaming_settings parsed) ∧
          info.data_path_in_backup = tableDataPath env root name ∧
          ∀ key, key ≠ s.renaming_settings.getNewTableName name →
            mapFind (collectTableInfo env name partitions s).2.table_infos key =
              mapFind s.table_infos key)) ∧
    (∀ element : Element, element.type = ElementType.TABLE →
      collectElement env element s =
        collectTableInfo env
          ⟨if element.is_temporary_database then env.TEMPORARY_DATABASE
            else element.database_name, element.table_name⟩ element.partitions s) := by
  obtain ⟨probes, hall, hcases⟩ := collectTableInfo_cases env name partitions s
  refine ⟨?_, ?_, ?_, ?_⟩
  · constructor
    · rintro ⟨e, he, hcode⟩
      rcases hcases with h | ⟨root, _, ⟨e1, hsrc, h⟩ | ⟨text, parsed, _, _, h⟩⟩
      · exact h.1
      · rw [h] at he
        simp only [Except.error.injEq] at he
        subst he
        rcases hsrc with h1 | ⟨text, _, h1 | h1⟩
        · exact absurd hcode (hread _ _ h1)
        · exact absurd hcode (hparse _ _ h1)
        · rw [h1] at hcode; cases hcode
      · rw [h] at he
        cases he
    · intro hnone
      rcases hcases with h | ⟨root, hroot, _⟩
      · exact ⟨_, by rw [h.2], rfl⟩
      · rw [hnone] at hroot; cases hroot
  · intro hnone
    rcases hcases with h | ⟨root, hroot, _⟩
    · rw [h.2]
      exact ⟨rfl, rfl, rfl⟩
    · rw [hnone] at hroot; cases hroot
  · intro root hroot
    rcases hcases with h | ⟨root1, hroot1, hrest⟩
    · rw [h.1] at hroot; cases hroot
    · rw [hroot] at hroot1
      simp only [Option.some.injEq] at hroot1
      subst hroot1
      rcases hrest with ⟨e, _, h⟩ | ⟨text, parsed, hr, hp, h⟩
      · rw [h]
        exact ⟨⟨probes, hall, by simp [State.recordAll]⟩, fun h1 => by cases h1⟩
      · rw [h]
        refine ⟨⟨probes, hall, by simp [State.recordAll]⟩, fun _ => ?_⟩
        refine ⟨text, parsed, collectedTableInfo env root name
          (s.renaming_settings.getNewTableName name)
          (env.renameInCreateQuery s.renaming_settings parsed) partitions
          ((mapFind s.table_infos (s.renaming_settings.getNewTableName name)).getD {}),
          hr, hp, ?_, rfl, rfl, ?_⟩
        · show mapFind (mapSubscript s.table_infos _ _ _) _ = _
          rw [mapFind_mapSubscript, if_pos rfl]
        · intro key hkey
          show mapFind (mapSubscript s.table_infos _ _ _) _ = _
          rw [mapFind_mapSubscript, if_neg hkey]
  · intro element htype
    unfold collectElement
    rw [htype]

theorem collectTableInfo_first_candidate_witness :
    ∃ info, mapFind
        (collectTableInfo tableAtShardAndRoot.env ⟨"db", "t"⟩ none threeCandidates).2.table_infos
        ⟨"db", "t"⟩ = some info ∧
      info.create_table_query = some { definition := "CREATE TABLE db.t (shard)" } ∧
      info.data_path_in_backup = ["shards", "1", "data", "db", "t"] := by
  obtain ⟨text, parsed, info, h1, h2, h3, h4, h5, _⟩ :=
    ((collectTableInfo_first_candidate tableAtShardAndRoot.env ⟨"db", "t"⟩ none threeCandidates
      (Scenario.readFile_code _) (Scenario.parseQuery_code _)).2.2.1 ["shards", "1"] rfl).2 rfl
  have ht : text = "CREATE TABLE db.t (shard)" := by
    have : tableAtShardAndRoot.env.readFile
        (tableMetadataPath tableAtShardAndRoot.env ["shards", "1"] ⟨"db", "t"⟩) =
        .ok "CREATE TABLE db.t (shard)" := rfl
    rw [this] at h1
    simp only [Except.ok.injEq] at h1
    exact h1.symm
  subst ht
  have hp : parsed = { definition := "CREATE TABLE db.t (shard)" } := by
    have : tableAtShardAndRoot.env.parseQuery "CREATE TABLE db.t (shard)" =
        .ok { definition := "CREATE TABLE db.t (shard)" } := rfl
    rw [this] at h2
    simp only [Except.ok.injEq] at h2
    exact h2.symm
  subst hp
  exact ⟨info, h3, h4, h5⟩

/-- C14: on an instance whose stage is `kError`, every public call
(`restoreMetadata`, `addDataRestoreTask`, `addDataRestoreTasks`,
`getDataRestoreTasks`) returns or raises and leaves the stage `kError`, and
so does every sequence of such calls. -/
theorem error_stage_absorbing (env : Environment) (s : State)
    (h : s.current_stage = Stage.kError) :
    (∀ call : PublicCall, ∃ result s1, call.run env s = some (result, s1) ∧
      s1.current_stage = Stage.kError) ∧
    (∀ calls, ∃ results s1, runCalls env calls s = some (results, s1) ∧
      s1.current_stage = Stage.kError) := by
  refine ⟨fun call => PublicCall.run_error_stage env call s h, ?_⟩
  intro calls
  induction calls generalizing s with
  | nil => exact ⟨[], s, rfl, h⟩
  | cons call rest ih =>
    obtain ⟨result, s1, hrun, hs1⟩ := PublicCall.run_error_stage env call s h
    obtain ⟨results, s2, hrest, hs2⟩ := ih s1 hs1
    exact ⟨result :: results, s2, by simp [runCalls, hrun, hrest], hs2⟩

theorem error_stage_absorbing_witness :
    ∃ results s1, runCalls twoTables.env
        [.restoreMetadata 3, .addDataRestoreTask 1 5, .getDataRestoreTasks,
          .addDataRestoreTasks 2 [6, 7], .restoreMetadata 0] failedInstance =
        some (results, s1) ∧
      s1.current_stage = Stage.kError :=
  (error_stage_absorbing twoTables.env failedInstance rfl).2 _

/-- C15 (as stated, refuted): in a run whose last barrier, that of
`kInsertingDataToTables`, times out, all four stages are passed to
announce-and-wait, in order, and yet `restoreMetadata` raises and
announce-error is called. -/
theorem whole_sequence_announced_yet_raised :
    (restoreMetadata lastBarrierFails.env 3 requestT2T1).map
        (fun r => (r.1, announcedStages r.2.trace,
          r.2.trace.countP (fun ev => ev.kind = EventKind.announceError))) =
      some (.error ⟨.OTHER 2, "barrier timeout", []⟩, [1, 2, 3, 4], 1) ∧
    stageSequence.map Stage.toInt = [1, 2, 3, 4] := by
  constructor <;> rfl

/-- C15 (amended): on an instance that starts in `kPreparing` with no stage
announced, after any sequence of public calls the stage numbers passed to
announce-and-wait are those of a prefix of the sequence `kFindingTablesInBackup`,
`kCreatingDatabases`, `kCreatingTables`, `kInsertingDataToTables`, strictly
increasing, without the number of `kPreparing`.  When the first
`restoreMetadata` call returns normally the prefix is the whole sequence and
the call makes no announce-error call; when the whole sequence is announced,
the call returned normally or the announce-and-wait call of
`kInsertingDataToTables` itself raised the exception of the call. -/
theorem announced_stages_in_sequence (env : Environment) (s : State)
    (hfresh : s.current_stage = Stage.kPreparing) (hnone : announcedStages s.trace = []) :
    (∀ calls results s1, runCalls env calls s = some (results, s1) →
      ∃ n, n ≤ 4 ∧ announcedStages s1.trace = (stageSequence.take n).map Stage.toInt ∧
        (announcedStages s1.trace).Pairwise (· < ·) ∧
        Stage.kPreparing.toInt ∉ announcedStages s1.trace) ∧
    (∀ fuel r s1, restoreMetadata env fuel s = some (r, s1) →
      (r = .ok () → announcedStages s1.trace = stageSequence.map Stage.toInt ∧
        ∀ ev ∈ s1.trace.drop s.trace.length, ev.kind ≠ EventKind.announceError) ∧
      (announcedStages s1.trace = stageSequence.map Stage.toInt →
        r = .ok () ∨ ∃ e pre host all_hosts, r = .error e ∧
          env.syncStage pre host Stage.kInsertingDataToTables.toInt all_hosts = .error e)) := by
  refine ⟨?_, ?_⟩
  · intro calls results s1 hrun
    obtain ⟨n, hn⟩ := runCalls_announced env calls s results s1 hrun (Or.inl ⟨hfresh, hnone⟩)
    obtain ⟨m, hm, heq⟩ := stageSequence_take_le n
    rw [heq] at hn
    obtain ⟨h1, h2⟩ := stageSequence_increasing m
    rw [← hn] at h1 h2
    exact ⟨m, hm, hn, h1, h2⟩
  · intro fuel r s1 hr
    obtain ⟨n, hn, hann, hok, hwhole⟩ := restoreMetadata_announced env fuel s r s1 hr
    rw [hnone, List.nil_append] at hann
    refine ⟨?_, ?_⟩
    · intro h
      obtain ⟨h4, hno⟩ := hok h
      rw [hann, h4]
      exact ⟨rfl, hno⟩
    · intro h
      rw [hann] at h
      exact hwhole (stageSequence_whole n hn h)

theorem announced_stages_in_sequence_witness :
    (∃ results s1, runCalls barrierFails.env
        [.restoreMetadata 3, .getDataRestoreTasks, .restoreMetadata 3] requestT2T1 =
        some (results, s1) ∧
      ∃ n, n ≤ 4 ∧ announcedStages s1.trace = (stageSequence.take n).map Stage.toInt ∧
        (announcedStages s1.trace).Pairwise (· < ·) ∧
        Stage.kPreparing.toInt ∉ announcedStages s1.trace) ∧
    ∃ s1, restoreMetadata twoTables.env 3 requestT2T1 = some (.ok (), s1) ∧
      announcedStages s1.trace = stageSequence.map Stage.toInt :=
  ⟨⟨_, _, rfl, (announced_stages_in_sequence barrierFails.env requestT2T1 rfl rfl).1
      [.restoreMetadata 3, .getDataRestoreTasks, .restoreMetadata 3] _ _ rfl⟩,
    ⟨_, rfl,
      (((announced_stages_in_sequence twoTables.env requestT2T1 rfl rfl).2 3 _ _ rfl).1 rfl).1⟩⟩

/-- C17 (as stated, refuted): for the request `RESTORE TABLE
db.t1 PARTITION p1, DATABASE db` the pass of the database, which gives no
filter for `db.t1`, leaves the filter `p1` of the first pass in place, and
`restoreDataFromBackup` is then called for `db.t1` with the filter `p1`,
not with all partitions; the same holds with the two passes in the other
order. -/
theorem partition_filter_survives_unfiltered_pass :
    storedPartitions (collectDatabaseAndTableInfos twoTables.env
        { requestPartitionThenDatabase with root_paths_in_backup := [[]] }).2 ⟨"db", "t1"⟩ =
      some (some ["p1"]) ∧
    storedPartitions (collectDatabaseAndTableInfos twoTables.env
        { requestDatabaseThenPartition with root_paths_in_backup := [[]] }).2 ⟨"db", "t1"⟩ =
      some (some ["p1"]) ∧
    (restoreMetadata twoTables.env 3 requestPartitionThenDatabase).map
        (fun r => (r.1, dataRestoreCalls r.2.trace)) =
      some (.ok (), [(1, some ["p1"]), (2, none)]) ∧
    (restoreMetadata twoTables.env 3 requestDatabaseThenPartition).map
        (fun r => (r.1, dataRestoreCalls r.2.trace)) =
      some (.ok (), [(1, some ["p1"]), (2, none)]) := by
  refine ⟨?_, ?_, ?_, ?_⟩ <;> rfl

/-- C17 (amended): let a run of passes of `collectTableInfo` return, and let
some pass of the run be for the renamed key.  Then the key is in the catalog
and its stored filter is the filter stored before the run (absent when the
key was new) with the filters given by the passes for this key appended in
pass order; a pass without a filter adds nothing and removes nothing.  So
for a key that was new, the stored filter is absent exactly when no pass
gave a filter, and otherwise holds the partitions of all given filters.  The
passes of a request are such runs: a `TABLE` element is one pass with the
filter of the element, and the table loop of a database is a run of passes
without a filter, one for each table name found that is not excepted. -/
theorem partition_filters_appended (env : Environment)
    (passes : List (QualifiedTableName × Option (List PartitionExpr))) (s s1 : State)
    (key : QualifiedTableName)
    (hrun : collectPasses env passes s = (.ok (), s1))
    (hpass : ∃ pass ∈ passes, s.renaming_settings.getNewTableName pass.1 = key) :
    storedPartitions s1 key =
      some (if givenFilters s.renaming_settings passes key = [] then
          (storedPartitions s key).getD none
        else some (((storedPartitions s key).getD none).getD [] ++
          (givenFilters s.renaming_settings passes key).flatten)) ∧
    (storedPartitions s key = none →
      (storedPartitions s1 key = some none ↔
        ∀ pass ∈ passes, s.renaming_settings.getNewTableName pass.1 = key → pass.2 = none) ∧
      (givenFilters s.renaming_settings passes key ≠ [] →
        storedPartitions s1 key =
          some (some (givenFilters s.renaming_settings passes key).flatten))) ∧
    (∀ (element : Element) (x : State), element.type = ElementType.TABLE →
      collectElement env element x =
        collectPasses env
          [(⟨if element.is_temporary_database then env.TEMPORARY_DATABASE
              else element.database_name, element.table_name⟩, element.partitions)] x) ∧
    (∀ (database : String) (except_table_names names : List String) (x : State),
      collectTablesOfDatabase env database except_table_names names x =
        collectPasses env
          ((names.filter (fun name => name ∉ except_table_names)).map
            (fun name => (⟨database, name⟩, none))) x) := by
  have hmain : storedPartitions s1 key =
      some (appendFilters ((storedPartitions s key).getD none)
        (givenFilters s.renaming_settings passes key)) := by
    rw [(collectPasses_partitions env passes s s1 hrun).2 key, if_neg]
    obtain ⟨pass, hmem, hk⟩ := hpass
    intro hnil
    have : pass ∈ passes.filter
        (fun pass => decide (s.renaming_settings.getNewTableName pass.1 = key)) :=
      List.mem_filter.2 ⟨hmem, by simpa using hk⟩
    rw [hnil] at this
    cases this
  have hgiven : givenFilters s.renaming_settings passes key = [] ↔
      ∀ pass ∈ passes, s.renaming_settings.getNewTableName pass.1 = key → pass.2 = none := by
    unfold givenFilters
    rw [List.filterMap_eq_nil_iff]
    constructor
    · intro h pass hmem hk
      exact h pass (List.mem_filter.2 ⟨hmem, by simpa using hk⟩)
    · intro h pass hmem
      obtain ⟨h1, h2⟩ := List.mem_filter.1 hmem
      exact h pass h1 (by simpa using h2)
  refine ⟨hmain, ?_, ?_, ?_⟩
  · intro hnew
    rw [hmain, hnew, ← hgiven]
    unfold appendFilters
    refine ⟨?_, ?_⟩
    · by_cases hg : givenFilters s.renaming_settings passes key = []
      · simp [hg]
      · simp [hg]
    · intro hg
      simp [hg]
  · intro element x htype
    unfold collectElement
    rw [htype]
    simp only [collectPasses]
    rcases collectTableInfo env _ element.partitions x with ⟨r, x1⟩
    rcases r with e | u <;> rfl
  · intro database except_table_names names x
    exact collectTablesOfDatabase_eq_collectPasses env database except_table_names names x

theorem partition_filters_appended_witness :
    collectPasses twoTables.env
        [(⟨"db", "t1"⟩, some ["p1"]), (⟨"db", "t1"⟩, none), (⟨"db", "t1"⟩, some ["p2", "p3"])]
        { root_paths_in_backup := [[]] } =
      (.ok (), (collectPasses twoTables.env
        [(⟨"db", "t1"⟩, some ["p1"]), (⟨"db", "t1"⟩, none), (⟨"db", "t1"⟩, some ["p2", "p3"])]
        { root_paths_in_backup := [[]] }).2) ∧
    storedPartitions (collectPasses twoTables.env
        [(⟨"db", "t1"⟩, some ["p1"]), (⟨"db", "t1"⟩, none), (⟨"db", "t1"⟩, some ["p2", "p3"])]
        { root_paths_in_backup := [[]] }).2 ⟨"db", "t1"⟩ = some (some ["p1", "p2", "p3"]) :=
  ⟨rfl, (partition_filters_appended twoTables.env
      [(⟨"db", "t1"⟩, some ["p1"]), (⟨"db", "t1"⟩, none), (⟨"db", "t1"⟩, some ["p2", "p3"])]
      { root_paths_in_backup := [[]] } _ ⟨"db", "t1"⟩ rfl
      ⟨_, List.mem_cons_self _ _, rfl⟩).1.trans rfl⟩

/-- C18 (as stated, refuted): the backup holds the database-level file of
`db` and lists `a-b.sql` under its metadata directory, a file name that is
not the escaped form `a%2Db` of the table name.  The database is found, yet
`collectDatabaseInfo` raises entry-not-found: the one of `collectTableInfo`
for the table `a-b`, whose file is probed under the escaped name. -/
theorem listed_table_not_found :
    firstRootWithDatabase unescapedFileName "db" [[]] = some [] ∧
    tableNamesOfDatabase unescapedFileName "db" [[]] = ["a-b"] ∧
    (collectDatabaseInfo unescapedFileName "db" [] { root_paths_in_backup := [[]] }).1 =
      .error ⟨.BACKUP_ENTRY_NOT_FOUND, "Table {} not found in backup", ["db.a-b"]⟩ := by
  refine ⟨?_, ?_, ?_⟩ <;> rfl

/-- C18 (amended): `collectDatabaseInfo` raises the entry-not-found of the
database exactly when no candidate has the database-level file
`<root>/metadata/<escaped database>.sql` and no candidate lists a file
ending in `.sql` under the metadata directory of the database (the backup
reader and the parser raising other codes), and then leaves both catalogs
as they were.  Every other entry-not-found it raises is that of
`collectTableInfo` for a listed table that is not excepted and that no
candidate has; so when every such table has its file under some candidate,
entry-not-found is raised exactly when nothing of the database is found.
When it returns, the renamed database holds the statement read from the
first candidate, in candidate order, that has the database-level file,
renamed, or, no candidate having one, a generated statement that carries the
renamed database name and nothing else.  A database element is collected by
this function. -/
theorem collectDatabaseInfo_statement (env : Environment) (database : String)
    (except_table_names : List String) (s : State)
    (hread : ∀ path e, env.readFile path = .error e →
      e.code ≠ ErrorCode.BACKUP_ENTRY_NOT_FOUND)
    (hparse : ∀ text e, env.parseQuery text = .error e →
      e.code ≠ ErrorCode.BACKUP_ENTRY_NOT_FOUND) :
    ((collectDatabaseInfo env database except_table_names s).1 =
        .error (databaseNotFound env database) ↔
      firstRootWithDatabase env database s.root_paths_in_backup = none ∧
        tableNamesOfDatabase env database s.root_paths_in_backup = []) ∧
    (firstRootWithDatabase env database s.root_paths_in_backup = none →
      tableNamesOfDatabase env database s.root_paths_in_backup = [] →
      (collectDatabaseInfo env database except_table_names s).2.database_infos =
        s.database_infos ∧
      (collectDatabaseInfo env database except_table_names s).2.table_infos = s.table_infos) ∧
    ((collectDatabaseInfo env database except_table_names s).1 = .ok () →
      ∃ info, mapFind (collectDatabaseInfo env database except_table_names s).2.database_infos
          (s.renaming_settings.getNewDatabaseName database) = some info ∧
        (∀ root, firstRootWithDatabase env database s.root_paths_in_backup = some root →
          ∃ text parsed, env.readFile (databaseMetadataPath env root database) = .ok text ∧
            env.parseQuery text = .ok parsed ∧
            info.create_database_query =
              some (env.renameInCreateQuery s.renaming_settings parsed)) ∧
        (firstRootWithDatabase env database s.root_paths_in_backup = none →
          info.create_database_query =
            some { database := s.renaming_settings.getNewDatabaseName database })) ∧
    (∀ element : Element, element.type = ElementType.DATABASE →
      collectElement env element s =
        collectDatabaseInfo env element.database_name element.except_list s) ∧
    (∀ e, (collectDatabaseInfo env database except_table_names s).1 = .error e →
      e.code = ErrorCode.BACKUP_ENTRY_NOT_FOUND →
      e = databaseNotFound env database ∨
      ∃ name, name ∈ tableNamesOfDatabase env database s.root_paths_in_backup ∧
        name ∉ except_table_names ∧
        firstRootWithTable env ⟨database, name⟩ s.root_paths_in_backup = none ∧
        e = tableNotFound env ⟨database, name⟩) ∧
    ((∀ name ∈ tableNamesOfDatabase env database s.root_paths_in_backup,
        name ∉ except_table_names →
        firstRootWithTable env ⟨database, name⟩ s.root_paths_in_backup ≠ none) →
      ((∃ e, (collectDatabaseInfo env database except_table_names s).1 = .error e ∧
          e.code = ErrorCode.BACKUP_ENTRY_NOT_FOUND) ↔
        firstRootWithDatabase env database s.root_paths_in_backup = none ∧
          tableNamesOfDatabase env database s.root_paths_in_backup = [])) := by
  obtain ⟨names, probes, hnames, _, _, hnot, hfound⟩ :=
    collectDatabaseInfo_spec env database except_table_names s
  have hcode : ∀ e : Exception, e.code ≠ ErrorCode.BACKUP_ENTRY_NOT_FOUND →
      (Except.error e : Except Exception Unit) ≠ .error (databaseNotFound env database) := by
    intro e he h
    simp only [Except.error.injEq] at h
    rw [h] at he
    exact he rfl
  -- what happens once the database is found
  have hpast : (firstRootWithDatabase env database s.root_paths_in_backup ≠ none ∨
      tableNamesOfDatabase env database s.root_paths_in_backup ≠ []) →
      (collectDatabaseInfo env database except_table_names s).1 ≠
          .error (databaseNotFound env database) ∧
        ((collectDatabaseInfo env database except_table_names s).1 = .ok () →
          ∃ q, (readCreateDatabaseQuery env
              (firstDatabaseMetadata env database s.root_paths_in_backup)
              (s.renaming_settings.getNewDatabaseName database) s).1 = .ok q ∧
            mapFind (collectDatabaseInfo env database except_table_names s).2.database_infos
              (s.renaming_settings.getNewDatabaseName database) =
              some (collectedDatabaseInfo q
                ((mapFind s.database_infos
                  (s.renaming_settings.getNewDatabaseName database)).getD {}))) := by
    intro hf
    obtain ⟨herr, hok⟩ := hfound hf
    rcases hq : (readCreateDatabaseQuery env
        (firstDatabaseMetadata env database s.root_paths_in_backup)
        (s.renaming_settings.getNewDatabaseName database) s).1 with e | q
    · rw [herr e hq]
      obtain ⟨path, _, h1 | ⟨text, _, h1⟩⟩ := readCreateDatabaseQuery_error env _ _ _ e hq
      · exact ⟨hcode e (hread _ _ h1), fun h => by cases h⟩
      · exact ⟨hcode e (hparse _ _ h1), fun h => by cases h⟩
    · obtain ⟨hdiff, hsame⟩ := hok q hq
      by_cases hc : ∀ info stored,
          mapFind s.database_infos (s.renaming_settings.getNewDatabaseName database) =
            some info →
          info.create_database_query = some stored →
          env.serializeAST stored = env.serializeAST q
      · rw [hsame hc]
        refine ⟨collectTablesOfDatabase_error env database database _ _ _ hread hparse, ?_⟩
        intro _
        obtain ⟨infos, evs, h1, _⟩ := collectTablesOfDatabase_onlyTables env database
          except_table_names names
          { s.recordAll probes with
            database_infos := mapSubscript s.database_infos
              (s.renaming_settings.getNewDatabaseName database) {}
              (collectedDatabaseInfo q) }
        refine ⟨q, rfl, ?_⟩
        rw [h1]
        show mapFind (mapSubscript s.database_infos _ _ _) _ = _
        rw [mapFind_mapSubscript, if_pos rfl]
      · push_neg at hc
        obtain ⟨info, stored, h1, h2, h3⟩ := hc
        rw [hdiff info stored h1 h2 h3]
        exact ⟨hcode _ (fun h => by cases h), fun h => by cases h⟩
  -- entry-not-found is the exception of the database or that of a listed table
  have hentry : ∀ e, (collectDatabaseInfo env database except_table_names s).1 = .error e →
      e.code = ErrorCode.BACKUP_ENTRY_NOT_FOUND →
      e = databaseNotFound env database ∨
      ∃ name, name ∈ tableNamesOfDatabase env database s.root_paths_in_backup ∧
        name ∉ except_table_names ∧
        firstRootWithTable env ⟨database, name⟩ s.root_paths_in_backup = none ∧
        e = tableNotFound env ⟨database, name⟩ := by
    intro e he hcode_e
    by_cases hf : firstRootWithDatabase env database s.root_paths_in_backup ≠ none ∨
        tableNamesOfDatabase env database s.root_paths_in_backup ≠ []
    · obtain ⟨herr, hok⟩ := hfound hf
      rcases hq : (readCreateDatabaseQuery env
          (firstDatabaseMetadata env database s.root_paths_in_backup)
          (s.renaming_settings.getNewDatabaseName database) s).1 with e1 | q
      · rw [herr e1 hq] at he
        simp only [Except.error.injEq] at he
        subst he
        obtain ⟨path, _, h1 | ⟨text, _, h1⟩⟩ := readCreateDatabaseQuery_error env _ _ _ e1 hq
        · exact absurd hcode_e (hread _ _ h1)
        · exact absurd hcode_e (hparse _ _ h1)
      · obtain ⟨hdiff, hsame⟩ := hok q hq
        by_cases hc : ∀ info stored,
            mapFind s.database_infos (s.renaming_settings.getNewDatabaseName database) =
              some info →
            info.create_database_query = some stored →
            env.serializeAST stored = env.serializeAST q
        · rw [hsame hc] at he
          obtain ⟨name, h1, h2, h3, h4⟩ :=
            collectTablesOfDatabase_entry_not_found env database except_table_names names _ e
              hread hparse he hcode_e
          exact Or.inr ⟨name, (hnames name).1 h1, h2, h3, h4⟩
        · push_neg at hc
          obtain ⟨info, stored, h1, h2, h3⟩ := hc
          rw [hdiff info stored h1 h2 h3] at he
          simp only [Except.error.injEq] at he
          subst he
          cases hcode_e
    · push_neg at hf
      rw [hnot hf.1 hf.2] at he
      simp only [Except.error.injEq] at he
      exact Or.inl he.symm
  refine ⟨?_, ?_, ?_, ?_, hentry, ?_⟩
  rotate_left 4
  · intro hall
    constructor
    · rintro ⟨e, he, hcode_e⟩
      rcases hentry e he hcode_e with h | ⟨name, h1, h2, h3, _⟩
      · by_contra hc
        have hf : firstRootWithDatabase env database s.root_paths_in_backup ≠ none ∨
            tableNamesOfDatabase env database s.root_paths_in_backup ≠ [] := by
          by_contra h1
          push_neg at h1
          exact hc h1
        rw [h] at he
        exact (hpast hf).1 he
      · exact absurd h3 (hall name h1 h2)
    · rintro ⟨h1, h2⟩
      rw [hnot h1 h2]
      exact ⟨_, rfl, rfl⟩
  · constructor
    · intro h
      by_contra hc
      have hf : firstRootWithDatabase env database s.root_paths_in_backup ≠ none ∨
          tableNamesOfDatabase env database s.root_paths_in_backup ≠ [] := by
        by_contra h1
        push_neg at h1
        exact hc h1
      exact (hpast hf).1 h
    · rintro ⟨h1, h2⟩
      rw [hnot h1 h2]
  · intro h1 h2
    rw [hnot h1 h2]
    exact ⟨rfl, rfl⟩
  · intro hok
    have hf : firstRootWithDatabase env database s.root_paths_in_backup ≠ none ∨
        tableNamesOfDatabase env database s.root_paths_in_backup ≠ [] := by
      by_contra h1
      push_neg at h1
      rw [hnot h1.1 h1.2] at hok
      cases hok
    obtain ⟨q, hq, hfind⟩ := (hpast hf).2 hok
    obtain ⟨hsome, hnone⟩ := readCreateDatabaseQuery_ok env _ _ _ q hq
    refine ⟨_, hfind, ?_, ?_⟩
    · intro root hroot
      obtain ⟨text, parsed, h1, h2, h3⟩ := hsome (databaseMetadataPath env root database)
        (by simp [firstDatabaseMetadata, hroot])
      exact ⟨text, parsed, h1, h2, by rw [h3]; rfl⟩
    · intro hroot
      have := hnone (by simp [firstDatabaseMetadata, hroot])
      rw [this]; rfl
  · intro element htype
    unfold collectElement
    rw [htype]

theorem collectDatabaseInfo_statement_witness :
    ∃ info, mapFind
        (collectDatabaseInfo databaseAtRoot.env "db" [] threeCandidates).2.database_infos
        "db" = some info ∧
      info.create_database_query = some { definition := "CREATE DATABASE db" } := by
  obtain ⟨info, h1, h2, _⟩ :=
    (collectDatabaseInfo_statement databaseAtRoot.env "db" [] threeCandidates
      (Scenario.readFile_code _) (Scenario.parseQuery_code _)).2.2.1 rfl
  obtain ⟨text, parsed, h3, h4, h5⟩ := h2 [] rfl
  have ht : text = "CREATE DATABASE db" := by
    have : databaseAtRoot.env.readFile (databaseMetadataPath databaseAtRoot.env [] "db") =
        .ok "CREATE DATABASE db" := rfl
    rw [this] at h3
    simp only [Except.ok.injEq] at h3
    exact h3.symm
  subst ht
  have hp : parsed = { definition := "CREATE DATABASE db" } := by
    have : databaseAtRoot.env.parseQuery "CREATE DATABASE db" =
        .ok { definition := "CREATE DATABASE db" } := rfl
    rw [this] at h4
    simp only [Except.ok.injEq] at h4
    exact h4.symm
  subst hp
  exact ⟨info, h1, h5⟩

/-- C19: when `collectDatabaseInfo` returns, the tables it collected are
those of a list without repetition that holds exactly the names found for
the database in any candidate (files ending in `.sql` under its metadata
directory, extension stripped, unescaped) and not in the exception list:
the function ends as the single-table collection of each name of that list,
in order, and the keys of the table catalog are then the keys it had and
the renamed names of that list.  No name of the exception list is in the
list. -/
theorem collectDatabaseInfo_tables (env : Environment) (database : String)
    (except_table_names : List String) (s : State)
    (hok : (collectDatabaseInfo env database except_table_names s).1 = .ok ()) :
    ∃ collected sB, collected.Nodup ∧
      (∀ name, name ∈ collected ↔
        name ∈ tableNamesOfDatabase env database s.root_paths_in_backup ∧
          name ∉ except_table_names) ∧
      sB.table_infos = s.table_infos ∧
      sB.root_paths_in_backup = s.root_paths_in_backup ∧
      collectDatabaseInfo env database except_table_names s =
        collectTablesOfDatabase env database [] collected sB ∧
      (∀ key, key ∈ mapKeys (collectDatabaseInfo env database except_table_names s).2.table_infos ↔
        key ∈ mapKeys s.table_infos ∨
          ∃ name ∈ collected, key = s.renaming_settings.getNewTableName ⟨database, name⟩) ∧
      ∀ name ∈ except_table_names, name ∉ collected := by
  obtain ⟨names, probes, q, hnodup, hmem, heq⟩ :=
    collectDatabaseInfo_ok env database except_table_names s hok
  rw [collectTablesOfDatabase_filter] at heq
  refine ⟨names.filter (fun name => name ∉ except_table_names), _, hnodup.filter _, ?_, ?_, ?_,
    heq, ?_, ?_⟩
  · intro name
    rw [List.mem_filter, hmem]
    simp
  · rfl
  · rfl
  · rw [heq] at hok
    rcases hrun : collectTablesOfDatabase env database []
      (names.filter (fun name => name ∉ except_table_names))
      { s.recordAll probes with
        database_infos := mapSubscript s.database_infos
          (s.renaming_settings.getNewDatabaseName database) {}
          (collectedDatabaseInfo q) } with ⟨r, s1⟩
    rw [hrun] at hok
    simp only at hok
    subst hok
    rw [heq, hrun]
    exact collectTablesOfDatabase_ok_keys env database _
      { s.recordAll probes with
        database_infos := mapSubscript s.database_infos
          (s.renaming_settings.getNewDatabaseName database) {}
          (collectedDatabaseInfo q) } s1 hrun
  · intro name hname hc
    have := (List.mem_filter.mp hc).2
    simp only [decide_eq_true_eq] at this
    exact this hname

theorem collectDatabaseInfo_tables_witness :
    ∃ collected sB, collected.Nodup ∧
      (∀ name, name ∈ collected ↔
        name ∈ tableNamesOfDatabase twoTables.env "db" [[]] ∧ name ∉ ["t2"]) ∧
      sB.table_infos = [] ∧
      sB.root_paths_in_backup = [[]] ∧
      collectDatabaseInfo twoTables.env "db" ["t2"] { root_paths_in_backup := [[]] } =
        collectTablesOfDatabase twoTables.env "db" [] collected sB ∧
      (∀ key, key ∈ mapKeys (collectDatabaseInfo twoTables.env "db" ["t2"]
          { root_paths_in_backup := [[]] }).2.table_infos ↔
        key ∈ mapKeys ([] : List (QualifiedTableName × TableInfo)) ∨
          ∃ name ∈ collected, key = ⟨"db", name⟩) ∧
      ∀ name ∈ ["t2"], name ∉ collected :=
  collectDatabaseInfo_tables twoTables.env "db" ["t2"] { root_paths_in_backup := [[]] } rfl

/-- C20: in a `restoreMetadata` call, an announce-and-wait call that raises
`e` is the last thing the `try` block does: the only call recorded after it
is the announce-error of the handler, so nothing is read from the backup,
no database or table is created, no table is locked and no data-restore
hook is called after it; `restoreMetadata` raises `e`, the instance ends in
`kError`, and `getDataRestoreTasks` then raises the logic error.  The stage
announced by such a call is one of the four of the sequence. -/
theorem failed_barrier_stops (env : Environment) (fuel : Nat) (s : State)
    (r : Except Exception Unit) (s1 : State) (h : restoreMetadata env fuel s = some (r, s1))
    (pre post : List Event) (host : String) (stage : Int) (all_hosts : List String)
    (e : Exception)
    (htrace : s1.trace = s.trace ++ pre ++ Event.syncStage host stage all_hosts :: post)
    (hfail : env.syncStage (s.trace ++ pre) host stage all_hosts = .error e) :
    r = .error e ∧
      post = [Event.syncStageError s.restore_settings.host_id
        (env.getCurrentExceptionMessage e)] ∧
      (∀ ev ∈ post, ev.kind = EventKind.announceError) ∧
      s1.current_stage = Stage.kError ∧
      (getDataRestoreTasks s1).1 = .error ⟨.LOGICAL_ERROR, "Metadata wasn't restored", []⟩ ∧
      stage ∈ stageSequence.map Stage.toInt := by
  unfold restoreMetadata at h
  split at h
  · cases h
  · rename_i s2 heq
    exfalso
    simp only [Option.some.injEq, Prod.mk.injEq] at h
    obtain ⟨_, hs⟩ := h
    subst hs
    rcases restoreMetadataTry_barriers env fuel s _ _ heq with
      ⟨n, ⟨_, evs, htr, hpassed, _, _⟩, _, _⟩ | ⟨e1, he, _⟩
    · rw [htr, List.append_assoc] at htrace
      exact hpassed.not_failed pre post host stage all_hosts e
        (List.append_cancel_left htrace) hfail
    · cases he
  · rename_i e0 s2 heq
    simp only [Option.some.injEq, Prod.mk.injEq] at h
    obtain ⟨hr, hs⟩ := h
    subst hr; subst hs
    rw [setStage_error_trace] at htrace
    have hne : ∀ msg : String, Event.syncStageError s2.restore_settings.host_id msg ≠
        Event.syncStage host stage all_hosts := by
      intro msg hc; cases hc
    rcases restoreMetadataTry_barriers env fuel s _ _ heq with
      ⟨n, ⟨_, evs, htr, hpassed, _, _⟩, _, _⟩ |
      ⟨e1, he, hset, evs, host1, stage1, hosts1, htr, hpassed, hfail1, _, n, hlt, _, hstage⟩
    · exfalso
      rw [htr, List.append_assoc, List.append_assoc] at htrace
      obtain ⟨rest, hrest⟩ := split_before_last evs pre post _ _ (hne _)
        (List.append_cancel_left htrace)
      exact hpassed.not_failed pre rest host stage all_hosts e hrest hfail
    · simp only [Except.error.injEq] at he
      subst he
      rw [htr] at htrace
      have h2 : evs ++ [Event.syncStage host1 stage1 hosts1,
          Event.syncStageError s2.restore_settings.host_id (env.getCurrentExceptionMessage e0)] =
          pre ++ Event.syncStage host stage all_hosts :: post := by
        have h3 : s.trace ++ (evs ++ [Event.syncStage host1 stage1 hosts1,
            Event.syncStageError s2.restore_settings.host_id
              (env.getCurrentExceptionMessage e0)]) =
            s.trace ++ (pre ++ Event.syncStage host stage all_hosts :: post) := by
          simpa [List.append_assoc] using htrace
        exact List.append_cancel_left h3
      rcases split_at_failed evs pre post _ _ _ (hne _) h2 with ⟨h3, h4, h5⟩ | ⟨rest, hrest⟩
      · subst h3
        simp only [Event.syncStage.injEq] at h4
        obtain ⟨h6, h7, h8⟩ := h4
        subst h6; subst h7; subst h8
        rw [hfail1] at hfail
        simp only [Except.error.injEq] at hfail
        subst hfail
        have hst : (setStage env Stage.kError (env.getCurrentExceptionMessage e0)
            s2).2.current_stage = Stage.kError := setStage_current_stage _ _ _ _
        refine ⟨rfl, by rw [h5, hset], ?_, hst, ?_, ?_⟩
        · intro ev hev
          rw [h5] at hev
          simp only [List.mem_singleton] at hev
          rw [hev]; rfl
        · simp [getDataRestoreTasks, hst]
        · have hsub : ((stageSequence.take (n + 1)).map Stage.toInt).Sublist
              (stageSequence.map Stage.toInt) :=
            (List.take_sublist (n + 1) stageSequence).map Stage.toInt
          apply hsub.subset
          rw [hstage]
          simp
      · exact absurd hfail (fun hf => hpassed.not_failed pre rest host stage all_hosts e hrest hf)

theorem failed_barrier_stops_witness :
    ∃ s1 pre, restoreMetadata barrierFails.env 2 requestT2 =
        some (.error ⟨.OTHER 2, "barrier timeout", []⟩, s1) ∧
      s1.trace = requestT2.trace ++ pre ++
        Event.syncStage "" Stage.kCreatingDatabases.toInt [] ::
          [Event.syncStageError "" "barrier timeout"] ∧
      s1.current_stage = Stage.kError ∧
      (getDataRestoreTasks s1).1 = .error ⟨.LOGICAL_ERROR, "Metadata wasn't restored", []⟩ :=
  ⟨_, [Event.listFiles ["shards"], Event.listFiles ["replicas"],
      Event.syncStage "" 1 [], Event.fileExists ["metadata", "db", "t2.sql"],
      Event.readFile ["metadata", "db", "t2.sql"]], rfl, rfl,
    (failed_barrier_stops barrierFails.env 2 requestT2 _ _ rfl
      [Event.listFiles ["shards"], Event.listFiles ["replicas"],
        Event.syncStage "" 1 [], Event.fileExists ["metadata", "db", "t2.sql"],
        Event.readFile ["metadata", "db", "t2.sql"]]
      [Event.syncStageError "" "barrier timeout"] "" 2 [] _ rfl rfl).2.2.2.1,
    (failed_barrier_stops barrierFails.env 2 requestT2 _ _ rfl
      [Event.listFiles ["shards"], Event.listFiles ["replicas"],
        Event.syncStage "" 1 [], Event.fileExists ["metadata", "db", "t2.sql"],
        Event.readFile ["metadata", "db", "t2.sql"]]
      [Event.syncStageError "" "barrier timeout"] "" 2 [] _ rfl rfl).2.2.2.2.1⟩

/-- C21: when some uncreated table of the catalog has no uncreated catalog
table in its dependency set, `findTablesWithoutDependencies` returns, without
a warning, the names of exactly the uncreated tables whose dependency set
holds no uncreated catalog table, in catalog order, each once (the keys of
the catalog being distinct); and for every catalog it returns the empty
list exactly when every table of the catalog is created. -/
theorem findTablesWithoutDependencies_ready (m : List (QualifiedTableName × TableInfo))
    (hready : ∃ entry ∈ m, entry.2.created = false ∧
      DependenciesCreated m entry.2.dependencies) :
    (findTablesWithoutDependencies m).2 = none ∧
    (∀ k, k ∈ (findTablesWithoutDependencies m).1 ↔
      ∃ entry ∈ m, entry.1 = k ∧ entry.2.created = false ∧
        DependenciesCreated m entry.2.dependencies) ∧
    ((mapKeys m).Nodup → (findTablesWithoutDependencies m).1.Nodup) ∧
    (findTablesWithoutDependencies m).1 ≠ [] ∧
    (∀ m1 : List (QualifiedTableName × TableInfo),
      (findTablesWithoutDependencies m1).1 = [] ↔ ∀ entry ∈ m1, entry.2.created = true) := by
  have hne : ((m.filter (fun entry => !entry.2.created)).filter
      (fun entry => allDependenciesMet m entry.2.dependencies)).map Prod.fst ≠ [] := by
    obtain ⟨entry, hentry, hc, hd⟩ := hready
    intro h
    have : entry.1 ∈ ((m.filter (fun entry => !entry.2.created)).filter
        (fun entry => allDependenciesMet m entry.2.dependencies)).map Prod.fst :=
      List.mem_map.mpr ⟨entry, List.mem_filter.mpr ⟨List.mem_filter.mpr ⟨hentry, by simp [hc]⟩,
        (allDependenciesMet_iff m _).mpr hd⟩, rfl⟩
    rw [h] at this
    cases this
  have heq : findTablesWithoutDependencies m =
      (((m.filter (fun entry => !entry.2.created)).filter
        (fun entry => allDependenciesMet m entry.2.dependencies)).map Prod.fst, none) := by
    unfold findTablesWithoutDependencies
    have h1 := (isEmpty_eq_false_iff _).mpr hne
    simp only [h1, Bool.not_false, if_true]
  refine ⟨by rw [heq], ?_, ?_, by rw [heq]; exact hne,
    fun m1 => findTablesWithoutDependencies_eq_nil_iff m1⟩
  · intro k
    rw [heq]
    simp only [List.mem_map, List.mem_filter, Bool.not_eq_true', allDependenciesMet_iff]
    constructor
    · rintro ⟨entry, ⟨⟨h1, h2⟩, h3⟩, h4⟩
      exact ⟨entry, h1, h4, h2, h3⟩
    · rintro ⟨entry, h1, h4, h2, h3⟩
      exact ⟨entry, ⟨⟨h1, h2⟩, h3⟩, h4⟩
  · intro hn
    rw [heq]
    rw [List.filter_filter]
    exact nodup_map_fst_filter m _ hn

theorem findTablesWithoutDependencies_ready_witness :
    (findTablesWithoutDependencies collectedT2T1.table_infos).2 = none ∧
      (∀ k, k ∈ (findTablesWithoutDependencies collectedT2T1.table_infos).1 ↔
        ∃ entry ∈ collectedT2T1.table_infos, entry.1 = k ∧ entry.2.created = false ∧
          DependenciesCreated collectedT2T1.table_infos entry.2.dependencies) ∧
      (findTablesWithoutDependencies collectedT2T1.table_infos).1 = [⟨"db", "t1"⟩] := by
  have h := findTablesWithoutDependencies_ready collectedT2T1.table_infos
    ⟨(⟨"db", "t1"⟩, { create_table_query := some { definition := "CREATE TABLE db.t1" }
                      data_path_in_backup := ["data", "db", "t1"] }),
      by decide, rfl, by intro d hd; cases hd⟩
  exact ⟨h.1, h.2.1, rfl⟩

/-- C22: for every catalog, whatever its dependency sets: the number of
uncreated tables is at most the number of tables; while a table is
uncreated the next wave is not empty; a wave whose creations all return
leaves strictly fewer uncreated tables; so `createTables` returns or raises
within one iteration more than there are uncreated tables, with every table
created when it returns, and it has then run at most as many waves as there
were uncreated tables. -/
theorem createTables_wave_bound (env : Environment) (s : State) :
    uncreatedCount s.table_infos ≤ s.table_infos.length ∧
    ((∃ entry ∈ s.table_infos, entry.2.created = false) → (nextWave s).1 ≠ []) ∧
    (∀ s2, createTablesInWave env (nextWave s).1 (nextWave s).2 = (.ok (), s2) →
      (nextWave s).1 ≠ [] → uncreatedCount s2.table_infos < uncreatedCount s.table_infos) ∧
    (∀ fuel, uncreatedCount s.table_infos < fuel →
      ∃ r s1, createTables env fuel s = some (r, s1) ∧
        (r = .ok () → ∀ entry ∈ s1.table_infos, entry.2.created = true)) ∧
    (∀ fuel s1, createTables env fuel s = some (.ok (), s1) →
      ∃ n, n ≤ s.table_infos.length ∧ afterWaves env n s = some s1) := by
  refine ⟨uncreatedCount_le_length _, nextWave_ne_nil s,
    fun s2 h1 h2 => createTablesInWave_decreases env s s2 h1 h2, ?_, ?_⟩
  · intro fuel hfuel
    obtain ⟨r, s1, h1, h2⟩ := createTables_terminates env fuel s hfuel
    exact ⟨r, s1, h1, fun hr => (h2 hr).1⟩
  · intro fuel s1 h
    obtain ⟨n, hn, hwaves⟩ := createTables_waves_bounded env fuel s s1 h
    exact ⟨n, le_trans hn (uncreatedCount_le_length _), hwaves⟩

/-- C23: in a catalog with distinct keys, `createTables` changes the catalog
only by setting `created` for some tables, so a created table stays
created; `findTablesWithoutDependencies` never returns a created table and
returns no table twice; the waves the loop selects hold no table twice,
neither within a wave nor across waves; and when `createTables` returns,
the tables selected are exactly those that were uncreated, which are all
tables of the catalog when none was created at the start. -/
theorem created_exactly_once (env : Environment) (fuel : Nat) (s : State)
    (hkeys : (mapKeys s.table_infos).Nodup) :
    (∀ r s1, createTables env fuel s = some (r, s1) →
      (∃ done, s1.table_infos = markCreatedAll done s.table_infos) ∧
      ∀ k, TableCreated s.table_infos k → TableCreated s1.table_infos k) ∧
    (∀ k, TableCreated s.table_infos k → k ∉ (findTablesWithoutDependencies s.table_infos).1) ∧
    (findTablesWithoutDependencies s.table_infos).1.Nodup ∧
    (∀ wave ∈ selectedWaves env fuel s, wave.Nodup) ∧
    (selectedWaves env fuel s).flatten.Nodup ∧
    (∀ s1, createTables env fuel s = some (.ok (), s1) →
      ∀ k, k ∈ (selectedWaves env fuel s).flatten ↔ k ∈ uncreatedTables s.table_infos) ∧
    ((∀ entry ∈ s.table_infos, entry.2.created = false) →
      uncreatedTables s.table_infos = mapKeys s.table_infos) := by
  obtain ⟨hnd, hsub⟩ := selectedWaves_nodup env fuel s hkeys
  refine ⟨?_, tableCreated_not_selected _ hkeys, ?_, ?_, hnd, ?_, ?_⟩
  · intro r s1 h
    obtain ⟨done, hdone⟩ := createTables_marks env fuel s r s1 h
    refine ⟨⟨done, hdone⟩, ?_⟩
    intro k hk
    rw [hdone]
    exact tableCreated_markCreatedAll_of done _ k hk
  · have := nextWave_nodup s hkeys
    rw [nextWave_fst] at this
    exact this
  · intro wave hwave
    exact (List.nodup_flatten.mp hnd).1 wave hwave
  · intro s1 h k
    exact ⟨hsub k, selectedWaves_complete env fuel s s1 h k⟩
  · intro hfresh
    unfold uncreatedTables mapKeys
    congr 1
    apply List.filter_eq_self.mpr
    intro entry hentry
    simp [hfresh entry hentry]

theorem created_exactly_once_witness :
    selectedWaves twoTables.env 3 collectedT2T1 = [[⟨"db", "t1"⟩], [⟨"db", "t2"⟩]] ∧
      (selectedWaves twoTables.env 3 collectedT2T1).flatten.Nodup ∧
      ∃ s1, createTables twoTables.env 3 collectedT2T1 = some (.ok (), s1) ∧
        ∀ k, k ∈ (selectedWaves twoTables.env 3 collectedT2T1).flatten ↔
          k ∈ uncreatedTables collectedT2T1.table_infos :=
  ⟨rfl, (created_exactly_once twoTables.env 3 collectedT2T1 (by decide)).2.2.2.2.1,
    _, rfl, (created_exactly_once twoTables.env 3 collectedT2T1 (by decide)).2.2.2.2.2.1 _ rfl⟩

/-- C24: when `findRootPathsInBackup` returns, the candidate list is one of
`[/]`, `[/shards/S, /]`, `[/replicas/R, /]` and `[/shards/S/replicas/R,
/shards/S, /]`: it is not empty, has at most three elements, ends with the
root, and every other element is the element after it extended by
`shards/<name>` or `replicas/<name>` with a name the backup lists in that
directory. -/
theorem findRootPathsInBackup_candidates (env : Environment) (s : State)
    (hok : (findRootPathsInBackup env s).1 = .ok ()) :
    (findRootPathsInBackup env s).2.root_paths_in_backup ≠ [] ∧
    (findRootPathsInBackup env s).2.root_paths_in_backup.length ≤ 3 ∧
    (findRootPathsInBackup env s).2.root_paths_in_backup.getLast? = some [] ∧
    CandidateChain env (findRootPathsInBackup env s).2.root_paths_in_backup := by
  rcases findRootPathsInBackup_chain env s hok with h | ⟨name, hname, h⟩ | ⟨name, hname, h⟩ |
    ⟨shard, replica, hshard, hreplica, h⟩
  · rw [h]
    exact ⟨by simp, by simp, rfl, rfl⟩
  · rw [h]
    exact ⟨by simp, by simp, rfl, ⟨name, Or.inl ⟨rfl, hname⟩⟩, rfl⟩
  · rw [h]
    exact ⟨by simp, by simp, rfl, ⟨name, Or.inr ⟨rfl, hname⟩⟩, rfl⟩
  · rw [h]
    exact ⟨by simp, by simp, rfl, ⟨replica, Or.inr ⟨rfl, hreplica⟩⟩,
      ⟨shard, Or.inl ⟨rfl, hshard⟩⟩, rfl⟩

theorem findRootPathsInBackup_candidates_witness :
    (findRootPathsInBackup soleShardAndReplica.env {}).2.root_paths_in_backup =
        [["shards", "3", "replicas", "7"], ["shards", "3"], []] ∧
      CandidateChain soleShardAndReplica.env
        (findRootPathsInBackup soleShardAndReplica.env {}).2.root_paths_in_backup :=
  ⟨rfl, (findRootPathsInBackup_candidates soleShardAndReplica.env {} rfl).2.2.2⟩

/-- C25: let `restoreMetadata` have returned normally, leaving `s1`.  Then
`s1` is in `kInsertingDataToTables`, `getDataRestoreTasks` returns there and
`addDataRestoreTask` is refused.  A second `restoreMetadata` raises the
logic error "Already restoring", records one announce-error call and leaves
a state in `kError` with the same task registry; there `getDataRestoreTasks`
raises the logic error and `addDataRestoreTask` returns normally, adding its
task to the registry. -/
theorem second_restoreMetadata_after_success (env : Environment) (fuel fuel2 : Nat)
    (s s1 : State) (h : restoreMetadata env fuel s = some (.ok (), s1)) :
    s1.current_stage = Stage.kInsertingDataToTables ∧
    (getDataRestoreTasks s1).1 =
      .ok ((s1.data_restore_tasks.map (actionsOfStorage s1.table_locks)).flatten) ∧
    (∀ storage new_task, (addDataRestoreTask storage new_task s1).1 = .error addingNotAllowed) ∧
    ∃ s2, restoreMetadata env fuel2 s1 =
        some (.error ⟨.LOGICAL_ERROR, "Already restoring", []⟩, s2) ∧
      s2.current_stage = Stage.kError ∧
      s2.trace = s1.trace ++ [Event.syncStageError s1.restore_settings.host_id
        (env.getCurrentExceptionMessage ⟨.LOGICAL_ERROR, "Already restoring", []⟩)] ∧
      s2.data_restore_tasks = s1.data_restore_tasks ∧
      (getDataRestoreTasks s2).1 = .error ⟨.LOGICAL_ERROR, "Metadata wasn't restored", []⟩ ∧
      ∀ storage new_task,
        (addDataRestoreTask storage new_task s2).1 = .ok () ∧
        (addDataRestoreTask storage new_task s2).2.data_restore_tasks =
          mapSubscript s1.data_restore_tasks storage [] (fun tasks => tasks ++ [new_task]) := by
  have hstage := restoreMetadata_ok_stage env fuel s s1 h
  have hne : s1.current_stage ≠ Stage.kPreparing := by rw [hstage]; decide
  have hst : (setStage env Stage.kError
      (env.getCurrentExceptionMessage ⟨.LOGICAL_ERROR, "Already restoring", []⟩)
      s1).2.current_stage = Stage.kError := setStage_current_stage _ _ _ _
  have htasks : (setStage env Stage.kError
      (env.getCurrentExceptionMessage ⟨.LOGICAL_ERROR, "Already restoring", []⟩)
      s1).2.data_restore_tasks = s1.data_restore_tasks := by
    simp [setStage, State.record]
  have hni : (setStage env Stage.kError
      (env.getCurrentExceptionMessage ⟨.LOGICAL_ERROR, "Already restoring", []⟩)
      s1).2.current_stage ≠ Stage.kInsertingDataToTables := by rw [hst]; decide
  refine ⟨hstage, by simp [getDataRestoreTasks, hstage],
    fun storage new_task => by rw [addDataRestoreTask_inserting storage new_task s1 hstage],
    _, restoreMetadata_not_preparing env fuel2 s1 hne, hst, setStage_error_trace _ _ _, htasks,
    by simp [getDataRestoreTasks, hst], ?_⟩
  intro storage new_task
  rw [addDataRestoreTask_not_inserting storage new_task _ hni]
  exact ⟨rfl, by rw [htasks]⟩

theorem second_restoreMetadata_after_success_witness :
    ∃ s1, restoreMetadata twoTables.env 3 requestT2T1 = some (.ok (), s1) ∧
      ∃ s2, restoreMetadata twoTables.env 0 s1 =
          some (.error ⟨.LOGICAL_ERROR, "Already restoring", []⟩, s2) ∧
        s2.current_stage = Stage.kError ∧
        (getDataRestoreTasks s2).1 =
          .error ⟨.LOGICAL_ERROR, "Metadata wasn't restored", []⟩ ∧
        (addDataRestoreTask 1 99 s2).1 = .ok () := by
  obtain ⟨_, _, _, s2, h1, h2, _, _, h3, h4⟩ :=
    second_restoreMetadata_after_success twoTables.env 3 0 requestT2T1 _ rfl
  exact ⟨_, rfl, s2, h1, h2, h3, (h4 1 99).1⟩

/-- C26: `createDatabases` leaves the database catalog as it was.  When
`create_database` is `kMustExist` it passes no statement to
`executeCreateQuery`; otherwise, when it returns, it has passed one
statement per database of the catalog, in catalog order.  Every statement
it passes is that of a stored statement as issued under the settings: with
`if_not_exists` set when `create_table` is `kCreateIfNotExists`, the stored
statement itself otherwise, so that two settings with the same
`create_table` issue the same statement whatever their `create_database`. -/
theorem createDatabases_modes (env : Environment) (s : State) :
    (createDatabases env s).2.database_infos = s.database_infos ∧
    (s.restore_settings.create_database = RestoreDatabaseCreationMode.kMustExist →
      createQueriesExecuted ((createDatabases env s).2.trace.drop s.trace.length) = []) ∧
    (∀ q ∈ createQueriesExecuted ((createDatabases env s).2.trace.drop s.trace.length),
      ∃ entry ∈ s.database_infos, ∃ stored, entry.2.create_database_query = some stored ∧
        q = some (issuedCreateDatabaseQuery s.restore_settings stored)) ∧
    (s.restore_settings.create_database ≠ RestoreDatabaseCreationMode.kMustExist →
      (createDatabases env s).1 = .ok () →
      createQueriesExecuted ((createDatabases env s).2.trace.drop s.trace.length) =
        s.database_infos.map (fun entry =>
          entry.2.create_database_query.map (issuedCreateDatabaseQuery s.restore_settings))) ∧
    (∀ (restore_settings : RestoreSettings) (stored : ASTCreateQuery),
      (restore_settings.create_table = RestoreTableCreationMode.kCreateIfNotExists →
        issuedCreateDatabaseQuery restore_settings stored = { stored with if_not_exists := true }) ∧
      (restore_settings.create_table ≠ RestoreTableCreationMode.kCreateIfNotExists →
        issuedCreateDatabaseQuery restore_settings stored = stored)) ∧
    (∀ (settings1 settings2 : RestoreSettings) (stored : ASTCreateQuery),
      settings1.create_table = settings2.create_table →
      issuedCreateDatabaseQuery settings1 stored = issuedCreateDatabaseQuery settings2 stored) := by
  obtain ⟨evs, hs, hmust, hmem, hissued⟩ := createDatabasesLoop_spec env s.database_infos s
  have htrace : (createDatabases env s).2.trace.drop s.trace.length = evs := by
    unfold createDatabases
    rw [hs]
    simp [State.recordAll]
  refine ⟨?_, ?_, ?_, ?_, ?_, ?_⟩
  · unfold createDatabases
    rw [hs]; rfl
  · rw [htrace]; exact hmust
  · rw [htrace]; exact hmem
  · rw [htrace]; exact hissued
  · intro restore_settings stored
    unfold issuedCreateDatabaseQuery
    exact ⟨fun h => by rw [if_pos h], fun h => by rw [if_neg h]⟩
  · intro settings1 settings2 stored h
    unfold issuedCreateDatabaseQuery
    rw [h]

theorem createDatabases_modes_witness :
    createQueriesExecuted
        ((createDatabases twoTables.env (collectedDatabase .kCreate .kCreateIfNotExists)).2.trace.drop
          (collectedDatabase .kCreate .kCreateIfNotExists).trace.length) =
      [some { database := "db", if_not_exists := true }] ∧
    createQueriesExecuted
        ((createDatabases twoTables.env (collectedDatabase .kCreateIfNotExists .kCreate)).2.trace.drop
          (collectedDatabase .kCreateIfNotExists .kCreate).trace.length) =
      [some { database := "db" }] ∧
    createQueriesExecuted
        ((createDatabases twoTables.env
          (collectedDatabase .kMustExist .kCreateIfNotExists)).2.trace.drop
          (collectedDatabase .kMustExist .kCreateIfNotExists).trace.length) = [] :=
  ⟨(createDatabases_modes twoTables.env
      (collectedDatabase .kCreate .kCreateIfNotExists)).2.2.2.1 (by decide) rfl,
    (createDatabases_modes twoTables.env
      (collectedDatabase .kCreateIfNotExists .kCreate)).2.2.2.1 (by decide) rfl,
    (createDatabases_modes twoTables.env
      (collectedDatabase .kMustExist .kCreateIfNotExists)).2.1 rfl⟩

end DB
